import Mathlib

/-!
# rFXGen: parameter codec, mutation and wave synthesis

A shallow embedding of the core of `src/rfxgen.c` (`WaveParams`, `LoadWaveParams`,
`SaveWaveParams`, `WaveMutate`, `GenerateWave`) together with the properties
established about it.

Platform conventions of the embedding:
* `float` and `double` are IEEE-754 binary32 and binary64, every operation is
  rounded once to nearest, ties to even, in the type C assigns to it;
* `int` is 32 bits wide, a record is stored little-endian without padding;
* a cast `(int)x` of a NaN or of a value outside the `int` range gives `INT_MIN`;
* an addition with one NaN operand returns that NaN with its quiet bit set, sign and
  payload kept (`quietNaN`);
* `rand`, `srand`, `time`, `powf`, `pow` and `sinf` belong to the C library and are
  parameters of the embedding (`Platform`).
-/

namespace Rfx

/-- Floating-point datum: NaN, a signed infinity, or the finite value
`(-1)^neg * m * 2^e`. -/
inductive Flt where
  | nan : Flt
  | inf (neg : Bool) : Flt
  | fin (neg : Bool) (m : Nat) (e : Int) : Flt
deriving DecidableEq, Repr

/-- Binary format: `prec` significand bits, quantum exponents `qmin .. qmax`. -/
structure Fmt where
  prec : Nat
  qmin : Int
  qmax : Int
deriving DecidableEq, Repr

def binary32 : Fmt := ⟨24, -149, 104⟩
def binary64 : Fmt := ⟨53, -1074, 971⟩

/-- Round-half-even of `num / den` (`den > 0`). -/
def rne (num den : Nat) : Nat :=
  let q := num / den
  let r := num % den
  if 2 * r < den then q
  else if den < 2 * r then q + 1
  else q + q % 2

/-- Numerator and denominator of `n / d * 2^(e - q)`. -/
def scaled (n d : Nat) (e q : Int) : Nat × Nat :=
  if q ≤ e then (n * 2 ^ (e - q).toNat, d) else (n, d * 2 ^ (q - e).toNat)

/-- Position of the leading bit: `2^(log2Fuel k n) <= n < 2^(log2Fuel k n + 1)` for
`0 < n` and enough fuel `k` (`n` itself is enough). -/
def log2Fuel : Nat → Nat → Nat
  | 0, _ => 0
  | k + 1, n => if n < 2 then 0 else log2Fuel k (n / 2) + 1

def ilog2 (n : Nat) : Nat := log2Fuel n n

/-- Quantum exponent for rounding `n / d * 2^e` (`n, d > 0`) in format `f`: the exponent
`q >= qmin` at which the significand `n / d * 2^(e - q)` has `prec` bits, or `qmin` for a
subnormal. -/
def quantumExp (f : Fmt) (n d : Nat) (e : Int) : Int :=
  let q1 : Int := max (e + (ilog2 n : Int) - (ilog2 d : Int) - (f.prec : Int)) f.qmin
  let s1 := scaled n d e q1
  if 2 ^ f.prec ≤ s1.1 / s1.2 then q1 + 1 else q1

/-- Round to nearest (ties to even) of `(-1)^neg * n / d * 2^e` in format `f`. -/
def roundNE (f : Fmt) (neg : Bool) (n d : Nat) (e : Int) : Flt :=
  if n = 0 then Flt.fin neg 0 f.qmin
  else
    let q := quantumExp f n d e
    let s := scaled n d e q
    let m := rne s.1 s.2
    if m = 2 ^ f.prec then
      (if f.qmax < q + 1 then Flt.inf neg else Flt.fin neg (2 ^ (f.prec - 1)) (q + 1))
    else if f.qmax < q then Flt.inf neg
    else Flt.fin neg m q

namespace Flt

def ofInt (f : Fmt) (i : Int) : Flt := roundNE f (decide (i < 0)) i.natAbs 1 0

def isNaN : Flt → Bool
  | nan => true
  | _ => false

/-- Signed integer significand at exponent `q` (`q ≤ e`). -/
def sig (neg : Bool) (m : Nat) (e q : Int) : Int :=
  (if neg then -(m : Int) else (m : Int)) * 2 ^ (e - q).toNat

def add (f : Fmt) : Flt → Flt → Flt
  | nan, _ => nan
  | _, nan => nan
  | inf a, inf b => if a = b then inf a else nan
  | inf a, fin _ _ _ => inf a
  | fin _ _ _, inf b => inf b
  | fin a m e, fin b n k =>
    let q := min e k
    let r := sig a m e q + sig b n k q
    if r = 0 then fin (a && b) 0 f.qmin
    else roundNE f (decide (r < 0)) r.natAbs 1 q

def neg : Flt → Flt
  | nan => nan
  | inf a => inf (!a)
  | fin a m e => fin (!a) m e

def sub (f : Fmt) (x y : Flt) : Flt := add f x (neg y)

def mul (f : Fmt) : Flt → Flt → Flt
  | nan, _ => nan
  | _, nan => nan
  | inf a, inf b => inf (xor a b)
  | inf a, fin b n _ => if n = 0 then nan else inf (xor a b)
  | fin a m _, inf b => if m = 0 then nan else inf (xor a b)
  | fin a m e, fin b n k => roundNE f (xor a b) (m * n) 1 (e + k)

def div (f : Fmt) : Flt → Flt → Flt
  | nan, _ => nan
  | _, nan => nan
  | inf _, inf _ => nan
  | inf a, fin b _ _ => inf (xor a b)
  | fin a _ _, inf b => fin (xor a b) 0 f.qmin
  | fin a m e, fin b n k =>
    if n = 0 then (if m = 0 then nan else inf (xor a b))
    else roundNE f (xor a b) m n (e - k)

/-- `x < y` (false when either is NaN). -/
def lt : Flt → Flt → Bool
  | nan, _ => false
  | _, nan => false
  | inf a, inf b => a && !b
  | inf a, fin _ _ _ => a
  | fin _ _ _, inf b => !b
  | fin a m e, fin b n k =>
    let q := min e k
    decide (sig a m e q < sig b n k q)

/-- `x == y` (false when either is NaN; `-0 == +0`). -/
def eq : Flt → Flt → Bool
  | nan, _ => false
  | _, nan => false
  | inf a, inf b => a == b
  | inf _, fin _ _ _ => false
  | fin _ _ _, inf _ => false
  | fin a m e, fin b n k =>
    let q := min e k
    decide (sig a m e q = sig b n k q)

def le (x y : Flt) : Bool := lt x y || eq x y

/-- C cast `(int)x`: truncation toward zero; NaN and values outside the `int`
range give `INT_MIN` (x86 "integer indefinite"). -/
def toInt : Flt → Int
  | nan => -2147483648
  | inf _ => -2147483648
  | fin a m e =>
    let t : Int := if 0 ≤ e then (m : Int) * 2 ^ e.toNat else ((m / 2 ^ (-e).toNat : Nat) : Int)
    let v := if a then -t else t
    if -2147483648 ≤ v ∧ v ≤ 2147483647 then v else -2147483648

/-- Format conversion (`(float)x`, `(double)x`). -/
def cvt (f : Fmt) : Flt → Flt
  | nan => nan
  | inf a => inf a
  | fin a m e => roundNE f a m 1 e

end Flt


/-! ## C types -/

/-- The C `float` operations: binary32. -/
def fadd (x y : Flt) : Flt := Flt.add binary32 x y
def fsub (x y : Flt) : Flt := Flt.sub binary32 x y
def fmul (x y : Flt) : Flt := Flt.mul binary32 x y
def fdiv (x y : Flt) : Flt := Flt.div binary32 x y

/-- The C `double` operations: binary64. -/
def dadd (x y : Flt) : Flt := Flt.add binary64 x y
def dsub (x y : Flt) : Flt := Flt.sub binary64 x y
def dmul (x y : Flt) : Flt := Flt.mul binary64 x y
def ddiv (x y : Flt) : Flt := Flt.div binary64 x y

/-- A decimal `float` literal `n/d` (for example `0.1f` is `lit32 1 10`). -/
def lit32 (n d : Nat) : Flt := roundNE binary32 false n d 0

/-- A decimal `double` literal `n/d` (for example `0.001` is `lit64 1 1000`). -/
def lit64 (n d : Nat) : Flt := roundNE binary64 false n d 0

/-- Conversion `int -> float`. -/
def i2f (i : Int) : Flt := Flt.ofInt binary32 i

/-- Conversion `float -> double` (exact) and `double -> float` (rounded). -/
def f2d (x : Flt) : Flt := Flt.cvt binary64 x
def d2f (x : Flt) : Flt := Flt.cvt binary32 x

/-- A 32-bit storage unit: an `int`, or the bit pattern of a `float`. -/
abbrev Word32 := Fin 4294967296

/-- A byte of a file. -/
abbrev Byte := Fin 256

/-- Value of a stored `float`: decoding of the binary32 bit pattern. -/
def f32 (w : Word32) : Flt :=
  let sign : Bool := decide (2147483648 ≤ w.val)
  let ex : Nat := w.val / 8388608 % 256
  let frac : Nat := w.val % 8388608
  if ex = 255 then (if frac = 0 then Flt.inf sign else Flt.nan)
  else if ex = 0 then Flt.fin sign frac (-149)
  else Flt.fin sign (8388608 + frac) ((ex : Int) - 150)

/-- Bit pattern of a binary32 datum in canonical form. A value of type `Flt` carries no
NaN payload and a NaN is given the bits of the default quiet NaN; where the program stores
the result of an operation on a field that can hold a NaN, the bits come from `quietNaN`
instead (see `addAssign`). -/
def bits32 : Flt → Nat
  | Flt.nan => 2143289344
  | Flt.inf s => (if s then 2147483648 else 0) + 2139095040
  | Flt.fin s m e =>
    (if s then 2147483648 else 0) +
      (if m < 8388608 then m else (e + 150).toNat * 8388608 + (m - 8388608))

/-- Storing a `float` value into a 32-bit field. -/
def toWord32 (x : Flt) : Word32 := Fin.ofNat (bits32 (Flt.cvt binary32 x))

/-- Value of a stored `int`: two's complement. -/
def i32 (w : Word32) : Int :=
  if w.val < 2147483648 then (w.val : Int) else (w.val : Int) - 4294967296

/-- Storing an `int` value into a 32-bit field. -/
def ofI32 (i : Int) : Word32 := Fin.ofNat (i % 4294967296).toNat

/-- The C library and clock the program runs against. `σ` is the state of the shared
pseudo-random generator behind `srand`/`rand`. -/
structure Platform (σ : Type) where
  /-- State installed by `srand(seed)`, the seed taken as `unsigned int`. -/
  srand : Nat → σ
  /-- Value returned by `rand()`, a number in `[0, RAND_MAX]`, and the next state. -/
  rand : σ → Nat × σ
  /-- Result of `time(NULL)` as `unsigned int`. -/
  time : Nat
  powf : Flt → Flt → Flt
  pow : Flt → Flt → Flt
  sinf : Flt → Flt

/-- Wave parameters type (96 bytes), `src/rfxgen.c:162`. The two `int` fields and
the twenty-two `float` fields are kept as stored, 32 bits each. -/
structure WaveParams where
  randSeed : Word32
  waveTypeValue : Word32
  attackTimeValue : Word32
  sustainTimeValue : Word32
  sustainPunchValue : Word32
  decayTimeValue : Word32
  startFrequencyValue : Word32
  minFrequencyValue : Word32
  slideValue : Word32
  deltaSlideValue : Word32
  vibratoDepthValue : Word32
  vibratoSpeedValue : Word32
  changeAmountValue : Word32
  changeSpeedValue : Word32
  squareDutyValue : Word32
  dutySweepValue : Word32
  repeatSpeedValue : Word32
  phaserOffsetValue : Word32
  phaserSweepValue : Word32
  lpfCutoffValue : Word32
  lpfCutoffSweepValue : Word32
  lpfResonanceValue : Word32
  hpfCutoffValue : Word32
  hpfCutoffSweepValue : Word32
deriving DecidableEq, Repr

/-- The record `WaveParams params = { 0 }`. -/
def WaveParams.zero : WaveParams :=
  ⟨0, 0, 0, 0, 0, 0, 0, 0, 0, 0, 0, 0, 0, 0, 0, 0, 0, 0, 0, 0, 0, 0, 0, 0⟩

/-- The fields of a record in declaration order. -/
def WaveParams.words (p : WaveParams) : List Word32 :=
  [p.randSeed, p.waveTypeValue, p.attackTimeValue, p.sustainTimeValue,
   p.sustainPunchValue, p.decayTimeValue, p.startFrequencyValue, p.minFrequencyValue,
   p.slideValue, p.deltaSlideValue, p.vibratoDepthValue, p.vibratoSpeedValue,
   p.changeAmountValue, p.changeSpeedValue, p.squareDutyValue, p.dutySweepValue,
   p.repeatSpeedValue, p.phaserOffsetValue, p.phaserSweepValue, p.lpfCutoffValue,
   p.lpfCutoffSweepValue, p.lpfResonanceValue, p.hpfCutoffValue, p.hpfCutoffSweepValue]

/-- The four bytes of a 32-bit unit in memory, least significant first. -/
def wordBytes (w : Word32) : List Byte :=
  [Fin.ofNat (w.val % 256), Fin.ofNat (w.val / 256 % 256),
   Fin.ofNat (w.val / 65536 % 256), Fin.ofNat (w.val / 16777216 % 256)]

/-- The 32-bit unit held by four bytes of memory (absent bytes count as 0). -/
def bytesWord (bs : List Byte) : Word32 :=
  Fin.ofNat ((bs.getD 0 0).val + 256 * (bs.getD 1 0).val + 65536 * (bs.getD 2 0).val
    + 16777216 * (bs.getD 3 0).val)

/-- The two bytes of an `unsigned short` in memory, and back. -/
def shortBytes (v : Nat) : List Byte := [Fin.ofNat (v % 256), Fin.ofNat (v / 256 % 256)]
def bytesShort (bs : List Byte) : Nat := (bs.getD 0 0).val + 256 * (bs.getD 1 0).val

/-- Memory image of a record: `sizeof(WaveParams)` bytes. -/
def WaveParams.bytes (p : WaveParams) : List Byte := p.words.flatMap wordBytes

/-- The record held by a 96-byte memory image. -/
def WaveParams.ofBytes (bs : List Byte) : WaveParams :=
  let w (i : Nat) : Word32 := bytesWord ((bs.drop (4 * i)).take 4)
  ⟨w 0, w 1, w 2, w 3, w 4, w 5, w 6, w 7, w 8, w 9, w 10, w 11, w 12, w 13, w 14, w 15,
   w 16, w 17, w 18, w 19, w 20, w 21, w 22, w 23⟩

/-- `sizeof(WaveParams)`. -/
def sizeofWaveParams : Nat := 96

/-- A call `fread(dst, ..)` asking for `n` bytes: the bytes available (at most `n`)
overwrite the start of `dst`, the rest of `dst` keeps its content; the file position
advances past the bytes read. -/
def fread (dst : List Byte) (n : Nat) (file : List Byte) : List Byte × List Byte :=
  let got := file.take n
  (got ++ dst.drop got.length, file.drop n)

/-! ## Parameter codec -/

/-- Load .rfx sound parameters file, `src/rfxgen.c:1534`. `isRfx` is the result of
`IsFileExtension(fileName, ".rfx")`; `file` is the content of the file, `none` when
`fopen` fails. -/
def LoadWaveParams (isRfx : Bool) (file : Option (List Byte)) : WaveParams :=
  let params := WaveParams.zero
  if isRfx then
    match file with
    | none => params
    | some content =>
      -- unsigned char signature[5] = { 0 }; fread(signature, 4, 1, rfxFile)
      let r1 := fread [0, 0, 0, 0, 0] 4 content
      let signature := r1.1
      if signature.getD 0 0 = 114 ∧ signature.getD 1 0 = 70 ∧
          signature.getD 2 0 = 88 ∧ signature.getD 3 0 = 32 then
        let r2 := fread (shortBytes 0) 2 r1.2
        let version := bytesShort r2.1
        let r3 := fread (shortBytes 0) 2 r2.2
        let length := bytesShort r3.1
        if version ≠ 200 then params
        else if length ≠ sizeofWaveParams then params
        else WaveParams.ofBytes (fread params.bytes sizeofWaveParams r3.2).1
      else params
  else params

/-- Save .rfx sound parameters file, `src/rfxgen.c:1642`: the content of the file
written, `none` when nothing is written (`canOpen` is the success of `fopen`). -/
def SaveWaveParams (params : WaveParams) (isRfx canOpen : Bool) : Option (List Byte) :=
  if isRfx then
    if canOpen then
      -- unsigned char signature[5] = "rFX "
      let signature : List Byte := [114, 70, 88, 32, 0]
      let version : Nat := 200
      let length : Nat := sizeofWaveParams
      some (signature.take 4 ++ shortBytes version ++ shortBytes length ++ params.bytes)
    else none
  else none

/-! ## Mutation -/

/-- The function `GetRandomValue(min, max)` of raylib:
`rand()%(abs(max - min) + 1) + min`, the bounds swapped first when `min > max`. -/
def GetRandomValue {σ : Type} (pf : Platform σ) (min max : Int) (s : σ) : Int × σ :=
  let lo := if min > max then max else min
  let hi := if min > max then min else max
  let r := pf.rand s
  (Int.tmod (r.1 : Int) ((hi - lo).natAbs + 1) + lo, r.2)

/-- Float random number generation, `src/rfxgen.c:156`:
`((float)GetRandomValue(0, 10000)/10000.0f*range)`. -/
def frnd {σ : Type} (pf : Platform σ) (range : Flt) (s : σ) : Flt × σ :=
  let r := GetRandomValue pf 0 10000 s
  (fmul (fdiv (i2f r.1) (lit32 10000 1)) range, r.2)

/-- The NaN that an addition returns for the NaN operand `w`: the operand with its quiet
bit (bit 22) set, sign and payload kept (`0x7F800001` gives `0x7FC00001`, a quiet NaN is
returned as it is). -/
def quietNaN (w : Word32) : Word32 :=
  if w.val / 4194304 % 2 = 1 then w else Fin.ofNat (w.val + 4194304)

/-- The compound assignment `field += d` on a stored `float`, for a computed delta `d`:
a NaN field propagates, quieted; any other field receives the rounded sum. -/
def addAssign (field : Word32) (d : Flt) : Word32 :=
  if (f32 field).isNaN then quietNaN field else toWord32 (fadd (f32 field) d)

/-- One line of `WaveMutate`:
`if (GetRandomValue(0, 1)) field += frnd(0.1f) - 0.05f;`. -/
def mutateField {σ : Type} (pf : Platform σ) (field : Word32) (s : σ) : Word32 × σ :=
  let c := GetRandomValue pf 0 1 s
  if c.1 ≠ 0 then
    let r := frnd pf (lit32 1 10) c.2
    (addAssign field (fsub r.1 (lit32 5 100)), r.2)
  else (field, c.2)

/-- Mutate current sound, `src/rfxgen.c:1950`. Returns the mutated record and the
state the generator is left in; the state on entry is discarded by `srand(time(NULL))`.
Every line reads and writes its own field only, so the record is assembled at the end. -/
def WaveMutate {σ : Type} (pf : Platform σ) (params : WaveParams) : WaveParams × σ :=
  let s := pf.srand pf.time
  let r1 := mutateField pf params.startFrequencyValue s
  let r2 := mutateField pf params.slideValue r1.2
  let r3 := mutateField pf params.deltaSlideValue r2.2
  let r4 := mutateField pf params.squareDutyValue r3.2
  let r5 := mutateField pf params.dutySweepValue r4.2
  let r6 := mutateField pf params.vibratoDepthValue r5.2
  let r7 := mutateField pf params.vibratoSpeedValue r6.2
  let r8 := mutateField pf params.attackTimeValue r7.2
  let r9 := mutateField pf params.sustainTimeValue r8.2
  let r10 := mutateField pf params.decayTimeValue r9.2
  let r11 := mutateField pf params.sustainPunchValue r10.2
  let r12 := mutateField pf params.lpfResonanceValue r11.2
  let r13 := mutateField pf params.lpfCutoffValue r12.2
  let r14 := mutateField pf params.lpfCutoffSweepValue r13.2
  let r15 := mutateField pf params.hpfCutoffValue r14.2
  let r16 := mutateField pf params.hpfCutoffSweepValue r15.2
  let r17 := mutateField pf params.phaserOffsetValue r16.2
  let r18 := mutateField pf params.phaserSweepValue r17.2
  let r19 := mutateField pf params.repeatSpeedValue r18.2
  let r20 := mutateField pf params.changeSpeedValue r19.2
  let r21 := mutateField pf params.changeAmountValue r20.2
  ({ randSeed := params.randSeed
     waveTypeValue := params.waveTypeValue
     attackTimeValue := r8.1
     sustainTimeValue := r9.1
     sustainPunchValue := r11.1
     decayTimeValue := r10.1
     startFrequencyValue := r1.1
     minFrequencyValue := params.minFrequencyValue
     slideValue := r2.1
     deltaSlideValue := r3.1
     vibratoDepthValue := r6.1
     vibratoSpeedValue := r7.1
     changeAmountValue := r21.1
     changeSpeedValue := r20.1
     squareDutyValue := r4.1
     dutySweepValue := r5.1
     repeatSpeedValue := r19.1
     phaserOffsetValue := r17.1
     phaserSweepValue := r18.1
     lpfCutoffValue := r13.1
     lpfCutoffSweepValue := r14.1
     lpfResonanceValue := r12.1
     hpfCutoffValue := r15.1
     hpfCutoffSweepValue := r16.1 },
   r21.2)

/-! ## Wave synthesis -/

/-- The constants `0.0f` and `0.0`. -/
def fzero : Flt := Flt.fin false 0 (-149)
def dzero : Flt := Flt.fin false 0 (-1074)

/-- `#define PI 3.14159265358979323846f` (raylib.h). -/
def PI : Flt := lit32 314159265358979323846 100000000000000000000

/-- `MAX_WAVE_LENGTH_SECONDS*WAVE_SAMPLE_RATE`. -/
def maxWaveSamples : Nat := 10 * 44100

/-- `#define MAX_SUPERSAMPLING 8`. -/
def MAX_SUPERSAMPLING : Nat := 8

/-- `abs` on `int`; `abs(INT_MIN)` is `INT_MIN`. -/
def absInt (i : Int) : Int := if i = -2147483648 then i else (i.natAbs : Int)

/-- `x & 1023` on a two's-complement `int`: the residue modulo 1024 (the same residue
whether or not `x` wrapped around). -/
def and1023 (x : Int) : Int := x % 1024

/-- `#define rnd(n) (rand()%(n + 1))`. -/
def rnd {σ : Type} (pf : Platform σ) (n : Nat) (s : σ) : Int × σ :=
  let r := pf.rand s
  (Int.tmod (r.1 : Int) ((n : Int) + 1), r.2)

/-- `#define GetRandomFloat(range) ((float)rnd(10000)/10000*range)`. -/
def GetRandomFloat {σ : Type} (pf : Platform σ) (range : Flt) (s : σ) : Flt × σ :=
  let r := rnd pf 10000 s
  (fmul (fdiv (i2f r.1) (i2f 10000)) range, r.2)

/-- The loop `for (int i = 0; i < 32; i++) noiseBuffer[i] = GetRandomFloat(2.0f) - 1.0f;`
run for `n` entries: the entries in index order and the generator state left. -/
def fillNoise {σ : Type} (pf : Platform σ) : Nat → σ → List Flt × σ
  | 0, s => ([], s)
  | n + 1, s =>
    let r := GetRandomFloat pf (lit32 2 1) s
    let rest := fillNoise pf n r.2
    (fsub r.1 (lit32 1 1) :: rest.1, rest.2)

/-- The local variables of `GenerateWave` (`src/rfxgen.c:1241-1274, 1331-1333`),
the by-value copy of the parameters, and the state of the shared generator.
`buffer` is the part of the zero-filled sample buffer written so far: `buffer[i]` is
assigned for `i = 0, 1, 2, ..` in turn. -/
structure GenState (σ : Type) where
  rng : σ
  params : WaveParams
  phase : Int
  fperiod : Flt
  fmaxperiod : Flt
  fslide : Flt
  fdslide : Flt
  period : Int
  squareDuty : Flt
  squareSlide : Flt
  envelopeStage : Int
  envelopeTime : Int
  envelopeLength : List Int
  envelopeVolume : Flt
  fphase : Flt
  fdphase : Flt
  iphase : Int
  phaserBuffer : List Flt
  ipp : Int
  noiseBuffer : List Flt
  fltp : Flt
  fltdp : Flt
  fltw : Flt
  fltwd : Flt
  fltdmp : Flt
  fltphp : Flt
  flthp : Flt
  flthpd : Flt
  vibratoPhase : Flt
  vibratoSpeed : Flt
  vibratoAmplitude : Flt
  repeatTime : Int
  repeatLimit : Int
  arpeggioTime : Int
  arpeggioLimit : Int
  arpeggioModulation : Flt
  buffer : List Flt
  generatingSample : Bool
  sampleCount : Nat

/-- The security check of `src/rfxgen.c:1276-1278` on the by-value parameters. -/
def clampParams (params : WaveParams) : WaveParams :=
  let params :=
    if Flt.lt (f32 params.startFrequencyValue) (f32 params.minFrequencyValue)
    then { params with minFrequencyValue := params.startFrequencyValue } else params
  if Flt.lt (f32 params.slideValue) (f32 params.deltaSlideValue)
  then { params with slideValue := params.deltaSlideValue } else params

/-- Running period from the start frequency (`src/rfxgen.c:1282, 1352`). -/
def initPeriod (params : WaveParams) : Flt :=
  ddiv (lit64 100 1)
    (dadd (f2d (fmul (f32 params.startFrequencyValue) (f32 params.startFrequencyValue)))
      (lit64 1 1000))

/-- Maximum period from the minimum frequency (`src/rfxgen.c:1284, 1354`). -/
def initMaxPeriod (params : WaveParams) : Flt :=
  ddiv (lit64 100 1)
    (dadd (f2d (fmul (f32 params.minFrequencyValue) (f32 params.minFrequencyValue)))
      (lit64 1 1000))

def initSlide {σ : Type} (pf : Platform σ) (params : WaveParams) : Flt :=
  dsub (lit64 1 1) (dmul (pf.pow (f2d (f32 params.slideValue)) (lit64 3 1)) (lit64 1 100))

def initDeltaSlide {σ : Type} (pf : Platform σ) (params : WaveParams) : Flt :=
  dmul (Flt.neg (pf.pow (f2d (f32 params.deltaSlideValue)) (lit64 3 1))) (lit64 1 1000000)

def initSquareDuty (params : WaveParams) : Flt :=
  fsub (lit32 1 2) (fmul (f32 params.squareDutyValue) (lit32 1 2))

def initSquareSlide (params : WaveParams) : Flt :=
  fmul (Flt.neg (f32 params.dutySweepValue)) (lit32 5 100000)

def initArpeggioModulation {σ : Type} (pf : Platform σ) (params : WaveParams) : Flt :=
  if Flt.le fzero (f32 params.changeAmountValue)
  then dsub (lit64 1 1) (dmul (pf.pow (f2d (f32 params.changeAmountValue)) (lit64 2 1)) (lit64 9 10))
  else dadd (lit64 1 1) (dmul (pf.pow (f2d (f32 params.changeAmountValue)) (lit64 2 1)) (lit64 10 1))

def initArpeggioLimit {σ : Type} (pf : Platform σ) (params : WaveParams) : Int :=
  let arpeggioLimit :=
    Flt.toInt (fadd (fmul (pf.powf (fsub (lit32 1 1) (f32 params.changeSpeedValue)) (lit32 2 1))
      (i2f 20000)) (i2f 32))
  if Flt.eq (f32 params.changeSpeedValue) (lit32 1 1) then 0 else arpeggioLimit

def initRepeatLimit {σ : Type} (pf : Platform σ) (params : WaveParams) : Int :=
  let repeatLimit :=
    Flt.toInt (fadd (fmul (pf.powf (fsub (lit32 1 1) (f32 params.repeatSpeedValue)) (lit32 2 1))
      (i2f 20000)) (i2f 32))
  if Flt.eq (f32 params.repeatSpeedValue) fzero then 0 else repeatLimit

/-- Envelope stage length `(int)(t*t*100000.0f)`. -/
def stageLength (t : Word32) : Int :=
  Flt.toInt (fmul (fmul (f32 t) (f32 t)) (lit32 100000 1))

/-- The code of `GenerateWave` before its sample loop (`src/rfxgen.c:1237-1333`),
entered with the generator in state `s`. -/
def genSetup {σ : Type} (pf : Platform σ) (params : WaveParams) (s : σ) : GenState σ :=
  -- if (params.randSeed != 0) srand(params.randSeed);
  let s := if params.randSeed ≠ 0 then pf.srand params.randSeed.val else s
  let params := clampParams params
  let fperiod := initPeriod params
  let fltw := fmul (pf.powf (f32 params.lpfCutoffValue) (lit32 3 1)) (lit32 1 10)
  let fltdmp :=
    fmul (fdiv (lit32 5 1)
        (fadd (lit32 1 1) (fmul (pf.powf (f32 params.lpfResonanceValue) (lit32 2 1)) (lit32 20 1))))
      (fadd (lit32 1 100) fltw)
  let fltdmp := if Flt.lt (lit32 8 10) fltdmp then lit32 8 10 else fltdmp
  let fphase := fmul (pf.powf (f32 params.phaserOffsetValue) (lit32 2 1)) (lit32 1020 1)
  let fphase := if Flt.lt (f32 params.phaserOffsetValue) fzero then Flt.neg fphase else fphase
  let fdphase := fmul (pf.powf (f32 params.phaserSweepValue) (lit32 2 1)) (lit32 1 1)
  let fdphase := if Flt.lt (f32 params.phaserSweepValue) fzero then Flt.neg fdphase else fdphase
  let noise := fillNoise pf 32 s
  { rng := noise.2
    params := params
    phase := 0
    fperiod := fperiod
    fmaxperiod := initMaxPeriod params
    fslide := initSlide pf params
    fdslide := initDeltaSlide pf params
    period := Flt.toInt fperiod
    squareDuty := initSquareDuty params
    squareSlide := initSquareSlide params
    envelopeStage := 0
    envelopeTime := 0
    envelopeLength := [stageLength params.attackTimeValue, stageLength params.sustainTimeValue,
      stageLength params.decayTimeValue]
    envelopeVolume := fzero
    fphase := fphase
    fdphase := fdphase
    iphase := absInt (Flt.toInt fphase)
    phaserBuffer := List.replicate 1024 fzero
    ipp := 0
    noiseBuffer := noise.1
    fltp := fzero
    fltdp := fzero
    fltw := fltw
    fltwd := fadd (lit32 1 1) (fmul (f32 params.lpfCutoffSweepValue) (lit32 1 10000))
    fltdmp := fltdmp
    fltphp := fzero
    flthp := fmul (pf.powf (f32 params.hpfCutoffValue) (lit32 2 1)) (lit32 1 10)
    flthpd := fadd (lit32 1 1) (fmul (f32 params.hpfCutoffSweepValue) (lit32 3 10000))
    vibratoPhase := fzero
    vibratoSpeed := fmul (pf.powf (f32 params.vibratoSpeedValue) (lit32 2 1)) (lit32 1 100)
    vibratoAmplitude := fmul (f32 params.vibratoDepthValue) (lit32 1 2)
    repeatTime := 0
    repeatLimit := initRepeatLimit pf params
    arpeggioTime := 0
    arpeggioLimit := initArpeggioLimit pf params
    arpeggioModulation := initArpeggioModulation pf params
    buffer := []
    generatingSample := true
    sampleCount := 0 }

/-- One pass of the supersampling loop body (`src/rfxgen.c:1440-1502`); `ssample` is the
running sum. -/
def subSample {σ : Type} (pf : Platform σ) (x : GenState σ × Flt) : GenState σ × Flt :=
  let st := x.1
  let ssample := x.2
  let sample := fzero
  let phase := st.phase + 1
  -- if (phase >= period) { phase %= period; if (waveType == 3) refill the noise buffer }
  let wrapped : Bool := decide (st.period ≤ phase)
  let phase := if wrapped then Int.tmod phase st.period else phase
  let noise :=
    if wrapped && decide (i32 st.params.waveTypeValue = 3) then fillNoise pf 32 st.rng
    else (st.noiseBuffer, st.rng)
  let noiseBuffer := noise.1
  -- base waveform
  let fp := fdiv (i2f phase) (i2f st.period)
  let sample :=
    if i32 st.params.waveTypeValue = 0 then
      (if Flt.lt fp st.squareDuty then lit32 1 2 else Flt.neg (lit32 1 2))
    else if i32 st.params.waveTypeValue = 1 then fsub (lit32 1 1) (fmul fp (i2f 2))
    else if i32 st.params.waveTypeValue = 2 then pf.sinf (fmul (fmul fp (i2f 2)) PI)
    else if i32 st.params.waveTypeValue = 3 then
      noiseBuffer.getD (Int.tdiv (phase * 32) st.period).toNat fzero
    else sample
  -- LP filter
  let pp := st.fltp
  let fltw := fmul st.fltw st.fltwd
  let fltw := if Flt.lt fltw fzero then fzero else fltw
  let fltw := if Flt.lt (lit32 1 10) fltw then lit32 1 10 else fltw
  let lp : Flt × Flt :=
    if !(Flt.eq (f32 st.params.lpfCutoffValue) (lit32 1 1)) then
      let fltdp := fadd st.fltdp (fmul (fsub sample st.fltp) fltw)
      let fltdp := fsub fltdp (fmul fltdp st.fltdmp)
      (st.fltp, fltdp)
    else (sample, fzero)
  let fltdp := lp.2
  let fltp := fadd lp.1 fltdp
  -- HP filter
  let fltphp := fadd st.fltphp (fsub fltp pp)
  let fltphp := fsub fltphp (fmul fltphp st.flthp)
  let sample := fltphp
  -- Phaser
  let phaserBuffer := st.phaserBuffer.set (and1023 st.ipp).toNat sample
  let sample := fadd sample (phaserBuffer.getD (and1023 (st.ipp - st.iphase + 1024)).toNat fzero)
  let ipp := and1023 (st.ipp + 1)
  -- Final accumulation and envelope application
  let ssample := fadd ssample (fmul sample st.envelopeVolume)
  ({ st with
      rng := noise.2, phase := phase, noiseBuffer := noiseBuffer, fltw := fltw, fltdp := fltdp,
      fltp := fltp, fltphp := fltphp, phaserBuffer := phaserBuffer, ipp := ipp },
    ssample)

/-- The supersampling loop `for (int si = 0; si < n; si++)`. -/
def superSample {σ : Type} (pf : Platform σ) : Nat → GenState σ × Flt → GenState σ × Flt
  | 0, x => x
  | n + 1, x => superSample pf n (subSample pf x)

/-- The repeat block of the sample loop (`src/rfxgen.c:1345-1367`). -/
def repeatStep {σ : Type} (pf : Platform σ) (st : GenState σ) : GenState σ :=
  let repeatTime := st.repeatTime + 1
  if st.repeatLimit ≠ 0 ∧ st.repeatLimit ≤ repeatTime then
    -- Reset sample parameters (only some of them)
    let fperiod := initPeriod st.params
    { st with
      repeatTime := 0
      fperiod := fperiod
      period := Flt.toInt fperiod
      fmaxperiod := initMaxPeriod st.params
      fslide := initSlide pf st.params
      fdslide := initDeltaSlide pf st.params
      squareDuty := initSquareDuty st.params
      squareSlide := initSquareSlide st.params
      arpeggioModulation := initArpeggioModulation pf st.params
      arpeggioTime := 0
      arpeggioLimit := initArpeggioLimit pf st.params }
  else { st with repeatTime := repeatTime }

/-- Frequency envelopes/arpeggios and the slide (`src/rfxgen.c:1369-1386`). -/
def slideStep {σ : Type} (st : GenState σ) : GenState σ :=
  let arpeggioTime := st.arpeggioTime + 1
  let fire : Bool := decide (st.arpeggioLimit ≠ 0 ∧ st.arpeggioLimit ≤ arpeggioTime)
  let arpeggioLimit := if fire then 0 else st.arpeggioLimit
  let fperiod := if fire then dmul st.fperiod st.arpeggioModulation else st.fperiod
  let fslide := dadd st.fslide st.fdslide
  let fperiod := dmul fperiod fslide
  let over : Bool := Flt.lt st.fmaxperiod fperiod
  let fperiod := if over then st.fmaxperiod else fperiod
  let generatingSample :=
    if over && Flt.lt fzero (f32 st.params.minFrequencyValue) then false
    else st.generatingSample
  { st with
    arpeggioTime := arpeggioTime, arpeggioLimit := arpeggioLimit, fslide := fslide,
    fperiod := fperiod, generatingSample := generatingSample }

/-- Vibrato, integer period and duty slide (`src/rfxgen.c:1388-1403`). -/
def periodStep {σ : Type} (pf : Platform σ) (st : GenState σ) : GenState σ :=
  let rfperiod := d2f st.fperiod
  let vib : Bool := Flt.lt fzero st.vibratoAmplitude
  let vibratoPhase := if vib then fadd st.vibratoPhase st.vibratoSpeed else st.vibratoPhase
  let rfperiod :=
    if vib then
      d2f (dmul st.fperiod
        (dadd (lit64 1 1) (f2d (fmul (pf.sinf vibratoPhase) st.vibratoAmplitude))))
    else rfperiod
  let period := Flt.toInt rfperiod
  let period := if period < 8 then 8 else period
  let squareDuty := fadd st.squareDuty st.squareSlide
  let squareDuty := if Flt.lt squareDuty fzero then fzero else squareDuty
  let squareDuty := if Flt.lt (lit32 1 2) squareDuty then lit32 1 2 else squareDuty
  { st with vibratoPhase := vibratoPhase, period := period, squareDuty := squareDuty }

/-- Volume envelope (`src/rfxgen.c:1405-1418`). -/
def envelopeStep {σ : Type} (pf : Platform σ) (st : GenState σ) : GenState σ :=
  let envelopeTime := st.envelopeTime + 1
  let adv : Bool := decide (st.envelopeLength.getD st.envelopeStage.toNat 0 < envelopeTime)
  let envelopeTime := if adv then 0 else envelopeTime
  let envelopeStage := if adv then st.envelopeStage + 1 else st.envelopeStage
  let generatingSample :=
    if adv && decide (envelopeStage = 3) then false else st.generatingSample
  let envelopeVolume := st.envelopeVolume
  let envelopeVolume :=
    if envelopeStage = 0 then fdiv (i2f envelopeTime) (i2f (st.envelopeLength.getD 0 0))
    else envelopeVolume
  let envelopeVolume :=
    if envelopeStage = 1 then
      fadd (lit32 1 1)
        (fmul (fmul (pf.powf (fsub (lit32 1 1)
            (fdiv (i2f envelopeTime) (i2f (st.envelopeLength.getD 1 0)))) (lit32 1 1))
          (lit32 2 1)) (f32 st.params.sustainPunchValue))
    else envelopeVolume
  let envelopeVolume :=
    if envelopeStage = 2 then
      fsub (lit32 1 1) (fdiv (i2f envelopeTime) (i2f (st.envelopeLength.getD 2 0)))
    else envelopeVolume
  { st with
    envelopeTime := envelopeTime, envelopeStage := envelopeStage,
    generatingSample := generatingSample, envelopeVolume := envelopeVolume }

/-- Phaser step and high-pass coefficient sweep (`src/rfxgen.c:1420-1431`). -/
def phaserStep {σ : Type} (st : GenState σ) : GenState σ :=
  let fphase := fadd st.fphase st.fdphase
  let iphase := absInt (Flt.toInt fphase)
  let iphase := if 1023 < iphase then 1023 else iphase
  let flthp :=
    if !(Flt.eq st.flthpd fzero) then
      let flthp := fmul st.flthp st.flthpd
      let flthp := if Flt.lt flthp (lit32 1 100000) then lit32 1 100000 else flthp
      if Flt.lt (lit32 1 10) flthp then lit32 1 10 else flthp
    else st.flthp
  { st with fphase := fphase, iphase := iphase, flthp := flthp }

/-- `#define SAMPLE_SCALE_COEFICIENT 0.2f`. -/
def SAMPLE_SCALE_COEFICIENT : Flt := lit32 2 10

/-- Averaging, scaling and clamping of the supersampled sum (`src/rfxgen.c:1507-1512`). -/
def finalSample (ssample : Flt) : Flt :=
  let ssample := fmul (fdiv ssample (i2f MAX_SUPERSAMPLING)) SAMPLE_SCALE_COEFICIENT
  let ssample := if Flt.lt (lit32 1 1) ssample then lit32 1 1 else ssample
  if Flt.lt ssample (Flt.neg (lit32 1 1)) then Flt.neg (lit32 1 1) else ssample

/-- The body of the sample loop after its `break` test (`src/rfxgen.c:1343-1514`): one
output sample is generated and stored in `buffer[i]`. -/
def sampleStep {σ : Type} (pf : Platform σ) (st : GenState σ) : GenState σ :=
  let st := repeatStep pf st
  let st := slideStep st
  let st := periodStep pf st
  let st := envelopeStep pf st
  let st := phaserStep st
  let r := superSample pf MAX_SUPERSAMPLING (st, fzero)
  { r.1 with buffer := r.1.buffer ++ [finalSample r.2] }

/-- The sample loop `for (int i = 0; i < MAX_WAVE_LENGTH_SECONDS*WAVE_SAMPLE_RATE; i++)`
(`src/rfxgen.c:1335-1515`) with `n` iterations left. -/
def sampleLoop {σ : Type} (pf : Platform σ) : Nat → Nat → GenState σ → GenState σ
  | 0, _, st => st
  | n + 1, i, st =>
    if !st.generatingSample then { st with sampleCount := i }
    else sampleLoop pf n (i + 1) (sampleStep pf st)

/-- Wave type of raylib: the wave data and its format. -/
structure Wave where
  frameCount : Nat
  sampleRate : Nat
  sampleSize : Nat
  channels : Nat
  data : List Flt
deriving DecidableEq, Repr

/-- Generates new wave from wave parameters, `src/rfxgen.c:1229`, entered with the shared
generator in state `s`: the wave returned and the state the generator is left in.
The wave data is the copy of the first `frameCount` samples of the buffer. -/
def GenerateWave {σ : Type} (pf : Platform σ) (params : WaveParams) (s : σ) : Wave × σ :=
  let st := sampleLoop pf maxWaveSamples 0 (genSetup pf params s)
  let frameCount := st.sampleCount / 1
  ({ frameCount := frameCount
     sampleRate := 44100
     sampleSize := 32
     channels := 1
     data := st.buffer.take (frameCount * 1) },
   st.rng)

/-! ## Defaults -/

/-- Reset wave parameters, `src/rfxgen.c:1180`: every field of the record is assigned.
Returns the record after the call and the state `srand(params->randSeed)` leaves the
generator in. -/
def ResetWaveParams {σ : Type} (pf : Platform σ) (params : WaveParams) (s : σ) : WaveParams × σ :=
  -- NOTE: Random seed is set to a random value
  let r := GetRandomValue pf 1 65534 s
  let params := { params with randSeed := ofI32 r.1 }
  let s := pf.srand params.randSeed.val
  ({ params with
      waveTypeValue := ofI32 0
      attackTimeValue := toWord32 fzero
      sustainTimeValue := toWord32 (lit32 3 10)
      sustainPunchValue := toWord32 fzero
      decayTimeValue := toWord32 (lit32 4 10)
      startFrequencyValue := toWord32 (lit32 3 10)
      minFrequencyValue := toWord32 fzero
      slideValue := toWord32 fzero
      deltaSlideValue := toWord32 fzero
      vibratoDepthValue := toWord32 fzero
      vibratoSpeedValue := toWord32 fzero
      changeAmountValue := toWord32 fzero
      changeSpeedValue := toWord32 fzero
      squareDutyValue := toWord32 fzero
      dutySweepValue := toWord32 fzero
      repeatSpeedValue := toWord32 fzero
      phaserOffsetValue := toWord32 fzero
      phaserSweepValue := toWord32 fzero
      lpfCutoffValue := toWord32 (lit32 1 1)
      lpfCutoffSweepValue := toWord32 fzero
      lpfResonanceValue := toWord32 fzero
      hpfCutoffValue := toWord32 fzero
      hpfCutoffSweepValue := toWord32 fzero },
    s)

/-! ## Sound generation functions -/

/-- Generate sound: Pickup/Coin, `src/rfxgen.c:1681`, entered with the generator in state
`s`: the record returned and the state the generator is left in. -/
def GenPickupCoin {σ : Type} (pf : Platform σ) (s : σ) : WaveParams × σ :=
  -- WaveParams params = { 0 }; ResetWaveParams(&params);
  let r := ResetWaveParams pf WaveParams.zero s
  let params : WaveParams := r.1
  let f1 := frnd pf (lit32 5 10) r.2
  let params : WaveParams := { params with startFrequencyValue := toWord32 (fadd (lit32 4 10) f1.1) }
  let params : WaveParams := { params with attackTimeValue := toWord32 fzero }
  let f2 := frnd pf (lit32 1 10) f1.2
  let params : WaveParams := { params with sustainTimeValue := toWord32 f2.1 }
  let f3 := frnd pf (lit32 4 10) f2.2
  let params : WaveParams := { params with decayTimeValue := toWord32 (fadd (lit32 1 10) f3.1) }
  let f4 := frnd pf (lit32 3 10) f3.2
  let params : WaveParams := { params with sustainPunchValue := toWord32 (fadd (lit32 3 10) f4.1) }
  let c := GetRandomValue pf 0 1 f4.2
  if c.1 ≠ 0 then
    let f5 := frnd pf (lit32 2 10) c.2
    let params : WaveParams := { params with changeSpeedValue := toWord32 (fadd (lit32 5 10) f5.1) }
    let f6 := frnd pf (lit32 4 10) f5.2
    let params : WaveParams := { params with changeAmountValue := toWord32 (fadd (lit32 2 10) f6.1) }
    (params, f6.2)
  else (params, c.2)

/-- Generate sound: Laser shoot, `src/rfxgen.c:1703`. -/
def GenLaserShoot {σ : Type} (pf : Platform σ) (s : σ) : WaveParams × σ :=
  let r := ResetWaveParams pf WaveParams.zero s
  let params : WaveParams := r.1
  let w := GetRandomValue pf 0 2 r.2
  let params : WaveParams := { params with waveTypeValue := ofI32 w.1 }
  -- if ((params.waveTypeValue == 2) && GetRandomValue(0, 1)) params.waveTypeValue = GetRandomValue(0, 1);
  let x : WaveParams × σ :=
    if i32 params.waveTypeValue = 2 then
      let c := GetRandomValue pf 0 1 w.2
      if c.1 ≠ 0 then
        let w2 := GetRandomValue pf 0 1 c.2
        ({ params with waveTypeValue := ofI32 w2.1 }, w2.2)
      else (params, c.2)
    else (params, w.2)
  let params : WaveParams := x.1
  let f1 := frnd pf (lit32 5 10) x.2
  let params : WaveParams := { params with startFrequencyValue := toWord32 (fadd (lit32 5 10) f1.1) }
  let f2 := frnd pf (lit32 6 10) f1.2
  let params : WaveParams :=
    { params with
      minFrequencyValue :=
        toWord32 (fsub (fsub (f32 params.startFrequencyValue) (lit32 2 10)) f2.1) }
  let params : WaveParams :=
    if Flt.lt (f32 params.minFrequencyValue) (lit32 2 10)
    then { params with minFrequencyValue := toWord32 (lit32 2 10) } else params
  let f3 := frnd pf (lit32 2 10) f2.2
  let params : WaveParams := { params with slideValue := toWord32 (fsub (Flt.neg (lit32 15 100)) f3.1) }
  let c1 := GetRandomValue pf 0 2 f3.2
  let x : WaveParams × σ :=
    if c1.1 = 0 then
      let f4 := frnd pf (lit32 6 10) c1.2
      let params : WaveParams := { params with startFrequencyValue := toWord32 (fadd (lit32 3 10) f4.1) }
      let f5 := frnd pf (lit32 1 10) f4.2
      let params : WaveParams := { params with minFrequencyValue := toWord32 f5.1 }
      let f6 := frnd pf (lit32 3 10) f5.2
      let params : WaveParams := { params with slideValue := toWord32 (fsub (Flt.neg (lit32 35 100)) f6.1) }
      (params, f6.2)
    else (params, c1.2)
  let params : WaveParams := x.1
  let c2 := GetRandomValue pf 0 1 x.2
  let x : WaveParams × σ :=
    if c2.1 ≠ 0 then
      let f7 := frnd pf (lit32 5 10) c2.2
      let params : WaveParams := { params with squareDutyValue := toWord32 f7.1 }
      let f8 := frnd pf (lit32 2 10) f7.2
      let params : WaveParams := { params with dutySweepValue := toWord32 f8.1 }
      (params, f8.2)
    else
      let f7 := frnd pf (lit32 5 10) c2.2
      let params : WaveParams := { params with squareDutyValue := toWord32 (fadd (lit32 4 10) f7.1) }
      let f8 := frnd pf (lit32 7 10) f7.2
      let params : WaveParams := { params with dutySweepValue := toWord32 (Flt.neg f8.1) }
      (params, f8.2)
  let params : WaveParams := x.1
  let params : WaveParams := { params with attackTimeValue := toWord32 fzero }
  let f9 := frnd pf (lit32 2 10) x.2
  let params : WaveParams := { params with sustainTimeValue := toWord32 (fadd (lit32 1 10) f9.1) }
  let f10 := frnd pf (lit32 4 10) f9.2
  let params : WaveParams := { params with decayTimeValue := toWord32 f10.1 }
  let c3 := GetRandomValue pf 0 1 f10.2
  let x : WaveParams × σ :=
    if c3.1 ≠ 0 then
      let f11 := frnd pf (lit32 3 10) c3.2
      ({ params with sustainPunchValue := toWord32 f11.1 }, f11.2)
    else (params, c3.2)
  let params : WaveParams := x.1
  let c4 := GetRandomValue pf 0 2 x.2
  let x : WaveParams × σ :=
    if c4.1 = 0 then
      let f12 := frnd pf (lit32 2 10) c4.2
      let params : WaveParams := { params with phaserOffsetValue := toWord32 f12.1 }
      let f13 := frnd pf (lit32 2 10) f12.2
      let params : WaveParams := { params with phaserSweepValue := toWord32 (Flt.neg f13.1) }
      (params, f13.2)
    else (params, c4.2)
  let params : WaveParams := x.1
  let c5 := GetRandomValue pf 0 1 x.2
  if c5.1 ≠ 0 then
    let f14 := frnd pf (lit32 3 10) c5.2
    ({ params with hpfCutoffValue := toWord32 f14.1 }, f14.2)
  else (params, c5.2)

/-- Generate sound: Explosion, `src/rfxgen.c:1756`. -/
def GenExplosion {σ : Type} (pf : Platform σ) (s : σ) : WaveParams × σ :=
  let r := ResetWaveParams pf WaveParams.zero s
  let params : WaveParams := r.1
  let params : WaveParams := { params with waveTypeValue := ofI32 3 }
  let c1 := GetRandomValue pf 0 1 r.2
  let x : WaveParams × σ :=
    if c1.1 ≠ 0 then
      let f1 := frnd pf (lit32 4 10) c1.2
      let params : WaveParams := { params with startFrequencyValue := toWord32 (fadd (lit32 1 10) f1.1) }
      let f2 := frnd pf (lit32 4 10) f1.2
      let params : WaveParams := { params with slideValue := toWord32 (fadd (Flt.neg (lit32 1 10)) f2.1) }
      (params, f2.2)
    else
      let f1 := frnd pf (lit32 7 10) c1.2
      let params : WaveParams := { params with startFrequencyValue := toWord32 (fadd (lit32 2 10) f1.1) }
      let f2 := frnd pf (lit32 2 10) f1.2
      let params : WaveParams := { params with slideValue := toWord32 (fsub (Flt.neg (lit32 2 10)) f2.1) }
      (params, f2.2)
  let params : WaveParams := x.1
  -- params.startFrequencyValue *= params.startFrequencyValue;
  let params : WaveParams :=
    { params with
      startFrequencyValue :=
        toWord32 (fmul (f32 params.startFrequencyValue) (f32 params.startFrequencyValue)) }
  let c2 := GetRandomValue pf 0 4 x.2
  let params : WaveParams := if c2.1 = 0 then { params with slideValue := toWord32 fzero } else params
  let c3 := GetRandomValue pf 0 2 c2.2
  let x : WaveParams × σ :=
    if c3.1 = 0 then
      let f3 := frnd pf (lit32 5 10) c3.2
      ({ params with repeatSpeedValue := toWord32 (fadd (lit32 3 10) f3.1) }, f3.2)
    else (params, c3.2)
  let params : WaveParams := x.1
  let params : WaveParams := { params with attackTimeValue := toWord32 fzero }
  let f4 := frnd pf (lit32 3 10) x.2
  let params : WaveParams := { params with sustainTimeValue := toWord32 (fadd (lit32 1 10) f4.1) }
  let f5 := frnd pf (lit32 5 10) f4.2
  let params : WaveParams := { params with decayTimeValue := toWord32 f5.1 }
  let c4 := GetRandomValue pf 0 1 f5.2
  let x : WaveParams × σ :=
    if c4.1 = 0 then
      let f6 := frnd pf (lit32 9 10) c4.2
      let params : WaveParams :=
        { params with phaserOffsetValue := toWord32 (fadd (Flt.neg (lit32 3 10)) f6.1) }
      let f7 := frnd pf (lit32 3 10) f6.2
      let params : WaveParams := { params with phaserSweepValue := toWord32 (Flt.neg f7.1) }
      (params, f7.2)
    else (params, c4.2)
  let params : WaveParams := x.1
  let f8 := frnd pf (lit32 6 10) x.2
  let params : WaveParams := { params with sustainPunchValue := toWord32 (fadd (lit32 2 10) f8.1) }
  let c5 := GetRandomValue pf 0 1 f8.2
  let x : WaveParams × σ :=
    if c5.1 ≠ 0 then
      let f9 := frnd pf (lit32 7 10) c5.2
      let params : WaveParams := { params with vibratoDepthValue := toWord32 f9.1 }
      let f10 := frnd pf (lit32 6 10) f9.2
      let params : WaveParams := { params with vibratoSpeedValue := toWord32 f10.1 }
      (params, f10.2)
    else (params, c5.2)
  let params : WaveParams := x.1
  let c6 := GetRandomValue pf 0 2 x.2
  if c6.1 = 0 then
    let f11 := frnd pf (lit32 3 10) c6.2
    let params : WaveParams := { params with changeSpeedValue := toWord32 (fadd (lit32 6 10) f11.1) }
    let f12 := frnd pf (lit32 16 10) f11.2
    let params : WaveParams := { params with changeAmountValue := toWord32 (fsub (lit32 8 10) f12.1) }
    (params, f12.2)
  else (params, c6.2)

/-- Generate sound: Powerup, `src/rfxgen.c:1807`. -/
def GenPowerup {σ : Type} (pf : Platform σ) (s : σ) : WaveParams × σ :=
  let r := ResetWaveParams pf WaveParams.zero s
  let params : WaveParams := r.1
  let c1 := GetRandomValue pf 0 1 r.2
  let x : WaveParams × σ :=
    if c1.1 ≠ 0 then ({ params with waveTypeValue := ofI32 1 }, c1.2)
    else
      let f1 := frnd pf (lit32 6 10) c1.2
      ({ params with squareDutyValue := toWord32 f1.1 }, f1.2)
  let params : WaveParams := x.1
  let c2 := GetRandomValue pf 0 1 x.2
  let x : WaveParams × σ :=
    if c2.1 ≠ 0 then
      let f2 := frnd pf (lit32 3 10) c2.2
      let params : WaveParams := { params with startFrequencyValue := toWord32 (fadd (lit32 2 10) f2.1) }
      let f3 := frnd pf (lit32 4 10) f2.2
      let params : WaveParams := { params with slideValue := toWord32 (fadd (lit32 1 10) f3.1) }
      let f4 := frnd pf (lit32 4 10) f3.2
      let params : WaveParams := { params with repeatSpeedValue := toWord32 (fadd (lit32 4 10) f4.1) }
      (params, f4.2)
    else
      let f2 := frnd pf (lit32 3 10) c2.2
      let params : WaveParams := { params with startFrequencyValue := toWord32 (fadd (lit32 2 10) f2.1) }
      let f3 := frnd pf (lit32 2 10) f2.2
      let params : WaveParams := { params with slideValue := toWord32 (fadd (lit32 5 100) f3.1) }
      let c3 := GetRandomValue pf 0 1 f3.2
      if c3.1 ≠ 0 then
        let f4 := frnd pf (lit32 7 10) c3.2
        let params : WaveParams := { params with vibratoDepthValue := toWord32 f4.1 }
        let f5 := frnd pf (lit32 6 10) f4.2
        let params : WaveParams := { params with vibratoSpeedValue := toWord32 f5.1 }
        (params, f5.2)
      else (params, c3.2)
  let params : WaveParams := x.1
  let params : WaveParams := { params with attackTimeValue := toWord32 fzero }
  let f6 := frnd pf (lit32 4 10) x.2
  let params : WaveParams := { params with sustainTimeValue := toWord32 f6.1 }
  let f7 := frnd pf (lit32 4 10) f6.2
  let params : WaveParams := { params with decayTimeValue := toWord32 (fadd (lit32 1 10) f7.1) }
  (params, f7.2)

/-- Generate sound: Hit/Hurt, `src/rfxgen.c:1840`. -/
def GenHitHurt {σ : Type} (pf : Platform σ) (s : σ) : WaveParams × σ :=
  let r := ResetWaveParams pf WaveParams.zero s
  let params : WaveParams := r.1
  let w := GetRandomValue pf 0 2 r.2
  let params : WaveParams := { params with waveTypeValue := ofI32 w.1 }
  let params : WaveParams :=
    if i32 params.waveTypeValue = 2 then { params with waveTypeValue := ofI32 3 } else params
  let x : WaveParams × σ :=
    if i32 params.waveTypeValue = 0 then
      let f1 := frnd pf (lit32 6 10) w.2
      ({ params with squareDutyValue := toWord32 f1.1 }, f1.2)
    else (params, w.2)
  let params : WaveParams := x.1
  let f2 := frnd pf (lit32 6 10) x.2
  let params : WaveParams := { params with startFrequencyValue := toWord32 (fadd (lit32 2 10) f2.1) }
  let f3 := frnd pf (lit32 4 10) f2.2
  let params : WaveParams := { params with slideValue := toWord32 (fsub (Flt.neg (lit32 3 10)) f3.1) }
  let params : WaveParams := { params with attackTimeValue := toWord32 fzero }
  let f4 := frnd pf (lit32 1 10) f3.2
  let params : WaveParams := { params with sustainTimeValue := toWord32 f4.1 }
  let f5 := frnd pf (lit32 2 10) f4.2
  let params : WaveParams := { params with decayTimeValue := toWord32 (fadd (lit32 1 10) f5.1) }
  let c := GetRandomValue pf 0 1 f5.2
  if c.1 ≠ 0 then
    let f6 := frnd pf (lit32 3 10) c.2
    ({ params with hpfCutoffValue := toWord32 f6.1 }, f6.2)
  else (params, c.2)

/-- Generate sound: Jump, `src/rfxgen.c:1861`. -/
def GenJump {σ : Type} (pf : Platform σ) (s : σ) : WaveParams × σ :=
  let r := ResetWaveParams pf WaveParams.zero s
  let params : WaveParams := r.1
  let params : WaveParams := { params with waveTypeValue := ofI32 0 }
  let f1 := frnd pf (lit32 6 10) r.2
  let params : WaveParams := { params with squareDutyValue := toWord32 f1.1 }
  let f2 := frnd pf (lit32 3 10) f1.2
  let params : WaveParams := { params with startFrequencyValue := toWord32 (fadd (lit32 3 10) f2.1) }
  let f3 := frnd pf (lit32 2 10) f2.2
  let params : WaveParams := { params with slideValue := toWord32 (fadd (lit32 1 10) f3.1) }
  let params : WaveParams := { params with attackTimeValue := toWord32 fzero }
  let f4 := frnd pf (lit32 3 10) f3.2
  let params : WaveParams := { params with sustainTimeValue := toWord32 (fadd (lit32 1 10) f4.1) }
  let f5 := frnd pf (lit32 2 10) f4.2
  let params : WaveParams := { params with decayTimeValue := toWord32 (fadd (lit32 1 10) f5.1) }
  let c1 := GetRandomValue pf 0 1 f5.2
  let x : WaveParams × σ :=
    if c1.1 ≠ 0 then
      let f6 := frnd pf (lit32 3 10) c1.2
      ({ params with hpfCutoffValue := toWord32 f6.1 }, f6.2)
    else (params, c1.2)
  let params : WaveParams := x.1
  let c2 := GetRandomValue pf 0 1 x.2
  if c2.1 ≠ 0 then
    let f7 := frnd pf (lit32 6 10) c2.2
    ({ params with lpfCutoffValue := toWord32 (fsub (lit32 1 1) f7.1) }, f7.2)
  else (params, c2.2)

/-- Generate sound: Blip/Select, `src/rfxgen.c:1882`. -/
def GenBlipSelect {σ : Type} (pf : Platform σ) (s : σ) : WaveParams × σ :=
  let r := ResetWaveParams pf WaveParams.zero s
  let params : WaveParams := r.1
  let w := GetRandomValue pf 0 1 r.2
  let params : WaveParams := { params with waveTypeValue := ofI32 w.1 }
  let x : WaveParams × σ :=
    if i32 params.waveTypeValue = 0 then
      let f1 := frnd pf (lit32 6 10) w.2
      ({ params with squareDutyValue := toWord32 f1.1 }, f1.2)
    else (params, w.2)
  let params : WaveParams := x.1
  let f2 := frnd pf (lit32 4 10) x.2
  let params : WaveParams := { params with startFrequencyValue := toWord32 (fadd (lit32 2 10) f2.1) }
  let params : WaveParams := { params with attackTimeValue := toWord32 fzero }
  let f3 := frnd pf (lit32 1 10) f2.2
  let params : WaveParams := { params with sustainTimeValue := toWord32 (fadd (lit32 1 10) f3.1) }
  let f4 := frnd pf (lit32 2 10) f3.2
  let params : WaveParams := { params with decayTimeValue := toWord32 f4.1 }
  let params : WaveParams := { params with hpfCutoffValue := toWord32 (lit32 1 10) }
  (params, f4.2)

/-- The draws of `GenRandomize` up to and including the envelope
(`src/rfxgen.c:1898-1919`). -/
def randomizeDraw {σ : Type} (pf : Platform σ) (s : σ) : WaveParams × σ :=
  let r := ResetWaveParams pf WaveParams.zero s
  let params : WaveParams := r.1
  let g := GetRandomValue pf 0 65534 r.2
  let params : WaveParams := { params with randSeed := ofI32 g.1 }
  let f1 := frnd pf (lit32 2 1) g.2
  let params : WaveParams :=
    { params with startFrequencyValue := toWord32 (pf.powf (fsub f1.1 (lit32 1 1)) (lit32 2 1)) }
  let c1 := GetRandomValue pf 0 1 f1.2
  let x : WaveParams × σ :=
    if c1.1 ≠ 0 then
      let f2 := frnd pf (lit32 2 1) c1.2
      ({ params with
          startFrequencyValue :=
            toWord32 (fadd (pf.powf (fsub f2.1 (lit32 1 1)) (lit32 3 1)) (lit32 5 10)) }, f2.2)
    else (params, c1.2)
  let params : WaveParams := x.1
  let params : WaveParams := { params with minFrequencyValue := toWord32 fzero }
  let f3 := frnd pf (lit32 2 1) x.2
  let params : WaveParams :=
    { params with slideValue := toWord32 (pf.powf (fsub f3.1 (lit32 1 1)) (lit32 5 1)) }
  let params : WaveParams :=
    if Flt.lt (lit32 7 10) (f32 params.startFrequencyValue) ∧
        Flt.lt (lit32 2 10) (f32 params.slideValue)
    then { params with slideValue := toWord32 (Flt.neg (f32 params.slideValue)) } else params
  let params : WaveParams :=
    if Flt.lt (f32 params.startFrequencyValue) (lit32 2 10) ∧
        Flt.lt (f32 params.slideValue) (Flt.neg (lit32 5 100))
    then { params with slideValue := toWord32 (Flt.neg (f32 params.slideValue)) } else params
  let f4 := frnd pf (lit32 2 1) f3.2
  let params : WaveParams :=
    { params with deltaSlideValue := toWord32 (pf.powf (fsub f4.1 (lit32 1 1)) (lit32 3 1)) }
  let f5 := frnd pf (lit32 2 1) f4.2
  let params : WaveParams := { params with squareDutyValue := toWord32 (fsub f5.1 (lit32 1 1)) }
  let f6 := frnd pf (lit32 2 1) f5.2
  let params : WaveParams :=
    { params with dutySweepValue := toWord32 (pf.powf (fsub f6.1 (lit32 1 1)) (lit32 3 1)) }
  let f7 := frnd pf (lit32 2 1) f6.2
  let params : WaveParams :=
    { params with vibratoDepthValue := toWord32 (pf.powf (fsub f7.1 (lit32 1 1)) (lit32 3 1)) }
  let f8 := frnd pf (lit32 2 1) f7.2
  let params : WaveParams := { params with vibratoSpeedValue := toWord32 (fsub f8.1 (lit32 1 1)) }
  let f9 := frnd pf (lit32 2 1) f8.2
  let params : WaveParams :=
    { params with attackTimeValue := toWord32 (pf.powf (fsub f9.1 (lit32 1 1)) (lit32 3 1)) }
  let f10 := frnd pf (lit32 2 1) f9.2
  let params : WaveParams :=
    { params with sustainTimeValue := toWord32 (pf.powf (fsub f10.1 (lit32 1 1)) (lit32 2 1)) }
  let f11 := frnd pf (lit32 2 1) f10.2
  let params : WaveParams := { params with decayTimeValue := toWord32 (fsub f11.1 (lit32 1 1)) }
  let f12 := frnd pf (lit32 8 10) f11.2
  let params : WaveParams := { params with sustainPunchValue := toWord32 (pf.powf f12.1 (lit32 2 1)) }
  (params, f12.2)

/-- The sum `attackTimeValue + sustainTimeValue + decayTimeValue` as `GenRandomize` forms it,
in `float` arithmetic from left to right (`src/rfxgen.c:1921`). -/
def envelopeSum (params : WaveParams) : Flt :=
  fadd (fadd (f32 params.attackTimeValue) (f32 params.sustainTimeValue))
    (f32 params.decayTimeValue)

/-- The fix-up of `GenRandomize` (`src/rfxgen.c:1921-1925`):
`if (attack + sustain + decay < 0.2f) { sustain += 0.2f + frnd(0.3f); decay += 0.2f + frnd(0.3f); }`. -/
def randomizeFixup {σ : Type} (pf : Platform σ) (x : WaveParams × σ) : WaveParams × σ :=
  let params : WaveParams := x.1
  if Flt.lt (envelopeSum params) (lit32 2 10) then
    let f1 := frnd pf (lit32 3 10) x.2
    let params : WaveParams :=
      { params with
        sustainTimeValue := toWord32 (fadd (f32 params.sustainTimeValue) (fadd (lit32 2 10) f1.1)) }
    let f2 := frnd pf (lit32 3 10) f1.2
    let params : WaveParams :=
      { params with
        decayTimeValue := toWord32 (fadd (f32 params.decayTimeValue) (fadd (lit32 2 10) f2.1)) }
    (params, f2.2)
  else x

/-- Generate random sound, `src/rfxgen.c:1898`. -/
def GenRandomize {σ : Type} (pf : Platform σ) (s : σ) : WaveParams × σ :=
  let x := randomizeFixup pf (randomizeDraw pf s)
  let params : WaveParams := x.1
  let f1 := frnd pf (lit32 2 1) x.2
  let params : WaveParams := { params with lpfResonanceValue := toWord32 (fsub f1.1 (lit32 1 1)) }
  let f2 := frnd pf (lit32 1 1) f1.2
  let params : WaveParams :=
    { params with lpfCutoffValue := toWord32 (fsub (lit32 1 1) (pf.powf f2.1 (lit32 3 1))) }
  let f3 := frnd pf (lit32 2 1) f2.2
  let params : WaveParams :=
    { params with lpfCutoffSweepValue := toWord32 (pf.powf (fsub f3.1 (lit32 1 1)) (lit32 3 1)) }
  let params : WaveParams :=
    if Flt.lt (f32 params.lpfCutoffValue) (lit32 1 10) ∧
        Flt.lt (f32 params.lpfCutoffSweepValue) (Flt.neg (lit32 5 100))
    then { params with lpfCutoffSweepValue := toWord32 (Flt.neg (f32 params.lpfCutoffSweepValue)) }
    else params
  let f4 := frnd pf (lit32 1 1) f3.2
  let params : WaveParams := { params with hpfCutoffValue := toWord32 (pf.powf f4.1 (lit32 5 1)) }
  let f5 := frnd pf (lit32 2 1) f4.2
  let params : WaveParams :=
    { params with hpfCutoffSweepValue := toWord32 (pf.powf (fsub f5.1 (lit32 1 1)) (lit32 5 1)) }
  let f6 := frnd pf (lit32 2 1) f5.2
  let params : WaveParams :=
    { params with phaserOffsetValue := toWord32 (pf.powf (fsub f6.1 (lit32 1 1)) (lit32 3 1)) }
  let f7 := frnd pf (lit32 2 1) f6.2
  let params : WaveParams :=
    { params with phaserSweepValue := toWord32 (pf.powf (fsub f7.1 (lit32 1 1)) (lit32 3 1)) }
  let f8 := frnd pf (lit32 2 1) f7.2
  let params : WaveParams := { params with repeatSpeedValue := toWord32 (fsub f8.1 (lit32 1 1)) }
  let f9 := frnd pf (lit32 2 1) f8.2
  let params : WaveParams := { params with changeSpeedValue := toWord32 (fsub f9.1 (lit32 1 1)) }
  let f10 := frnd pf (lit32 2 1) f9.2
  let params : WaveParams := { params with changeAmountValue := toWord32 (fsub f10.1 (lit32 1 1)) }
  (params, f10.2)

/-! ## A reference platform -/

/-- Correctly rounded `x^n` for a natural exponent `n`. -/
def powNat (f : Fmt) (x : Flt) (n : Nat) : Flt :=
  match x with
  | Flt.nan => if n = 0 then roundNE f false 1 1 0 else Flt.nan
  | Flt.inf a => if n = 0 then roundNE f false 1 1 0 else Flt.inf (a && decide (n % 2 = 1))
  | Flt.fin a m e => roundNE f (a && decide (n % 2 = 1)) (m ^ n) 1 (e * (n : Int))

/-- Power function of the reference platform: correctly rounded for the exponents
`0, 1, 2, ..` the program uses, NaN for any other exponent. -/
def refPow (f : Fmt) (x y : Flt) : Flt :=
  match y with
  | Flt.fin false m e =>
    if 0 ≤ e then powNat f x (m * 2 ^ e.toNat)
    else if m % 2 ^ (-e).toNat = 0 then powNat f x (m / 2 ^ (-e).toNat)
    else Flt.nan
  | _ => Flt.nan

/-- Sine of the reference platform: the polynomial `x - x^3/6 + x^5/120 - x^7/5040`
evaluated in `float` arithmetic. -/
def refSin (x : Flt) : Flt :=
  let x2 := fmul x x
  let x3 := fmul x2 x
  let x5 := fmul x3 x2
  let x7 := fmul x5 x2
  fsub (fadd (fsub x (fdiv x3 (i2f 6))) (fdiv x5 (i2f 120))) (fdiv x7 (i2f 5040))

/-- A reference platform: the linear congruential generator of the C standard's
sample `rand` (state times 1103515245 plus 12345, `RAND_MAX` 32767), time 0. -/
def refPlatform : Platform Nat where
  srand seed := seed % 4294967296
  rand s :=
    let next := (s * 1103515245 + 12345) % 4294967296
    (next / 65536 % 32768, next)
  time := 0
  powf := refPow binary32
  pow := refPow binary64
  sinf := refSin

/-- A platform whose `rand()` always returns `r`. -/
def constPlatform (r : Nat) : Platform Unit where
  srand _ := ()
  rand _ := (r, ())
  time := 0
  powf := refPow binary32
  pow := refPow binary64
  sinf := refSin

/-! ## Derived notions used in the statements -/

/-- Envelope stage after the volume envelope block of the next sample. -/
def nextStage {σ : Type} (st : GenState σ) : Int :=
  if st.envelopeLength.getD st.envelopeStage.toNat 0 < st.envelopeTime + 1
  then st.envelopeStage + 1 else st.envelopeStage

/-- Envelope time after the volume envelope block of the next sample. -/
def nextTime {σ : Type} (st : GenState σ) : Int :=
  if st.envelopeLength.getD st.envelopeStage.toNat 0 < st.envelopeTime + 1
  then 0 else st.envelopeTime + 1

/-- Envelope volume after the volume envelope block of the next sample. -/
def nextVolume {σ : Type} (pf : Platform σ) (st : GenState σ) : Flt :=
  let envelopeVolume := st.envelopeVolume
  let envelopeVolume :=
    if nextStage st = 0 then fdiv (i2f (nextTime st)) (i2f (st.envelopeLength.getD 0 0))
    else envelopeVolume
  let envelopeVolume :=
    if nextStage st = 1 then
      fadd (lit32 1 1)
        (fmul (fmul (pf.powf (fsub (lit32 1 1)
            (fdiv (i2f (nextTime st)) (i2f (st.envelopeLength.getD 1 0)))) (lit32 1 1))
          (lit32 2 1)) (f32 st.params.sustainPunchValue))
    else envelopeVolume
  if nextStage st = 2 then
    fsub (lit32 1 1) (fdiv (i2f (nextTime st)) (i2f (st.envelopeLength.getD 2 0)))
  else envelopeVolume

/-- A sample lies in `[-1.0, 1.0]`. -/
def inUnitRange (x : Flt) : Bool := Flt.le (Flt.neg (lit32 1 1)) x && Flt.le x (lit32 1 1)

/-- The exact value of a finite datum. -/
def Flt.toRat : Flt → ℚ
  | Flt.nan => 0
  | Flt.inf _ => 0
  | Flt.fin a m e => (if a then -1 else 1) * (m : ℚ) * (2 : ℚ) ^ e

/-- A datum is finite. -/
def Flt.isFinite : Flt → Bool
  | Flt.fin _ _ _ => true
  | _ => false

/-- A finite datum of format `f`: significand below `2^prec`, exponent within the range. -/
def Flt.fits (f : Fmt) : Flt → Bool
  | Flt.fin _ m e => decide (m < 2 ^ f.prec) && decide (f.qmin ≤ e) && decide (e ≤ f.qmax)
  | _ => false

/-- A datum of format `f` in canonical form: NaN, an infinity, or a finite datum whose
significand has `prec` bits unless the exponent is the smallest one. -/
def Flt.canonical (f : Fmt) : Flt → Bool
  | Flt.fin _ m e =>
    decide (m < 2 ^ f.prec) && decide (f.qmin ≤ e) && decide (e ≤ f.qmax) &&
      (decide (2 ^ (f.prec - 1) ≤ m) || decide (e = f.qmin))
  | _ => true

/-- The blocks of the sample loop body that precede the supersampling loop
(`src/rfxgen.c:1345-1431`). -/
def preSample {σ : Type} (pf : Platform σ) (st : GenState σ) : GenState σ :=
  phaserStep (envelopeStep pf (periodStep pf (slideStep (repeatStep pf st))))

/-- The test `(repeatLimit != 0) && (repeatTime >= repeatLimit)` of the next sample, made
after `repeatTime++` (`src/rfxgen.c:1345-1347`). -/
def repeatFires {σ : Type} (st : GenState σ) : Bool :=
  decide (st.repeatLimit ≠ 0 ∧ st.repeatLimit ≤ st.repeatTime + 1)

/-- The test `(arpeggioLimit != 0) && (arpeggioTime >= arpeggioLimit)`, made after
`arpeggioTime++` (`src/rfxgen.c:1370-1372`) on the state the repeat block leaves. -/
def arpeggioFires {σ : Type} (st : GenState σ) : Bool :=
  decide (st.arpeggioLimit ≠ 0 ∧ st.arpeggioLimit ≤ st.arpeggioTime + 1)

/-- The period after `fperiod *= fslide` in the slide block, before it is compared with the
maximum period (`src/rfxgen.c:1372-1379`). -/
def slidPeriod {σ : Type} (st : GenState σ) : Flt :=
  dmul (if arpeggioFires st then dmul st.fperiod st.arpeggioModulation else st.fperiod)
    (dadd st.fslide st.fdslide)

/-- The stage length the volume formula of the next sample divides the envelope time by
(`src/rfxgen.c:1416-1418`): `envelopeLength[k]` for the stage `k` the envelope block is left
in, none past the decay. -/
def envelopeDivisor {σ : Type} (st : GenState σ) : Option Int :=
  if nextStage st = 0 then some (st.envelopeLength.getD 0 0)
  else if nextStage st = 1 then some (st.envelopeLength.getD 1 0)
  else if nextStage st = 2 then some (st.envelopeLength.getD 2 0)
  else none

/-- The value of the base waveform in the next sub-sample (`src/rfxgen.c:1441-1469`): the
oscillator phase is advanced and wrapped, the noise table refilled on a wrap of the noise
wave, and the wave type selects the value. -/
def oscillator {σ : Type} (pf : Platform σ) (st : GenState σ) : Flt :=
  let phase := st.phase + 1
  let wrapped : Bool := decide (st.period ≤ phase)
  let phase := if wrapped then Int.tmod phase st.period else phase
  let noise :=
    if wrapped && decide (i32 st.params.waveTypeValue = 3) then fillNoise pf 32 st.rng
    else (st.noiseBuffer, st.rng)
  let fp := fdiv (i2f phase) (i2f st.period)
  if i32 st.params.waveTypeValue = 0 then
    (if Flt.lt fp st.squareDuty then lit32 1 2 else Flt.neg (lit32 1 2))
  else if i32 st.params.waveTypeValue = 1 then fsub (lit32 1 1) (fmul fp (i2f 2))
  else if i32 st.params.waveTypeValue = 2 then pf.sinf (fmul (fmul fp (i2f 2)) PI)
  else if i32 st.params.waveTypeValue = 3 then
    noise.1.getD (Int.tdiv (phase * 32) st.period).toNat fzero
  else fzero

/-- The low-pass corner of the next sub-sample: `fltw *= fltwd` and the two clamping tests
(`src/rfxgen.c:1473-1476`). -/
def lowPassCorner {σ : Type} (st : GenState σ) : Flt :=
  let fltw := fmul st.fltw st.fltwd
  let fltw := if Flt.lt fltw fzero then fzero else fltw
  if Flt.lt (lit32 1 10) fltw then lit32 1 10 else fltw

/-- The phaser lines of a sub-sample as the source has them (`src/rfxgen.c:1497-1498`): the
sample is stored at `ipp & 1023`, then the entry at `(ipp - iphase + 1024) & 1023` is added.
The sample leaving the phaser and the ring buffer. -/
def phaser (phaserBuffer : List Flt) (ipp iphase : Int) (sample : Flt) : Flt × List Flt :=
  let phaserBuffer := phaserBuffer.set (and1023 ipp).toNat sample
  (fadd sample (phaserBuffer.getD (and1023 (ipp - iphase + 1024)).toNat fzero), phaserBuffer)

/-- The phaser lines in the order the specification gives them: the delayed entry is added
to the sample first, the sample before the addition is stored afterwards. -/
def phaserAddThenStore (phaserBuffer : List Flt) (ipp iphase : Int) (sample : Flt) :
    Flt × List Flt :=
  (fadd sample (phaserBuffer.getD (and1023 (ipp - iphase + 1024)).toNat fzero),
    phaserBuffer.set (and1023 ipp).toNat sample)

/-- The state and running sum entering sub-sample `j` of sample `k` of `GenerateWave`. -/
def subSampleInput {σ : Type} (pf : Platform σ) (P : WaveParams) (s : σ) (k j : Nat) :
    GenState σ × Flt :=
  superSample pf j (preSample pf ((sampleStep pf)^[k] (genSetup pf P s)), fzero)

/-- The noise-table entry `GetRandomFloat(2.0f) - 1.0f` for a drawn integer `r`, as the
specification gives it: `(r mod 10001)/10000*2 - 1`, evaluated in `float` arithmetic. -/
def noiseEntry (r : Nat) : Flt :=
  fsub (fmul (fdiv (i2f ((r % 10001 : Nat) : Int)) (i2f 10000)) (lit32 2 1)) (lit32 1 1)

/-- The integers the next `n` calls of `rand()` return from the generator state `s`. -/
def draws {σ : Type} (pf : Platform σ) : Nat → σ → List Nat
  | 0, _ => []
  | n + 1, s => (pf.rand s).1 :: draws pf n (pf.rand s).2

/-- The test of a sub-sample that refills the noise table (`src/rfxgen.c:1443-1451`): the
oscillator phase wraps (`++phase >= period`) and the wave type is noise. -/
def noiseRefill {σ : Type} (st : GenState σ) : Bool :=
  decide (st.period ≤ st.phase + 1) && decide (i32 st.params.waveTypeValue = 3)

/-- The pad `0.2f + frnd(0.3f)` of the fix-up of `GenRandomize` when
`GetRandomValue(0, 10000)` is `k`. -/
def envelopePad (k : Int) : Flt :=
  fadd (lit32 2 10) (fmul (fdiv (i2f k) (lit32 10000 1)) (lit32 3 10))

/-- The high-pass coefficient sweep of a sample (`src/rfxgen.c:1426-1431`):
`if (flthpd != 0.0f) { flthp *= flthpd; if (flthp < 0.00001f) flthp = 0.00001f;
if (flthp > 0.1f) flthp = 0.1f; }`. -/
def highPassSweep (flthp flthpd : Flt) : Flt :=
  if !(Flt.eq flthpd fzero) then
    let flthp := fmul flthp flthpd
    let flthp := if Flt.lt flthp (lit32 1 100000) then lit32 1 100000 else flthp
    if Flt.lt (lit32 1 10) flthp then lit32 1 10 else flthp
  else flthp

/-- The oscillator phase of the next sub-sample after `phase++` and the wrap
`if (phase >= period) phase %= period` (`src/rfxgen.c:1441-1447`). -/
def wrappedPhase {σ : Type} (st : GenState σ) : Int :=
  if st.period ≤ st.phase + 1 then Int.tmod (st.phase + 1) st.period else st.phase + 1

/-- The index `phase*32/period` of the noise-table lookup of the next sub-sample
(`src/rfxgen.c:1466`). -/
def noiseIndex {σ : Type} (st : GenState σ) : Int :=
  Int.tdiv (wrappedPhase st * 32) st.period

/-- The smaller of two stored `float` values, `min(a, b)`: `b` when `b < a`, else `a` (so
`a` when the two do not compare, one of them being a NaN). -/
def minWord (a b : Word32) : Word32 := if Flt.lt (f32 b) (f32 a) then b else a

/-- The larger of two stored `float` values, `max(a, b)`: `b` when `a < b`, else `a`. -/
def maxWord (a b : Word32) : Word32 := if Flt.lt (f32 a) (f32 b) then b else a

/-- The clamped form `N(P)` of a parameter set as the specification gives it: `minFrequency`
replaced by `min(minFrequency, startFrequency)` and `slide` by `max(slide, deltaSlide)`. -/
def normalForm (P : WaveParams) : WaveParams :=
  { P with
    minFrequencyValue := minWord P.minFrequencyValue P.startFrequencyValue
    slideValue := maxWord P.slideValue P.deltaSlideValue }

/-- A state of `GenerateWave` with the parts that stem from the random source replaced by
fixed values: the generator state, the noise table and the seed of the parameters. -/
def eraseSeed {σ : Type} (r : σ) (st : GenState σ) : GenState σ :=
  { st with rng := r, noiseBuffer := [], params := { st.params with randSeed := 0 } }

/-- A state of `GenerateWave` reduced to the variables that control the length of the wave:
the parts that stem from the random source and the variables the samples pass through (the
filter memories, the phaser ring and the sample buffer) are replaced by fixed values. -/
def eraseSignal {σ : Type} (r : σ) (st : GenState σ) : GenState σ :=
  { eraseSeed r st with
    fltp := fzero, fltdp := fzero, fltphp := fzero, phaserBuffer := [], buffer := [] }

/-! ## Parameter sets used as examples -/

/-- Bit patterns of `0.5f`, `3.0f`, `0.9f`, `0.1f` and of the default quiet NaN. -/
def bitsHalf : Word32 := 1056964608
def bitsThree : Word32 := 1077936128
def bitsPoint9 : Word32 := 1063675494
def bitsPoint1 : Word32 := 1036831949
def bitsNaN : Word32 := 2143289344

/-- Seed 42, wave type 0 and every `float` field `0.5`. -/
def halfParams : WaveParams :=
  ⟨42, 0, bitsHalf, bitsHalf, bitsHalf, bitsHalf, bitsHalf, bitsHalf, bitsHalf, bitsHalf,
   bitsHalf, bitsHalf, bitsHalf, bitsHalf, bitsHalf, bitsHalf, bitsHalf, bitsHalf, bitsHalf,
   bitsHalf, bitsHalf, bitsHalf, bitsHalf, bitsHalf⟩

/-- Attack time `3.0`, every other field 0. -/
def longAttackParams : WaveParams := { WaveParams.zero with attackTimeValue := bitsThree }

/-- Minimum frequency `0.9`, start frequency `0.1`, every other field 0. -/
def clampExampleParams : WaveParams :=
  { WaveParams.zero with minFrequencyValue := bitsPoint9, startFrequencyValue := bitsPoint1 }

/-- Minimum frequency NaN, every other field 0. -/
def nanMinParams : WaveParams := { WaveParams.zero with minFrequencyValue := bitsNaN }

/-- Seed 42, sustain `0.5`, start frequency `0.5`, every other field 0. -/
def seededParams : WaveParams :=
  { WaveParams.zero with
    randSeed := 42, sustainTimeValue := bitsHalf, startFrequencyValue := bitsHalf }

/-- The header fields of a file content as `LoadWaveParams` reads them: the first four
bytes, and the `unsigned short` values at offsets 4 and 6 (absent bytes count as 0). -/
def fileSignature (content : List Byte) : List Byte := content.take 4
def fileVersion (content : List Byte) : Nat := bytesShort ((content.drop 4).take 2)
def fileLength (content : List Byte) : Nat := bytesShort ((content.drop 6).take 2)

/-- A file with a valid signature and length field and version 201. -/
def wrongVersionFile : List Byte := [114, 70, 88, 32, 201, 0, 96, 0, 1, 2, 3, 4]

/-- Bit patterns of `1.0f`, `0.75f`, `-1.0f` and `-3.695575f`. -/
def bitsOne : Word32 := 1065353216
def bitsThreeQuarters : Word32 := 1061158912
def bitsMinusOne : Word32 := 3212836864
def bitsCeilingSpeed : Word32 := 3228337229

/-- Attack time NaN, every other field 0. -/
def nanAttackParams : WaveParams := { WaveParams.zero with attackTimeValue := bitsNaN }

/-- Low-pass cutoff NaN, every other field 0. -/
def nanCutoffParams : WaveParams := { WaveParams.zero with lpfCutoffValue := bitsNaN }

/-- Change speed `1.0` (never an arpeggio) and repeat speed `0` (never a repeat), every other
field 0. -/
def neverParams : WaveParams := { WaveParams.zero with changeSpeedValue := bitsOne }

/-- Sustain time `0.5` (a run of 25003 samples), repeat speed `0.5` (a repeat every 5032
samples) and change speed `0.75` (an arpeggio 1282 samples into a cycle), every other
field 0. -/
def arpeggioParams : WaveParams :=
  { WaveParams.zero with
    sustainTimeValue := bitsHalf, repeatSpeedValue := bitsHalf,
    changeSpeedValue := bitsThreeQuarters }

/-- Attack time `3.0`, start and minimum frequency `0.5`, change amount `-1.0`, change speed
`-3.695575` (arpeggio limit 441000), every other field 0. -/
def ceilingParams : WaveParams :=
  { WaveParams.zero with
    attackTimeValue := bitsThree, startFrequencyValue := bitsHalf, minFrequencyValue := bitsHalf,
    changeAmountValue := bitsMinusOne, changeSpeedValue := bitsCeilingSpeed }

/-- The baseline parameter set `ResetWaveParams` produces on the reference platform
(seed 1). -/
def baselineParams : WaveParams := (ResetWaveParams refPlatform WaveParams.zero 0).1

/-- The state of the run on `ceilingParams` before sample `k`: the period sits at the
maximum period, the slide factor is `1.0`, the arpeggio is armed for sample 440999, the
envelope is in its attack. -/
def ceilingInv (st : GenState Nat) (k : Nat) : Prop :=
  st.params = ceilingParams ∧ st.fperiod = initPeriod ceilingParams ∧
  st.fmaxperiod = initPeriod ceilingParams ∧ st.fslide = initSlide refPlatform ceilingParams ∧
  st.fdslide = initDeltaSlide refPlatform ceilingParams ∧
  st.arpeggioModulation = initArpeggioModulation refPlatform ceilingParams ∧
  st.arpeggioLimit = 441000 ∧ st.arpeggioTime = (k : Int) ∧ st.repeatLimit = 0 ∧
  st.generatingSample = true ∧ st.envelopeStage = 0 ∧ st.envelopeTime = (k : Int) ∧
  st.envelopeLength = [900000, 0, 0]

/-- A file with a valid header (signature `"rFX "`, version 200, length 96) followed by
4 payload bytes only. -/
def truncatedFile : List Byte := [114, 70, 88, 32, 200, 0, 96, 0, 1, 0, 0, 0]

/-- The bytes of a file content from offset 8 to offset 103. -/
def filePayload (content : List Byte) : List Byte := (content.drop 8).take 96

/-- Bit pattern of `-3333.333251953125f`, for which `1.0f + x*0.0003f` is `0.0f`. -/
def bitsSweepZero : Word32 := 3310376277

/-- High-pass cutoff sweep `-3333.333251953125` (sweep factor `0.0`), every other field 0. -/
def sweepZeroParams : WaveParams := { WaveParams.zero with hpfCutoffSweepValue := bitsSweepZero }

/-- Bit pattern of `2048.0f`. -/
def bitsPhaserHuge : Word32 := 1157627904

/-- Phaser offset `2048.0` (`fphase = 2048^2*1020 = 4278190080.0`, outside the `int` range),
every other field 0. -/
def hugePhaserParams : WaveParams := { WaveParams.zero with phaserOffsetValue := bitsPhaserHuge }

/-- Seed 42, wave type noise, sustain `0.5`, start frequency `0.5`, every other field 0. -/
def noiseParams : WaveParams := { seededParams with waveTypeValue := 3 }

/-- Slide `-1.0` (below the delta slide `0.0`), every other field 0. -/
def negativeSlideParams : WaveParams := { WaveParams.zero with slideValue := bitsMinusOne }

/-! ## Floating-point facts -/

/-- The arithmetic on known cases: `0.1f` is `0x3DCCCCCD`, `0.1f + 0.2f` is `0x3E99999A`,
`1.0f/3.0f` is `0x3EAAAAAB`, `0.0f/0.0f` is a NaN, `(int)(0.7f*0.7f*100000.0f)` is 48999 and
the `double` `100.0/0.001` is `100000.0`. -/
theorem arithmetic_examples :
    toWord32 (lit32 1 10) = 0x3DCCCCCD ∧
    toWord32 (fadd (lit32 1 10) (lit32 2 10)) = 0x3E99999A ∧
    toWord32 (fdiv (lit32 1 1) (lit32 3 1)) = 0x3EAAAAAB ∧
    fdiv fzero (i2f 0) = Flt.nan ∧
    Flt.toInt (fmul (fmul (lit32 7 10) (lit32 7 10)) (lit32 100000 1)) = 48999 ∧
    ddiv (lit64 100 1) (lit64 1 1000) = Flt.fin false 6871947673600000 (-36) := by decide

theorem fmul_nan_right (x : Flt) : fmul x Flt.nan = Flt.nan := by cases x <;> rfl

theorem fadd_nan_right (x : Flt) : fadd x Flt.nan = Flt.nan := by cases x <;> rfl

/-! ## Rounding -/

theorem log2Fuel_spec (k n : Nat) (hk : n ≤ k) (hn : 0 < n) :
    2 ^ log2Fuel k n ≤ n ∧ n < 2 ^ (log2Fuel k n + 1) := by
  induction k generalizing n with
  | zero => omega
  | succ k ih =>
    unfold log2Fuel
    by_cases h : n < 2
    · simp only [h, if_true]
      omega
    · simp only [h, if_false]
      have := ih (n / 2) (by omega) (by omega)
      constructor
      · rw [pow_succ]; omega
      · rw [pow_succ]; omega

theorem ilog2_spec (n : Nat) (hn : 0 < n) : 2 ^ ilog2 n ≤ n ∧ n < 2 ^ (ilog2 n + 1) :=
  log2Fuel_spec n n (Nat.le_refl n) hn

theorem rne_le (num den K : Nat) (hden : 0 < den) (h : num ≤ K * den) : rne num den ≤ K := by
  have hq : num / den ≤ K := Nat.div_le_of_le_mul (by rw [Nat.mul_comm]; exact h)
  have hmod := Nat.div_add_mod num den
  have hlt := Nat.mod_lt num hden
  have hup : 0 < num % den → num / den < K := by
    intro hr
    by_contra hc
    have hK : K = num / den := by omega
    rw [hK] at h
    have : den * (num / den) = num / den * den := Nat.mul_comm _ _
    omega
  unfold rne
  simp only []
  split
  · exact hq
  · split
    · have := hup (by omega); omega
    · have h2 : 0 < num % den := by omega
      have := hup h2
      have := Nat.mod_lt (num / den) (by decide : 0 < 2)
      omega

theorem le_rne (num den K : Nat) (hden : 0 < den) (h : K * den ≤ num) : K ≤ rne num den := by
  have hq : K ≤ num / den := (Nat.le_div_iff_mul_le hden).2 h
  unfold rne
  simp only []
  split
  · exact hq
  · split <;> omega

theorem scaled_pos (n d : Nat) (e q : Int) (hd : 0 < d) : 0 < (scaled n d e q).2 := by
  unfold scaled
  split
  · exact hd
  · exact Nat.mul_pos hd (Nat.pos_pow_of_pos _ (by decide))

theorem scaled_val (n d : Nat) (e q : Int) (hd : 0 < d) :
    ((scaled n d e q).1 : ℚ) / ((scaled n d e q).2 : ℚ) = (n : ℚ) / (d : ℚ) * (2 : ℚ) ^ (e - q) := by
  have hd' : (d : ℚ) ≠ 0 := by exact_mod_cast (Nat.pos_iff_ne_zero.1 hd)
  unfold scaled
  split
  · rename_i h
    have : (2 : ℚ) ^ (e - q) = (2 : ℚ) ^ (e - q).toNat := by
      rw [← zpow_natCast, Int.toNat_of_nonneg (by omega)]
    rw [this]
    push_cast
    field_simp
  · rename_i h
    have : (2 : ℚ) ^ (e - q) = ((2 : ℚ) ^ (q - e).toNat)⁻¹ := by
      rw [← zpow_natCast, Int.toNat_of_nonneg (by omega), ← zpow_neg]
      congr 1
      omega
    rw [this]
    push_cast
    field_simp

theorem two_zpow_pos (z : Int) : (0 : ℚ) < (2 : ℚ) ^ z := zpow_pos (by norm_num) z

theorem two_zpow_sub (a b : Int) : (2 : ℚ) ^ (a - b) = (2 : ℚ) ^ a / (2 : ℚ) ^ b := by
  rw [zpow_sub₀ (by norm_num : (2 : ℚ) ≠ 0)]

theorem two_zpow_mono {a b : Int} (h : a ≤ b) : (2 : ℚ) ^ a ≤ (2 : ℚ) ^ b :=
  zpow_le_zpow_right₀ (by norm_num) h

theorem scaled_le_iff (n d : Nat) (e q : Int) (hd : 0 < d) (K : Nat) :
    (scaled n d e q).1 ≤ K * (scaled n d e q).2 ↔
      (n : ℚ) / (d : ℚ) * (2 : ℚ) ^ e ≤ (K : ℚ) * (2 : ℚ) ^ q := by
  have hpos : (0 : ℚ) < ((scaled n d e q).2 : ℚ) := by exact_mod_cast scaled_pos n d e q hd
  rw [← div_le_iff₀ (two_zpow_pos q), mul_div_assoc, ← two_zpow_sub, ← scaled_val n d e q hd,
    div_le_iff₀ hpos]
  exact_mod_cast Iff.rfl

theorem le_scaled_iff (n d : Nat) (e q : Int) (hd : 0 < d) (K : Nat) :
    K * (scaled n d e q).2 ≤ (scaled n d e q).1 ↔
      (K : ℚ) * (2 : ℚ) ^ q ≤ (n : ℚ) / (d : ℚ) * (2 : ℚ) ^ e := by
  have hpos : (0 : ℚ) < ((scaled n d e q).2 : ℚ) := by exact_mod_cast scaled_pos n d e q hd
  rw [← le_div_iff₀ (two_zpow_pos q), mul_div_assoc, ← two_zpow_sub, ← scaled_val n d e q hd,
    le_div_iff₀ hpos]
  exact_mod_cast Iff.rfl

theorem quantumExp_spec (f : Fmt) (n d : Nat) (e : Int) (hn : 0 < n) (hd : 0 < d) :
    f.qmin ≤ quantumExp f n d e ∧
    (quantumExp f n d e = f.qmin ∨
      (2 : ℚ) ^ ((f.prec : Int) - 1) * (2 : ℚ) ^ quantumExp f n d e
        ≤ (n : ℚ) / (d : ℚ) * (2 : ℚ) ^ e) := by
  have hd' : (0 : ℚ) < (d : ℚ) := by exact_mod_cast hd
  unfold quantumExp
  simp only []
  split
  · rename_i h
    refine ⟨by have := le_max_right (e + (ilog2 n : Int) - (ilog2 d : Int) - (f.prec : Int)) f.qmin; omega,
      Or.inr ?_⟩
    have h1 := (Nat.le_div_iff_mul_le (scaled_pos n d e _ hd)).1 h
    have h2 := (le_scaled_iff n d e _ hd (2 ^ f.prec)).1 h1
    have e1 : (2 : ℚ) ^ ((f.prec : Int) - 1) *
        (2 : ℚ) ^ (max (e + (ilog2 n : Int) - (ilog2 d : Int) - (f.prec : Int)) f.qmin + 1)
        = ((2 ^ f.prec : Nat) : ℚ) *
          (2 : ℚ) ^ (max (e + (ilog2 n : Int) - (ilog2 d : Int) - (f.prec : Int)) f.qmin) := by
      push_cast
      rw [← zpow_natCast, ← zpow_add₀ (by norm_num : (2 : ℚ) ≠ 0),
        ← zpow_add₀ (by norm_num : (2 : ℚ) ≠ 0)]
      congr 1
      omega
    rw [e1]
    exact h2
  · refine ⟨le_max_right _ _, ?_⟩
    by_cases hm : e + (ilog2 n : Int) - (ilog2 d : Int) - (f.prec : Int) ≤ f.qmin
    · exact Or.inl (max_eq_right hm)
    · right
      rw [max_eq_left (by omega)]
      obtain ⟨ha, _⟩ := ilog2_spec n hn
      obtain ⟨_, hb⟩ := ilog2_spec d hd
      have ha' : (2 : ℚ) ^ (ilog2 n : Int) ≤ (n : ℚ) := by
        rw [zpow_natCast]; exact_mod_cast ha
      have hb' : (d : ℚ) ≤ (2 : ℚ) ^ ((ilog2 d : Int) + 1) := by
        have : (d : ℚ) ≤ ((2 ^ (ilog2 d + 1) : Nat) : ℚ) := by exact_mod_cast hb.le
        rw [show ((ilog2 d : Int) + 1) = ((ilog2 d + 1 : Nat) : Int) by push_cast; rfl,
          zpow_natCast]
        exact_mod_cast this
      rw [← zpow_add₀ (by norm_num : (2 : ℚ) ≠ 0)]
      have e2 : (f.prec : Int) - 1 + (e + (ilog2 n : Int) - (ilog2 d : Int) - (f.prec : Int))
          = (ilog2 n : Int) - ((ilog2 d : Int) + 1) + e := by ring
      rw [e2, zpow_add₀ (by norm_num : (2 : ℚ) ≠ 0), two_zpow_sub]
      apply mul_le_mul_of_nonneg_right _ (two_zpow_pos e).le
      rw [div_le_div_iff₀ (two_zpow_pos _) hd']
      calc (2 : ℚ) ^ (ilog2 n : Int) * (d : ℚ)
          ≤ (n : ℚ) * (d : ℚ) := mul_le_mul_of_nonneg_right ha' hd'.le
        _ ≤ (n : ℚ) * (2 : ℚ) ^ ((ilog2 d : Int) + 1) :=
          mul_le_mul_of_nonneg_left hb' (by positivity)

/-- The value of the result of a rounding that does not overflow: the rounded significand
at the quantum exponent. -/
theorem roundNE_result (f : Fmt) (neg : Bool) (n d : Nat) (e : Int) (hn : n ≠ 0)
    (hp : 0 < f.prec) :
    roundNE f neg n d e = Flt.inf neg ∨
    ∃ m q, roundNE f neg n d e = Flt.fin neg m q ∧
      (m : ℚ) * (2 : ℚ) ^ q =
        (rne (scaled n d e (quantumExp f n d e)).1 (scaled n d e (quantumExp f n d e)).2 : ℚ)
          * (2 : ℚ) ^ quantumExp f n d e := by
  unfold roundNE
  simp only [hn, if_false]
  split
  · rename_i hm
    split
    · exact Or.inl rfl
    · refine Or.inr ⟨_, _, rfl, ?_⟩
      rw [hm]
      push_cast
      rw [zpow_add₀ (by norm_num : (2 : ℚ) ≠ 0), zpow_one, ← mul_assoc, mul_comm _ (2 : ℚ),
        ← mul_assoc, ← pow_succ']
      congr 2
      omega
  · split
    · exact Or.inl rfl
    · exact Or.inr ⟨_, _, rfl, rfl⟩

/-- Overflow happens only past the largest quantum exponent. -/
theorem roundNE_fin_of_le (f : Fmt) (neg : Bool) (n d : Nat) (e : Int) (hn : n ≠ 0)
    (hp : 0 < f.prec)
    (h : rne (scaled n d e (quantumExp f n d e)).1 (scaled n d e (quantumExp f n d e)).2
        = 2 ^ f.prec → quantumExp f n d e + 1 ≤ f.qmax)
    (h' : quantumExp f n d e ≤ f.qmax) :
    ∃ m q, roundNE f neg n d e = Flt.fin neg m q ∧
      (m : ℚ) * (2 : ℚ) ^ q =
        (rne (scaled n d e (quantumExp f n d e)).1 (scaled n d e (quantumExp f n d e)).2 : ℚ)
          * (2 : ℚ) ^ quantumExp f n d e := by
  rcases roundNE_result f neg n d e hn hp with hinf | hfin
  · exfalso
    unfold roundNE at hinf
    simp only [hn, if_false] at hinf
    split at hinf
    · rename_i hm
      have := h hm
      split at hinf
      · omega
      · exact Flt.noConfusion hinf
    · split at hinf
      · omega
      · exact Flt.noConfusion hinf
  · exact hfin

/-- Rounding does not exceed a representable upper bound of the exact value. -/
theorem roundNE_upper (f : Fmt) (neg : Bool) (n d : Nat) (e : Int) (hd : 0 < d)
    (hp : 0 < f.prec) (M : Nat) (Q : Int) (hM : M < 2 ^ f.prec) (hQ1 : f.qmin ≤ Q)
    (hQ2 : Q ≤ f.qmax) (hx : (n : ℚ) / (d : ℚ) * (2 : ℚ) ^ e ≤ (M : ℚ) * (2 : ℚ) ^ Q) :
    ∃ m q, roundNE f neg n d e = Flt.fin neg m q ∧ (m : ℚ) * (2 : ℚ) ^ q ≤ (M : ℚ) * (2 : ℚ) ^ Q := by
  by_cases hn : n = 0
  · refine ⟨0, f.qmin, by simp [roundNE, hn], ?_⟩
    have := two_zpow_pos Q
    have : (0 : ℚ) ≤ (M : ℚ) := by positivity
    simp only [Nat.cast_zero, zero_mul]
    positivity
  · have hn' : 0 < n := Nat.pos_of_ne_zero hn
    obtain ⟨hq1, hq2⟩ := quantumExp_spec f n d e hn' hd
    have hM' : (M : ℚ) < (2 : ℚ) ^ (f.prec : Int) := by
      rw [zpow_natCast]; exact_mod_cast hM
    -- the quantum exponent is at most `Q`
    have hqQ : quantumExp f n d e ≤ Q := by
      by_contra hc
      have hne : quantumExp f n d e ≠ f.qmin := by omega
      rcases hq2 with h | h
      · exact hne h
      · have h3 : (2 : ℚ) ^ ((f.prec : Int) - 1) * (2 : ℚ) ^ (Q + 1)
            ≤ (2 : ℚ) ^ ((f.prec : Int) - 1) * (2 : ℚ) ^ quantumExp f n d e :=
          mul_le_mul_of_nonneg_left (two_zpow_mono (by omega)) (two_zpow_pos _).le
        have h4 : (2 : ℚ) ^ ((f.prec : Int) - 1) * (2 : ℚ) ^ (Q + 1)
            = (2 : ℚ) ^ (f.prec : Int) * (2 : ℚ) ^ Q := by
          rw [← zpow_add₀ (by norm_num : (2 : ℚ) ≠ 0), ← zpow_add₀ (by norm_num : (2 : ℚ) ≠ 0)]
          congr 1
          omega
        have h5 : (M : ℚ) * (2 : ℚ) ^ Q < (2 : ℚ) ^ (f.prec : Int) * (2 : ℚ) ^ Q :=
          mul_lt_mul_of_pos_right hM' (two_zpow_pos Q)
        linarith
    -- the rounded significand is at most `M * 2^(Q - q)`
    have hK : (((M * 2 ^ (Q - quantumExp f n d e).toNat : Nat) : ℚ)) * (2 : ℚ) ^ quantumExp f n d e
        = (M : ℚ) * (2 : ℚ) ^ Q := by
      push_cast
      rw [← zpow_natCast, Int.toNat_of_nonneg (by omega), mul_assoc,
        ← zpow_add₀ (by norm_num : (2 : ℚ) ≠ 0)]
      congr 2
      omega
    have hs := (scaled_le_iff n d e (quantumExp f n d e) hd
      (M * 2 ^ (Q - quantumExp f n d e).toNat)).2 (by rw [hK]; exact hx)
    have hr := rne_le _ _ _ (scaled_pos n d e _ hd) hs
    have hfin := roundNE_fin_of_le f neg n d e hn hp
      (by
        intro hm
        rw [hm] at hr
        by_contra hc
        have : (Q - quantumExp f n d e).toNat = 0 := by omega
        rw [this] at hr
        omega)
      (by omega)
    obtain ⟨m, q, h1, h2⟩ := hfin
    refine ⟨m, q, h1, ?_⟩
    rw [h2, ← hK]
    apply mul_le_mul_of_nonneg_right _ (two_zpow_pos _).le
    exact_mod_cast hr

/-- Rounding does not fall below a representable lower bound of the exact value. -/
theorem roundNE_lower (f : Fmt) (neg : Bool) (n d : Nat) (e : Int) (hd : 0 < d)
    (hp : 0 < f.prec) (M : Nat) (Q : Int) (hM : M < 2 ^ f.prec) (hQ1 : f.qmin ≤ Q)
    (hx : (M : ℚ) * (2 : ℚ) ^ Q ≤ (n : ℚ) / (d : ℚ) * (2 : ℚ) ^ e) (m : Nat) (q : Int)
    (hr : roundNE f neg n d e = Flt.fin neg m q) :
    (M : ℚ) * (2 : ℚ) ^ Q ≤ (m : ℚ) * (2 : ℚ) ^ q := by
  have hd' : (0 : ℚ) < (d : ℚ) := by exact_mod_cast hd
  by_cases hn : n = 0
  · rw [hn] at hx
    simp only [Nat.cast_zero, zero_div, zero_mul] at hx
    have : (0 : ℚ) ≤ (m : ℚ) * (2 : ℚ) ^ q := by
      have := two_zpow_pos q
      positivity
    linarith
  · have hn' : 0 < n := Nat.pos_of_ne_zero hn
    obtain ⟨hq1, hq2⟩ := quantumExp_spec f n d e hn' hd
    rcases roundNE_result f neg n d e hn hp with hinf | ⟨m', q', h1, h2⟩
    · rw [hinf] at hr; exact Flt.noConfusion hr
    · rw [h1] at hr
      injection hr with _ hm hq
      subst hm hq
      rw [h2]
      by_cases hqQ : quantumExp f n d e ≤ Q
      · have hK : (((M * 2 ^ (Q - quantumExp f n d e).toNat : Nat) : ℚ))
            * (2 : ℚ) ^ quantumExp f n d e = (M : ℚ) * (2 : ℚ) ^ Q := by
          push_cast
          rw [← zpow_natCast, Int.toNat_of_nonneg (by omega), mul_assoc,
            ← zpow_add₀ (by norm_num : (2 : ℚ) ≠ 0)]
          congr 2
          omega
        have hs := (le_scaled_iff n d e (quantumExp f n d e) hd
          (M * 2 ^ (Q - quantumExp f n d e).toNat)).2 (by rw [hK]; exact hx)
        have hr' := le_rne _ _ _ (scaled_pos n d e _ hd) hs
        rw [← hK]
        apply mul_le_mul_of_nonneg_right _ (two_zpow_pos _).le
        exact_mod_cast hr'
      · rcases hq2 with h | h
        · omega
        · have hK : (((2 ^ (f.prec - 1) : Nat) : ℚ)) = (2 : ℚ) ^ ((f.prec : Int) - 1) := by
            push_cast
            rw [← zpow_natCast]
            congr 1
            omega
          have hs := (le_scaled_iff n d e (quantumExp f n d e) hd (2 ^ (f.prec - 1))).2
            (by rw [hK]; exact h)
          have hr' := le_rne _ _ _ (scaled_pos n d e _ hd) hs
          have hr'' : (2 : ℚ) ^ ((f.prec : Int) - 1) ≤
              (rne (scaled n d e (quantumExp f n d e)).1 (scaled n d e (quantumExp f n d e)).2 : ℚ) := by
            rw [← hK]; exact_mod_cast hr'
          have hM' : (M : ℚ) ≤ (2 : ℚ) ^ (f.prec : Int) := by
            rw [zpow_natCast]; exact_mod_cast hM.le
          have h4 : (2 : ℚ) ^ ((f.prec : Int) - 1) * (2 : ℚ) ^ (Q + 1)
              = (2 : ℚ) ^ (f.prec : Int) * (2 : ℚ) ^ Q := by
            rw [← zpow_add₀ (by norm_num : (2 : ℚ) ≠ 0), ← zpow_add₀ (by norm_num : (2 : ℚ) ≠ 0)]
            congr 1
            omega
          calc (M : ℚ) * (2 : ℚ) ^ Q
              ≤ (2 : ℚ) ^ (f.prec : Int) * (2 : ℚ) ^ Q :=
                mul_le_mul_of_nonneg_right hM' (two_zpow_pos Q).le
            _ = (2 : ℚ) ^ ((f.prec : Int) - 1) * (2 : ℚ) ^ (Q + 1) := h4.symm
            _ ≤ (2 : ℚ) ^ ((f.prec : Int) - 1) * (2 : ℚ) ^ quantumExp f n d e :=
                mul_le_mul_of_nonneg_left (two_zpow_mono (by omega)) (two_zpow_pos _).le
            _ ≤ _ := mul_le_mul_of_nonneg_right hr'' (two_zpow_pos _).le

theorem mag_nonneg (m : Nat) (q : Int) : (0 : ℚ) ≤ (m : ℚ) * (2 : ℚ) ^ q := by
  have := two_zpow_pos q
  positivity

theorem Flt.toRat_fin (a : Bool) (m : Nat) (e : Int) :
    (Flt.fin a m e).toRat = (if a then -1 else 1) * ((m : ℚ) * (2 : ℚ) ^ e) := by
  simp only [Flt.toRat]
  ring

/-- Rounding stays between two data of the format that bound the exact value. -/
theorem roundNE_between (f : Fmt) (neg : Bool) (n d : Nat) (e : Int) (hd : 0 < d)
    (hp : 0 < f.prec) (lo hi : Flt) (hlo : lo.fits f = true) (hhi : hi.fits f = true)
    (h1 : lo.toRat ≤ (if neg then -1 else 1) * ((n : ℚ) / (d : ℚ) * (2 : ℚ) ^ e))
    (h2 : (if neg then -1 else 1) * ((n : ℚ) / (d : ℚ) * (2 : ℚ) ^ e) ≤ hi.toRat) :
    (roundNE f neg n d e).isFinite = true ∧ lo.toRat ≤ (roundNE f neg n d e).toRat ∧
      (roundNE f neg n d e).toRat ≤ hi.toRat := by
  have hd' : (0 : ℚ) < (d : ℚ) := by exact_mod_cast hd
  have hx0 : (0 : ℚ) ≤ (n : ℚ) / (d : ℚ) * (2 : ℚ) ^ e := by
    have := two_zpow_pos e
    positivity
  cases lo with
  | nan => exact absurd hlo (by simp [Flt.fits])
  | inf _ => exact absurd hlo (by simp [Flt.fits])
  | fin sl Ml Ql =>
  cases hi with
  | nan => exact absurd hhi (by simp [Flt.fits])
  | inf _ => exact absurd hhi (by simp [Flt.fits])
  | fin sh Mh Qh =>
  simp only [Flt.fits, Bool.and_eq_true, decide_eq_true_eq] at hlo hhi
  obtain ⟨⟨hl1, hl2⟩, hl3⟩ := hlo
  obtain ⟨⟨hh1, hh2⟩, hh3⟩ := hhi
  rw [Flt.toRat_fin] at h1 h2
  have hMl := mag_nonneg Ml Ql
  have hMh := mag_nonneg Mh Qh
  have h0 : (0 : Nat) < 2 ^ f.prec := Nat.pos_pow_of_pos _ (by decide)
  cases neg with
  | false =>
    simp only [Bool.false_eq_true, if_false, one_mul] at h1 h2
    -- upper bound as a magnitude
    have hup : (n : ℚ) / (d : ℚ) * (2 : ℚ) ^ e
        ≤ (((if sh then 0 else Mh : Nat)) : ℚ) * (2 : ℚ) ^ Qh := by
      cases sh <;> simp at h2 ⊢ <;> linarith
    obtain ⟨m, q, hr, hm⟩ := roundNE_upper f false n d e hd hp (if sh then 0 else Mh) Qh
      (by cases sh <;> simp [h0, hh1]) hh2 hh3 hup
    have hm0 := mag_nonneg m q
    have hlow : (((if sl then 0 else Ml : Nat)) : ℚ) * (2 : ℚ) ^ Ql
        ≤ (n : ℚ) / (d : ℚ) * (2 : ℚ) ^ e := by
      cases sl <;> simp at h1 ⊢ <;> linarith
    have hm' := roundNE_lower f false n d e hd hp (if sl then 0 else Ml) Ql
      (by cases sl <;> simp [h0, hl1]) hl2 hlow m q hr
    rw [hr, Flt.toRat_fin, Flt.toRat_fin, Flt.toRat_fin]
    refine ⟨rfl, ?_, ?_⟩
    · cases sl <;> simp at hm' ⊢ <;> linarith
    · cases sh <;> simp at hm h2 ⊢ <;> linarith
  | true =>
    simp only [if_true] at h1 h2
    have hup : (n : ℚ) / (d : ℚ) * (2 : ℚ) ^ e
        ≤ (((if sl then Ml else 0 : Nat)) : ℚ) * (2 : ℚ) ^ Ql := by
      cases sl <;> simp at h1 ⊢ <;> linarith
    obtain ⟨m, q, hr, hm⟩ := roundNE_upper f true n d e hd hp (if sl then Ml else 0) Ql
      (by cases sl <;> simp [h0, hl1]) hl2 hl3 hup
    have hm0 := mag_nonneg m q
    have hlow : (((if sh then Mh else 0 : Nat)) : ℚ) * (2 : ℚ) ^ Qh
        ≤ (n : ℚ) / (d : ℚ) * (2 : ℚ) ^ e := by
      cases sh <;> simp at h2 ⊢ <;> linarith
    have hm' := roundNE_lower f true n d e hd hp (if sh then Mh else 0) Qh
      (by cases sh <;> simp [h0, hh1]) hh2 hlow m q hr
    rw [hr, Flt.toRat_fin, Flt.toRat_fin, Flt.toRat_fin]
    refine ⟨rfl, ?_, ?_⟩
    · cases sl <;> simp at hm h1 ⊢ <;> linarith
    · cases sh <;> simp at hm' ⊢ <;> linarith

theorem sign_natAbs (r : Int) :
    (if decide (r < 0) = true then (-1 : ℚ) else 1) * (((r.natAbs : Nat) : ℚ) / ((1 : Nat) : ℚ))
      = (r : ℚ) := by
  by_cases h : r < 0
  · simp only [h, decide_True, if_true, Nat.cast_one, div_one]
    have : ((r.natAbs : Nat) : Int) = -r := by omega
    have h2 : ((r.natAbs : Nat) : ℚ) = -(r : ℚ) := by
      rw [← Int.cast_natCast, this, Int.cast_neg]
    rw [h2]; ring
  · simp only [h, decide_False, Bool.false_eq_true, if_false, Nat.cast_one, div_one, one_mul]
    have : ((r.natAbs : Nat) : Int) = r := by omega
    rw [← Int.cast_natCast, this]

/-- Bounds on the conversion of an integer. -/
theorem Flt.ofInt_between (f : Fmt) (hp : 0 < f.prec) (i : Int) (lo hi : Flt)
    (hlo : lo.fits f = true) (hhi : hi.fits f = true)
    (h1 : lo.toRat ≤ (i : ℚ)) (h2 : (i : ℚ) ≤ hi.toRat) :
    (Flt.ofInt f i).isFinite = true ∧ lo.toRat ≤ (Flt.ofInt f i).toRat ∧
      (Flt.ofInt f i).toRat ≤ hi.toRat := by
  have key : (if decide (i < 0) = true then (-1 : ℚ) else 1)
      * (((i.natAbs : Nat) : ℚ) / ((1 : Nat) : ℚ) * (2 : ℚ) ^ (0 : Int)) = (i : ℚ) := by
    rw [zpow_zero, mul_one]; exact sign_natAbs i
  exact roundNE_between f _ _ 1 0 (by decide) hp lo hi hlo hhi (by rw [key]; exact h1)
    (by rw [key]; exact h2)

theorem sig_val (a : Bool) (m : Nat) (e q : Int) (hq : q ≤ e) :
    ((Flt.sig a m e q : Int) : ℚ) * (2 : ℚ) ^ q = (Flt.fin a m e).toRat := by
  rw [Flt.toRat_fin]
  unfold Flt.sig
  have : (2 : ℚ) ^ e = (2 : ℚ) ^ (e - q).toNat * (2 : ℚ) ^ q := by
    rw [← zpow_natCast, Int.toNat_of_nonneg (by omega), ← zpow_add₀ (by norm_num : (2 : ℚ) ≠ 0)]
    congr 1
    omega
  rw [this]
  cases a <;> simp <;> ring

/-- Bounds on a sum. -/
theorem Flt.add_between (f : Fmt) (hp : 0 < f.prec) (x y lo hi : Flt)
    (hx : x.isFinite = true) (hy : y.isFinite = true)
    (hlo : lo.fits f = true) (hhi : hi.fits f = true)
    (h1 : lo.toRat ≤ x.toRat + y.toRat) (h2 : x.toRat + y.toRat ≤ hi.toRat) :
    (Flt.add f x y).isFinite = true ∧ lo.toRat ≤ (Flt.add f x y).toRat ∧
      (Flt.add f x y).toRat ≤ hi.toRat := by
  cases x with
  | nan => exact absurd hx (by simp [Flt.isFinite])
  | inf _ => exact absurd hx (by simp [Flt.isFinite])
  | fin a m e =>
  cases y with
  | nan => exact absurd hy (by simp [Flt.isFinite])
  | inf _ => exact absurd hy (by simp [Flt.isFinite])
  | fin b n k =>
  have hsum : (((Flt.sig a m e (min e k) + Flt.sig b n k (min e k) : Int)) : ℚ) * (2 : ℚ) ^ (min e k)
      = (Flt.fin a m e).toRat + (Flt.fin b n k).toRat := by
    push_cast
    rw [add_mul, sig_val a m e _ (min_le_left e k), sig_val b n k _ (min_le_right e k)]
  simp only [Flt.add]
  by_cases hr : Flt.sig a m e (min e k) + Flt.sig b n k (min e k) = 0
  · simp only [hr, if_true]
    rw [hr] at hsum
    simp only [Int.cast_zero, zero_mul] at hsum
    rw [← hsum] at h1 h2
    have hz : (Flt.fin (a && b) 0 f.qmin).toRat = 0 := by simp [Flt.toRat]
    rw [hz]
    exact ⟨rfl, h1, h2⟩
  · simp only [hr, if_false]
    have key : (if decide (Flt.sig a m e (min e k) + Flt.sig b n k (min e k) < 0) = true
          then (-1 : ℚ) else 1)
        * ((((Flt.sig a m e (min e k) + Flt.sig b n k (min e k)).natAbs : Nat) : ℚ)
            / ((1 : Nat) : ℚ) * (2 : ℚ) ^ (min e k))
        = (Flt.fin a m e).toRat + (Flt.fin b n k).toRat := by
      rw [← mul_assoc, sign_natAbs, hsum]
    exact roundNE_between f _ _ 1 _ (by decide) hp lo hi hlo hhi (by rw [key]; exact h1)
      (by rw [key]; exact h2)

theorem Flt.neg_toRat (x : Flt) : (Flt.neg x).toRat = -x.toRat := by
  cases x with
  | nan => simp [Flt.neg, Flt.toRat]
  | inf a => simp [Flt.neg, Flt.toRat]
  | fin a m e => cases a <;> simp [Flt.neg, Flt.toRat]

theorem Flt.neg_isFinite (x : Flt) : (Flt.neg x).isFinite = x.isFinite := by
  cases x <;> rfl

/-- Bounds on a difference. -/
theorem Flt.sub_between (f : Fmt) (hp : 0 < f.prec) (x y lo hi : Flt)
    (hx : x.isFinite = true) (hy : y.isFinite = true)
    (hlo : lo.fits f = true) (hhi : hi.fits f = true)
    (h1 : lo.toRat ≤ x.toRat - y.toRat) (h2 : x.toRat - y.toRat ≤ hi.toRat) :
    (Flt.sub f x y).isFinite = true ∧ lo.toRat ≤ (Flt.sub f x y).toRat ∧
      (Flt.sub f x y).toRat ≤ hi.toRat :=
  Flt.add_between f hp x (Flt.neg y) lo hi hx (by rw [Flt.neg_isFinite]; exact hy) hlo hhi
    (by rw [Flt.neg_toRat]; linarith) (by rw [Flt.neg_toRat]; linarith)

theorem sign_xor (a b : Bool) :
    (if xor a b = true then (-1 : ℚ) else 1)
      = (if a = true then (-1 : ℚ) else 1) * (if b = true then (-1 : ℚ) else 1) := by
  cases a <;> cases b <;> simp

/-- Bounds on a product. -/
theorem Flt.mul_between (f : Fmt) (hp : 0 < f.prec) (x y lo hi : Flt)
    (hx : x.isFinite = true) (hy : y.isFinite = true)
    (hlo : lo.fits f = true) (hhi : hi.fits f = true)
    (h1 : lo.toRat ≤ x.toRat * y.toRat) (h2 : x.toRat * y.toRat ≤ hi.toRat) :
    (Flt.mul f x y).isFinite = true ∧ lo.toRat ≤ (Flt.mul f x y).toRat ∧
      (Flt.mul f x y).toRat ≤ hi.toRat := by
  cases x with
  | nan => exact absurd hx (by simp [Flt.isFinite])
  | inf _ => exact absurd hx (by simp [Flt.isFinite])
  | fin a m e =>
  cases y with
  | nan => exact absurd hy (by simp [Flt.isFinite])
  | inf _ => exact absurd hy (by simp [Flt.isFinite])
  | fin b n k =>
  have key : (if xor a b = true then (-1 : ℚ) else 1)
      * ((((m * n : Nat)) : ℚ) / ((1 : Nat) : ℚ) * (2 : ℚ) ^ (e + k))
      = (Flt.fin a m e).toRat * (Flt.fin b n k).toRat := by
    rw [Flt.toRat_fin, Flt.toRat_fin, sign_xor, zpow_add₀ (by norm_num : (2 : ℚ) ≠ 0)]
    push_cast
    ring
  simp only [Flt.mul]
  exact roundNE_between f _ _ 1 _ (by decide) hp lo hi hlo hhi (by rw [key]; exact h1)
    (by rw [key]; exact h2)

/-- Bounds on a quotient with a non-zero divisor. -/
theorem Flt.div_between (f : Fmt) (hp : 0 < f.prec) (x y lo hi : Flt)
    (hx : x.isFinite = true) (hy : y.isFinite = true) (hy0 : y.toRat ≠ 0)
    (hlo : lo.fits f = true) (hhi : hi.fits f = true)
    (h1 : lo.toRat ≤ x.toRat / y.toRat) (h2 : x.toRat / y.toRat ≤ hi.toRat) :
    (Flt.div f x y).isFinite = true ∧ lo.toRat ≤ (Flt.div f x y).toRat ∧
      (Flt.div f x y).toRat ≤ hi.toRat := by
  cases x with
  | nan => exact absurd hx (by simp [Flt.isFinite])
  | inf _ => exact absurd hx (by simp [Flt.isFinite])
  | fin a m e =>
  cases y with
  | nan => exact absurd hy (by simp [Flt.isFinite])
  | inf _ => exact absurd hy (by simp [Flt.isFinite])
  | fin b n k =>
  have hn : n ≠ 0 := by
    intro h
    apply hy0
    simp [Flt.toRat, h]
  have hn' : (n : ℚ) ≠ 0 := by exact_mod_cast hn
  have key : (if xor a b = true then (-1 : ℚ) else 1)
      * ((m : ℚ) / (n : ℚ) * (2 : ℚ) ^ (e - k))
      = (Flt.fin a m e).toRat / (Flt.fin b n k).toRat := by
    rw [Flt.toRat_fin, Flt.toRat_fin, sign_xor, two_zpow_sub]
    have := (two_zpow_pos k).ne'
    cases a <;> cases b <;> simp <;> field_simp
  simp only [Flt.div, hn, if_false]
  exact roundNE_between f _ _ n _ (Nat.pos_of_ne_zero hn) hp lo hi hlo hhi
    (by rw [key]; exact h1) (by rw [key]; exact h2)

/-! ## Canonical form and storage -/

theorem quantumExp_upper (f : Fmt) (n d : Nat) (e : Int) (hn : 0 < n) (hd : 0 < d) :
    (n : ℚ) / (d : ℚ) * (2 : ℚ) ^ e
      < (2 : ℚ) ^ (f.prec : Int) * (2 : ℚ) ^ quantumExp f n d e := by
  have hd' : (0 : ℚ) < (d : ℚ) := by exact_mod_cast hd
  obtain ⟨_, ha⟩ := ilog2_spec n hn
  obtain ⟨hb, _⟩ := ilog2_spec d hd
  have ha' : (n : ℚ) < (2 : ℚ) ^ ((ilog2 n : Int) + 1) := by
    have : (n : ℚ) < ((2 ^ (ilog2 n + 1) : Nat) : ℚ) := by exact_mod_cast ha
    rw [show ((ilog2 n : Int) + 1) = ((ilog2 n + 1 : Nat) : Int) by push_cast; rfl, zpow_natCast]
    exact_mod_cast this
  have hb' : (2 : ℚ) ^ (ilog2 d : Int) ≤ (d : ℚ) := by
    rw [zpow_natCast]; exact_mod_cast hb
  -- the value is below `2^(prec+1)` quanta at the first guess
  have hbase : (n : ℚ) / (d : ℚ) * (2 : ℚ) ^ e
      < (2 : ℚ) ^ ((f.prec : Int) + 1)
        * (2 : ℚ) ^ (max (e + (ilog2 n : Int) - (ilog2 d : Int) - (f.prec : Int)) f.qmin) := by
    have h1 : (n : ℚ) / (d : ℚ) < (2 : ℚ) ^ ((ilog2 n : Int) + 1) / (2 : ℚ) ^ (ilog2 d : Int) := by
      rw [div_lt_div_iff₀ hd' (two_zpow_pos _)]
      calc (n : ℚ) * (2 : ℚ) ^ (ilog2 d : Int)
          ≤ (n : ℚ) * (d : ℚ) := mul_le_mul_of_nonneg_left hb' (by positivity)
        _ < (2 : ℚ) ^ ((ilog2 n : Int) + 1) * (d : ℚ) := mul_lt_mul_of_pos_right ha' hd'
    have h2 : (2 : ℚ) ^ ((ilog2 n : Int) + 1) / (2 : ℚ) ^ (ilog2 d : Int) * (2 : ℚ) ^ e
        = (2 : ℚ) ^ ((f.prec : Int) + 1)
          * (2 : ℚ) ^ (e + (ilog2 n : Int) - (ilog2 d : Int) - (f.prec : Int)) := by
      rw [← two_zpow_sub, ← zpow_add₀ (by norm_num : (2 : ℚ) ≠ 0),
        ← zpow_add₀ (by norm_num : (2 : ℚ) ≠ 0)]
      congr 1
      ring
    calc (n : ℚ) / (d : ℚ) * (2 : ℚ) ^ e
        < (2 : ℚ) ^ ((ilog2 n : Int) + 1) / (2 : ℚ) ^ (ilog2 d : Int) * (2 : ℚ) ^ e :=
          mul_lt_mul_of_pos_right h1 (two_zpow_pos e)
      _ = _ := h2
      _ ≤ _ := mul_le_mul_of_nonneg_left (two_zpow_mono (le_max_left _ _)) (two_zpow_pos _).le
  unfold quantumExp
  simp only []
  split
  · have e1 : (2 : ℚ) ^ (f.prec : Int) *
        (2 : ℚ) ^ (max (e + (ilog2 n : Int) - (ilog2 d : Int) - (f.prec : Int)) f.qmin + 1)
        = (2 : ℚ) ^ ((f.prec : Int) + 1)
          * (2 : ℚ) ^ (max (e + (ilog2 n : Int) - (ilog2 d : Int) - (f.prec : Int)) f.qmin) := by
      rw [← zpow_add₀ (by norm_num : (2 : ℚ) ≠ 0), ← zpow_add₀ (by norm_num : (2 : ℚ) ≠ 0)]
      congr 1
      ring
    rw [e1]
    exact hbase
  · rename_i h
    have h1 : ¬ (2 ^ f.prec * (scaled n d e (max (e + (ilog2 n : Int) - (ilog2 d : Int)
        - (f.prec : Int)) f.qmin)).2 ≤ (scaled n d e (max (e + (ilog2 n : Int) - (ilog2 d : Int)
        - (f.prec : Int)) f.qmin)).1) := by
      intro hc
      exact h ((Nat.le_div_iff_mul_le (scaled_pos n d e _ hd)).2 hc)
    have h2 := mt (le_scaled_iff n d e _ hd (2 ^ f.prec)).2 h1
    rw [not_le] at h2
    rw [zpow_natCast]
    exact_mod_cast h2

/-- The result of a rounding is a datum of the format in canonical form. -/
theorem roundNE_canonical (f : Fmt) (neg : Bool) (n d : Nat) (e : Int) (hd : 0 < d)
    (hp : 0 < f.prec) (hq : f.qmin ≤ f.qmax) : (roundNE f neg n d e).canonical f = true := by
  have h0 : (0 : Nat) < 2 ^ f.prec := Nat.pos_pow_of_pos _ (by decide)
  have hhalf : 2 ^ (f.prec - 1) < 2 ^ f.prec :=
    Nat.pow_lt_pow_right (by decide) (by omega)
  by_cases hn : n = 0
  · simp [roundNE, hn, Flt.canonical, h0, hq]
  · have hn' : 0 < n := Nat.pos_of_ne_zero hn
    obtain ⟨hq1, hq2⟩ := quantumExp_spec f n d e hn' hd
    have hup := quantumExp_upper f n d e hn' hd
    have hm : rne (scaled n d e (quantumExp f n d e)).1 (scaled n d e (quantumExp f n d e)).2
        ≤ 2 ^ f.prec := by
      apply rne_le _ _ _ (scaled_pos n d e _ hd)
      apply (scaled_le_iff n d e _ hd _).2
      push_cast
      rw [← zpow_natCast]
      exact hup.le
    have hnorm : quantumExp f n d e ≠ f.qmin → 2 ^ (f.prec - 1)
        ≤ rne (scaled n d e (quantumExp f n d e)).1 (scaled n d e (quantumExp f n d e)).2 := by
      intro hne
      rcases hq2 with h | h
      · exact absurd h hne
      · apply le_rne _ _ _ (scaled_pos n d e _ hd)
        apply (le_scaled_iff n d e _ hd _).2
        have hK : (((2 ^ (f.prec - 1) : Nat) : ℚ)) = (2 : ℚ) ^ ((f.prec : Int) - 1) := by
          push_cast
          rw [← zpow_natCast]
          congr 1
          omega
        rw [hK]
        exact h
    unfold roundNE
    simp only [hn, if_false]
    split
    · split
      · rfl
      · rename_i h1 h2
        simp only [Flt.canonical, Bool.and_eq_true, Bool.or_eq_true, decide_eq_true_eq]
        exact ⟨⟨⟨hhalf, by omega⟩, by omega⟩, Or.inl (Nat.le_refl _)⟩
    · split
      · rfl
      · rename_i h1 h2
        simp only [Flt.canonical, Bool.and_eq_true, Bool.or_eq_true, decide_eq_true_eq]
        refine ⟨⟨⟨by omega, hq1⟩, by omega⟩, ?_⟩
        by_cases hne : quantumExp f n d e = f.qmin
        · exact Or.inr hne
        · exact Or.inl (hnorm hne)

theorem rne_one (m : Nat) : rne m 1 = m := by
  unfold rne
  simp [Nat.mod_one]

/-- Rounding a canonical datum of the format gives the datum back. -/
theorem roundNE_of_canonical (f : Fmt) (a : Bool) (m : Nat) (e : Int) (hp : 0 < f.prec)
    (h : (Flt.fin a m e).canonical f = true) : roundNE f a m 1 e = Flt.fin a m e := by
  simp only [Flt.canonical, Bool.and_eq_true, Bool.or_eq_true, decide_eq_true_eq] at h
  obtain ⟨⟨⟨h1, h2⟩, h3⟩, h4⟩ := h
  by_cases hm : m = 0
  · subst hm
    have : e = f.qmin := by
      rcases h4 with h4 | h4
      · have := Nat.pos_pow_of_pos (f.prec - 1) (by decide : 0 < 2)
        omega
      · exact h4
    simp [roundNE, this]
  · have hm' : 0 < m := Nat.pos_of_ne_zero hm
    obtain ⟨hq1, hq2⟩ := quantumExp_spec f m 1 e hm' (by decide)
    have hup := quantumExp_upper f m 1 e hm' (by decide)
    simp only [Nat.cast_one, div_one] at hq2 hup
    have hmq : (m : ℚ) < (2 : ℚ) ^ (f.prec : Int) := by
      rw [zpow_natCast]; exact_mod_cast h1
    have hq : quantumExp f m 1 e = e := by
      apply le_antisymm
      · by_contra hc
        have hne : quantumExp f m 1 e ≠ f.qmin := by omega
        rcases hq2 with h | h
        · exact hne h
        · have h5 : (2 : ℚ) ^ ((f.prec : Int) - 1) * (2 : ℚ) ^ (e + 1)
              ≤ (2 : ℚ) ^ ((f.prec : Int) - 1) * (2 : ℚ) ^ quantumExp f m 1 e :=
            mul_le_mul_of_nonneg_left (two_zpow_mono (by omega)) (two_zpow_pos _).le
          have h6 : (2 : ℚ) ^ ((f.prec : Int) - 1) * (2 : ℚ) ^ (e + 1)
              = (2 : ℚ) ^ (f.prec : Int) * (2 : ℚ) ^ e := by
            rw [← zpow_add₀ (by norm_num : (2 : ℚ) ≠ 0), ← zpow_add₀ (by norm_num : (2 : ℚ) ≠ 0)]
            congr 1
            omega
          have h7 : (m : ℚ) * (2 : ℚ) ^ e < (2 : ℚ) ^ (f.prec : Int) * (2 : ℚ) ^ e :=
            mul_lt_mul_of_pos_right hmq (two_zpow_pos e)
          linarith
      · by_contra hc
        have hlt : quantumExp f m 1 e + 1 ≤ e := by omega
        have h5 : (2 : ℚ) ^ (f.prec : Int) * (2 : ℚ) ^ quantumExp f m 1 e
            ≤ (2 : ℚ) ^ ((f.prec : Int) - 1) * (2 : ℚ) ^ e := by
          have : (2 : ℚ) ^ (f.prec : Int) * (2 : ℚ) ^ quantumExp f m 1 e
              = (2 : ℚ) ^ ((f.prec : Int) - 1) * (2 : ℚ) ^ (quantumExp f m 1 e + 1) := by
            rw [← zpow_add₀ (by norm_num : (2 : ℚ) ≠ 0), ← zpow_add₀ (by norm_num : (2 : ℚ) ≠ 0)]
            congr 1
            omega
          rw [this]
          exact mul_le_mul_of_nonneg_left (two_zpow_mono hlt) (two_zpow_pos _).le
        have h6 : (m : ℚ) < (2 : ℚ) ^ ((f.prec : Int) - 1) := by
          have := lt_of_lt_of_le hup h5
          exact lt_of_mul_lt_mul_right this (two_zpow_pos e).le
        have h7 : m < 2 ^ (f.prec - 1) := by
          have hK : (((2 ^ (f.prec - 1) : Nat) : ℚ)) = (2 : ℚ) ^ ((f.prec : Int) - 1) := by
            push_cast
            rw [← zpow_natCast]
            congr 1
            omega
          rw [← hK] at h6
          exact_mod_cast h6
        rcases h4 with h4 | h4
        · omega
        · omega
    have hs : scaled m 1 e e = (m, 1) := by simp [scaled]
    unfold roundNE
    simp only [hm, if_false, hq, hs, rne_one]
    rw [if_neg (by omega), if_neg (by omega)]

theorem f32_mk (sgn : Bool) (E frac : Nat) (hE : E < 256) (hf : frac < 8388608) :
    f32 (Fin.ofNat ((if sgn then 2147483648 else 0) + (E * 8388608 + frac))) =
      (if E = 255 then (if frac = 0 then Flt.inf sgn else Flt.nan)
       else if E = 0 then Flt.fin sgn frac (-149)
       else Flt.fin sgn (8388608 + frac) ((E : Int) - 150)) := by
  have hw : ((if sgn then 2147483648 else 0) + (E * 8388608 + frac)) % 4294967296
      = (if sgn then 2147483648 else 0) + (E * 8388608 + frac) := by
    cases sgn <;> simp <;> omega
  have h1 : decide (2147483648 ≤ (if sgn then 2147483648 else 0) + (E * 8388608 + frac)) = sgn := by
    cases sgn
    · simp; omega
    · simp
  have h2 : ((if sgn then 2147483648 else 0) + (E * 8388608 + frac)) / 8388608 % 256 = E := by
    cases sgn <;> simp <;> omega
  have h3 : ((if sgn then 2147483648 else 0) + (E * 8388608 + frac)) % 8388608 = frac := by
    cases sgn <;> simp <;> omega
  unfold f32
  simp only [Fin.ofNat, hw, h1, h2, h3]

/-- Storing a canonical binary32 datum and reading it back gives the datum. -/
theorem f32_bits32 (x : Flt) (h : x.canonical binary32 = true) :
    f32 (Fin.ofNat (bits32 x)) = x := by
  cases x with
  | nan => decide
  | inf s => cases s <;> decide
  | fin s m e =>
    simp only [Flt.canonical, Bool.and_eq_true, Bool.or_eq_true, decide_eq_true_eq] at h
    obtain ⟨⟨⟨h1, h2⟩, h3⟩, h4⟩ := h
    have p1 : binary32.prec = 24 := rfl
    have p2 : binary32.qmin = -149 := rfl
    have p3 : binary32.qmax = 104 := rfl
    rw [p1] at h1 h4
    rw [p2] at h2 h4
    rw [p3] at h3
    norm_num at h1 h4
    by_cases hm : m < 8388608
    · have he : e = -149 := by omega
      have := f32_mk s 0 m (by decide) hm
      simp only [bits32, hm, if_true]
      simp only [Nat.zero_mul, Nat.zero_add] at this
      rw [this, he]
      simp
    · have hE : (e + 150).toNat < 256 := by omega
      have := f32_mk s (e + 150).toNat (m - 8388608) hE (by omega)
      simp only [bits32, hm, if_false]
      refine this.trans ?_
      have hne1 : (e + 150).toNat ≠ 255 := by omega
      have hne2 : (e + 150).toNat ≠ 0 := by omega
      simp only [hne1, hne2, if_false]
      have a1 : 8388608 + (m - 8388608) = m := by omega
      have a2 : (((e + 150).toNat : Nat) : Int) - 150 = e := by omega
      rw [a1, a2]

theorem f32_toWord32 (x : Flt) (h : x.canonical binary32 = true) : f32 (toWord32 x) = x := by
  have hc : Flt.cvt binary32 x = x := by
    cases x with
    | nan => rfl
    | inf _ => rfl
    | fin a m e => exact roundNE_of_canonical binary32 a m e (by decide) h
  unfold toWord32
  rw [hc]
  exact f32_bits32 x h

theorem Flt.add_canonical (f : Fmt) (hp : 0 < f.prec) (hq : f.qmin ≤ f.qmax) (x y : Flt) :
    (Flt.add f x y).canonical f = true := by
  have h0 : (0 : Nat) < 2 ^ f.prec := Nat.pos_pow_of_pos _ (by decide)
  cases x with
  | nan => cases y <;> rfl
  | inf a =>
    cases y with
    | nan => rfl
    | inf b => simp only [Flt.add]; split <;> rfl
    | fin _ _ _ => rfl
  | fin a m e =>
    cases y with
    | nan => rfl
    | inf b => rfl
    | fin b n k =>
      simp only [Flt.add]
      split
      · simp [Flt.canonical, h0, hq]
      · exact roundNE_canonical f _ _ 1 _ (by decide) hp hq

/-! ## The supersampling loop -/

theorem superSample_frame {σ : Type} (pf : Platform σ) (n : Nat) (x : GenState σ × Flt) :
    ∃ rng phase noiseBuffer fltw fltdp fltp fltphp phaserBuffer ipp,
      (superSample pf n x).1 =
        { x.1 with
          rng := rng, phase := phase, noiseBuffer := noiseBuffer, fltw := fltw, fltdp := fltdp,
          fltp := fltp, fltphp := fltphp, phaserBuffer := phaserBuffer, ipp := ipp } := by
  induction n generalizing x with
  | zero => exact ⟨_, _, _, _, _, _, _, _, _, rfl⟩
  | succ n ih =>
    obtain ⟨a, b, c, d, e, f, g, h, i, hx⟩ := ih (subSample pf x)
    exact ⟨a, b, c, d, e, f, g, h, i, by rw [superSample, hx]; rfl⟩

theorem superSample_nan {σ : Type} (pf : Platform σ) (n : Nat) (x : GenState σ × Flt)
    (hv : x.1.envelopeVolume = Flt.nan) (hn : 0 < n) : (superSample pf n x).2 = Flt.nan := by
  have key : ∀ (m : Nat) (y : GenState σ × Flt), y.1.envelopeVolume = Flt.nan → y.2 = Flt.nan →
      (superSample pf m y).2 = Flt.nan := by
    intro m
    induction m with
    | zero => intro y _ h2; exact h2
    | succ m ih =>
      intro y h1 h2
      rw [superSample]
      apply ih
      · exact h1
      · show fadd y.2 (fmul _ y.1.envelopeVolume) = Flt.nan
        rw [h1, fmul_nan_right, fadd_nan_right]
  cases n with
  | zero => exact absurd hn (Nat.lt_irrefl 0)
  | succ n =>
    rw [superSample]
    apply key
    · exact hv
    · show fadd x.2 (fmul _ x.1.envelopeVolume) = Flt.nan
      rw [hv, fmul_nan_right, fadd_nan_right]

/-! ## One output sample -/

theorem repeatStep_ctl {σ : Type} (pf : Platform σ) (st : GenState σ) :
    (repeatStep pf st).params = st.params ∧
    (repeatStep pf st).envelopeStage = st.envelopeStage ∧
    (repeatStep pf st).envelopeTime = st.envelopeTime ∧
    (repeatStep pf st).envelopeLength = st.envelopeLength ∧
    (repeatStep pf st).envelopeVolume = st.envelopeVolume ∧
    (repeatStep pf st).generatingSample = st.generatingSample ∧
    (repeatStep pf st).buffer = st.buffer ∧
    (repeatStep pf st).sampleCount = st.sampleCount ∧
    (repeatStep pf st).repeatLimit = st.repeatLimit := by
  by_cases h : st.repeatLimit ≠ 0 ∧ st.repeatLimit ≤ st.repeatTime + 1
  · have e : repeatStep pf st = _ := if_pos h
    rw [e]
    exact ⟨rfl, rfl, rfl, rfl, rfl, rfl, rfl, rfl, rfl⟩
  · have e : repeatStep pf st = _ := if_neg h
    rw [e]
    exact ⟨rfl, rfl, rfl, rfl, rfl, rfl, rfl, rfl, rfl⟩

theorem sampleStep_ctl {σ : Type} (pf : Platform σ) (st : GenState σ) :
    (sampleStep pf st).params = st.params ∧
    (sampleStep pf st).envelopeStage = nextStage st ∧
    (sampleStep pf st).envelopeTime = nextTime st ∧
    (sampleStep pf st).envelopeLength = st.envelopeLength ∧
    (sampleStep pf st).sampleCount = st.sampleCount ∧
    (sampleStep pf st).repeatLimit = st.repeatLimit ∧
    (sampleStep pf st).buffer.length = st.buffer.length + 1 := by
  obtain ⟨h1, h2, h3, h4, h5, h6, h7, h8, h9⟩ := repeatStep_ctl pf st
  obtain ⟨a, b, c, d, e, f, g, h, i, hx⟩ :=
    superSample_frame pf MAX_SUPERSAMPLING
      (phaserStep (envelopeStep pf (periodStep pf (slideStep (repeatStep pf st)))), fzero)
  unfold sampleStep
  simp only [hx]
  refine ⟨?_, ?_, ?_, ?_, ?_, ?_, ?_⟩
  · simp [phaserStep, envelopeStep, periodStep, slideStep, h1]
  · simp [phaserStep, envelopeStep, periodStep, slideStep, h2, h3, h4, nextStage]
  · simp [phaserStep, envelopeStep, periodStep, slideStep, h2, h3, h4, nextTime]
  · simp [phaserStep, envelopeStep, periodStep, slideStep, h4]
  · simp [phaserStep, envelopeStep, periodStep, slideStep, h8]
  · simp [phaserStep, envelopeStep, periodStep, slideStep, h9]
  · simp [phaserStep, envelopeStep, periodStep, slideStep, h7]

theorem sampleStep_generating {σ : Type} (pf : Platform σ) (st : GenState σ)
    (hmin : Flt.lt fzero (f32 st.params.minFrequencyValue) = false) :
    (sampleStep pf st).generatingSample =
      (if nextStage st = 3 ∧ nextStage st ≠ st.envelopeStage then false
       else st.generatingSample) := by
  obtain ⟨h1, h2, h3, h4, h5, h6, h7, h8, h9⟩ := repeatStep_ctl pf st
  obtain ⟨a, b, c, d, e, f, g, h, i, hx⟩ :=
    superSample_frame pf MAX_SUPERSAMPLING
      (phaserStep (envelopeStep pf (periodStep pf (slideStep (repeatStep pf st)))), fzero)
  unfold sampleStep
  simp only [hx]
  simp only [phaserStep, envelopeStep, periodStep, slideStep, h1, h2, h3, h4, h6, hmin, nextStage]
  by_cases hadv : st.envelopeLength.getD st.envelopeStage.toNat 0 < st.envelopeTime + 1
  · simp only [List.getD_eq_getElem?_getD] at hadv
    simp [hadv]
  · simp only [List.getD_eq_getElem?_getD] at hadv
    simp [hadv]

theorem sampleStep_volume {σ : Type} (pf : Platform σ) (st : GenState σ) :
    (sampleStep pf st).envelopeVolume = nextVolume pf st := by
  obtain ⟨h1, h2, h3, h4, h5, h6, h7, h8, h9⟩ := repeatStep_ctl pf st
  obtain ⟨a, b, c, d, e, f, g, h, i, hx⟩ :=
    superSample_frame pf MAX_SUPERSAMPLING
      (phaserStep (envelopeStep pf (periodStep pf (slideStep (repeatStep pf st)))), fzero)
  unfold sampleStep
  simp only [hx]
  simp only [phaserStep, envelopeStep, periodStep, slideStep, h1, h2, h3, h4, h5, nextVolume,
    nextStage, nextTime]
  by_cases hadv : st.envelopeLength.getD st.envelopeStage.toNat 0 < st.envelopeTime + 1
  · simp only [List.getD_eq_getElem?_getD] at hadv
    simp [hadv]
  · simp only [List.getD_eq_getElem?_getD] at hadv
    simp [hadv]

theorem sampleStep_buffer {σ : Type} (pf : Platform σ) (st : GenState σ) :
    ∃ x, (sampleStep pf st).buffer = st.buffer ++ [finalSample x] ∧
      (nextVolume pf st = Flt.nan → x = Flt.nan) := by
  obtain ⟨h1, h2, h3, h4, h5, h6, h7, h8, h9⟩ := repeatStep_ctl pf st
  obtain ⟨a, b, c, d, e, f, g, h, i, hx⟩ :=
    superSample_frame pf MAX_SUPERSAMPLING
      (phaserStep (envelopeStep pf (periodStep pf (slideStep (repeatStep pf st)))), fzero)
  refine ⟨(superSample pf MAX_SUPERSAMPLING
      (phaserStep (envelopeStep pf (periodStep pf (slideStep (repeatStep pf st)))), fzero)).2,
    ?_, ?_⟩
  · unfold sampleStep
    simp only [hx]
    simp [phaserStep, envelopeStep, periodStep, slideStep, h7]
  · intro hv
    apply superSample_nan
    · rw [← hv, ← sampleStep_volume]
      unfold sampleStep
      simp only [hx]
    · decide

/-! ## The sample loop -/

theorem sampleLoop_succ {σ : Type} (pf : Platform σ) (n i : Nat) (st : GenState σ) :
    sampleLoop pf (n + 1) i st =
      if !st.generatingSample then { st with sampleCount := i }
      else sampleLoop pf n (i + 1) (sampleStep pf st) := rfl

theorem sampleLoop_running {σ : Type} (pf : Platform σ) (n i : Nat) (st : GenState σ)
    (h : ∀ k, k < n → ((sampleStep pf)^[k] st).generatingSample = true) :
    sampleLoop pf n i st = (sampleStep pf)^[n] st := by
  induction n generalizing i st with
  | zero => rfl
  | succ n ih =>
    have h0 : st.generatingSample = true := h 0 (Nat.succ_pos n)
    rw [sampleLoop_succ, h0, Function.iterate_succ_apply]
    apply ih
    intro k hk
    have := h (k + 1) (Nat.succ_lt_succ hk)
    rwa [Function.iterate_succ_apply] at this

theorem sampleLoop_stops {σ : Type} (pf : Platform σ) (n m i : Nat) (st : GenState σ)
    (hm : m < n) (h : ∀ k, k < m → ((sampleStep pf)^[k] st).generatingSample = true)
    (hstop : ((sampleStep pf)^[m] st).generatingSample = false) :
    sampleLoop pf n i st = { (sampleStep pf)^[m] st with sampleCount := i + m } := by
  induction m generalizing n i st with
  | zero =>
    obtain ⟨n, rfl⟩ : ∃ n', n = n' + 1 := ⟨n - 1, by omega⟩
    have h0 : st.generatingSample = false := hstop
    rw [sampleLoop_succ, if_pos (by rw [h0]; rfl)]
    rfl
  | succ m ih =>
    obtain ⟨n, rfl⟩ : ∃ n', n = n' + 1 := ⟨n - 1, by omega⟩
    have h0 : st.generatingSample = true := h 0 (Nat.succ_pos m)
    rw [sampleLoop_succ, h0, Function.iterate_succ_apply]
    have := ih n (i + 1) (sampleStep pf st) (by omega)
      (fun k hk => by
        have := h (k + 1) (Nat.succ_lt_succ hk)
        rwa [Function.iterate_succ_apply] at this)
      (by rwa [Function.iterate_succ_apply] at hstop)
    simp only [Bool.not_true, Bool.false_eq_true, if_false]
    rw [this, Nat.add_assoc, Nat.add_comm 1 m]

theorem sampleLoop_bounds {σ : Type} (pf : Platform σ) (n i : Nat) (st : GenState σ)
    (hb : st.buffer.length = i) (hc : st.sampleCount = 0) :
    (sampleLoop pf n i st).sampleCount ≤ (sampleLoop pf n i st).buffer.length ∧
    ((sampleLoop pf n i st).sampleCount = 0 ∨
      (i ≤ (sampleLoop pf n i st).sampleCount ∧ (sampleLoop pf n i st).sampleCount < i + n)) := by
  induction n generalizing i st with
  | zero =>
    show st.sampleCount ≤ st.buffer.length ∧ (st.sampleCount = 0 ∨ _)
    exact ⟨by rw [hc]; exact Nat.zero_le _, Or.inl hc⟩
  | succ n ih =>
    rw [sampleLoop_succ]
    by_cases hg : st.generatingSample = true
    · rw [if_neg (by rw [hg]; decide)]
      obtain ⟨_, _, _, _, h5, _, h7⟩ := sampleStep_ctl pf st
      have := ih (i + 1) (sampleStep pf st) (by rw [h7, hb]) (by rw [h5, hc])
      refine ⟨this.1, ?_⟩
      rcases this.2 with h3 | h3
      · exact Or.inl h3
      · exact Or.inr (by omega)
    · simp only [Bool.not_eq_true] at hg
      rw [if_pos (by rw [hg]; rfl)]
      exact ⟨by show i ≤ st.buffer.length; rw [hb], Or.inr ⟨Nat.le_refl i, by show i < i + (n + 1); omega⟩⟩

theorem genSetup_init {σ : Type} (pf : Platform σ) (P : WaveParams) (s : σ) :
    (genSetup pf P s).buffer = [] ∧ (genSetup pf P s).sampleCount = 0 ∧
    (genSetup pf P s).generatingSample = true ∧ (genSetup pf P s).params = clampParams P ∧
    (genSetup pf P s).envelopeStage = 0 ∧ (genSetup pf P s).envelopeTime = 0 ∧
    (genSetup pf P s).envelopeLength =
      [stageLength (clampParams P).attackTimeValue, stageLength (clampParams P).sustainTimeValue,
       stageLength (clampParams P).decayTimeValue] :=
  ⟨rfl, rfl, rfl, rfl, rfl, rfl, rfl⟩

theorem genSetup_seeded {σ : Type} (pf : Platform σ) (P : WaveParams) (s1 s2 : σ)
    (h : P.randSeed ≠ 0) : genSetup pf P s1 = genSetup pf P s2 := by
  simp only [genSetup, h, ne_eq, not_false_eq_true, if_true]

/-- C1 (determinism): for every parameter set with `randSeed != 0` and every two states
`s1`, `s2` of the shared generator, the two calls of `GenerateWave` return the same wave:
the same frame count and the same sample at every frame index. The first noise-table fill
and the state every later refill continues from are those of `srand(randSeed)`. -/
theorem GenerateWave_deterministic {σ : Type} (pf : Platform σ) (P : WaveParams) (s1 s2 : σ)
    (h : P.randSeed ≠ 0) :
    (GenerateWave pf P s1).1 = (GenerateWave pf P s2).1 ∧
    (GenerateWave pf P s1).1.frameCount = (GenerateWave pf P s2).1.frameCount ∧
    (∀ i, (GenerateWave pf P s1).1.data.get? i = (GenerateWave pf P s2).1.data.get? i) ∧
    (genSetup pf P s1).noiseBuffer = (fillNoise pf 32 (pf.srand P.randSeed.val)).1 ∧
    (genSetup pf P s1).rng = (fillNoise pf 32 (pf.srand P.randSeed.val)).2 := by
  have e : GenerateWave pf P s1 = GenerateWave pf P s2 := by
    unfold GenerateWave
    rw [genSetup_seeded pf P s1 s2 h]
  refine ⟨by rw [e], by rw [e], fun i => by rw [e], ?_, ?_⟩
  · simp only [genSetup, h, ne_eq, not_false_eq_true, if_true]
  · simp only [genSetup, h, ne_eq, not_false_eq_true, if_true]

/-- Witness of C1: seed 42 on the reference platform, generator states 0 and 1. -/
theorem GenerateWave_deterministic_witness :
    seededParams.randSeed ≠ 0 ∧
    (GenerateWave refPlatform seededParams 0).1 = (GenerateWave refPlatform seededParams 1).1 :=
  ⟨by decide, (GenerateWave_deterministic refPlatform seededParams 0 1 (by decide)).1⟩

/-- C3 (bounded output): for every parameter set the frame count of the wave returned by
`GenerateWave` is at most 441000, and the wave data holds exactly that many samples. -/
theorem GenerateWave_frameCount_le {σ : Type} (pf : Platform σ) (P : WaveParams) (s : σ) :
    (GenerateWave pf P s).1.frameCount ≤ 441000 ∧
    (GenerateWave pf P s).1.data.length = (GenerateWave pf P s).1.frameCount := by
  obtain ⟨hb, hc, _⟩ := genSetup_init pf P s
  obtain ⟨h1, h2⟩ :=
    sampleLoop_bounds pf maxWaveSamples 0 (genSetup pf P s) (by rw [hb]; rfl) hc
  simp only [GenerateWave, Nat.div_one, Nat.mul_one, List.length_take]
  constructor
  · have e : maxWaveSamples = 441000 := rfl
    rcases h2 with h2 | h2
    · rw [h2]; exact Nat.zero_le _
    · rw [e] at h2 ⊢
      omega
  · exact Nat.min_eq_left h1

theorem sampleStep_facts {σ : Type} (pf : Platform σ) (st : GenState σ)
    (hmin : Flt.lt fzero (f32 st.params.minFrequencyValue) = false) :
    (sampleStep pf st).params = st.params ∧
    (sampleStep pf st).envelopeStage = nextStage st ∧
    (sampleStep pf st).envelopeTime = nextTime st ∧
    (sampleStep pf st).envelopeLength = st.envelopeLength ∧
    (sampleStep pf st).sampleCount = st.sampleCount ∧
    (sampleStep pf st).generatingSample =
      (if nextStage st = 3 ∧ nextStage st ≠ st.envelopeStage then false
       else st.generatingSample) ∧
    (sampleStep pf st).envelopeVolume = nextVolume pf st ∧
    ∃ x, (sampleStep pf st).buffer = st.buffer ++ [finalSample x] ∧
      (nextVolume pf st = Flt.nan → x = Flt.nan) := by
  obtain ⟨h1, h2, h3, h4, h5, _, _⟩ := sampleStep_ctl pf st
  exact ⟨h1, h2, h3, h4, h5, sampleStep_generating pf st hmin, sampleStep_volume pf st,
    sampleStep_buffer pf st⟩

/-- While the envelope time stays within the length of the current stage and the frequency
limit is off, the samples leave the stage and the `generatingSample` flag as they are. -/
theorem stage_run {σ : Type} (pf : Platform σ) (k : Nat) (st : GenState σ)
    (hmin : Flt.lt fzero (f32 st.params.minFrequencyValue) = false)
    (hk : st.envelopeTime + k ≤ st.envelopeLength.getD st.envelopeStage.toNat 0) :
    ((sampleStep pf)^[k] st).envelopeStage = st.envelopeStage ∧
    ((sampleStep pf)^[k] st).envelopeTime = st.envelopeTime + k ∧
    ((sampleStep pf)^[k] st).envelopeLength = st.envelopeLength ∧
    ((sampleStep pf)^[k] st).params = st.params ∧
    ((sampleStep pf)^[k] st).generatingSample = st.generatingSample ∧
    ((sampleStep pf)^[k] st).sampleCount = st.sampleCount := by
  induction k generalizing st with
  | zero => exact ⟨rfl, by simp, rfl, rfl, rfl, rfl⟩
  | succ k ih =>
    obtain ⟨h1, h2, h3, h4, h5, h6, _, _⟩ := sampleStep_facts pf st hmin
    have hnot : ¬ st.envelopeLength.getD st.envelopeStage.toNat 0 < st.envelopeTime + 1 := by
      push_cast at hk
      omega
    have hs : nextStage st = st.envelopeStage := by simp only [nextStage, hnot, if_false]
    have ht : nextTime st = st.envelopeTime + 1 := by simp only [nextTime, hnot, if_false]
    rw [hs] at h2 h6
    rw [ht] at h3
    have h6' : (sampleStep pf st).generatingSample = st.generatingSample := by
      rw [h6]; simp
    rw [Function.iterate_succ_apply]
    obtain ⟨a1, a2, a3, a4, a5, a6⟩ := ih (sampleStep pf st) (by rw [h1]; exact hmin)
      (by rw [h2, h3, h4]; push_cast at hk ⊢; omega)
    refine ⟨by rw [a1, h2], by rw [a2, h3]; push_cast; ring, by rw [a3, h4], by rw [a4, h1],
      by rw [a5, h6'], by rw [a6, h5]⟩

/-- C4 at the failing input: with attack time `3.0` and every other field 0, on every
platform and from every generator state, `GenerateWave` returns a frame count of 0 although
the attack stage length is 900000: the sample loop runs its 441000 iterations without
reaching its `break`, the only place where `sampleCount` is assigned. -/
theorem GenerateWave_longAttack_frameCount_zero {σ : Type} (pf : Platform σ) (s : σ) :
    (GenerateWave pf longAttackParams s).1.frameCount = 0 ∧
    stageLength longAttackParams.attackTimeValue = 900000 := by
  obtain ⟨hb, hc, hg, hp, hs, ht, hl⟩ := genSetup_init pf longAttackParams s
  have hclamp : clampParams longAttackParams = longAttackParams := by decide
  have hL : stageLength longAttackParams.attackTimeValue = 900000 := by decide
  rw [hclamp] at hp hl
  have hmin : Flt.lt fzero (f32 (genSetup pf longAttackParams s).params.minFrequencyValue) = false := by
    rw [hp]; decide
  have hrun : ∀ k, k < maxWaveSamples + 1 →
      ((sampleStep pf)^[k] (genSetup pf longAttackParams s)).generatingSample = true ∧
      ((sampleStep pf)^[k] (genSetup pf longAttackParams s)).sampleCount = 0 := by
    intro k hk
    have hk' : k < 441001 := hk
    obtain ⟨_, _, _, _, a5, a6⟩ := stage_run pf k (genSetup pf longAttackParams s) hmin
      (by rw [ht, hs, hl, hL]; simp; omega)
    exact ⟨by rw [a5, hg], by rw [a6, hc]⟩
  refine ⟨?_, hL⟩
  simp only [GenerateWave, Nat.div_one]
  rw [sampleLoop_running pf maxWaveSamples 0 _ (fun k hk => (hrun k (Nat.lt_succ_of_lt hk)).1)]
  exact (hrun maxWaveSamples (Nat.lt_succ_self _)).2

/-- C2 at the failing input: for the all-zero parameter set (the record `LoadWaveParams`
returns for a malformed file), on every platform and from every generator state,
`GenerateWave` returns 3 frames of which frames 1 and 2 are NaN, outside `[-1.0, 1.0]`: the
decay volume is `1.0f - 0.0f/0` and the two clamping comparisons are false on a NaN. -/
theorem GenerateWave_zero_params_nan {σ : Type} (pf : Platform σ) (s : σ) :
    (GenerateWave pf WaveParams.zero s).1.frameCount = 3 ∧
    (GenerateWave pf WaveParams.zero s).1.data.get? 1 = some Flt.nan ∧
    (GenerateWave pf WaveParams.zero s).1.data.get? 2 = some Flt.nan ∧
    inUnitRange Flt.nan = false := by
  obtain ⟨hb, hc, hg, hp, hs, ht, hl⟩ := genSetup_init pf WaveParams.zero s
  have hclamp : clampParams WaveParams.zero = WaveParams.zero := by decide
  have hL : stageLength WaveParams.zero.attackTimeValue = 0 ∧
      stageLength WaveParams.zero.sustainTimeValue = 0 ∧
      stageLength WaveParams.zero.decayTimeValue = 0 := by decide
  rw [hclamp] at hp hl
  rw [hL.1, hL.2.1, hL.2.2] at hl
  have hz : Flt.lt fzero (f32 WaveParams.zero.minFrequencyValue) = false := by decide
  -- first sample: attack ends at once
  obtain ⟨p1, s1, t1, l1, c1, g1, _, x1, b1, _⟩ :=
    sampleStep_facts pf (genSetup pf WaveParams.zero s) (by rw [hp]; exact hz)
  have n1 : nextStage (genSetup pf WaveParams.zero s) = 1 := by
    simp [nextStage, hs, ht, hl]
  have m1 : nextTime (genSetup pf WaveParams.zero s) = 0 := by
    simp [nextTime, hs, ht, hl]
  rw [n1, hs] at g1
  rw [n1] at s1
  rw [m1] at t1
  rw [hl] at l1
  rw [hp] at p1
  rw [hb] at b1
  rw [hc] at c1
  simp [hg] at g1
  -- second sample: sustain ends at once, the decay volume is 0/0
  obtain ⟨p2, s2, t2, l2, c2, g2, v2, x2, b2, hx2⟩ :=
    sampleStep_facts pf (sampleStep pf (genSetup pf WaveParams.zero s)) (by rw [p1]; exact hz)
  have n2 : nextStage (sampleStep pf (genSetup pf WaveParams.zero s)) = 2 := by
    simp [nextStage, s1, t1, l1]
  have m2 : nextTime (sampleStep pf (genSetup pf WaveParams.zero s)) = 0 := by
    simp [nextTime, s1, t1, l1]
  have w2 : nextVolume pf (sampleStep pf (genSetup pf WaveParams.zero s)) = Flt.nan := by
    simp only [nextVolume, n2, m2, l1]
    rw [if_pos trivial]
    decide
  rw [n2, s1] at g2
  rw [n2] at s2
  rw [m2] at t2
  rw [l1] at l2
  rw [p1] at p2
  rw [b1, hx2 w2] at b2
  rw [c1] at c2
  rw [w2] at v2
  simp [g1] at g2
  -- third sample: decay ends at once, synthesis is flagged finished, the volume stays NaN
  obtain ⟨_, s3, _, _, c3, g3, _, x3, b3, hx3⟩ :=
    sampleStep_facts pf (sampleStep pf (sampleStep pf (genSetup pf WaveParams.zero s)))
      (by rw [p2]; exact hz)
  have n3 : nextStage (sampleStep pf (sampleStep pf (genSetup pf WaveParams.zero s))) = 3 := by
    simp [nextStage, s2, t2, l2]
  have w3 : nextVolume pf (sampleStep pf (sampleStep pf (genSetup pf WaveParams.zero s)))
      = Flt.nan := by
    simp [nextVolume, n3, v2]
  rw [n3, s2] at g3
  rw [b2, hx3 w3] at b3
  rw [c2] at c3
  simp at g3
  have hfin : finalSample Flt.nan = Flt.nan := by decide
  rw [hfin] at b3
  have hloop := sampleLoop_stops pf maxWaveSamples 3 0 (genSetup pf WaveParams.zero s)
    (by decide)
    (by
      intro k hk
      have : k = 0 ∨ k = 1 ∨ k = 2 := by omega
      rcases this with rfl | rfl | rfl
      · exact hg
      · exact g1
      · exact g2)
    g3
  refine ⟨?_, ?_, ?_, by decide⟩ <;> simp [GenerateWave, hloop, b3]

/-! ## Parameter codec -/

theorem bytesWord_wordBytes (w : Word32) : bytesWord (wordBytes w) = w := by
  apply Fin.ext
  have hw := w.isLt
  simp only [bytesWord, wordBytes, List.getD_cons_zero, List.getD_cons_succ, Fin.ofNat]
  show (w.val % 256 % 256 + 256 * (w.val / 256 % 256 % 256) + 65536 * (w.val / 65536 % 256 % 256)
      + 16777216 * (w.val / 16777216 % 256 % 256)) % 4294967296 = w.val
  omega

theorem WaveParams.ofBytes_bytes (p : WaveParams) : WaveParams.ofBytes p.bytes = p := by
  cases p
  simp only [WaveParams.ofBytes, WaveParams.bytes, WaveParams.words, List.flatMap_cons,
    List.flatMap_nil, wordBytes, List.cons_append, List.nil_append, List.append_nil,
    List.drop_succ_cons, List.drop_zero, List.take_succ_cons, List.take_zero, Nat.mul_zero,
    Nat.reduceMul]
  simp only [← wordBytes.eq_1, bytesWord_wordBytes]

theorem WaveParams.bytes_length (p : WaveParams) : p.bytes.length = 96 := by
  cases p
  rfl

theorem load_save (p : WaveParams) :
    LoadWaveParams true (SaveWaveParams p true true) = p := by
  have h96 := WaveParams.bytes_length p
  simp only [LoadWaveParams, SaveWaveParams, fread, sizeofWaveParams, shortBytes, bytesShort]
  have e1 : ((Fin.ofNat 200 : Byte) : Nat) + 256 * ((Fin.ofNat 0 : Byte) : Nat) = 200 := by decide
  have e2 : ((Fin.ofNat 96 : Byte) : Nat) + 256 * ((Fin.ofNat 0 : Byte) : Nat) = 96 := by decide
  have e3 : List.drop 96 WaveParams.zero.bytes = [] := by decide
  have e4 : List.take 96 p.bytes = p.bytes := List.take_of_length_le (by rw [h96])
  simp [h96, WaveParams.ofBytes_bytes, e1, e2, e3, e4]

theorem fread_short (l : List Byte) :
    bytesShort (fread (shortBytes 0) 2 l).1 = bytesShort (l.take 2) := by
  rcases l with _ | ⟨a, _ | ⟨b, l⟩⟩ <;> simp [fread, bytesShort, shortBytes] <;> rfl

theorem fread_signature (l : List Byte) :
    ((fread [0, 0, 0, 0, 0] 4 l).1.getD 0 0 = 114 ∧ (fread [0, 0, 0, 0, 0] 4 l).1.getD 1 0 = 70 ∧
      (fread [0, 0, 0, 0, 0] 4 l).1.getD 2 0 = 88 ∧ (fread [0, 0, 0, 0, 0] 4 l).1.getD 3 0 = 32)
    ↔ l.take 4 = [114, 70, 88, 32] := by
  rcases l with _ | ⟨a, _ | ⟨b, _ | ⟨c, _ | ⟨d, l⟩⟩⟩⟩ <;> simp [fread]

/-- C6 (malformed decode): for every file content whose first four bytes are not `"rFX "`,
or whose version field is not 200, or whose length field is not 96, `LoadWaveParams`
returns the all-zero parameter set (whatever the file extension test gives); being a total
function, it returns on every content. -/
theorem LoadWaveParams_malformed (isRfx : Bool) (content : List Byte)
    (h : fileSignature content ≠ [114, 70, 88, 32] ∨ fileVersion content ≠ 200 ∨
      fileLength content ≠ 96) :
    LoadWaveParams isRfx (some content) = WaveParams.zero := by
  cases isRfx
  · rfl
  · simp only [LoadWaveParams, if_true]
    by_cases hs : content.take 4 = [114, 70, 88, 32]
    · rw [if_pos ((fread_signature content).2 hs)]
      have hv : bytesShort (fread (shortBytes 0) 2 (fread [0, 0, 0, 0, 0] 4 content).2).1
          = fileVersion content := by
        rw [fread_short]; rfl
      have hl : bytesShort (fread (shortBytes 0) 2
          (fread (shortBytes 0) 2 (fread [0, 0, 0, 0, 0] 4 content).2).2).1
          = fileLength content := by
        rw [fread_short]
        simp [fileLength, fread, List.drop_drop]
      rw [hv, hl]
      rcases h with h | h | h
      · exact absurd hs h
      · simp [h]
      · simp [h, sizeofWaveParams]
    · rw [if_neg (fun hc => hs ((fread_signature content).1 hc))]

/-- C5 (codec round trip): for every parameter set `p`, `LoadWaveParams` applied to the
file written by `SaveWaveParams p` returns `p` (all 24 fields); in particular for the
record with seed 42 and every `float` field `0.5`. -/
theorem LoadWaveParams_SaveWaveParams_roundtrip (p : WaveParams) :
    LoadWaveParams true (SaveWaveParams p true true) = p ∧
    LoadWaveParams true (SaveWaveParams halfParams true true) = halfParams ∧
    halfParams.randSeed = 42 ∧ f32 halfParams.attackTimeValue = lit32 1 2 :=
  ⟨load_save p, load_save halfParams, rfl, by decide⟩

/-- Witness of C6: a file with signature `"rFX "`, version 201 and length 96. -/
theorem LoadWaveParams_malformed_witness :
    fileVersion wrongVersionFile ≠ 200 ∧
    LoadWaveParams true (some wrongVersionFile) = WaveParams.zero :=
  ⟨by decide, LoadWaveParams_malformed true wrongVersionFile (Or.inr (Or.inl (by decide)))⟩

/-- C7 (encode layout): for every parameter set `p`, `SaveWaveParams` writes exactly 104
bytes: the signature `"rFX "`, the version 200 and the length 96 as little-endian 16-bit
values, then the 96 bytes of the record: byte `j` of field `i` (in declaration order, 24
fields of 4 bytes, no padding) is at offset `8 + 4*i + j`. -/
theorem SaveWaveParams_layout (p : WaveParams) :
    SaveWaveParams p true true = some ([114, 70, 88, 32] ++ [200, 0] ++ [96, 0] ++ p.bytes) ∧
    ([114, 70, 88, 32] ++ [200, 0] ++ [96, 0] ++ p.bytes : List Byte).length = 104 ∧
    bytesShort [200, 0] = 200 ∧ bytesShort [96, 0] = 96 ∧
    p.words.length = 24 ∧ p.bytes.length = 96 ∧
    (∀ i j, i < 24 → j < 4 →
      (([114, 70, 88, 32] ++ [200, 0] ++ [96, 0] ++ p.bytes : List Byte).get? (8 + 4 * i + j)
        = (wordBytes (p.words.getD i 0)).get? j)) := by
  have h96 := WaveParams.bytes_length p
  refine ⟨rfl, by simp [h96], by decide, by decide, rfl, h96, ?_⟩
  intro i j hi hj
  cases p
  interval_cases i <;> interval_cases j <;> rfl

/-- C10 (mutation frame): on every platform (every outcome of the random source),
`WaveMutate` leaves `randSeed`, `waveTypeValue` and `minFrequencyValue` as they are; the
two `int` fields are therefore never changed. -/
theorem WaveMutate_frame {σ : Type} (pf : Platform σ) (p : WaveParams) :
    (WaveMutate pf p).1.randSeed = p.randSeed ∧
    (WaveMutate pf p).1.waveTypeValue = p.waveTypeValue ∧
    (WaveMutate pf p).1.minFrequencyValue = p.minFrequencyValue :=
  ⟨rfl, rfl, rfl⟩

/-! ## Order facts -/

theorem Flt.lt_irrefl (x : Flt) : Flt.lt x x = false := by
  cases x with
  | nan => rfl
  | inf a => cases a <;> rfl
  | fin a m e => simp [Flt.lt]

theorem Flt.le_refl (x : Flt) (h : x.isNaN = false) : Flt.le x x = true := by
  cases x with
  | nan => exact absurd h (by decide)
  | inf a => cases a <;> rfl
  | fin a m e => simp [Flt.le, Flt.lt, Flt.eq]

theorem Flt.le_of_not_lt (x y : Flt) (hx : x.isNaN = false) (hy : y.isNaN = false)
    (h : Flt.lt x y = false) : Flt.le y x = true := by
  cases x with
  | nan => exact absurd hx (by decide)
  | inf a =>
    cases y with
    | nan => exact absurd hy (by decide)
    | inf b => cases a <;> cases b <;> simp_all [Flt.le, Flt.lt, Flt.eq]
    | fin b n k => cases a <;> simp_all [Flt.le, Flt.lt, Flt.eq]
  | fin a m e =>
    cases y with
    | nan => exact absurd hy (by decide)
    | inf b => cases b <;> simp_all [Flt.le, Flt.lt, Flt.eq]
    | fin b n k =>
      simp only [Flt.lt, decide_eq_false_iff_not, not_lt] at h
      simp only [Flt.le, Flt.lt, Flt.eq, Bool.or_eq_true, decide_eq_true_eq]
      rw [min_comm k e]
      exact lt_or_eq_of_le h

theorem clampParams_eq (p : WaveParams) :
    clampParams p =
      { p with
        minFrequencyValue :=
          if Flt.lt (f32 p.startFrequencyValue) (f32 p.minFrequencyValue)
          then p.startFrequencyValue else p.minFrequencyValue
        slideValue :=
          if Flt.lt (f32 p.slideValue) (f32 p.deltaSlideValue)
          then p.deltaSlideValue else p.slideValue } := by
  by_cases a : Flt.lt (f32 p.startFrequencyValue) (f32 p.minFrequencyValue) = true <;>
  by_cases b : Flt.lt (f32 p.slideValue) (f32 p.deltaSlideValue) = true <;>
  simp [clampParams, a, b]

/-- C8 (clamp invariants), amended: for every parameter set, after the security check of
`GenerateWave` the effective minimum frequency is the start frequency if
`minFrequency > startFrequency` and the given one otherwise, the effective slide is the
delta slide if `slide < deltaSlide` and the given one otherwise, and the start frequency
and the delta slide are unchanged (NaN fields included); when the minimum and the start
frequency are not NaN the effective minimum frequency is `<=` the start frequency, when
the slide and the delta slide are not NaN the effective slide is `>=` the delta slide;
with `minFrequency = 0.9` and `startFrequency = 0.1` the effective minimum frequency
is `0.1`. -/
theorem clampParams_spec (p : WaveParams) :
    (clampParams p).minFrequencyValue =
      (if Flt.lt (f32 p.startFrequencyValue) (f32 p.minFrequencyValue) then p.startFrequencyValue
       else p.minFrequencyValue) ∧
    (clampParams p).slideValue =
      (if Flt.lt (f32 p.slideValue) (f32 p.deltaSlideValue) then p.deltaSlideValue
       else p.slideValue) ∧
    (clampParams p).startFrequencyValue = p.startFrequencyValue ∧
    (clampParams p).deltaSlideValue = p.deltaSlideValue ∧
    ((f32 p.minFrequencyValue).isNaN = false → (f32 p.startFrequencyValue).isNaN = false →
      Flt.le (f32 (clampParams p).minFrequencyValue)
        (f32 (clampParams p).startFrequencyValue) = true) ∧
    ((f32 p.slideValue).isNaN = false → (f32 p.deltaSlideValue).isNaN = false →
      Flt.le (f32 (clampParams p).deltaSlideValue) (f32 (clampParams p).slideValue) = true) ∧
    (clampParams clampExampleParams).minFrequencyValue = bitsPoint1 := by
  have e := clampParams_eq p
  have e1 : (clampParams p).startFrequencyValue = p.startFrequencyValue := by rw [e]
  have e2 : (clampParams p).deltaSlideValue = p.deltaSlideValue := by rw [e]
  have e3 : (clampParams p).minFrequencyValue =
      (if Flt.lt (f32 p.startFrequencyValue) (f32 p.minFrequencyValue) then p.startFrequencyValue
       else p.minFrequencyValue) := by rw [e]
  have e4 : (clampParams p).slideValue =
      (if Flt.lt (f32 p.slideValue) (f32 p.deltaSlideValue) then p.deltaSlideValue
       else p.slideValue) := by rw [e]
  refine ⟨e3, e4, e1, e2, fun h1 h2 => ?_, fun h3 h4 => ?_, by decide⟩
  · rw [e3, e1]
    by_cases h : Flt.lt (f32 p.startFrequencyValue) (f32 p.minFrequencyValue) = true
    · rw [if_pos h]; exact Flt.le_refl _ h2
    · rw [if_neg h]
      exact Flt.le_of_not_lt _ _ h2 h1 (by simpa using h)
  · rw [e4, e2]
    by_cases h : Flt.lt (f32 p.slideValue) (f32 p.deltaSlideValue) = true
    · rw [if_pos h]; exact Flt.le_refl _ h4
    · rw [if_neg h]
      exact Flt.le_of_not_lt _ _ h3 h4 (by simpa using h)

/-- Witness of C8: minimum frequency `0.9`, start frequency `0.1`. -/
theorem clampParams_spec_witness :
    (f32 clampExampleParams.minFrequencyValue).isNaN = false ∧
    (f32 clampExampleParams.startFrequencyValue).isNaN = false ∧
    Flt.le (f32 (clampParams clampExampleParams).minFrequencyValue)
      (f32 (clampParams clampExampleParams).startFrequencyValue) = true :=
  ⟨by decide, by decide,
    (clampParams_spec clampExampleParams).2.2.2.2.1 (by decide) (by decide)⟩

/-- Counterexample to C8 as stated: with a NaN minimum frequency the check
`minFrequency > startFrequency` is false, the NaN is kept, and
`minFrequency <= startFrequency` does not hold after the setup. -/
theorem clampParams_nan_counterexample :
    (clampParams nanMinParams).minFrequencyValue = bitsNaN ∧
    f32 bitsNaN = Flt.nan ∧
    Flt.le (f32 (clampParams nanMinParams).minFrequencyValue)
      (f32 (clampParams nanMinParams).startFrequencyValue) = false :=
  ⟨by decide, by decide, by decide⟩

/-! ## Mutation -/

theorem GetRandomValue_range {σ : Type} (pf : Platform σ) (hi : Nat) (s : σ) :
    0 ≤ (GetRandomValue pf 0 hi s).1 ∧ (GetRandomValue pf 0 hi s).1 ≤ hi := by
  have h : ¬ ((0 : Int) > (hi : Int)) := by omega
  simp only [GetRandomValue, h, if_false, Int.sub_zero, Int.natAbs_ofNat, Int.add_zero]
  constructor
  · exact Int.tmod_nonneg _ (Int.ofNat_nonneg _)
  · have := Int.tmod_lt_of_pos ((pf.rand s).1 : Int) (b := ((hi : Int) + 1)) (by omega)
    omega

theorem roundNE_isNaN (f : Fmt) (neg : Bool) (n d : Nat) (e : Int) :
    (roundNE f neg n d e).isNaN = false := by
  unfold roundNE
  simp only []
  split
  · rfl
  · split
    · split <;> rfl
    · split <;> rfl

/-- Quieting sets bit 22 and keeps every other bit: the sign, the exponent field and
the rest of the payload. -/
theorem quietNaN_bits (w : Word32) :
    (quietNaN w).val / 4194304 % 2 = 1 ∧
    (quietNaN w).val / 8388608 = w.val / 8388608 ∧
    (quietNaN w).val % 4194304 = w.val % 4194304 := by
  unfold quietNaN
  split
  · rename_i h
    exact ⟨h, rfl, rfl⟩
  · have hw := w.isLt
    have e : (Fin.ofNat (w.val + 4194304) : Word32).val = w.val + 4194304 := by
      show (w.val + 4194304) % 4294967296 = _
      omega
    rw [e]
    omega

theorem Flt.isNaN_eq_false_of_ne (x : Flt) (h : x ≠ Flt.nan) : x.isNaN = false := by
  cases x with
  | nan => exact absurd rfl h
  | inf _ => rfl
  | fin _ _ _ => rfl

/-- The clamp of `GenerateWave` lets a NaN through and nothing else outside `[-1, 1]`. -/
theorem finalSample_range (x : Flt) :
    finalSample x = Flt.nan ∨ inUnitRange (finalSample x) = true := by
  have h1 : (lit32 1 1).isNaN = false := by decide
  have h2 : (Flt.neg (lit32 1 1)).isNaN = false := by decide
  unfold finalSample
  simp only []
  by_cases ha : Flt.lt (lit32 1 1) (fmul (fdiv x (i2f MAX_SUPERSAMPLING)) SAMPLE_SCALE_COEFICIENT) = true
  · right
    rw [if_pos ha]
    decide
  · rw [if_neg ha]
    by_cases hb : Flt.lt (fmul (fdiv x (i2f MAX_SUPERSAMPLING)) SAMPLE_SCALE_COEFICIENT)
        (Flt.neg (lit32 1 1)) = true
    · right
      rw [if_pos hb]
      decide
    · rw [if_neg hb]
      by_cases hn : fmul (fdiv x (i2f MAX_SUPERSAMPLING)) SAMPLE_SCALE_COEFICIENT = Flt.nan
      · exact Or.inl hn
      · right
        have hn' := Flt.isNaN_eq_false_of_ne _ hn
        simp only [inUnitRange, Bool.and_eq_true]
        exact ⟨Flt.le_of_not_lt _ _ hn' h2 (by simpa using hb),
          Flt.le_of_not_lt _ _ h1 hn' (by simpa using ha)⟩

theorem sampleLoop_buffer_all {σ : Type} (pf : Platform σ) (Q : Flt → Prop)
    (hQ : ∀ x, Q (finalSample x)) (n i : Nat) (st : GenState σ)
    (h : ∀ y ∈ st.buffer, Q y) : ∀ y ∈ (sampleLoop pf n i st).buffer, Q y := by
  induction n generalizing i st with
  | zero => exact h
  | succ n ih =>
    rw [sampleLoop_succ]
    by_cases hg : st.generatingSample = true
    · rw [if_neg (by rw [hg]; decide)]
      apply ih
      obtain ⟨x, hx, _⟩ := sampleStep_buffer pf st
      rw [hx]
      intro y hy
      rcases List.mem_append.1 hy with h' | h'
      · exact h y h'
      · rw [List.mem_singleton.1 h']; exact hQ x
    · simp only [Bool.not_eq_true] at hg
      rw [if_pos (by rw [hg]; rfl)]
      exact h

/-- Every sample of the wave returned by `GenerateWave` is NaN or lies in `[-1.0, 1.0]`. -/
theorem GenerateWave_sample_range {σ : Type} (pf : Platform σ) (P : WaveParams) (s : σ) :
    ∀ y ∈ (GenerateWave pf P s).1.data, y = Flt.nan ∨ inUnitRange y = true := by
  intro y hy
  have hy' := List.mem_of_mem_take hy
  exact sampleLoop_buffer_all pf (fun y => y = Flt.nan ∨ inUnitRange y = true) finalSample_range
    maxWaveSamples 0 (genSetup pf P s) (by intro z hz; exact absurd hz (List.not_mem_nil z)) y hy'

/-! ## Fields of the state after one sample -/

theorem sampleStep_frame {σ : Type} (pf : Platform σ) (st : GenState σ) :
    ∃ rng phase noiseBuffer fltw fltdp fltp fltphp phaserBuffer ipp buffer,
      sampleStep pf st =
        { preSample pf st with
          rng := rng, phase := phase, noiseBuffer := noiseBuffer, fltw := fltw, fltdp := fltdp,
          fltp := fltp, fltphp := fltphp, phaserBuffer := phaserBuffer, ipp := ipp,
          buffer := buffer } := by
  obtain ⟨a, b, c, d, e, f, g, h, i, hx⟩ :=
    superSample_frame pf MAX_SUPERSAMPLING (preSample pf st, fzero)
  refine ⟨a, b, c, d, e, f, g, h, i,
    (preSample pf st).buffer ++
      [finalSample (superSample pf MAX_SUPERSAMPLING (preSample pf st, fzero)).2], ?_⟩
  show ({ (superSample pf MAX_SUPERSAMPLING (preSample pf st, fzero)).1 with
    buffer := (superSample pf MAX_SUPERSAMPLING (preSample pf st, fzero)).1.buffer ++
      [finalSample (superSample pf MAX_SUPERSAMPLING (preSample pf st, fzero)).2] } : GenState σ) = _
  rw [hx]

theorem repeatStep_fires {σ : Type} (pf : Platform σ) (st : GenState σ)
    (h : repeatFires st = true) :
    repeatStep pf st =
      { st with
        repeatTime := 0
        fperiod := initPeriod st.params
        period := Flt.toInt (initPeriod st.params)
        fmaxperiod := initMaxPeriod st.params
        fslide := initSlide pf st.params
        fdslide := initDeltaSlide pf st.params
        squareDuty := initSquareDuty st.params
        squareSlide := initSquareSlide st.params
        arpeggioModulation := initArpeggioModulation pf st.params
        arpeggioTime := 0
        arpeggioLimit := initArpeggioLimit pf st.params } :=
  if_pos (of_decide_eq_true h)

theorem repeatStep_idle {σ : Type} (pf : Platform σ) (st : GenState σ)
    (h : repeatFires st = false) :
    repeatStep pf st = { st with repeatTime := st.repeatTime + 1 } :=
  if_neg (of_decide_eq_false h)

/-- The fields of the frequency section after one sample are those the repeat block and the
slide block leave. -/
theorem sampleStep_slide {σ : Type} (pf : Platform σ) (st : GenState σ) :
    (sampleStep pf st).fperiod = (slideStep (repeatStep pf st)).fperiod ∧
    (sampleStep pf st).fmaxperiod = (repeatStep pf st).fmaxperiod ∧
    (sampleStep pf st).fslide = (slideStep (repeatStep pf st)).fslide ∧
    (sampleStep pf st).fdslide = (repeatStep pf st).fdslide ∧
    (sampleStep pf st).arpeggioTime = (repeatStep pf st).arpeggioTime + 1 ∧
    (sampleStep pf st).arpeggioLimit =
      (if arpeggioFires (repeatStep pf st) then 0 else (repeatStep pf st).arpeggioLimit) ∧
    (sampleStep pf st).arpeggioModulation = (repeatStep pf st).arpeggioModulation ∧
    (sampleStep pf st).repeatTime = (repeatStep pf st).repeatTime ∧
    (sampleStep pf st).repeatLimit = st.repeatLimit := by
  obtain ⟨a, b, c, d, e, f, g, h, i, j, hx⟩ := sampleStep_frame pf st
  obtain ⟨_, _, _, _, _, _, _, _, h9⟩ := repeatStep_ctl pf st
  rw [hx]
  refine ⟨rfl, rfl, rfl, rfl, rfl, ?_, rfl, rfl, h9⟩
  show (if decide ((repeatStep pf st).arpeggioLimit ≠ 0 ∧
      (repeatStep pf st).arpeggioLimit ≤ (repeatStep pf st).arpeggioTime + 1) = true then 0
    else (repeatStep pf st).arpeggioLimit) = _
  rfl

/-- The `generatingSample` flag after one sample: cleared by the slide block or by the
envelope block, never set. -/
theorem sampleStep_flag {σ : Type} (pf : Platform σ) (st : GenState σ) :
    (sampleStep pf st).generatingSample =
      (if nextStage st = 3 ∧ nextStage st ≠ st.envelopeStage then false
       else (slideStep (repeatStep pf st)).generatingSample) := by
  obtain ⟨a, b, c, d, e, f, g, h, i, j, hx⟩ := sampleStep_frame pf st
  obtain ⟨h1, h2, h3, h4, h5, h6, h7, h8, h9⟩ := repeatStep_ctl pf st
  rw [hx]
  simp only [preSample, phaserStep, envelopeStep, periodStep, slideStep, h1, h2, h3, h4, h6,
    nextStage]
  by_cases hadv : st.envelopeLength.getD st.envelopeStage.toNat 0 < st.envelopeTime + 1
  · simp only [List.getD_eq_getElem?_getD] at hadv
    simp [hadv]
  · simp only [List.getD_eq_getElem?_getD] at hadv
    simp [hadv]

theorem slideStep_fperiod {σ : Type} (st : GenState σ) :
    (slideStep st).fperiod =
      (if Flt.lt st.fmaxperiod
            (dmul (if arpeggioFires st then dmul st.fperiod st.arpeggioModulation else st.fperiod)
              (dadd st.fslide st.fdslide))
       then st.fmaxperiod
       else dmul (if arpeggioFires st then dmul st.fperiod st.arpeggioModulation else st.fperiod)
              (dadd st.fslide st.fdslide)) := rfl

theorem iterate_params {σ : Type} (pf : Platform σ) (k : Nat) (st : GenState σ) :
    ((sampleStep pf)^[k] st).params = st.params ∧
    ((sampleStep pf)^[k] st).envelopeLength = st.envelopeLength ∧
    ((sampleStep pf)^[k] st).repeatLimit = st.repeatLimit ∧
    ((sampleStep pf)^[k] st).sampleCount = st.sampleCount ∧
    ((sampleStep pf)^[k] st).buffer.length = st.buffer.length + k := by
  induction k generalizing st with
  | zero => exact ⟨rfl, rfl, rfl, rfl, rfl⟩
  | succ k ih =>
    obtain ⟨h1, _, _, h4, h5, h6, h7⟩ := sampleStep_ctl pf st
    obtain ⟨a1, a2, a3, a4, a5⟩ := ih (sampleStep pf st)
    rw [Function.iterate_succ_apply]
    exact ⟨by rw [a1, h1], by rw [a2, h4], by rw [a3, h6], by rw [a4, h5], by rw [a5, h7]; omega⟩

/-! ## The baseline parameter set -/

theorem GetRandomValue_bounds {σ : Type} (pf : Platform σ) (lo hi : Int) (h : lo ≤ hi) (s : σ) :
    lo ≤ (GetRandomValue pf lo hi s).1 ∧ (GetRandomValue pf lo hi s).1 ≤ hi := by
  have h' : ¬ (lo > hi) := by omega
  simp only [GetRandomValue, h', if_false]
  have h1 := Int.tmod_nonneg (((hi - lo).natAbs : Int) + 1) (Int.ofNat_nonneg (pf.rand s).1)
  have h2 := Int.tmod_lt_of_pos ((pf.rand s).1 : Int) (b := (((hi - lo).natAbs : Int) + 1)) (by omega)
  constructor
  · show lo ≤ Int.tmod ((pf.rand s).1 : Int) (((hi - lo).natAbs : Int) + 1) + lo
    have : (0:Int) ≤ Int.tmod ((pf.rand s).1 : Int) (((hi - lo).natAbs : Int) + 1) := h1
    omega
  · show Int.tmod ((pf.rand s).1 : Int) (((hi - lo).natAbs : Int) + 1) + lo ≤ hi
    omega

theorem i32_ofI32 (i : Int) (h0 : 0 ≤ i) (h1 : i < 2147483648) : i32 (ofI32 i) = i := by
  have e : (ofI32 i).val = i.toNat := by
    show (i % 4294967296).toNat % 4294967296 = i.toNat
    rw [Int.emod_eq_of_lt h0 (by omega)]
    exact Nat.mod_eq_of_lt (by omega)
  unfold i32
  rw [e, if_pos (by omega)]
  omega

theorem stored_consts :
    i32 (ofI32 0) = 0 ∧ f32 (toWord32 fzero) = fzero ∧
    f32 (toWord32 (lit32 3 10)) = lit32 3 10 ∧ f32 (toWord32 (lit32 4 10)) = lit32 4 10 ∧
    f32 (toWord32 (lit32 1 1)) = lit32 1 1 := by decide

/-- C11 (reset baseline): for every prior content of the record, every platform (every
outcome of the random source) and every state of the generator, `ResetWaveParams` leaves
wave type 0 (square), sustain time `0.3f`, decay time `0.4f`, start frequency `0.3f`,
low-pass cutoff `1.0f`, every other `float` field (fields 2, 4 and 7 to 23 except 19, in
declaration order) `0.0f`, and a seed in `[1, 0xFFFE]`. -/
theorem ResetWaveParams_baseline {σ : Type} (pf : Platform σ) (prior : WaveParams) (s : σ) :
    i32 (ResetWaveParams pf prior s).1.waveTypeValue = 0 ∧
    f32 (ResetWaveParams pf prior s).1.sustainTimeValue = lit32 3 10 ∧
    f32 (ResetWaveParams pf prior s).1.decayTimeValue = lit32 4 10 ∧
    f32 (ResetWaveParams pf prior s).1.startFrequencyValue = lit32 3 10 ∧
    f32 (ResetWaveParams pf prior s).1.lpfCutoffValue = lit32 1 1 ∧
    (∀ i, i < 24 → i ∉ [0, 1, 3, 5, 6, 19] →
      f32 ((ResetWaveParams pf prior s).1.words.getD i 0) = fzero) ∧
    1 ≤ i32 (ResetWaveParams pf prior s).1.randSeed ∧
    i32 (ResetWaveParams pf prior s).1.randSeed ≤ 65534 := by
  obtain ⟨h1, h2⟩ := GetRandomValue_bounds pf 1 65534 (by decide) s
  obtain ⟨c0, c1, c2, c3, c4⟩ := stored_consts
  have hs : i32 (ResetWaveParams pf prior s).1.randSeed = (GetRandomValue pf 1 65534 s).1 :=
    i32_ofI32 _ (by omega) (by omega)
  refine ⟨c0, c2, c3, c2, c4, ?_, by rw [hs]; exact h1, by rw [hs]; exact h2⟩
  intro i hi hn
  simp only [ResetWaveParams, WaveParams.words]
  interval_cases i <;> first | exact absurd (by decide) hn | exact c1

/-! ## The envelope run -/

/-- From the start of an envelope stage `j` of length `L`, with the frequency limit off: the
next `max L 0` samples stay in the stage, the one after them enters stage `j + 1`, and the
`generatingSample` flag is cleared by that sample exactly when `j + 1 = 3`. -/
theorem stage_pass {σ : Type} (pf : Platform σ) (st : GenState σ) (j : Nat) (L : Int)
    (hmin : Flt.lt fzero (f32 st.params.minFrequencyValue) = false)
    (hg : st.generatingSample = true) (ht : st.envelopeTime = 0)
    (hs : st.envelopeStage = (j : Int)) (hL : st.envelopeLength.getD j 0 = L) :
    (∀ k, k ≤ L.toNat → ((sampleStep pf)^[k] st).generatingSample = true) ∧
    ((sampleStep pf)^[L.toNat + 1] st).generatingSample = (if j + 1 = 3 then false else true) ∧
    ((sampleStep pf)^[L.toNat + 1] st).envelopeStage = ((j + 1 : Nat) : Int) ∧
    ((sampleStep pf)^[L.toNat + 1] st).envelopeTime = 0 := by
  have hidx : st.envelopeStage.toNat = j := by rw [hs]; exact Int.toNat_ofNat j
  have run : ∀ k, k ≤ L.toNat →
      ((sampleStep pf)^[k] st).envelopeStage = (j : Int) ∧
      ((sampleStep pf)^[k] st).envelopeTime = (k : Int) ∧
      ((sampleStep pf)^[k] st).envelopeLength = st.envelopeLength ∧
      ((sampleStep pf)^[k] st).params = st.params ∧
      ((sampleStep pf)^[k] st).generatingSample = true := by
    intro k hk
    rcases Nat.eq_zero_or_pos k with h0 | h0
    · subst h0
      exact ⟨hs, by show st.envelopeTime = ((0 : Nat) : Int); rw [ht]; rfl, rfl, rfl, hg⟩
    · obtain ⟨a1, a2, a3, a4, a5, _⟩ := stage_run pf k st hmin
        (by rw [ht, hidx, hL]; omega)
      exact ⟨by rw [a1, hs], by rw [a2, ht]; omega, a3, a4, by rw [a5, hg]⟩
  refine ⟨fun k hk => (run k hk).2.2.2.2, ?_⟩
  obtain ⟨b1, b2, b3, b4, b5⟩ := run L.toNat (Nat.le_refl _)
  obtain ⟨_, c2, c3, _, _, c6, _, _⟩ :=
    sampleStep_facts pf ((sampleStep pf)^[L.toNat] st) (by rw [b4]; exact hmin)
  have hadv : ((sampleStep pf)^[L.toNat] st).envelopeLength.getD
      ((sampleStep pf)^[L.toNat] st).envelopeStage.toNat 0 <
      ((sampleStep pf)^[L.toNat] st).envelopeTime + 1 := by
    rw [b3, b1, b2, Int.toNat_ofNat, hL]
    omega
  have n1 : nextStage ((sampleStep pf)^[L.toNat] st) = (j : Int) + 1 := by
    unfold nextStage
    rw [if_pos hadv, b1]
  have n2 : nextTime ((sampleStep pf)^[L.toNat] st) = 0 := by
    unfold nextTime
    rw [if_pos hadv]
  rw [Function.iterate_succ_apply']
  refine ⟨?_, by rw [c2, n1]; push_cast; rfl, by rw [c3, n2]⟩
  rw [c6, n1, b1, b5]
  by_cases h3 : j + 1 = 3
  · rw [if_pos h3, if_pos ⟨by omega, by omega⟩]
  · rw [if_neg h3, if_neg (fun h => h3 (by omega))]

/-- The run of the envelope when the effective minimum frequency is not positive: with
`N` the sum of the stage lengths (a negative length counting as 0) plus 3, the first `N`
samples are generated with the flag set and sample `N` clears it. -/
theorem envelope_run {σ : Type} (pf : Platform σ) (P : WaveParams) (s : σ)
    (hmin : Flt.lt fzero (f32 (clampParams P).minFrequencyValue) = false) :
    (∀ k, k < (stageLength P.attackTimeValue).toNat + (stageLength P.sustainTimeValue).toNat +
        (stageLength P.decayTimeValue).toNat + 3 →
      ((sampleStep pf)^[k] (genSetup pf P s)).generatingSample = true) ∧
    ((sampleStep pf)^[(stageLength P.attackTimeValue).toNat +
        (stageLength P.sustainTimeValue).toNat + (stageLength P.decayTimeValue).toNat + 3]
      (genSetup pf P s)).generatingSample = false := by
  obtain ⟨hb, hc, hg, hp, hs, ht, hl⟩ := genSetup_init pf P s
  have hcl := clampParams_eq P
  have e0 : (clampParams P).attackTimeValue = P.attackTimeValue := by rw [hcl]
  have e1 : (clampParams P).sustainTimeValue = P.sustainTimeValue := by rw [hcl]
  have e2 : (clampParams P).decayTimeValue = P.decayTimeValue := by rw [hcl]
  rw [e0, e1, e2] at hl
  generalize stageLength P.attackTimeValue = L0 at hl ⊢
  generalize stageLength P.sustainTimeValue = L1 at hl ⊢
  generalize stageLength P.decayTimeValue = L2 at hl ⊢
  generalize genSetup pf P s = st0 at hb hc hg hp hs ht hl ⊢
  have par : ∀ k, ((sampleStep pf)^[k] st0).params = clampParams P ∧
      ((sampleStep pf)^[k] st0).envelopeLength = [L0, L1, L2] := by
    intro k
    obtain ⟨a1, a2, _, _, _⟩ := iterate_params pf k st0
    exact ⟨by rw [a1, hp], by rw [a2, hl]⟩
  -- attack
  obtain ⟨r0, g0, s0, t0⟩ := stage_pass pf st0 0 L0 (by rw [hp]; exact hmin) hg ht
    (by rw [hs]; rfl) (by rw [hl]; rfl)
  -- sustain
  obtain ⟨r1, g1, s1, t1⟩ := stage_pass pf ((sampleStep pf)^[L0.toNat + 1] st0) 1 L1
    (by rw [(par _).1]; exact hmin) (by rw [g0]; rfl) t0 s0 (by rw [(par _).2]; rfl)
  rw [← Function.iterate_add_apply] at g1 s1 t1
  -- decay
  obtain ⟨r2, g2, _, _⟩ := stage_pass pf ((sampleStep pf)^[L1.toNat + 1 + (L0.toNat + 1)] st0) 2 L2
    (by rw [(par _).1]; exact hmin) (by rw [g1]; rfl) t1 s1 (by rw [(par _).2]; rfl)
  rw [← Function.iterate_add_apply] at g2
  have e : L2.toNat + 1 + (L1.toNat + 1 + (L0.toNat + 1)) = L0.toNat + L1.toNat + L2.toNat + 3 := by
    omega
  rw [e] at g2
  refine ⟨?_, by rw [g2]; rfl⟩
  intro k hk
  by_cases c0 : k ≤ L0.toNat
  · exact r0 k c0
  · by_cases c1 : k - (L0.toNat + 1) ≤ L1.toNat
    · have := r1 (k - (L0.toNat + 1)) c1
      rwa [← Function.iterate_add_apply, show k - (L0.toNat + 1) + (L0.toNat + 1) = k by omega]
        at this
    · have := r2 (k - (L1.toNat + 1 + (L0.toNat + 1))) (by omega)
      rwa [← Function.iterate_add_apply,
        show k - (L1.toNat + 1 + (L0.toNat + 1)) + (L1.toNat + 1 + (L0.toNat + 1)) = k by omega]
        at this

/-- Frame count from the envelope: when the effective minimum frequency is not positive and
the three stages fit below the ceiling, the loop stops by the envelope and the frame count
is the sum of the stage lengths (a negative length counting as 0) plus 3. -/
theorem envelope_frameCount {σ : Type} (pf : Platform σ) (P : WaveParams) (s : σ)
    (hmin : Flt.lt fzero (f32 (clampParams P).minFrequencyValue) = false)
    (hsum : (stageLength P.attackTimeValue).toNat + (stageLength P.sustainTimeValue).toNat +
      (stageLength P.decayTimeValue).toNat ≤ 440996) :
    (GenerateWave pf P s).1.frameCount =
      (stageLength P.attackTimeValue).toNat + (stageLength P.sustainTimeValue).toNat +
        (stageLength P.decayTimeValue).toNat + 3 := by
  obtain ⟨hrun, hstop⟩ := envelope_run pf P s hmin
  have hloop := sampleLoop_stops pf maxWaveSamples _ 0 (genSetup pf P s)
    (by show _ < 441000; omega) hrun hstop
  simp only [GenerateWave, Nat.div_one, hloop, Nat.zero_add]

set_option maxRecDepth 4000 in
theorem reset_stageLengths :
    stageLength (toWord32 fzero) = 0 ∧ stageLength (toWord32 (lit32 3 10)) = 9000 ∧
    stageLength (toWord32 (lit32 4 10)) = 16000 ∧
    Flt.lt (f32 (toWord32 (lit32 3 10))) (f32 (toWord32 fzero)) = false ∧
    Flt.lt fzero (f32 (toWord32 fzero)) = false := by decide

set_option maxRecDepth 4000 in
theorem example_facts :
    Flt.lt fzero (f32 (clampParams seededParams).minFrequencyValue) = false ∧
    (stageLength seededParams.attackTimeValue).toNat +
      (stageLength seededParams.sustainTimeValue).toNat +
      (stageLength seededParams.decayTimeValue).toNat ≤ 440996 ∧
    Flt.lt fzero (f32 (clampParams nanAttackParams).minFrequencyValue) = false ∧
    (stageLength nanAttackParams.attackTimeValue).toNat +
      (stageLength nanAttackParams.sustainTimeValue).toNat +
      (stageLength nanAttackParams.decayTimeValue).toNat ≤ 440996 ∧
    stageLength nanAttackParams.attackTimeValue = -2147483648 ∧
    stageLength nanAttackParams.sustainTimeValue = 0 ∧
    stageLength nanAttackParams.decayTimeValue = 0 := by decide

/-- C12 (frame count from the envelope), amended: for every parameter set whose effective
minimum frequency is not positive and whose envelope stage lengths, a negative length
counted as 0, sum to at most 440996, `GenerateWave` returns exactly that sum plus 3 frames;
when the three stage lengths are non-negative this is `L0 + L1 + L2 + 3`. For the parameter
set of `ResetWaveParams` (whatever the prior record and the seed drawn) the stage lengths are
0, 9000 and 16000 and the frame count is 25003 on every platform and from every generator
state. A stage length is negative only as the `INT_MIN` the cast `(int)(t*t*100000.0f)`
gives for a NaN or out-of-range product. -/
theorem GenerateWave_frameCount_envelope {σ : Type} (pf : Platform σ) (P : WaveParams) (s : σ)
    (hmin : Flt.lt fzero (f32 (clampParams P).minFrequencyValue) = false)
    (hsum : (stageLength P.attackTimeValue).toNat + (stageLength P.sustainTimeValue).toNat +
      (stageLength P.decayTimeValue).toNat ≤ 440996) :
    (GenerateWave pf P s).1.frameCount =
      (stageLength P.attackTimeValue).toNat + (stageLength P.sustainTimeValue).toNat +
        (stageLength P.decayTimeValue).toNat + 3 ∧
    (0 ≤ stageLength P.attackTimeValue → 0 ≤ stageLength P.sustainTimeValue →
      0 ≤ stageLength P.decayTimeValue →
      ((GenerateWave pf P s).1.frameCount : Int) =
        stageLength P.attackTimeValue + stageLength P.sustainTimeValue +
          stageLength P.decayTimeValue + 3) ∧
    (∀ (prior : WaveParams) (s1 : σ),
      stageLength (ResetWaveParams pf prior s1).1.attackTimeValue = 0 ∧
      stageLength (ResetWaveParams pf prior s1).1.sustainTimeValue = 9000 ∧
      stageLength (ResetWaveParams pf prior s1).1.decayTimeValue = 16000 ∧
      (GenerateWave pf (ResetWaveParams pf prior s1).1 s).1.frameCount = 25003) := by
  have h := envelope_frameCount pf P s hmin hsum
  refine ⟨h, ?_, ?_⟩
  · intro h0 h1 h2
    rw [h]
    omega
  · intro prior s1
    obtain ⟨c0, c1, c2, c3, c4⟩ := reset_stageLengths
    have hm : Flt.lt fzero (f32 (clampParams (ResetWaveParams pf prior s1).1).minFrequencyValue)
        = false := by
      have e1 : (ResetWaveParams pf prior s1).1.startFrequencyValue = toWord32 (lit32 3 10) := rfl
      have e2 : (ResetWaveParams pf prior s1).1.minFrequencyValue = toWord32 fzero := rfl
      rw [clampParams_eq]
      simp only []
      rw [e1, e2, c3]
      exact c4
    have := envelope_frameCount pf (ResetWaveParams pf prior s1).1 s hm
      (by
        show (stageLength (toWord32 fzero)).toNat + (stageLength (toWord32 (lit32 3 10))).toNat +
          (stageLength (toWord32 (lit32 4 10))).toNat ≤ 440996
        rw [c0, c1, c2]
        decide)
    refine ⟨c0, c1, c2, ?_⟩
    rw [this]
    show (stageLength (toWord32 fzero)).toNat + (stageLength (toWord32 (lit32 3 10))).toNat +
          (stageLength (toWord32 (lit32 4 10))).toNat + 3 = 25003
    rw [c0, c1, c2]
    rfl

/-- Witness of C12: seed 42, sustain `0.5` (stage lengths 0, 25000, 0) on the reference
platform. -/
theorem GenerateWave_frameCount_envelope_witness :
    Flt.lt fzero (f32 (clampParams seededParams).minFrequencyValue) = false ∧
    (GenerateWave refPlatform seededParams 0).1.frameCount =
      (stageLength seededParams.attackTimeValue).toNat +
        (stageLength seededParams.sustainTimeValue).toNat +
        (stageLength seededParams.decayTimeValue).toNat + 3 :=
  ⟨example_facts.1,
    (GenerateWave_frameCount_envelope refPlatform seededParams 0 example_facts.1
      example_facts.2.1).1⟩

/-- Counterexample to C12 as stated: with a NaN attack time the attack stage length is
`INT_MIN`, so the effective minimum frequency is not positive and
`L0 + L1 + L2 <= 440996`, but `GenerateWave` returns 3 frames, not
`L0 + L1 + L2 + 3 = -2147483645`: the attack stage ends with the first sample. -/
theorem GenerateWave_nanAttack_counterexample :
    Flt.lt fzero (f32 (clampParams nanAttackParams).minFrequencyValue) = false ∧
    stageLength nanAttackParams.attackTimeValue + stageLength nanAttackParams.sustainTimeValue +
      stageLength nanAttackParams.decayTimeValue ≤ 440996 ∧
    (GenerateWave refPlatform nanAttackParams 0).1.frameCount = 3 ∧
    stageLength nanAttackParams.attackTimeValue + stageLength nanAttackParams.sustainTimeValue +
      stageLength nanAttackParams.decayTimeValue + 3 = -2147483645 := by
  obtain ⟨_, _, a1, a2, a3, a4, a5⟩ := example_facts
  refine ⟨a1, by rw [a3, a4, a5]; decide, ?_, by rw [a3, a4, a5]; decide⟩
  rw [envelope_frameCount refPlatform nanAttackParams 0 a1 a2, a3, a4, a5]
  rfl

/-! ## The envelope stage -/

theorem nextStage_step {σ : Type} (st : GenState σ) :
    nextStage st = st.envelopeStage ∨ nextStage st = st.envelopeStage + 1 := by
  unfold nextStage
  split
  · exact Or.inr rfl
  · exact Or.inl rfl

theorem preSample_period {σ : Type} (pf : Platform σ) (st : GenState σ) :
    8 ≤ (preSample pf st).period := by
  show 8 ≤ (periodStep pf (slideStep (repeatStep pf st))).period
  have key : ∀ x : Int, 8 ≤ (if x < 8 then 8 else x) := by
    intro x
    split <;> omega
  exact key _

/-- C13 at the failing input: for the all-zero parameter set, on every platform and from
every generator state, the volume formula of the first sample divides by the sustain stage
length 0 and that of the second sample by the decay stage length 0; both samples are
generated, and the second division is `(float)0/0`, a NaN, which makes the envelope volume
`1.0f - NaN`. The envelope stage lengths are used as divisors without the additive epsilon
the period denominators have. -/
theorem GenerateWave_zero_divisor {σ : Type} (pf : Platform σ) (s : σ) :
    envelopeDivisor (genSetup pf WaveParams.zero s) = some 0 ∧
    envelopeDivisor (sampleStep pf (genSetup pf WaveParams.zero s)) = some 0 ∧
    (genSetup pf WaveParams.zero s).generatingSample = true ∧
    (sampleStep pf (genSetup pf WaveParams.zero s)).generatingSample = true ∧
    ((sampleStep pf)^[2] (genSetup pf WaveParams.zero s)).envelopeVolume =
      fsub (lit32 1 1) (fdiv (i2f 0) (i2f 0)) ∧
    fdiv (i2f 0) (i2f 0) = Flt.nan ∧
    ((sampleStep pf)^[2] (genSetup pf WaveParams.zero s)).envelopeVolume = Flt.nan := by
  obtain ⟨hb, hc, hg, hp, hs, ht, hl⟩ := genSetup_init pf WaveParams.zero s
  have hclamp : clampParams WaveParams.zero = WaveParams.zero := by decide
  have hL : stageLength WaveParams.zero.attackTimeValue = 0 ∧
      stageLength WaveParams.zero.sustainTimeValue = 0 ∧
      stageLength WaveParams.zero.decayTimeValue = 0 := by decide
  rw [hclamp] at hp hl
  rw [hL.1, hL.2.1, hL.2.2] at hl
  have hz : Flt.lt fzero (f32 WaveParams.zero.minFrequencyValue) = false := by decide
  obtain ⟨p1, s1, t1, l1, _, g1, _, _⟩ :=
    sampleStep_facts pf (genSetup pf WaveParams.zero s) (by rw [hp]; exact hz)
  have n1 : nextStage (genSetup pf WaveParams.zero s) = 1 := by
    simp [nextStage, hs, ht, hl]
  have m1 : nextTime (genSetup pf WaveParams.zero s) = 0 := by
    simp [nextTime, hs, ht, hl]
  rw [n1, hs] at g1
  rw [n1] at s1
  rw [m1] at t1
  rw [hl] at l1
  simp [hg] at g1
  obtain ⟨_, _, _, _, _, _, v2, _⟩ :=
    sampleStep_facts pf (sampleStep pf (genSetup pf WaveParams.zero s)) (by rw [p1, hp]; exact hz)
  have n2 : nextStage (sampleStep pf (genSetup pf WaveParams.zero s)) = 2 := by
    simp [nextStage, s1, t1, l1]
  have m2 : nextTime (sampleStep pf (genSetup pf WaveParams.zero s)) = 0 := by
    simp [nextTime, s1, t1, l1]
  have w2 : nextVolume pf (sampleStep pf (genSetup pf WaveParams.zero s)) =
      fsub (lit32 1 1) (fdiv (i2f 0) (i2f 0)) := by
    simp only [nextVolume, n2, m2, l1]
    rw [if_pos trivial]
    rfl
  have d1 : envelopeDivisor (genSetup pf WaveParams.zero s) = some 0 := by
    simp [envelopeDivisor, n1, hl]
  have d2 : envelopeDivisor (sampleStep pf (genSetup pf WaveParams.zero s)) = some 0 := by
    simp [envelopeDivisor, n2, l1]
  have e2 : (sampleStep pf)^[2] (genSetup pf WaveParams.zero s) =
      sampleStep pf (sampleStep pf (genSetup pf WaveParams.zero s)) := rfl
  refine ⟨d1, d2, hg, g1, by rw [e2, v2, w2], by decide, by rw [e2, v2, w2]; decide⟩

theorem repeatFires_of_limit_zero {σ : Type} (st : GenState σ) (h : st.repeatLimit = 0) :
    repeatFires st = false := by
  simp [repeatFires, h]

theorem arpeggioFires_of_limit_zero {σ : Type} (st : GenState σ) (h : st.arpeggioLimit = 0) :
    arpeggioFires st = false := by
  simp [arpeggioFires, h]

/-- One sample in which neither trigger is reached: both counters advance by one, the
limits stay. -/
theorem counters_step {σ : Type} (pf : Platform σ) (st : GenState σ)
    (hR : st.repeatLimit = 0 ∨ st.repeatTime + 1 < st.repeatLimit)
    (hA : st.arpeggioLimit = 0 ∨ st.arpeggioTime + 1 < st.arpeggioLimit) :
    repeatFires st = false ∧ arpeggioFires (repeatStep pf st) = false ∧
    (sampleStep pf st).repeatTime = st.repeatTime + 1 ∧
    (sampleStep pf st).arpeggioTime = st.arpeggioTime + 1 ∧
    (sampleStep pf st).arpeggioLimit = st.arpeggioLimit ∧
    (sampleStep pf st).repeatLimit = st.repeatLimit := by
  have r : repeatFires st = false := by
    simp only [repeatFires, decide_eq_false_iff_not, not_and, not_le]
    intro h0
    rcases hR with h | h
    · exact absurd h h0
    · exact h
  have e := repeatStep_idle pf st r
  have a : arpeggioFires (repeatStep pf st) = false := by
    rw [e]
    simp only [arpeggioFires, decide_eq_false_iff_not, not_and, not_le]
    intro h0
    rcases hA with h | h
    · exact absurd h h0
    · exact h
  obtain ⟨_, _, _, _, s5, s6, _, s8, s9⟩ := sampleStep_slide pf st
  rw [a] at s6
  rw [e] at s5 s6 s8
  exact ⟨r, a, s8, s5, s6, s9⟩

/-- A stretch of `n` samples in which neither trigger is reached. -/
theorem counters_run {σ : Type} (pf : Platform σ) (n : Nat) (st : GenState σ)
    (hR : st.repeatLimit = 0 ∨ st.repeatTime + n < st.repeatLimit)
    (hA : st.arpeggioLimit = 0 ∨ st.arpeggioTime + n < st.arpeggioLimit) :
    ((sampleStep pf)^[n] st).repeatTime = st.repeatTime + n ∧
    ((sampleStep pf)^[n] st).arpeggioTime = st.arpeggioTime + n ∧
    ((sampleStep pf)^[n] st).arpeggioLimit = st.arpeggioLimit ∧
    ((sampleStep pf)^[n] st).repeatLimit = st.repeatLimit ∧
    (∀ j, j < n → repeatFires ((sampleStep pf)^[j] st) = false ∧
      arpeggioFires (repeatStep pf ((sampleStep pf)^[j] st)) = false) := by
  induction n generalizing st with
  | zero =>
    exact ⟨by simp, by simp, rfl, rfl, fun j hj => absurd hj (Nat.not_lt_zero j)⟩
  | succ n ih =>
    obtain ⟨c1, c2, c3, c4, c5, c6⟩ := counters_step pf st
      (by rcases hR with h | h
          · exact Or.inl h
          · exact Or.inr (by push_cast at h; omega))
      (by rcases hA with h | h
          · exact Or.inl h
          · exact Or.inr (by push_cast at h; omega))
    obtain ⟨a1, a2, a3, a4, a5⟩ := ih (sampleStep pf st)
      (by rw [c6, c3]
          rcases hR with h | h
          · exact Or.inl h
          · exact Or.inr (by push_cast at h; omega))
      (by rw [c5, c4]
          rcases hA with h | h
          · exact Or.inl h
          · exact Or.inr (by push_cast at h; omega))
    rw [Function.iterate_succ_apply]
    refine ⟨by rw [a1, c3]; push_cast; ring, by rw [a2, c4]; push_cast; ring, by rw [a3, c5],
      by rw [a4, c6], fun j hj => ?_⟩
    rcases Nat.eq_zero_or_pos j with h0 | h0
    · subst h0
      exact ⟨c1, c2⟩
    · obtain ⟨j', rfl⟩ : ∃ j', j = j' + 1 := ⟨j - 1, by omega⟩
      rw [Function.iterate_succ_apply]
      exact a5 j' (by omega)

/-! ## Repeat reset and arpeggio trigger -/

theorem clampParams_other (P : WaveParams) :
    (clampParams P).repeatSpeedValue = P.repeatSpeedValue ∧
    (clampParams P).changeSpeedValue = P.changeSpeedValue ∧
    (clampParams P).lpfCutoffValue = P.lpfCutoffValue := by
  rw [clampParams_eq]
  exact ⟨rfl, rfl, rfl⟩

/-- C15 (repeat reset): at every sample of a run of `GenerateWave` where the repeat
counter reaches a non-zero repeat limit, the repeat block assigns to the running period (and
its integer part), the maximum period, the slide factor, the delta-slide factor, the square
duty, the duty slide rate, the arpeggio modulation and the arpeggio limit the values the
setup computed from the clamped parameter set, sets the repeat and arpeggio counters to 0,
and leaves every other variable as it was: the envelope stage, timer and volume, the filter
variables, the phaser variables, the vibrato phase, the oscillator phase, the noise table
and the state of the random generator (the seed is not applied again). -/
theorem repeatStep_reset {σ : Type} (pf : Platform σ) (P : WaveParams) (s : σ) (k : Nat)
    (h : repeatFires ((sampleStep pf)^[k] (genSetup pf P s)) = true) :
    repeatStep pf ((sampleStep pf)^[k] (genSetup pf P s)) =
      { (sampleStep pf)^[k] (genSetup pf P s) with
        fperiod := (genSetup pf P s).fperiod
        period := (genSetup pf P s).period
        fmaxperiod := (genSetup pf P s).fmaxperiod
        fslide := (genSetup pf P s).fslide
        fdslide := (genSetup pf P s).fdslide
        squareDuty := (genSetup pf P s).squareDuty
        squareSlide := (genSetup pf P s).squareSlide
        arpeggioModulation := (genSetup pf P s).arpeggioModulation
        arpeggioLimit := (genSetup pf P s).arpeggioLimit
        repeatTime := 0
        arpeggioTime := 0 } ∧
    (repeatStep pf ((sampleStep pf)^[k] (genSetup pf P s))).rng =
      ((sampleStep pf)^[k] (genSetup pf P s)).rng ∧
    (repeatStep pf ((sampleStep pf)^[k] (genSetup pf P s))).noiseBuffer =
      ((sampleStep pf)^[k] (genSetup pf P s)).noiseBuffer ∧
    (repeatStep pf ((sampleStep pf)^[k] (genSetup pf P s))).phase =
      ((sampleStep pf)^[k] (genSetup pf P s)).phase ∧
    (repeatStep pf ((sampleStep pf)^[k] (genSetup pf P s))).vibratoPhase =
      ((sampleStep pf)^[k] (genSetup pf P s)).vibratoPhase ∧
    (repeatStep pf ((sampleStep pf)^[k] (genSetup pf P s))).envelopeStage =
      ((sampleStep pf)^[k] (genSetup pf P s)).envelopeStage ∧
    (repeatStep pf ((sampleStep pf)^[k] (genSetup pf P s))).envelopeTime =
      ((sampleStep pf)^[k] (genSetup pf P s)).envelopeTime ∧
    (repeatStep pf ((sampleStep pf)^[k] (genSetup pf P s))).fltp =
      ((sampleStep pf)^[k] (genSetup pf P s)).fltp ∧
    (repeatStep pf ((sampleStep pf)^[k] (genSetup pf P s))).fltdp =
      ((sampleStep pf)^[k] (genSetup pf P s)).fltdp ∧
    (repeatStep pf ((sampleStep pf)^[k] (genSetup pf P s))).fltw =
      ((sampleStep pf)^[k] (genSetup pf P s)).fltw ∧
    (repeatStep pf ((sampleStep pf)^[k] (genSetup pf P s))).fltphp =
      ((sampleStep pf)^[k] (genSetup pf P s)).fltphp ∧
    (repeatStep pf ((sampleStep pf)^[k] (genSetup pf P s))).flthp =
      ((sampleStep pf)^[k] (genSetup pf P s)).flthp ∧
    (repeatStep pf ((sampleStep pf)^[k] (genSetup pf P s))).fphase =
      ((sampleStep pf)^[k] (genSetup pf P s)).fphase ∧
    (repeatStep pf ((sampleStep pf)^[k] (genSetup pf P s))).iphase =
      ((sampleStep pf)^[k] (genSetup pf P s)).iphase ∧
    (repeatStep pf ((sampleStep pf)^[k] (genSetup pf P s))).phaserBuffer =
      ((sampleStep pf)^[k] (genSetup pf P s)).phaserBuffer ∧
    (repeatStep pf ((sampleStep pf)^[k] (genSetup pf P s))).ipp =
      ((sampleStep pf)^[k] (genSetup pf P s)).ipp ∧
    (genSetup pf P s).fperiod = initPeriod (clampParams P) ∧
    (genSetup pf P s).period = Flt.toInt (initPeriod (clampParams P)) ∧
    (genSetup pf P s).fmaxperiod = initMaxPeriod (clampParams P) ∧
    (genSetup pf P s).fslide = initSlide pf (clampParams P) ∧
    (genSetup pf P s).fdslide = initDeltaSlide pf (clampParams P) ∧
    (genSetup pf P s).squareDuty = initSquareDuty (clampParams P) ∧
    (genSetup pf P s).squareSlide = initSquareSlide (clampParams P) ∧
    (genSetup pf P s).arpeggioModulation = initArpeggioModulation pf (clampParams P) ∧
    (genSetup pf P s).arpeggioLimit = initArpeggioLimit pf (clampParams P) := by
  obtain ⟨hp, _⟩ := iterate_params pf k (genSetup pf P s)
  have hp' : ((sampleStep pf)^[k] (genSetup pf P s)).params = clampParams P := hp
  generalize (sampleStep pf)^[k] (genSetup pf P s) = st at h hp' ⊢
  have e1 : initPeriod st.params = initPeriod (clampParams P) := by rw [hp']
  have e2 : initMaxPeriod st.params = initMaxPeriod (clampParams P) := by rw [hp']
  have e3 : initSlide pf st.params = initSlide pf (clampParams P) := by rw [hp']
  have e4 : initDeltaSlide pf st.params = initDeltaSlide pf (clampParams P) := by rw [hp']
  have e5 : initSquareDuty st.params = initSquareDuty (clampParams P) := by rw [hp']
  have e6 : initSquareSlide st.params = initSquareSlide (clampParams P) := by rw [hp']
  have e7 : initArpeggioModulation pf st.params = initArpeggioModulation pf (clampParams P) := by
    rw [hp']
  have e8 : initArpeggioLimit pf st.params = initArpeggioLimit pf (clampParams P) := by rw [hp']
  rw [repeatStep_fires pf st h, e1, e2, e3, e4, e5, e6, e7, e8]
  exact ⟨rfl, rfl, rfl, rfl, rfl, rfl, rfl, rfl, rfl, rfl, rfl, rfl, rfl, rfl, rfl, rfl, rfl, rfl,
    rfl, rfl, rfl, rfl, rfl, rfl, rfl⟩

theorem arpeggioLimit_zero {σ : Type} (pf : Platform σ) (P : WaveParams) (s : σ)
    (h : Flt.eq (f32 P.changeSpeedValue) (lit32 1 1) = true) (k : Nat) :
    ((sampleStep pf)^[k] (genSetup pf P s)).arpeggioLimit = 0 := by
  have hinit : initArpeggioLimit pf (clampParams P) = 0 := by
    unfold initArpeggioLimit
    simp only []
    rw [(clampParams_other P).2.1, if_pos h]
  induction k with
  | zero => exact hinit
  | succ k ih =>
    rw [Function.iterate_succ_apply']
    obtain ⟨hp, _⟩ := iterate_params pf k (genSetup pf P s)
    have hp' : ((sampleStep pf)^[k] (genSetup pf P s)).params = clampParams P := hp
    generalize (sampleStep pf)^[k] (genSetup pf P s) = st at ih hp' ⊢
    obtain ⟨_, _, _, _, _, s6, _⟩ := sampleStep_slide pf st
    rw [s6]
    split
    · rfl
    · by_cases hr : repeatFires st = true
      · rw [repeatStep_fires pf st hr, hp']
        exact hinit
      · rw [repeatStep_idle pf st (by simpa using hr)]
        exact ih

/-- C16 (a trigger forced to "never" never fires): for every parameter set with
`repeatSpeedValue == 0.0f`, at every sample of `GenerateWave` the repeat test fails and the
repeat block only increments the repeat counter; for every parameter set with
`changeSpeedValue == 1.0f`, at every sample the arpeggio test fails and the slide block
computes the period from `fperiod*fslide` without the factor `arpeggioModulation`. -/
theorem triggers_never {σ : Type} (pf : Platform σ) (P : WaveParams) (s : σ) (k : Nat) :
    (Flt.eq (f32 P.repeatSpeedValue) fzero = true →
      repeatFires ((sampleStep pf)^[k] (genSetup pf P s)) = false ∧
      repeatStep pf ((sampleStep pf)^[k] (genSetup pf P s)) =
        { (sampleStep pf)^[k] (genSetup pf P s) with
          repeatTime := ((sampleStep pf)^[k] (genSetup pf P s)).repeatTime + 1 }) ∧
    (Flt.eq (f32 P.changeSpeedValue) (lit32 1 1) = true →
      arpeggioFires (repeatStep pf ((sampleStep pf)^[k] (genSetup pf P s))) = false ∧
      (slideStep (repeatStep pf ((sampleStep pf)^[k] (genSetup pf P s)))).fperiod =
        (if Flt.lt (repeatStep pf ((sampleStep pf)^[k] (genSetup pf P s))).fmaxperiod
            (dmul (repeatStep pf ((sampleStep pf)^[k] (genSetup pf P s))).fperiod
              (dadd (repeatStep pf ((sampleStep pf)^[k] (genSetup pf P s))).fslide
                (repeatStep pf ((sampleStep pf)^[k] (genSetup pf P s))).fdslide))
         then (repeatStep pf ((sampleStep pf)^[k] (genSetup pf P s))).fmaxperiod
         else dmul (repeatStep pf ((sampleStep pf)^[k] (genSetup pf P s))).fperiod
              (dadd (repeatStep pf ((sampleStep pf)^[k] (genSetup pf P s))).fslide
                (repeatStep pf ((sampleStep pf)^[k] (genSetup pf P s))).fdslide))) := by
  constructor
  · intro h
    have hinit : (genSetup pf P s).repeatLimit = 0 := by
      show initRepeatLimit pf (clampParams P) = 0
      unfold initRepeatLimit
      simp only []
      rw [(clampParams_other P).1, if_pos h]
    obtain ⟨_, _, hl, _⟩ := iterate_params pf k (genSetup pf P s)
    have hr := repeatFires_of_limit_zero ((sampleStep pf)^[k] (genSetup pf P s))
      (by rw [hl, hinit])
    exact ⟨hr, repeatStep_idle pf _ hr⟩
  · intro h
    have h0 := arpeggioLimit_zero pf P s h k
    obtain ⟨hp, _⟩ := iterate_params pf k (genSetup pf P s)
    have hp' : ((sampleStep pf)^[k] (genSetup pf P s)).params = clampParams P := hp
    generalize (sampleStep pf)^[k] (genSetup pf P s) = st at h0 hp' ⊢
    have ha : arpeggioFires (repeatStep pf st) = false := by
      apply arpeggioFires_of_limit_zero
      by_cases hr : repeatFires st = true
      · rw [repeatStep_fires pf st hr, hp']
        show initArpeggioLimit pf (clampParams P) = 0
        unfold initArpeggioLimit
        simp only []
        rw [(clampParams_other P).2.1, if_pos h]
      · rw [repeatStep_idle pf st (by simpa using hr)]
        exact h0
    refine ⟨ha, ?_⟩
    rw [slideStep_fperiod, ha]
    rfl

set_option maxRecDepth 4000 in
theorem example_limits :
    initRepeatLimit refPlatform (clampParams arpeggioParams) = 5032 ∧
    initArpeggioLimit refPlatform (clampParams arpeggioParams) = 1282 ∧
    Flt.eq (f32 neverParams.repeatSpeedValue) fzero = true ∧
    Flt.eq (f32 neverParams.changeSpeedValue) (lit32 1 1) = true := by decide

/-- The counters and the arpeggio limit after one sample. -/
theorem sample_counters {σ : Type} (pf : Platform σ) (st : GenState σ) :
    (sampleStep pf st).repeatTime = (if repeatFires st then 0 else st.repeatTime + 1) ∧
    (sampleStep pf st).arpeggioTime = (if repeatFires st then 0 else st.arpeggioTime) + 1 ∧
    (sampleStep pf st).arpeggioLimit =
      (if arpeggioFires (repeatStep pf st) then 0
       else if repeatFires st then initArpeggioLimit pf st.params else st.arpeggioLimit) ∧
    (sampleStep pf st).repeatLimit = st.repeatLimit ∧
    arpeggioFires (repeatStep pf st) =
      decide ((if repeatFires st then initArpeggioLimit pf st.params else st.arpeggioLimit) ≠ 0 ∧
        (if repeatFires st then initArpeggioLimit pf st.params else st.arpeggioLimit) ≤
          (if repeatFires st then 0 else st.arpeggioTime) + 1) := by
  obtain ⟨_, _, _, _, s5, s6, _, s8, s9⟩ := sampleStep_slide pf st
  rw [s5, s6, s8]
  by_cases hr : repeatFires st = true
  · rw [repeatStep_fires pf st hr, hr]
    exact ⟨rfl, rfl, rfl, s9, rfl⟩
  · have hr' : repeatFires st = false := by simpa using hr
    rw [repeatStep_idle pf st hr', hr']
    exact ⟨rfl, rfl, rfl, s9, rfl⟩

/-- A stretch of `d` quiet samples that brings the arpeggio counter to its limit: the
arpeggio fires in the next sample and disables itself. -/
theorem arpeggio_reached {σ : Type} (pf : Platform σ) (st : GenState σ) (A R d : Nat)
    (hA : st.arpeggioLimit = (A : Int)) (hR : st.repeatLimit = (R : Int))
    (ha : st.arpeggioTime + d + 1 = (A : Int)) (hr : st.repeatTime + d + 1 < (R : Int))
    (h0 : 0 < A) :
    arpeggioFires (repeatStep pf ((sampleStep pf)^[d] st)) = true ∧
    ((sampleStep pf)^[d + 1] st).arpeggioLimit = 0 ∧
    ((sampleStep pf)^[d + 1] st).repeatTime = st.repeatTime + d + 1 ∧
    ((sampleStep pf)^[d + 1] st).repeatLimit = (R : Int) := by
  obtain ⟨a1, a2, a3, a4, _⟩ := counters_run pf d st
    (Or.inr (by rw [hR]; omega)) (Or.inr (by rw [hA]; omega))
  have r1 : repeatFires ((sampleStep pf)^[d] st) = false := by
    simp only [repeatFires, decide_eq_false_iff_not, not_and, not_le]
    intro _
    rw [a1, a4, hR]
    omega
  obtain ⟨b1, _, b3, b4, b5⟩ := sample_counters pf ((sampleStep pf)^[d] st)
  have f1 : arpeggioFires (repeatStep pf ((sampleStep pf)^[d] st)) = true := by
    rw [b5, r1, decide_eq_true_eq]
    simp only [Bool.false_eq_true, if_false]
    rw [a2, a3, hA]
    exact ⟨by omega, by omega⟩
  rw [r1, a1] at b1
  rw [f1] at b3
  rw [a4, hR] at b4
  simp only [Bool.false_eq_true, if_false, if_true] at b1 b3
  rw [Function.iterate_succ_apply']
  exact ⟨f1, b3, b1, b4⟩

/-- A stretch of `d` quiet samples that brings the repeat counter to its limit: the repeat
reset happens in the next sample and re-arms the arpeggio. -/
theorem repeat_reached {σ : Type} (pf : Platform σ) (st : GenState σ) (A R d : Nat)
    (hA : initArpeggioLimit pf st.params = (A : Int)) (hz : st.arpeggioLimit = 0)
    (hR : st.repeatLimit = (R : Int)) (hr : st.repeatTime + d + 1 = (R : Int))
    (h0 : 0 < R) (h1 : 1 < A) :
    repeatFires ((sampleStep pf)^[d] st) = true ∧
    ((sampleStep pf)^[d + 1] st).arpeggioLimit = (A : Int) ∧
    ((sampleStep pf)^[d + 1] st).arpeggioTime = 1 ∧
    ((sampleStep pf)^[d + 1] st).repeatTime = 0 ∧
    ((sampleStep pf)^[d + 1] st).repeatLimit = (R : Int) := by
  obtain ⟨a1, _, _, a4, _⟩ := counters_run pf d st (Or.inr (by rw [hR]; omega)) (Or.inl hz)
  have par : ((sampleStep pf)^[d] st).params = st.params := (iterate_params pf d st).1
  have r2 : repeatFires ((sampleStep pf)^[d] st) = true := by
    simp only [repeatFires, decide_eq_true_eq]
    rw [a1, a4, hR]
    exact ⟨by omega, by omega⟩
  obtain ⟨d1, d2, d3, d4, d5⟩ := sample_counters pf ((sampleStep pf)^[d] st)
  rw [r2, par, hA] at d5
  simp only [if_true] at d5
  have f2 : arpeggioFires (repeatStep pf ((sampleStep pf)^[d] st)) = false := by
    rw [d5, decide_eq_false_iff_not]
    omega
  rw [r2] at d1 d2
  rw [f2, r2, par, hA] at d3
  rw [a4, hR] at d4
  simp only [Bool.false_eq_true, if_false, if_true] at d1 d2 d3
  rw [Function.iterate_succ_apply']
  exact ⟨r2, d3, by rw [d2]; rfl, d1, d4⟩

theorem arpeggio_reached_from {σ : Type} (pf : Platform σ) (x : GenState σ) (n A R d : Nat)
    (hA : ((sampleStep pf)^[n] x).arpeggioLimit = (A : Int))
    (hR : ((sampleStep pf)^[n] x).repeatLimit = (R : Int))
    (ha : ((sampleStep pf)^[n] x).arpeggioTime + d + 1 = (A : Int))
    (hr : ((sampleStep pf)^[n] x).repeatTime + d + 1 < (R : Int)) (h0 : 0 < A) :
    arpeggioFires (repeatStep pf ((sampleStep pf)^[d + n] x)) = true ∧
    ((sampleStep pf)^[d + 1 + n] x).arpeggioLimit = 0 ∧
    ((sampleStep pf)^[d + 1 + n] x).repeatTime = ((sampleStep pf)^[n] x).repeatTime + d + 1 ∧
    ((sampleStep pf)^[d + 1 + n] x).repeatLimit = (R : Int) := by
  rw [Function.iterate_add_apply, Function.iterate_add_apply]
  exact arpeggio_reached pf _ A R d hA hR ha hr h0

theorem repeat_reached_from {σ : Type} (pf : Platform σ) (x : GenState σ) (n A R d : Nat)
    (hA : initArpeggioLimit pf x.params = (A : Int))
    (hz : ((sampleStep pf)^[n] x).arpeggioLimit = 0)
    (hR : ((sampleStep pf)^[n] x).repeatLimit = (R : Int))
    (hr : ((sampleStep pf)^[n] x).repeatTime + d + 1 = (R : Int)) (h0 : 0 < R) (h1 : 1 < A) :
    repeatFires ((sampleStep pf)^[d + n] x) = true ∧
    ((sampleStep pf)^[d + 1 + n] x).arpeggioLimit = (A : Int) ∧
    ((sampleStep pf)^[d + 1 + n] x).arpeggioTime = 1 ∧
    ((sampleStep pf)^[d + 1 + n] x).repeatTime = 0 ∧
    ((sampleStep pf)^[d + 1 + n] x).repeatLimit = (R : Int) := by
  rw [Function.iterate_add_apply, Function.iterate_add_apply]
  exact repeat_reached pf _ A R d (by rw [(iterate_params pf n x).1]; exact hA) hz hR hr h0 h1

/-- With an arpeggio limit `A` and a larger repeat limit `R`, the arpeggio fires in sample
`i = A - 1`, the repeat reset in sample `m = R - 1` re-arms it, and it fires again in sample
`j = R + A - 2`. -/
theorem arpeggio_twice {σ : Type} (pf : Platform σ) (P : WaveParams) (s : σ) (A R : Nat)
    (hA : initArpeggioLimit pf (clampParams P) = (A : Int))
    (hR : initRepeatLimit pf (clampParams P) = (R : Int)) (h1 : 1 < A) (h2 : A < R) :
    arpeggioFires (repeatStep pf ((sampleStep pf)^[A - 1] (genSetup pf P s))) = true ∧
    repeatFires ((sampleStep pf)^[R - 1] (genSetup pf P s)) = true ∧
    arpeggioFires (repeatStep pf ((sampleStep pf)^[R + A - 2] (genSetup pf P s))) = true := by
  obtain ⟨a, rfl⟩ : ∃ a, A = a + 2 := ⟨A - 2, by omega⟩
  obtain ⟨r, rfl⟩ : ∃ r, R = r + 1 + (a + 1 + 1) := ⟨R - (a + 3), by omega⟩
  have f1 := arpeggio_reached_from pf (genSetup pf P s) 0 (a + 2) (r + 1 + (a + 1 + 1)) (a + 1)
    hA hR
    (by show (0 : Int) + ((a + 1 : Nat) : Int) + 1 = ((a + 2 : Nat) : Int); push_cast; ring)
    (by show (0 : Int) + ((a + 1 : Nat) : Int) + 1 < ((r + 1 + (a + 1 + 1) : Nat) : Int)
        push_cast; omega)
    (by omega)
  have f2 := repeat_reached_from pf (genSetup pf P s) (a + 1 + 1 + 0) (a + 2)
    (r + 1 + (a + 1 + 1)) r hA f1.2.1 f1.2.2.2
    (by rw [f1.2.2.1]
        show (0 : Int) + ((a + 1 : Nat) : Int) + 1 + (r : Int) + 1 =
          ((r + 1 + (a + 1 + 1) : Nat) : Int)
        push_cast; ring)
    (by omega) h1
  have f3 := arpeggio_reached_from pf (genSetup pf P s) (r + 1 + (a + 1 + 1 + 0)) (a + 2)
    (r + 1 + (a + 1 + 1)) a f2.2.1 f2.2.2.2.2
    (by rw [f2.2.2.1]; push_cast; ring)
    (by rw [f2.2.2.2.1]; push_cast; omega)
    (by omega)
  have e1 : a + 2 - 1 = a + 1 + 0 := by omega
  have e2 : r + 1 + (a + 1 + 1) - 1 = r + (a + 1 + 1 + 0) := by omega
  have e3 : r + 1 + (a + 1 + 1) + (a + 2) - 2 = a + (r + 1 + (a + 1 + 1 + 0)) := by omega
  rw [e1, e2, e3]
  exact ⟨f1.1, f2.1, f3.1⟩

theorem arpeggioParams_fires :
    arpeggioFires (repeatStep refPlatform
      ((sampleStep refPlatform)^[1281] (genSetup refPlatform arpeggioParams 0))) = true ∧
    repeatFires ((sampleStep refPlatform)^[5031] (genSetup refPlatform arpeggioParams 0)) = true ∧
    arpeggioFires (repeatStep refPlatform
      ((sampleStep refPlatform)^[6312] (genSetup refPlatform arpeggioParams 0))) = true :=
  arpeggio_twice refPlatform arpeggioParams 0 1282 5032 example_limits.2.1 example_limits.1
    (by decide) (by decide)

set_option maxRecDepth 4000 in
theorem arpeggioParams_lengths :
    Flt.lt fzero (f32 (clampParams arpeggioParams).minFrequencyValue) = false ∧
    (stageLength arpeggioParams.attackTimeValue).toNat = 0 ∧
    (stageLength arpeggioParams.sustainTimeValue).toNat = 25000 ∧
    (stageLength arpeggioParams.decayTimeValue).toNat = 0 := by decide

/-- The run of `arpeggioParams` on the reference platform: 25003 frames, every sample
before frame 25003 started with the generating flag set. -/
theorem arpeggioParams_run :
    (GenerateWave refPlatform arpeggioParams 0).1.frameCount = 25003 ∧
    ∀ k, k < 25003 →
      ((sampleStep refPlatform)^[k] (genSetup refPlatform arpeggioParams 0)).generatingSample
        = true := by
  obtain ⟨l0, l1, l2, l3⟩ := arpeggioParams_lengths
  constructor
  · rw [envelope_frameCount refPlatform arpeggioParams 0 l0 (by rw [l1, l2, l3]; decide),
      l1, l2, l3]
  · intro k hk
    exact (envelope_run refPlatform arpeggioParams 0 l0).1 k (by rw [l1, l2, l3]; exact hk)

/-- Witness of C15: sustain time `0.5` and repeat speed `0.5` on the reference platform.
The run has 25003 frames; the repeat counter reaches the limit 5032 in sample 5032
(index 5031), which the loop reaches with the generating flag set. -/
theorem repeatStep_reset_witness :
    (GenerateWave refPlatform arpeggioParams 0).1.frameCount = 25003 ∧
    (∀ k, k ≤ 5031 →
      ((sampleStep refPlatform)^[k] (genSetup refPlatform arpeggioParams 0)).generatingSample
        = true) ∧
    repeatFires ((sampleStep refPlatform)^[5031] (genSetup refPlatform arpeggioParams 0)) = true ∧
    (repeatStep refPlatform
      ((sampleStep refPlatform)^[5031] (genSetup refPlatform arpeggioParams 0))).rng =
      ((sampleStep refPlatform)^[5031] (genSetup refPlatform arpeggioParams 0)).rng :=
  ⟨arpeggioParams_run.1, fun k hk => arpeggioParams_run.2 k (by omega),
    arpeggioParams_fires.2.1,
    (repeatStep_reset refPlatform arpeggioParams 0 5031 arpeggioParams_fires.2.1).2.1⟩

/-- Witness of C16: repeat speed `0` and change speed `1.0`, sample 8 on the reference
platform. -/
theorem triggers_never_witness :
    (Flt.eq (f32 neverParams.repeatSpeedValue) fzero = true ∧
      Flt.eq (f32 neverParams.changeSpeedValue) (lit32 1 1) = true) ∧
    repeatFires ((sampleStep refPlatform)^[7] (genSetup refPlatform neverParams 0)) = false ∧
    arpeggioFires (repeatStep refPlatform
      ((sampleStep refPlatform)^[7] (genSetup refPlatform neverParams 0))) = false :=
  ⟨⟨example_limits.2.2.1, example_limits.2.2.2⟩,
    ((triggers_never refPlatform neverParams 0 7).1 example_limits.2.2.1).1,
    ((triggers_never refPlatform neverParams 0 7).2 example_limits.2.2.2).1⟩

theorem slideStep_eq {σ : Type} (st : GenState σ) :
    (slideStep st).fperiod =
      (if Flt.lt st.fmaxperiod (slidPeriod st) then st.fmaxperiod else slidPeriod st) ∧
    (slideStep st).fslide = dadd st.fslide st.fdslide ∧
    (slideStep st).fmaxperiod = st.fmaxperiod ∧
    (slideStep st).generatingSample =
      (if Flt.lt st.fmaxperiod (slidPeriod st) && Flt.lt fzero (f32 st.params.minFrequencyValue)
       then false else st.generatingSample) :=
  ⟨rfl, rfl, rfl, rfl⟩

set_option maxRecDepth 4000 in
theorem ceiling_setup :
    clampParams ceilingParams = ceilingParams ∧
    initArpeggioLimit refPlatform ceilingParams = 441000 ∧
    initRepeatLimit refPlatform ceilingParams = 0 ∧
    initMaxPeriod ceilingParams = initPeriod ceilingParams ∧
    Flt.lt fzero (f32 ceilingParams.minFrequencyValue) = true ∧
    stageLength ceilingParams.attackTimeValue = 900000 ∧
    stageLength ceilingParams.sustainTimeValue = 0 ∧
    stageLength ceilingParams.decayTimeValue = 0 := by decide

theorem ceiling_slide :
    dadd (initSlide refPlatform ceilingParams) (initDeltaSlide refPlatform ceilingParams) =
      initSlide refPlatform ceilingParams ∧
    dmul (initPeriod ceilingParams) (initSlide refPlatform ceilingParams) =
      initPeriod ceilingParams ∧
    Flt.lt (initPeriod ceilingParams)
      (dmul (dmul (initPeriod ceilingParams) (initArpeggioModulation refPlatform ceilingParams))
        (initSlide refPlatform ceilingParams)) = true := by decide!

theorem ceiling_values :
    clampParams ceilingParams = ceilingParams ∧
    initArpeggioLimit refPlatform ceilingParams = 441000 ∧
    initRepeatLimit refPlatform ceilingParams = 0 ∧
    initMaxPeriod ceilingParams = initPeriod ceilingParams ∧
    dadd (initSlide refPlatform ceilingParams) (initDeltaSlide refPlatform ceilingParams) =
      initSlide refPlatform ceilingParams ∧
    dmul (initPeriod ceilingParams) (initSlide refPlatform ceilingParams) =
      initPeriod ceilingParams ∧
    Flt.lt (initPeriod ceilingParams)
      (dmul (dmul (initPeriod ceilingParams) (initArpeggioModulation refPlatform ceilingParams))
        (initSlide refPlatform ceilingParams)) = true ∧
    Flt.lt fzero (f32 ceilingParams.minFrequencyValue) = true ∧
    stageLength ceilingParams.attackTimeValue = 900000 ∧
    stageLength ceilingParams.sustainTimeValue = 0 ∧
    stageLength ceilingParams.decayTimeValue = 0 := by
  obtain ⟨a1, a2, a3, a4, a5, a6, a7, a8⟩ := ceiling_setup
  obtain ⟨b1, b2, b3⟩ := ceiling_slide
  exact ⟨a1, a2, a3, a4, b1, b2, b3, a5, a6, a7, a8⟩

theorem genSetup_slide {σ : Type} (pf : Platform σ) (P : WaveParams) (s : σ) :
    (genSetup pf P s).fperiod = initPeriod (clampParams P) ∧
    (genSetup pf P s).period = Flt.toInt (initPeriod (clampParams P)) ∧
    (genSetup pf P s).fmaxperiod = initMaxPeriod (clampParams P) ∧
    (genSetup pf P s).fslide = initSlide pf (clampParams P) ∧
    (genSetup pf P s).fdslide = initDeltaSlide pf (clampParams P) ∧
    (genSetup pf P s).squareDuty = initSquareDuty (clampParams P) ∧
    (genSetup pf P s).squareSlide = initSquareSlide (clampParams P) ∧
    (genSetup pf P s).arpeggioModulation = initArpeggioModulation pf (clampParams P) ∧
    (genSetup pf P s).arpeggioLimit = initArpeggioLimit pf (clampParams P) ∧
    (genSetup pf P s).repeatLimit = initRepeatLimit pf (clampParams P) ∧
    (genSetup pf P s).arpeggioTime = 0 ∧ (genSetup pf P s).repeatTime = 0 :=
  ⟨rfl, rfl, rfl, rfl, rfl, rfl, rfl, rfl, rfl, rfl, rfl, rfl⟩

theorem ceilingInv_init (s : Nat) : ceilingInv (genSetup refPlatform ceilingParams s) 0 := by
  obtain ⟨v1, v2, v3, v4, _, _, _, _, v9, v10, v11⟩ := ceiling_values
  obtain ⟨_, _, hg, hp, hs, ht, hl⟩ := genSetup_init refPlatform ceilingParams s
  obtain ⟨g1, _, g3, g4, g5, _, _, g8, g9, g10, g11, _⟩ :=
    genSetup_slide refPlatform ceilingParams s
  rw [v1] at hp hl g1 g3 g4 g5 g8 g9 g10
  rw [v9, v10, v11] at hl
  rw [v4] at g3
  rw [v2] at g9
  rw [v3] at g10
  exact ⟨hp, g1, g3, g4, g5, g8, g9, g11, g10, hg, hs, ht, hl⟩

/-- The facts about sample `k` shared by the samples before the arpeggio and the one
in which it fires. -/
theorem ceilingInv_sample (st : GenState Nat) (k : Nat) (h : ceilingInv st k) (hk : k < 441000) :
    repeatStep refPlatform st = { st with repeatTime := st.repeatTime + 1 } ∧
    arpeggioFires (repeatStep refPlatform st) = decide (441000 ≤ (k : Int) + 1) ∧
    nextStage st = 0 ∧ nextTime st = (k : Int) + 1 := by
  obtain ⟨_, _, _, _, _, _, h7, h8, h9, _, h11, h12, h13⟩ := h
  have r : repeatFires st = false := repeatFires_of_limit_zero st h9
  have e := repeatStep_idle refPlatform st r
  have hadv : ¬ st.envelopeLength.getD st.envelopeStage.toNat 0 < st.envelopeTime + 1 := by
    rw [h13, h11, h12]
    show ¬ (900000 : Int) < (k : Int) + 1
    omega
  refine ⟨e, ?_, ?_, ?_⟩
  · rw [e]
    show decide (st.arpeggioLimit ≠ 0 ∧ st.arpeggioLimit ≤ st.arpeggioTime + 1) = _
    rw [h7, h8]
    simp
  · unfold nextStage
    rw [if_neg hadv, h11]
  · unfold nextTime
    rw [if_neg hadv, h12]

theorem ceilingInv_step (st : GenState Nat) (k : Nat) (h : ceilingInv st k)
    (hk : k + 1 < 441000) : ceilingInv (sampleStep refPlatform st) (k + 1) := by
  obtain ⟨e, a, n1, n2⟩ := ceilingInv_sample st k h (by omega)
  obtain ⟨h1, h2, h3, h4, h5, h6, h7, h8, h9, h10, h11, h12, h13⟩ := h
  obtain ⟨_, _, _, _, v5, v6, _, _, _⟩ := ceiling_values
  have a' : arpeggioFires (repeatStep refPlatform st) = false := by
    rw [a, decide_eq_false_iff_not]
    omega
  obtain ⟨s1, s2, s3, s4, s5, s6, s7, _, s9⟩ := sampleStep_slide refPlatform st
  obtain ⟨c1, c2, c3, c4, _⟩ := sampleStep_ctl refPlatform st
  have hf := sampleStep_flag refPlatform st
  obtain ⟨q1, q2, _, q4⟩ := slideStep_eq (repeatStep refPlatform st)
  have sp : slidPeriod (repeatStep refPlatform st) = initPeriod ceilingParams := by
    unfold slidPeriod
    rw [a']
    rw [e]
    show dmul st.fperiod (dadd st.fslide st.fdslide) = _
    rw [h2, h4, h5, v5, v6]
  have fm : (repeatStep refPlatform st).fmaxperiod = initPeriod ceilingParams := by
    rw [e]; exact h3
  rw [sp, fm, Flt.lt_irrefl] at q1 q4
  simp only [Bool.false_and, Bool.false_eq_true, if_false] at q1 q4
  refine ⟨by rw [c1, h1], by rw [s1, q1], by rw [s2, fm], ?_, ?_, ?_, ?_, ?_, by rw [s9, h9], ?_,
    by rw [c2, n1], by rw [c3, n2]; push_cast; rfl, by rw [c4, h13]⟩
  · rw [s3, q2, e]
    show dadd st.fslide st.fdslide = _
    rw [h4, h5, v5]
  · rw [s4, e]; exact h5
  · rw [s7, e]; exact h6
  · rw [s6, a', e]; exact h7
  · rw [s5, e]
    show st.arpeggioTime + 1 = _
    rw [h8]; push_cast; rfl
  · rw [hf, n1, q4, e]
    show (if (0 : Int) = 3 ∧ (0 : Int) ≠ st.envelopeStage then false else st.generatingSample) = true
    rw [if_neg (by omega), h10]

theorem ceilingInv_run (s : Nat) (k : Nat) (hk : k < 441000) :
    ceilingInv ((sampleStep refPlatform)^[k] (genSetup refPlatform ceilingParams s)) k := by
  induction k with
  | zero => exact ceilingInv_init s
  | succ k ih =>
    rw [Function.iterate_succ_apply']
    exact ceilingInv_step _ k (ih (by omega)) hk

/-- The last sample the loop can generate on `ceilingParams`: the arpeggio fires, the slid
period exceeds the maximum period and the slide block clears the flag. -/
theorem ceiling_last (s : Nat) (k : Nat) (hk : k = 440999) :
    Flt.lt (repeatStep refPlatform
        ((sampleStep refPlatform)^[k] (genSetup refPlatform ceilingParams s))).fmaxperiod
      (slidPeriod (repeatStep refPlatform
        ((sampleStep refPlatform)^[k] (genSetup refPlatform ceilingParams s)))) = true ∧
    (slideStep (repeatStep refPlatform
      ((sampleStep refPlatform)^[k] (genSetup refPlatform ceilingParams s)))).generatingSample
      = false ∧
    (sampleStep refPlatform
      ((sampleStep refPlatform)^[k] (genSetup refPlatform ceilingParams s))).generatingSample
      = false := by
  have h := ceilingInv_run s k (by omega)
  generalize (sampleStep refPlatform)^[k] (genSetup refPlatform ceilingParams s) = st at h ⊢
  obtain ⟨e, a, n1, n2⟩ := ceilingInv_sample st k h (by omega)
  obtain ⟨h1, h2, h3, h4, h5, h6, h7, h8, h9, h10, h11, h12, h13⟩ := h
  obtain ⟨_, _, _, _, v5, _, v7, v8, _⟩ := ceiling_values
  have a' : arpeggioFires (repeatStep refPlatform st) = true := by
    rw [a, decide_eq_true_eq]
    omega
  have sp : slidPeriod (repeatStep refPlatform st) =
      dmul (dmul (initPeriod ceilingParams) (initArpeggioModulation refPlatform ceilingParams))
        (initSlide refPlatform ceilingParams) := by
    unfold slidPeriod
    rw [a']
    rw [e]
    show dmul (dmul st.fperiod st.arpeggioModulation) (dadd st.fslide st.fdslide) = _
    rw [h2, h4, h5, h6, v5]
  have fm : (repeatStep refPlatform st).fmaxperiod = initPeriod ceilingParams := by
    rw [e]; exact h3
  have pm : (repeatStep refPlatform st).params = ceilingParams := by
    rw [e]; exact h1
  obtain ⟨_, _, _, q4⟩ := slideStep_eq (repeatStep refPlatform st)
  rw [sp, fm, v7, pm, v8] at q4
  have q4' : (slideStep (repeatStep refPlatform st)).generatingSample = false := by
    rw [q4]
    simp only [Bool.and_self, if_true]
  have hover : Flt.lt (repeatStep refPlatform st).fmaxperiod
      (slidPeriod (repeatStep refPlatform st)) = true := by
    rw [sp, fm]
    exact v7
  refine ⟨hover, q4', ?_⟩
  rw [sampleStep_flag, q4']
  split <;> rfl

theorem GenerateWave_eq {σ : Type} (pf : Platform σ) (P : WaveParams) (s : σ) :
    (GenerateWave pf P s).1.frameCount =
      (sampleLoop pf maxWaveSamples 0 (genSetup pf P s)).sampleCount ∧
    (GenerateWave pf P s).1.data =
      (sampleLoop pf maxWaveSamples 0 (genSetup pf P s)).buffer.take
        (sampleLoop pf maxWaveSamples 0 (genSetup pf P s)).sampleCount := by
  simp only [GenerateWave, Nat.div_one, Nat.mul_one, and_self]

theorem ceiling_length (s : Nat) (k : Nat) (hk : k = 440999) :
    (sampleStep refPlatform
      ((sampleStep refPlatform)^[k] (genSetup refPlatform ceilingParams s))).buffer.length
      = 441000 := by
  rw [(sampleStep_ctl refPlatform _).2.2.2.2.2.2,
    (iterate_params refPlatform k (genSetup refPlatform ceilingParams s)).2.2.2.2,
    (genSetup_init refPlatform ceilingParams s).1, List.length_nil]
  omega

/-- C18 at the failing input: on the reference platform, for attack time `3.0`, start and
minimum frequency `0.5`, change amount `-1.0` and change speed `-3.695575`, the flag is set
before each of the 441000 samples; in the last one (index 440999) the arpeggio fires, the
slid period exceeds the maximum period, the effective minimum frequency is positive and the
slide block clears the flag; the sample is written (the buffer then holds 441000 samples),
but the loop ends without reaching its `break` and `GenerateWave` returns 0 frames and no
data: the flagged sample is not the last frame of the wave returned. -/
theorem GenerateWave_ceiling_slide (s : Nat) :
    (∀ k, k < 441000 →
      ((sampleStep refPlatform)^[k] (genSetup refPlatform ceilingParams s)).generatingSample
        = true) ∧
    Flt.lt (repeatStep refPlatform
        ((sampleStep refPlatform)^[440999] (genSetup refPlatform ceilingParams s))).fmaxperiod
      (slidPeriod (repeatStep refPlatform
        ((sampleStep refPlatform)^[440999] (genSetup refPlatform ceilingParams s)))) = true ∧
    Flt.lt fzero (f32 (clampParams ceilingParams).minFrequencyValue) = true ∧
    (slideStep (repeatStep refPlatform
      ((sampleStep refPlatform)^[440999] (genSetup refPlatform ceilingParams s)))).generatingSample
      = false ∧
    (sampleStep refPlatform
      ((sampleStep refPlatform)^[440999] (genSetup refPlatform ceilingParams s))).buffer.length
      = 441000 ∧
    (GenerateWave refPlatform ceilingParams s).1.frameCount = 0 ∧
    (GenerateWave refPlatform ceilingParams s).1.data = [] := by
  have hrun : ∀ k, k < 441000 →
      ((sampleStep refPlatform)^[k] (genSetup refPlatform ceilingParams s)).generatingSample
        = true := fun k hk => (ceilingInv_run s k hk).2.2.2.2.2.2.2.2.2.1
  obtain ⟨l1, l2, _⟩ := ceiling_last s 440999 rfl
  obtain ⟨v1, _, _, _, _, _, _, v8, _⟩ := ceiling_values
  have hlen := ceiling_length s 440999 rfl
  have hloop : sampleLoop refPlatform maxWaveSamples 0 (genSetup refPlatform ceilingParams s) =
      (sampleStep refPlatform)^[maxWaveSamples] (genSetup refPlatform ceilingParams s) :=
    sampleLoop_running refPlatform maxWaveSamples 0 _ hrun
  have hcount : (sampleLoop refPlatform maxWaveSamples 0
      (genSetup refPlatform ceilingParams s)).sampleCount = 0 := by
    rw [hloop, (iterate_params refPlatform maxWaveSamples _).2.2.2.1]
    rfl
  obtain ⟨w1, w2⟩ := GenerateWave_eq refPlatform ceilingParams s
  have hf : (GenerateWave refPlatform ceilingParams s).1.frameCount = 0 := by
    rw [w1, hcount]
  have hd : (GenerateWave refPlatform ceilingParams s).1.data = [] := by
    rw [w2, hcount]
    exact List.take_zero _
  exact ⟨hrun, l1, by rw [v1]; exact v8, l2, hlen, hf, hd⟩

theorem fmaxperiod_invariant {σ : Type} (pf : Platform σ) (P : WaveParams) (s : σ) (k : Nat) :
    ((sampleStep pf)^[k] (genSetup pf P s)).fmaxperiod = initMaxPeriod (clampParams P) ∧
    (repeatStep pf ((sampleStep pf)^[k] (genSetup pf P s))).fmaxperiod =
      initMaxPeriod (clampParams P) := by
  have step : ∀ st : GenState σ, st.params = clampParams P →
      st.fmaxperiod = initMaxPeriod (clampParams P) →
      (repeatStep pf st).fmaxperiod = initMaxPeriod (clampParams P) := by
    intro st hp hm
    by_cases hr : repeatFires st = true
    · rw [repeatStep_fires pf st hr, hp]
    · rw [repeatStep_idle pf st (by simpa using hr)]
      exact hm
  have par : ∀ k, ((sampleStep pf)^[k] (genSetup pf P s)).params = clampParams P :=
    fun k => (iterate_params pf k (genSetup pf P s)).1
  have inv : ∀ k, ((sampleStep pf)^[k] (genSetup pf P s)).fmaxperiod =
      initMaxPeriod (clampParams P) := by
    intro k
    induction k with
    | zero => rfl
    | succ k ih =>
      rw [Function.iterate_succ_apply', (sampleStep_slide pf _).2.1]
      exact step _ (par k) ih
  exact ⟨inv k, step _ (par k) (inv k)⟩

/-- The slide block at sample `k` of `GenerateWave`: the period it leaves does not exceed
the maximum period, it clears the flag exactly when the slid period exceeded the maximum
period and the effective minimum frequency is positive, and when it does so below the
ceiling the sample is the last frame of the wave returned. -/
theorem slide_limit {σ : Type} (pf : Platform σ) (P : WaveParams) (s : σ) (k : Nat) :
    Flt.lt (slideStep (repeatStep pf ((sampleStep pf)^[k] (genSetup pf P s)))).fmaxperiod
      (slideStep (repeatStep pf ((sampleStep pf)^[k] (genSetup pf P s)))).fperiod = false ∧
    (slideStep (repeatStep pf ((sampleStep pf)^[k] (genSetup pf P s)))).fmaxperiod =
      initMaxPeriod (clampParams P) ∧
    ((slideStep (repeatStep pf ((sampleStep pf)^[k] (genSetup pf P s)))).generatingSample =
      (if Flt.lt (initMaxPeriod (clampParams P))
            (slidPeriod (repeatStep pf ((sampleStep pf)^[k] (genSetup pf P s)))) &&
          Flt.lt fzero (f32 (clampParams P).minFrequencyValue)
       then false else ((sampleStep pf)^[k] (genSetup pf P s)).generatingSample)) ∧
    ((∀ j, j ≤ k → ((sampleStep pf)^[j] (genSetup pf P s)).generatingSample = true) →
      (slideStep (repeatStep pf ((sampleStep pf)^[k] (genSetup pf P s)))).generatingSample
        = false →
      k + 1 < 441000 →
      (GenerateWave pf P s).1.frameCount = k + 1 ∧
      (GenerateWave pf P s).1.data = ((sampleStep pf)^[k + 1] (genSetup pf P s)).buffer ∧
      ((sampleStep pf)^[k + 1] (genSetup pf P s)).buffer.length = k + 1) := by
  obtain ⟨_, fm⟩ := fmaxperiod_invariant pf P s k
  have par : ((sampleStep pf)^[k] (genSetup pf P s)).params = clampParams P :=
    (iterate_params pf k (genSetup pf P s)).1
  have hlen : ((sampleStep pf)^[k + 1] (genSetup pf P s)).buffer.length = k + 1 := by
    rw [(iterate_params pf (k + 1) (genSetup pf P s)).2.2.2.2, (genSetup_init pf P s).1]
    simp
  refine ⟨?_, ?_, ?_, ?_⟩
  · obtain ⟨q1, _, q3, _⟩ := slideStep_eq (repeatStep pf ((sampleStep pf)^[k] (genSetup pf P s)))
    rw [q1, q3]
    split
    · exact Flt.lt_irrefl _
    · rename_i h
      simpa using h
  · rw [(slideStep_eq _).2.2.1, fm]
  · obtain ⟨h1, _, _, _, _, h6, _⟩ := repeatStep_ctl pf ((sampleStep pf)^[k] (genSetup pf P s))
    rw [(slideStep_eq _).2.2.2, fm, h1, par, h6]
  · intro hrun hflag hk
    have hstop : ((sampleStep pf)^[k + 1] (genSetup pf P s)).generatingSample = false := by
      rw [Function.iterate_succ_apply', sampleStep_flag, hflag]
      split <;> rfl
    have hloop := sampleLoop_stops pf maxWaveSamples (k + 1) 0 (genSetup pf P s)
      (by show k + 1 < 441000; exact hk) (fun j hj => hrun j (by omega)) hstop
    obtain ⟨w1, w2⟩ := GenerateWave_eq pf P s
    refine ⟨by rw [w1, hloop]; simp, ?_, hlen⟩
    rw [w2, hloop]
    show List.take (0 + (k + 1)) ((sampleStep pf)^[k + 1] (genSetup pf P s)).buffer = _
    exact List.take_of_length_le (by rw [hlen]; omega)

/-! ## Sub-samples -/

theorem subSample_lowPass {σ : Type} (pf : Platform σ) (x : GenState σ × Flt) :
    (subSample pf x).1.fltw = lowPassCorner x.1 ∧
    (subSample pf x).1.fltdp =
      (if !(Flt.eq (f32 x.1.params.lpfCutoffValue) (lit32 1 1)) then
        fsub (fadd x.1.fltdp (fmul (fsub (oscillator pf x.1) x.1.fltp) (lowPassCorner x.1)))
          (fmul (fadd x.1.fltdp (fmul (fsub (oscillator pf x.1) x.1.fltp) (lowPassCorner x.1)))
            x.1.fltdmp)
       else fzero) ∧
    (subSample pf x).1.fltp =
      fadd (if !(Flt.eq (f32 x.1.params.lpfCutoffValue) (lit32 1 1)) then x.1.fltp
            else oscillator pf x.1) (subSample pf x).1.fltdp ∧
    (subSample pf x).1.params = x.1.params := by
  refine ⟨rfl, ?_, ?_, rfl⟩
  · unfold subSample
    simp only []
    split <;> rfl
  · unfold subSample
    simp only []
    split <;> rfl

theorem subSample_phaser {σ : Type} (pf : Platform σ) (x : GenState σ × Flt) :
    (subSample pf x).1.phaserBuffer =
      (phaser x.1.phaserBuffer x.1.ipp x.1.iphase (subSample pf x).1.fltphp).2 ∧
    (subSample pf x).2 =
      fadd x.2 (fmul (phaser x.1.phaserBuffer x.1.ipp x.1.iphase (subSample pf x).1.fltphp).1
        x.1.envelopeVolume) ∧
    (subSample pf x).1.ipp = and1023 (x.1.ipp + 1) ∧
    (subSample pf x).1.iphase = x.1.iphase :=
  ⟨rfl, rfl, rfl, rfl⟩

/-! ## Float facts used by the filter -/

theorem Flt.fits_of_canonical (f : Fmt) (x : Flt) (h : x.canonical f = true)
    (hf : x.isFinite = true) : x.fits f = true := by
  cases x with
  | nan => exact absurd hf (by simp [Flt.isFinite])
  | inf _ => exact absurd hf (by simp [Flt.isFinite])
  | fin a m e =>
    simp only [Flt.canonical, Bool.and_eq_true, decide_eq_true_eq] at h
    simp only [Flt.fits, Bool.and_eq_true, decide_eq_true_eq]
    exact ⟨⟨h.1.1.1, h.1.1.2⟩, h.1.2⟩

/-- Adding `0.0f` to a `float` gives the same value: NaN for NaN, the same infinity, and
for a finite datum a finite datum of the same value. -/
theorem fadd_fzero (y : Flt) (h : y.canonical binary32 = true) :
    (y = Flt.nan ∧ fadd y fzero = Flt.nan) ∨
    (∃ a, y = Flt.inf a ∧ fadd y fzero = Flt.inf a) ∨
    (y.isFinite = true ∧ (fadd y fzero).isFinite = true ∧ (fadd y fzero).toRat = y.toRat) := by
  cases hy : y with
  | nan => exact Or.inl ⟨rfl, rfl⟩
  | inf a => exact Or.inr (Or.inl ⟨a, rfl, rfl⟩)
  | fin a m e =>
    right; right
    rw [hy] at h
    have hf : (Flt.fin a m e).isFinite = true := rfl
    have hfit := Flt.fits_of_canonical binary32 _ h hf
    have z : fzero.toRat = 0 := by simp [fzero, Flt.toRat]
    obtain ⟨b1, b2, b3⟩ := Flt.add_between binary32 (by decide) (Flt.fin a m e) fzero
      (Flt.fin a m e) (Flt.fin a m e) hf rfl hfit hfit (by rw [z, add_zero]) (by rw [z, add_zero])
    exact ⟨hf, b1, le_antisymm b3 b2⟩

set_option maxRecDepth 4000 in
theorem corner_consts :
    Flt.lt (lit32 1 10) fzero = false ∧ Flt.le fzero fzero = true ∧
    Flt.le fzero (lit32 1 10) = true ∧ Flt.le (lit32 1 10) (lit32 1 10) = true ∧
    (lit32 1 10).isNaN = false := by decide

/-- The low-pass corner is NaN or lies in `[0, 0.1f]`. -/
theorem lowPassCorner_range {σ : Type} (st : GenState σ) :
    lowPassCorner st = Flt.nan ∨
    (Flt.le fzero (lowPassCorner st) = true ∧ Flt.le (lowPassCorner st) (lit32 1 10) = true) := by
  obtain ⟨c1, c2, c3, c4, n1⟩ := corner_consts
  have n0 : fzero.isNaN = false := rfl
  unfold lowPassCorner
  simp only []
  by_cases ha : Flt.lt (fmul st.fltw st.fltwd) fzero = true
  · right
    rw [if_pos ha, c1]
    exact ⟨c2, c3⟩
  · rw [if_neg ha]
    by_cases hb : Flt.lt (lit32 1 10) (fmul st.fltw st.fltwd) = true
    · right
      rw [if_pos hb]
      exact ⟨c3, c4⟩
    · rw [if_neg hb]
      by_cases hn : fmul st.fltw st.fltwd = Flt.nan
      · exact Or.inl hn
      · right
        have hn' := Flt.isNaN_eq_false_of_ne _ hn
        exact ⟨Flt.le_of_not_lt _ _ hn' n0 (by simpa using ha),
          Flt.le_of_not_lt _ _ n1 hn' (by simpa using hb)⟩

/-! ## The noise table holds `float` values -/

theorem fsub_canonical (x y : Flt) : (fsub x y).canonical binary32 = true :=
  Flt.add_canonical binary32 (by decide) (by decide) _ _

theorem fillNoise_canonical {σ : Type} (pf : Platform σ) (n : Nat) (s : σ) :
    ∀ y ∈ (fillNoise pf n s).1, y.canonical binary32 = true := by
  induction n generalizing s with
  | zero => intro y hy; exact absurd hy (List.not_mem_nil y)
  | succ n ih =>
    intro y hy
    rcases List.mem_cons.1 hy with h | h
    · rw [h]; exact fsub_canonical _ _
    · exact ih _ y h

theorem subSample_noise {σ : Type} (pf : Platform σ) (x : GenState σ × Flt)
    (h : ∀ y ∈ x.1.noiseBuffer, y.canonical binary32 = true) :
    ∀ y ∈ (subSample pf x).1.noiseBuffer, y.canonical binary32 = true := by
  have e : (subSample pf x).1.noiseBuffer =
      (if (decide (x.1.period ≤ x.1.phase + 1) && decide (i32 x.1.params.waveTypeValue = 3)) = true
       then fillNoise pf 32 x.1.rng else (x.1.noiseBuffer, x.1.rng)).1 := rfl
  rw [e]
  split
  · exact fillNoise_canonical pf 32 _
  · exact h

theorem superSample_noise {σ : Type} (pf : Platform σ) (n : Nat) (x : GenState σ × Flt)
    (h : ∀ y ∈ x.1.noiseBuffer, y.canonical binary32 = true) :
    (∀ y ∈ (superSample pf n x).1.noiseBuffer, y.canonical binary32 = true) ∧
    (superSample pf n x).1.params = x.1.params ∧
    (superSample pf n x).1.phaserBuffer.length = x.1.phaserBuffer.length ∧
    (superSample pf n x).1.iphase = x.1.iphase := by
  induction n generalizing x with
  | zero => exact ⟨h, rfl, rfl, rfl⟩
  | succ n ih =>
    obtain ⟨a1, a2, a3, a4⟩ := ih (subSample pf x) (subSample_noise pf x h)
    have e3 : (subSample pf x).1.phaserBuffer.length = x.1.phaserBuffer.length := by
      rw [(subSample_phaser pf x).1]
      exact List.length_set _ _ _
    exact ⟨a1, a2, by rw [superSample, a3, e3], a4⟩

theorem preSample_keep {σ : Type} (pf : Platform σ) (st : GenState σ) :
    (preSample pf st).noiseBuffer = st.noiseBuffer ∧
    (preSample pf st).phaserBuffer = st.phaserBuffer ∧
    (preSample pf st).params = st.params ∧
    (preSample pf st).rng = st.rng ∧
    (preSample pf st).ipp = st.ipp := by
  by_cases hr : repeatFires st = true
  · have e : preSample pf st =
        phaserStep (envelopeStep pf (periodStep pf (slideStep (repeatStep pf st)))) := rfl
    rw [e, repeatStep_fires pf st hr]
    exact ⟨rfl, rfl, rfl, rfl, rfl⟩
  · have e : preSample pf st =
        phaserStep (envelopeStep pf (periodStep pf (slideStep (repeatStep pf st)))) := rfl
    rw [e, repeatStep_idle pf st (by simpa using hr)]
    exact ⟨rfl, rfl, rfl, rfl, rfl⟩

theorem run_noise {σ : Type} (pf : Platform σ) (P : WaveParams) (s : σ) (k : Nat) :
    (∀ y ∈ ((sampleStep pf)^[k] (genSetup pf P s)).noiseBuffer, y.canonical binary32 = true) ∧
    ((sampleStep pf)^[k] (genSetup pf P s)).phaserBuffer.length = 1024 := by
  induction k with
  | zero =>
    exact ⟨fillNoise_canonical pf 32 _, List.length_replicate 1024 fzero⟩
  | succ k ih =>
    rw [Function.iterate_succ_apply']
    generalize (sampleStep pf)^[k] (genSetup pf P s) = st at ih
    obtain ⟨p1, p2, _⟩ := preSample_keep pf st
    obtain ⟨a1, _, a3, _⟩ := superSample_noise pf MAX_SUPERSAMPLING (preSample pf st, fzero)
      (by show ∀ y ∈ (preSample pf st).noiseBuffer, _; rw [p1]; exact ih.1)
    have e1 : (sampleStep pf st).noiseBuffer =
        (superSample pf MAX_SUPERSAMPLING (preSample pf st, fzero)).1.noiseBuffer := rfl
    have e2 : (sampleStep pf st).phaserBuffer =
        (superSample pf MAX_SUPERSAMPLING (preSample pf st, fzero)).1.phaserBuffer := rfl
    refine ⟨by rw [e1]; exact a1, ?_⟩
    rw [e2, a3]
    show (preSample pf st).phaserBuffer.length = 1024
    rw [p2]
    exact ih.2

/-- The sub-sample inputs of a run: the parameters are the clamped ones, the noise table
holds `float` values and the phaser ring has its 1024 entries. -/
theorem subSampleInput_facts {σ : Type} (pf : Platform σ) (P : WaveParams) (s : σ) (k j : Nat) :
    (subSampleInput pf P s k j).1.params = clampParams P ∧
    (∀ y ∈ (subSampleInput pf P s k j).1.noiseBuffer, y.canonical binary32 = true) ∧
    (subSampleInput pf P s k j).1.phaserBuffer.length = 1024 ∧
    (subSampleInput pf P s k j).1.iphase =
      (preSample pf ((sampleStep pf)^[k] (genSetup pf P s))).iphase := by
  obtain ⟨n1, n2⟩ := run_noise pf P s k
  obtain ⟨p1, p2, p3, _⟩ := preSample_keep pf ((sampleStep pf)^[k] (genSetup pf P s))
  obtain ⟨a1, a2, a3, a4⟩ := superSample_noise pf j
    (preSample pf ((sampleStep pf)^[k] (genSetup pf P s)), fzero)
    (by show ∀ y ∈ (preSample pf ((sampleStep pf)^[k] (genSetup pf P s))).noiseBuffer, _
        rw [p1]; exact n1)
  refine ⟨?_, a1, ?_, a4⟩
  · show (superSample pf j _).1.params = _
    rw [a2]
    show (preSample pf ((sampleStep pf)^[k] (genSetup pf P s))).params = _
    rw [p3, (iterate_params pf k (genSetup pf P s)).1]
    rfl
  · show (superSample pf j _).1.phaserBuffer.length = _
    rw [a3]
    show (preSample pf ((sampleStep pf)^[k] (genSetup pf P s))).phaserBuffer.length = _
    rw [p2]
    exact n2

/-! ## Low-pass stage and phaser of a sub-sample -/

set_option maxRecDepth 4000 in
theorem baseline_cutoff : Flt.eq (f32 baselineParams.lpfCutoffValue) (lit32 1 1) = true := by
  decide

theorem baseline_iphase : (subSampleInput refPlatform baselineParams 0 0 0).1.iphase = 0 := by
  decide!

theorem refSin_canonical (y : Flt) : (refPlatform.sinf y).canonical binary32 = true :=
  fsub_canonical _ _

/-- The raw oscillator value is a `float` when the wave is not the sine wave, or when the
`sinf` of the platform returns `float` values. -/
theorem oscillator_float {σ : Type} (pf : Platform σ) (st : GenState σ)
    (hsin : i32 st.params.waveTypeValue ≠ 2 ∨ ∀ y, (pf.sinf y).canonical binary32 = true)
    (h : ∀ y ∈ st.noiseBuffer, y.canonical binary32 = true) :
    (oscillator pf st).canonical binary32 = true := by
  have c1 : (lit32 1 2).canonical binary32 = true := by decide
  have c2 : (Flt.neg (lit32 1 2)).canonical binary32 = true := by decide
  have c3 : fzero.canonical binary32 = true := by decide
  have hget : ∀ (l : List Flt) (i : Nat), (∀ y ∈ l, y.canonical binary32 = true) →
      (l.getD i fzero).canonical binary32 = true := by
    intro l i hl
    rw [List.getD_eq_getElem?_getD]
    cases hi : l[i]? with
    | none => exact c3
    | some v => exact hl v (List.getElem?_mem hi)
  unfold oscillator
  simp only []
  split_ifs
  all_goals first
    | exact c1
    | exact c2
    | exact c3
    | exact fsub_canonical _ _
    | exact hget _ _ (fillNoise_canonical pf 32 _)
    | exact hget _ _ h
    | (rcases hsin with hs | hs
       · exact absurd (by assumption) hs
       · exact hs _)

/-- The corner is a NaN exactly when the product `fltw*fltwd` is: both clamping tests are
false on a NaN, and a clamped value is `0.0f`, `0.1f` or the product itself. -/
theorem lowPassCorner_nan {σ : Type} (st : GenState σ) :
    lowPassCorner st = Flt.nan ↔ fmul st.fltw st.fltwd = Flt.nan := by
  have z0 : fzero ≠ Flt.nan := by decide
  have z1 : lit32 1 10 ≠ Flt.nan := by decide
  unfold lowPassCorner
  simp only []
  constructor
  · intro h
    by_cases ha : Flt.lt (fmul st.fltw st.fltwd) fzero = true
    · rw [if_pos ha] at h
      split at h
      · exact absurd h z1
      · exact absurd h z0
    · rw [if_neg ha] at h
      split at h
      · exact absurd h z1
      · exact h
  · intro h
    rw [h]
    rfl

theorem baseline_corner :
    fmul (subSampleInput refPlatform baselineParams 0 0 0).1.fltw
      (subSampleInput refPlatform baselineParams 0 0 0).1.fltwd ≠ Flt.nan := by
  decide!

theorem nanCutoff_corner :
    lowPassCorner (subSampleInput refPlatform nanCutoffParams 0 0 0).1 = Flt.nan := by
  decide!

/-- C20 (low-pass bypass), amended: in every sub-sample of `GenerateWave`, when
`lpfCutoffValue == 1.0f` the filter delta after the low-pass stage is `0.0f` and the filter
position is the raw oscillator value plus `0.0f`, which is the oscillator value itself (NaN
for NaN, the same infinity, the same number) for every wave other than the sine wave, and
for the sine wave when `sinf` returns `float` values; otherwise the stage computes
`fltdp += (sample - fltp)*fltw; fltdp -= fltdp*fltdmp; fltp += fltdp`. In both cases the
corner `fltw` is the product `fltw*fltwd` passed through the two clamping tests: a value in
`[0, 0.1f]` when the product is not a NaN, and a NaN when it is. -/
theorem subSample_lowPass_spec {σ : Type} (pf : Platform σ) (P : WaveParams) (s : σ)
    (k j : Nat) :
    (Flt.eq (f32 P.lpfCutoffValue) (lit32 1 1) = true →
      (subSample pf (subSampleInput pf P s k j)).1.fltdp = fzero ∧
      (subSample pf (subSampleInput pf P s k j)).1.fltp =
        fadd (oscillator pf (subSampleInput pf P s k j).1) fzero ∧
      ((i32 P.waveTypeValue ≠ 2 ∨ ∀ y, (pf.sinf y).canonical binary32 = true) →
        ((oscillator pf (subSampleInput pf P s k j).1 = Flt.nan ∧
            (subSample pf (subSampleInput pf P s k j)).1.fltp = Flt.nan) ∨
          (∃ a, oscillator pf (subSampleInput pf P s k j).1 = Flt.inf a ∧
            (subSample pf (subSampleInput pf P s k j)).1.fltp = Flt.inf a) ∨
          ((oscillator pf (subSampleInput pf P s k j).1).isFinite = true ∧
            (subSample pf (subSampleInput pf P s k j)).1.fltp.isFinite = true ∧
            (subSample pf (subSampleInput pf P s k j)).1.fltp.toRat =
              (oscillator pf (subSampleInput pf P s k j).1).toRat)))) ∧
    (Flt.eq (f32 P.lpfCutoffValue) (lit32 1 1) = false →
      (subSample pf (subSampleInput pf P s k j)).1.fltdp =
        fsub
          (fadd (subSampleInput pf P s k j).1.fltdp
            (fmul (fsub (oscillator pf (subSampleInput pf P s k j).1)
              (subSampleInput pf P s k j).1.fltp) (lowPassCorner (subSampleInput pf P s k j).1)))
          (fmul
            (fadd (subSampleInput pf P s k j).1.fltdp
              (fmul (fsub (oscillator pf (subSampleInput pf P s k j).1)
                (subSampleInput pf P s k j).1.fltp) (lowPassCorner (subSampleInput pf P s k j).1)))
            (subSampleInput pf P s k j).1.fltdmp) ∧
      (subSample pf (subSampleInput pf P s k j)).1.fltp =
        fadd (subSampleInput pf P s k j).1.fltp
          (subSample pf (subSampleInput pf P s k j)).1.fltdp) ∧
    (subSample pf (subSampleInput pf P s k j)).1.fltw =
      lowPassCorner (subSampleInput pf P s k j).1 ∧
    (fmul (subSampleInput pf P s k j).1.fltw (subSampleInput pf P s k j).1.fltwd ≠ Flt.nan →
      Flt.le fzero (lowPassCorner (subSampleInput pf P s k j).1) = true ∧
      Flt.le (lowPassCorner (subSampleInput pf P s k j).1) (lit32 1 10) = true) ∧
    (fmul (subSampleInput pf P s k j).1.fltw (subSampleInput pf P s k j).1.fltwd = Flt.nan →
      lowPassCorner (subSampleInput pf P s k j).1 = Flt.nan) := by
  obtain ⟨hp, hn, _, _⟩ := subSampleInput_facts pf P s k j
  have hc : (subSampleInput pf P s k j).1.params.lpfCutoffValue = P.lpfCutoffValue := by
    rw [hp]; exact (clampParams_other P).2.2
  have hw : (subSampleInput pf P s k j).1.params.waveTypeValue = P.waveTypeValue := by
    rw [hp, clampParams_eq]
  generalize subSampleInput pf P s k j = x at hp hn hc hw ⊢
  obtain ⟨l1, l2, l3, _⟩ := subSample_lowPass pf x
  rw [hc] at l2 l3
  refine ⟨fun h => ?_, fun h => ?_, l1, fun hne => ?_, fun he => (lowPassCorner_nan x.1).2 he⟩
  · rw [h] at l2 l3
    have l2' : (subSample pf x).1.fltdp = fzero := by rw [l2]; rfl
    have l3' : (subSample pf x).1.fltp = fadd (oscillator pf x.1) fzero := by
      rw [l3, l2']; rfl
    refine ⟨l2', l3', fun hsin => ?_⟩
    rw [l3']
    exact fadd_fzero _ (oscillator_float pf x.1 (by rw [hw]; exact hsin) hn)
  · rw [h] at l2 l3
    exact ⟨by rw [l2]; rfl, by rw [l3]; rfl⟩
  · rcases lowPassCorner_range x.1 with hr | hr
    · exact absurd ((lowPassCorner_nan x.1).1 hr) hne
    · exact hr

/-- Witness of C20: the first sub-sample of the baseline sound (low-pass cutoff `1.0`) on
the reference platform: the stage is bypassed and the corner lies in `[0, 0.1f]`. -/
theorem subSample_lowPass_spec_witness :
    Flt.eq (f32 baselineParams.lpfCutoffValue) (lit32 1 1) = true ∧
    (subSample refPlatform (subSampleInput refPlatform baselineParams 0 0 0)).1.fltdp = fzero ∧
    fmul (subSampleInput refPlatform baselineParams 0 0 0).1.fltw
      (subSampleInput refPlatform baselineParams 0 0 0).1.fltwd ≠ Flt.nan ∧
    Flt.le fzero (lowPassCorner (subSampleInput refPlatform baselineParams 0 0 0).1) = true ∧
    Flt.le (lowPassCorner (subSampleInput refPlatform baselineParams 0 0 0).1) (lit32 1 10)
      = true :=
  ⟨baseline_cutoff,
    ((subSample_lowPass_spec refPlatform baselineParams 0 0 0).1 baseline_cutoff).1,
    baseline_corner,
    (subSample_lowPass_spec refPlatform baselineParams 0 0 0).2.2.2.1 baseline_corner⟩

/-- Counterexample to C20 as stated: with a NaN low-pass cutoff the stage is not bypassed
(`NaN != 1.0f`), the product `fltw*fltwd` is a NaN, both clamping tests are false and the
corner used by the first sub-sample is a NaN: it does not lie in `[0, 0.1f]`. -/
theorem lowPassCorner_nan_counterexample :
    f32 nanCutoffParams.lpfCutoffValue = Flt.nan ∧
    Flt.eq (f32 nanCutoffParams.lpfCutoffValue) (lit32 1 1) = false ∧
    (subSample refPlatform (subSampleInput refPlatform nanCutoffParams 0 0 0)).1.fltw =
      Flt.nan ∧
    Flt.le fzero
      (subSample refPlatform (subSampleInput refPlatform nanCutoffParams 0 0 0)).1.fltw = false ∧
    Flt.le (subSample refPlatform (subSampleInput refPlatform nanCutoffParams 0 0 0)).1.fltw
      (lit32 1 10) = false := by
  have h : (subSample refPlatform (subSampleInput refPlatform nanCutoffParams 0 0 0)).1.fltw =
      Flt.nan := by
    rw [(subSample_lowPass refPlatform _).1]
    exact nanCutoff_corner
  refine ⟨by decide, by decide, h, ?_, ?_⟩
  · rw [h]; rfl
  · rw [h]; rfl

/-- C19 (phaser order), amended: in every sub-sample of `GenerateWave` the phaser first
stores the current sample (the high-pass output) in the ring buffer at `ipp & 1023` and only
then adds to it the ring-buffer entry at `(ipp - iphase + 1024) & 1023`; with offset 0 the
entry added is the current sample itself (the sample is doubled), and with an offset from 1
to 1023 it is the entry the ring buffer held before this sub-sample. -/
theorem subSample_phaser_order {σ : Type} (pf : Platform σ) (P : WaveParams) (s : σ)
    (k j : Nat) :
    (subSample pf (subSampleInput pf P s k j)).1.phaserBuffer =
      (subSampleInput pf P s k j).1.phaserBuffer.set
        (and1023 (subSampleInput pf P s k j).1.ipp).toNat
        (subSample pf (subSampleInput pf P s k j)).1.fltphp ∧
    (subSample pf (subSampleInput pf P s k j)).2 =
      fadd (subSampleInput pf P s k j).2
        (fmul
          (fadd (subSample pf (subSampleInput pf P s k j)).1.fltphp
            ((subSample pf (subSampleInput pf P s k j)).1.phaserBuffer.getD
              (and1023 ((subSampleInput pf P s k j).1.ipp -
                (subSampleInput pf P s k j).1.iphase + 1024)).toNat fzero))
          (subSampleInput pf P s k j).1.envelopeVolume) ∧
    ((subSampleInput pf P s k j).1.iphase = 0 →
      (subSample pf (subSampleInput pf P s k j)).1.phaserBuffer.getD
          (and1023 ((subSampleInput pf P s k j).1.ipp -
            (subSampleInput pf P s k j).1.iphase + 1024)).toNat fzero =
        (subSample pf (subSampleInput pf P s k j)).1.fltphp) ∧
    (0 < (subSampleInput pf P s k j).1.iphase → (subSampleInput pf P s k j).1.iphase ≤ 1023 →
      (subSample pf (subSampleInput pf P s k j)).1.phaserBuffer.getD
          (and1023 ((subSampleInput pf P s k j).1.ipp -
            (subSampleInput pf P s k j).1.iphase + 1024)).toNat fzero =
        (subSampleInput pf P s k j).1.phaserBuffer.getD
          (and1023 ((subSampleInput pf P s k j).1.ipp -
            (subSampleInput pf P s k j).1.iphase + 1024)).toNat fzero) := by
  obtain ⟨_, _, hlen, _⟩ := subSampleInput_facts pf P s k j
  generalize subSampleInput pf P s k j = x at hlen ⊢
  obtain ⟨p1, p2, _, _⟩ := subSample_phaser pf x
  have e1 : (subSample pf x).1.phaserBuffer =
      x.1.phaserBuffer.set (and1023 x.1.ipp).toNat (subSample pf x).1.fltphp := p1
  refine ⟨e1, ?_, fun h0 => ?_, fun h1 h2 => ?_⟩
  · rw [p2]; rfl
  · rw [e1, h0, List.getD_eq_getElem?_getD]
    have hi : (and1023 (x.1.ipp - 0 + 1024)).toNat = (and1023 x.1.ipp).toNat := by
      unfold and1023
      omega
    rw [hi, List.getElem?_set_self (by rw [hlen]; unfold and1023; omega)]
    rfl
  · rw [e1, List.getD_eq_getElem?_getD, List.getD_eq_getElem?_getD,
      List.getElem?_set_ne (by unfold and1023; omega)]

/-- Witness of C19: the first sub-sample of the baseline sound on the reference platform,
where the phaser offset is 0. -/
theorem subSample_phaser_order_witness :
    (subSampleInput refPlatform baselineParams 0 0 0).1.iphase = 0 ∧
    (subSample refPlatform (subSampleInput refPlatform baselineParams 0 0 0)).1.phaserBuffer.getD
        (and1023 ((subSampleInput refPlatform baselineParams 0 0 0).1.ipp -
          (subSampleInput refPlatform baselineParams 0 0 0).1.iphase + 1024)).toNat fzero =
      (subSample refPlatform (subSampleInput refPlatform baselineParams 0 0 0)).1.fltphp :=
  ⟨baseline_iphase,
    (subSample_phaser_order refPlatform baselineParams 0 0 0).2.2.1 baseline_iphase⟩

/-- Counterexample to C19 as stated: in the first sub-sample of the baseline sound on the
reference platform the phaser offset is 0, the current sample is `16777048 * 2^-25` and the
ring-buffer entry read is still 0 before the store; adding first and storing afterwards
would leave the sample as it is, the code stores first and returns the doubled sample
`16777048 * 2^-24` (the envelope volume is `1.0`). -/
theorem phaser_order_counterexample :
    (subSampleInput refPlatform baselineParams 0 0 0).1.iphase = 0 ∧
    (subSample refPlatform (subSampleInput refPlatform baselineParams 0 0 0)).1.fltphp =
      Flt.fin false 16777048 (-25) ∧
    (subSampleInput refPlatform baselineParams 0 0 0).1.phaserBuffer.getD
      (and1023 ((subSampleInput refPlatform baselineParams 0 0 0).1.ipp -
        (subSampleInput refPlatform baselineParams 0 0 0).1.iphase + 1024)).toNat fzero = fzero ∧
    (phaserAddThenStore (subSampleInput refPlatform baselineParams 0 0 0).1.phaserBuffer
      (subSampleInput refPlatform baselineParams 0 0 0).1.ipp
      (subSampleInput refPlatform baselineParams 0 0 0).1.iphase
      (Flt.fin false 16777048 (-25))).1 = Flt.fin false 16777048 (-25) ∧
    (phaser (subSampleInput refPlatform baselineParams 0 0 0).1.phaserBuffer
      (subSampleInput refPlatform baselineParams 0 0 0).1.ipp
      (subSampleInput refPlatform baselineParams 0 0 0).1.iphase
      (Flt.fin false 16777048 (-25))).1 = Flt.fin false 16777048 (-24) ∧
    (subSample refPlatform (subSampleInput refPlatform baselineParams 0 0 0)).2 =
      Flt.fin false 16777048 (-24) ∧
    (subSampleInput refPlatform baselineParams 0 0 0).1.envelopeVolume = lit32 1 1 := by
  decide!

/-! ## Guarded divisors -/

/-- The envelope timer and stage are never negative in a run. -/
theorem envelope_nonneg {σ : Type} (pf : Platform σ) (P : WaveParams) (s : σ) (k : Nat) :
    0 ≤ ((sampleStep pf)^[k] (genSetup pf P s)).envelopeTime ∧
    0 ≤ ((sampleStep pf)^[k] (genSetup pf P s)).envelopeStage := by
  induction k with
  | zero =>
    have h1 : (genSetup pf P s).envelopeTime = 0 := rfl
    have h2 : (genSetup pf P s).envelopeStage = 0 := rfl
    exact ⟨by show 0 ≤ (genSetup pf P s).envelopeTime; rw [h1],
      by show 0 ≤ (genSetup pf P s).envelopeStage; rw [h2]⟩
  | succ k ih =>
    rw [Function.iterate_succ_apply']
    generalize (sampleStep pf)^[k] (genSetup pf P s) = st at ih
    obtain ⟨_, h2, h3, _⟩ := sampleStep_ctl pf st
    rw [h2, h3]
    constructor
    · unfold nextTime
      split
      · exact Int.le_refl 0
      · omega
    · rcases nextStage_step st with h | h <;> rw [h] <;> omega

/-- The attack formula never divides by zero: when the envelope block of a sample of a run
leaves the stage at 0, the attack stage length it divides by is at least 1. -/
theorem attack_divisor_pos {σ : Type} (pf : Platform σ) (P : WaveParams) (s : σ) (k : Nat)
    (h : nextStage ((sampleStep pf)^[k] (genSetup pf P s)) = 0) :
    envelopeDivisor ((sampleStep pf)^[k] (genSetup pf P s)) =
      some (((sampleStep pf)^[k] (genSetup pf P s)).envelopeLength.getD 0 0) ∧
    1 ≤ ((sampleStep pf)^[k] (genSetup pf P s)).envelopeLength.getD 0 0 := by
  obtain ⟨h1, h2⟩ := envelope_nonneg pf P s k
  generalize (sampleStep pf)^[k] (genSetup pf P s) = st at h h1 h2 ⊢
  refine ⟨by unfold envelopeDivisor; rw [if_pos h], ?_⟩
  unfold nextStage at h
  split at h
  · omega
  · rename_i hn
    rw [h] at hn
    have : (0 : Int).toNat = 0 := rfl
    rw [this] at hn
    omega

/-- A rounded non-negative value is `+inf` or a finite datum of sign `+`. -/
theorem roundNE_sign (f : Fmt) (n d : Nat) (e : Int) (hp : 0 < f.prec) :
    roundNE f false n d e = Flt.inf false ∨ ∃ m q, roundNE f false n d e = Flt.fin false m q := by
  by_cases hn : n = 0
  · exact Or.inr ⟨0, f.qmin, by simp [roundNE, hn]⟩
  · rcases roundNE_result f false n d e hn hp with h | ⟨m, q, h, _⟩
    · exact Or.inl h
    · exact Or.inr ⟨m, q, h⟩

theorem lit64_thousandth : lit64 1 1000 = Flt.fin false 4611686018427388 (-62) := by decide!

/-- The denominators `x*x + 0.001` of the period formulas (`src/rfxgen.c:1282, 1284`) are
never zero: NaN, `+inf`, or a finite positive `double`. -/
theorem period_denominator (x : Flt) :
    dadd (f2d (fmul x x)) (lit64 1 1000) = Flt.nan ∨
    dadd (f2d (fmul x x)) (lit64 1 1000) = Flt.inf false ∨
    ((dadd (f2d (fmul x x)) (lit64 1 1000)).isFinite = true ∧
      0 < (dadd (f2d (fmul x x)) (lit64 1 1000)).toRat) := by
  have hl := lit64_thousandth
  have key : ∀ y : Flt, (y = Flt.inf false ∨ ∃ m q, y = Flt.fin false m q) →
      y.canonical binary32 = true →
      dadd (f2d y) (lit64 1 1000) = Flt.inf false ∨
      ((dadd (f2d y) (lit64 1 1000)).isFinite = true ∧ 0 < (dadd (f2d y) (lit64 1 1000)).toRat) := by
    intro y hy hc
    rcases hy with rfl | ⟨m, q, rfl⟩
    · left
      rw [hl]
      rfl
    · have hfit := Flt.fits_of_canonical binary32 _ hc rfl
      simp only [Flt.fits, Bool.and_eq_true, decide_eq_true_eq] at hfit
      obtain ⟨⟨hm, _⟩, hq⟩ := hfit
      have hval0 : (0 : ℚ) ≤ (m : ℚ) * (2 : ℚ) ^ q := mag_nonneg m q
      have hval1 : (m : ℚ) * (2 : ℚ) ^ q ≤ (16777216 : ℚ) * (2 : ℚ) ^ (104 : Int) := by
        have a1 : (m : ℚ) ≤ 16777216 := by
          have : m < 16777216 := hm
          exact_mod_cast this.le
        have a2 : (2 : ℚ) ^ q ≤ (2 : ℚ) ^ (104 : Int) := two_zpow_mono hq
        exact mul_le_mul a1 a2 (two_zpow_pos q).le (by norm_num)
      -- (double)y
      obtain ⟨b1, b2, b3⟩ := roundNE_between binary64 false m 1 q (by decide) (by decide)
        dzero (Flt.fin false 16777216 104) (by decide) (by decide)
        (by simp only [dzero, Flt.toRat]; simp; exact hval0)
        (by simp only [Flt.toRat]; simp; exact hval1)
      have e1 : f2d (Flt.fin false m q) = roundNE binary64 false m 1 q := rfl
      rw [← e1] at b1 b2 b3
      have z0 : dzero.toRat = 0 := by simp [dzero, Flt.toRat]
      rw [z0] at b2
      -- .. + 0.001
      have lpos : (0 : ℚ) < (lit64 1 1000).toRat := by
        rw [hl]
        simp only [Flt.toRat]
        norm_num
      have lle : (lit64 1 1000).toRat ≤ (16777216 : ℚ) * (2 : ℚ) ^ (104 : Int) := by
        rw [hl]
        simp only [Flt.toRat]
        norm_num
      obtain ⟨c1, c2, _⟩ := Flt.add_between binary64 (by decide) (f2d (Flt.fin false m q))
        (lit64 1 1000) (lit64 1 1000) (Flt.fin false 33554432 104) b1 (by rw [hl]; rfl)
        (by rw [hl]; decide) (by decide) (by linarith)
        (by
          have : (Flt.fin false 33554432 104).toRat = 2 * ((16777216 : ℚ) * (2 : ℚ) ^ (104 : Int)) := by
            simp only [Flt.toRat]; norm_num
          rw [this]
          have b3' : (f2d (Flt.fin false m q)).toRat ≤ (16777216 : ℚ) * (2 : ℚ) ^ (104 : Int) := by
            have : (Flt.fin false 16777216 104).toRat = (16777216 : ℚ) * (2 : ℚ) ^ (104 : Int) := by
              simp only [Flt.toRat]; norm_num
            rw [← this]; exact b3
          linarith)
      right
      exact ⟨c1, lt_of_lt_of_le lpos c2⟩
  cases x with
  | nan => exact Or.inl rfl
  | inf a =>
    right
    have e : fmul (Flt.inf a) (Flt.inf a) = Flt.inf false := by cases a <;> rfl
    rw [e]
    exact key (Flt.inf false) (Or.inl rfl) rfl
  | fin a m e =>
    right
    have e1 : fmul (Flt.fin a m e) (Flt.fin a m e) = roundNE binary32 false (m * m) 1 (e + e) := by
      cases a <;> rfl
    rw [e1]
    exact key _ (roundNE_sign binary32 _ _ _ (by decide))
      (roundNE_canonical binary32 _ _ 1 _ (by decide) (by decide) (by decide))

/-! ## Truncated files -/

/-- With a valid header the record is the payload read over the zero record: the bytes the
file holds from offset 8 on (at most 96), followed by the zeros of `params = { 0 }`. -/
theorem LoadWaveParams_payload (payload : List Byte) :
    LoadWaveParams true (some ([114, 70, 88, 32, 200, 0, 96, 0] ++ payload)) =
      WaveParams.ofBytes (payload.take 96 ++ List.replicate (96 - (payload.take 96).length) 0) := by
  have e1 : ((Fin.ofNat 200 : Byte) : Nat) + 256 * ((Fin.ofNat 0 : Byte) : Nat) = 200 := by decide
  have e3 : ∀ n, List.drop n WaveParams.zero.bytes = List.replicate (96 - n) 0 := by
    intro n
    have : WaveParams.zero.bytes = List.replicate 96 0 := by decide
    rw [this, List.drop_replicate]
  simp [LoadWaveParams, fread, sizeofWaveParams, shortBytes, bytesShort, e3]
  rfl

theorem wordBytes_bytesWord (a b c d : Byte) : wordBytes (bytesWord [a, b, c, d]) = [a, b, c, d] := by
  have ha := a.isLt
  have hb := b.isLt
  have hc := c.isLt
  have hd := d.isLt
  simp only [bytesWord, wordBytes, List.getD_cons_zero, List.getD_cons_succ, Fin.ofNat]
  have e : (a.val + 256 * b.val + 65536 * c.val + 16777216 * d.val) % 4294967296 =
      a.val + 256 * b.val + 65536 * c.val + 16777216 * d.val := by omega
  simp only [List.cons.injEq, and_true]
  refine ⟨?_, ?_, ?_, ?_⟩ <;> apply Fin.ext <;> simp only [e] <;>
    show _ % (255 + 1) = _ <;> omega

theorem chunk_roundtrip (l : List Byte) (h : 4 ≤ l.length) :
    wordBytes (bytesWord (l.take 4)) = l.take 4 := by
  match l, h with
  | a :: b :: c :: d :: rest, _ => exact wordBytes_bytesWord a b c d

theorem chunks_join (l : List Byte) (n : Nat) :
    ∀ k, (List.range n).flatMap (fun i => (l.drop (k + 4 * i)).take 4) =
      (l.drop k).take (4 * n) := by
  induction n with
  | zero => intro k; simp
  | succ n ih =>
    intro k
    rw [List.range_succ, List.flatMap_append, ih k]
    simp only [List.flatMap_cons, List.flatMap_nil, List.append_nil]
    have e : 4 * (n + 1) = 4 * n + 4 := by ring
    rw [e, List.take_add, List.drop_drop]

/-- The memory image of the record read from a 96-byte image is that image. -/
theorem WaveParams.bytes_ofBytes (bs : List Byte) (h : bs.length = 96) :
    (WaveParams.ofBytes bs).bytes = bs := by
  have hc : ∀ i, i < 24 →
      wordBytes (bytesWord ((bs.drop (4 * i)).take 4)) = (bs.drop (4 * i)).take 4 := by
    intro i hi
    exact chunk_roundtrip _ (by rw [List.length_drop, h]; omega)
  have e : (WaveParams.ofBytes bs).bytes =
      (List.range 24).flatMap (fun i => wordBytes (bytesWord ((bs.drop (4 * i)).take 4))) := rfl
  rw [e]
  have e2 : (List.range 24).flatMap (fun i => wordBytes (bytesWord ((bs.drop (4 * i)).take 4))) =
      (List.range 24).flatMap (fun i => (bs.drop (0 + 4 * i)).take 4) := by
    apply List.flatMap_congr
    intro i hi
    rw [Nat.zero_add]
    exact hc i (List.mem_range.1 hi)
  rw [e2, chunks_join bs 24 0]
  simp only [List.drop_zero]
  exact List.take_of_length_le (by rw [h])

/-- With a valid header and at least 96 payload bytes the record is bytes 8..103 of the
file. -/
theorem LoadWaveParams_complete (payload : List Byte) (h : 96 ≤ payload.length) :
    (LoadWaveParams true (some ([114, 70, 88, 32, 200, 0, 96, 0] ++ payload))).bytes =
      filePayload ([114, 70, 88, 32, 200, 0, 96, 0] ++ payload) := by
  rw [LoadWaveParams_payload]
  have hl : (payload.take 96).length = 96 := by rw [List.length_take]; omega
  rw [hl]
  simp only [Nat.sub_self, List.replicate_zero, List.append_nil]
  rw [WaveParams.bytes_ofBytes _ hl]
  rfl

/-- C28 at the failing input: a file with the valid header `"rFX "`, version 200, length 96
followed by the 4 payload bytes `01 00 00 00`. `LoadWaveParams` returns the record with
`randSeed = 1` and every other field 0: it is not the all-zero record, and its 96 bytes are
not bytes 8..103 of the file (the file ends at byte 11); the payload bytes read are mixed
with the zeros of the initial record. For every payload after a valid header the record is
the payload bytes present, at most 96, followed by zeros; it is bytes 8..103 of the file
when the payload has at least 96 bytes. -/
theorem LoadWaveParams_truncated :
    fileSignature truncatedFile = [114, 70, 88, 32] ∧ fileVersion truncatedFile = 200 ∧
    fileLength truncatedFile = 96 ∧ (truncatedFile.drop 8).length = 4 ∧
    LoadWaveParams true (some truncatedFile) = { WaveParams.zero with randSeed := 1 } ∧
    LoadWaveParams true (some truncatedFile) ≠ WaveParams.zero ∧
    (LoadWaveParams true (some truncatedFile)).bytes ≠ filePayload truncatedFile ∧
    (LoadWaveParams true (some truncatedFile)).bytes =
      filePayload truncatedFile ++ List.replicate 92 0 ∧
    (∀ payload : List Byte,
      LoadWaveParams true (some ([114, 70, 88, 32, 200, 0, 96, 0] ++ payload)) =
        WaveParams.ofBytes
          (payload.take 96 ++ List.replicate (96 - (payload.take 96).length) 0)) ∧
    (∀ payload : List Byte, 96 ≤ payload.length →
      (LoadWaveParams true (some ([114, 70, 88, 32, 200, 0, 96, 0] ++ payload))).bytes =
        filePayload ([114, 70, 88, 32, 200, 0, 96, 0] ++ payload)) := by
  refine ⟨by decide, by decide, by decide, by decide, by decide, by decide, by decide, by decide,
    ?_, ?_⟩
  · exact fun payload => LoadWaveParams_payload payload
  · exact fun payload h => LoadWaveParams_complete payload h

/-! ## Comparisons and exact values -/

/-- On finite data the comparisons are those of the exact values. -/
theorem Flt.lt_iff_toRat (x y : Flt) (hx : x.isFinite = true) (hy : y.isFinite = true) :
    Flt.lt x y = true ↔ x.toRat < y.toRat := by
  cases x with
  | nan => exact absurd hx (by simp [Flt.isFinite])
  | inf _ => exact absurd hx (by simp [Flt.isFinite])
  | fin a m e =>
  cases y with
  | nan => exact absurd hy (by simp [Flt.isFinite])
  | inf _ => exact absurd hy (by simp [Flt.isFinite])
  | fin b n k =>
  have h1 := sig_val a m e (min e k) (min_le_left e k)
  have h2 := sig_val b n k (min e k) (min_le_right e k)
  have hpos := two_zpow_pos (min e k)
  simp only [Flt.lt, decide_eq_true_eq]
  rw [← h1, ← h2]
  constructor
  · intro h
    have : ((Flt.sig a m e (min e k) : Int) : ℚ) < ((Flt.sig b n k (min e k) : Int) : ℚ) := by
      exact_mod_cast h
    exact mul_lt_mul_of_pos_right this hpos
  · intro h
    have := lt_of_mul_lt_mul_right h hpos.le
    exact_mod_cast this

theorem Flt.eq_iff_toRat (x y : Flt) (hx : x.isFinite = true) (hy : y.isFinite = true) :
    Flt.eq x y = true ↔ x.toRat = y.toRat := by
  cases x with
  | nan => exact absurd hx (by simp [Flt.isFinite])
  | inf _ => exact absurd hx (by simp [Flt.isFinite])
  | fin a m e =>
  cases y with
  | nan => exact absurd hy (by simp [Flt.isFinite])
  | inf _ => exact absurd hy (by simp [Flt.isFinite])
  | fin b n k =>
  have h1 := sig_val a m e (min e k) (min_le_left e k)
  have h2 := sig_val b n k (min e k) (min_le_right e k)
  have hpos := two_zpow_pos (min e k)
  simp only [Flt.eq, decide_eq_true_eq]
  rw [← h1, ← h2]
  constructor
  · intro h
    rw [h]
  · intro h
    have := mul_right_cancel₀ hpos.ne' h
    exact_mod_cast this

theorem Flt.le_iff_toRat (x y : Flt) (hx : x.isFinite = true) (hy : y.isFinite = true) :
    Flt.le x y = true ↔ x.toRat ≤ y.toRat := by
  unfold Flt.le
  rw [Bool.or_eq_true, Flt.lt_iff_toRat x y hx hy, Flt.eq_iff_toRat x y hx hy]
  exact le_iff_lt_or_eq.symm

/-! ## The noise table -/

theorem noise_consts :
    i2f 10000 = Flt.fin false 10240000 (-10) ∧ lit32 2 1 = Flt.fin false 8388608 (-22) ∧
    lit32 1 1 = Flt.fin false 8388608 (-23) ∧ fzero = Flt.fin false 0 (-149) := by decide

/-- Every noise-table entry is finite and lies in `[-1, 1]`. -/
theorem noiseEntry_range (r : Nat) :
    (noiseEntry r).isFinite = true ∧ -1 ≤ (noiseEntry r).toRat ∧ (noiseEntry r).toRat ≤ 1 ∧
    inUnitRange (noiseEntry r) = true := by
  obtain ⟨c1, c2, c3, c5⟩ := noise_consts
  have hp : 0 < binary32.prec := by decide
  have v1 : (i2f 10000).toRat = 10000 := by rw [c1]; norm_num [Flt.toRat]
  have v2 : (lit32 2 1).toRat = 2 := by rw [c2]; norm_num [Flt.toRat]
  have v3 : (lit32 1 1).toRat = 1 := by rw [c3]; norm_num [Flt.toRat]
  have v5 : fzero.toRat = 0 := by rw [c5]; norm_num [Flt.toRat]
  have f1 : (i2f 10000).fits binary32 = true := by rw [c1]; decide
  have f2 : (lit32 2 1).fits binary32 = true := by rw [c2]; decide
  have f3 : (lit32 1 1).fits binary32 = true := by rw [c3]; decide
  have f3' : (Flt.neg (lit32 1 1)).fits binary32 = true := by rw [c3]; decide
  have f5 : fzero.fits binary32 = true := by decide
  have i1 : (i2f 10000).isFinite = true := by rw [c1]; rfl
  have i2 : (lit32 2 1).isFinite = true := by rw [c2]; rfl
  have i3 : (lit32 1 1).isFinite = true := by rw [c3]; rfl
  have hk0 : (0 : ℚ) ≤ (((r % 10001 : Nat) : Int) : ℚ) := by positivity
  have hk1 : (((r % 10001 : Nat) : Int) : ℚ) ≤ 10000 := by
    have : r % 10001 ≤ 10000 := by omega
    exact_mod_cast this
  -- (float)rnd(10000)
  obtain ⟨a1, a2, a3⟩ := Flt.ofInt_between binary32 hp ((r % 10001 : Nat) : Int) fzero (i2f 10000)
    f5 f1 (by rw [v5]; exact hk0) (by rw [v1]; exact hk1)
  rw [v5] at a2
  rw [v1] at a3
  -- .. /10000
  obtain ⟨b1, b2, b3⟩ := Flt.div_between binary32 hp (i2f ((r % 10001 : Nat) : Int)) (i2f 10000)
    fzero (lit32 1 1) a1 i1 (by rw [v1]; norm_num) f5 f3
    (by rw [v5, v1]; exact div_nonneg a2 (by norm_num))
    (by rw [v3, v1, div_le_one (by norm_num)]; exact a3)
  rw [v5] at b2
  rw [v3] at b3
  -- .. *2.0f
  obtain ⟨d1, d2, d3⟩ := Flt.mul_between binary32 hp
    (fdiv (i2f ((r % 10001 : Nat) : Int)) (i2f 10000)) (lit32 2 1) fzero (lit32 2 1) b1 i2 f5 f2
    (by rw [v5, v2]; exact mul_nonneg b2 (by norm_num))
    (by
      have b3' : (fdiv (i2f ((r % 10001 : Nat) : Int)) (i2f 10000)).toRat ≤ 1 := b3
      rw [v2]; linarith)
  rw [v5] at d2
  rw [v2] at d3
  -- .. - 1.0f
  obtain ⟨e1, e2, e3⟩ := Flt.sub_between binary32 hp
    (fmul (fdiv (i2f ((r % 10001 : Nat) : Int)) (i2f 10000)) (lit32 2 1)) (lit32 1 1)
    (Flt.neg (lit32 1 1)) (lit32 1 1) d1 i3 f3' f3
    (by
      have d2' : 0 ≤ (fmul (fdiv (i2f ((r % 10001 : Nat) : Int)) (i2f 10000)) (lit32 2 1)).toRat := d2
      rw [Flt.neg_toRat, v3]; linarith)
    (by
      have d3' : (fmul (fdiv (i2f ((r % 10001 : Nat) : Int)) (i2f 10000)) (lit32 2 1)).toRat ≤ 2 := d3
      rw [v3]; linarith)
  rw [Flt.neg_toRat, v3] at e2
  rw [v3] at e3
  have e1' : (noiseEntry r).isFinite = true := e1
  have e2' : -1 ≤ (noiseEntry r).toRat := e2
  have e3' : (noiseEntry r).toRat ≤ 1 := e3
  refine ⟨e1', e2', e3', ?_⟩
  have i3' : (Flt.neg (lit32 1 1)).isFinite = true := by rw [Flt.neg_isFinite]; exact i3
  simp only [inUnitRange, Bool.and_eq_true]
  exact ⟨(Flt.le_iff_toRat _ _ i3' e1').2 (by rw [Flt.neg_toRat, v3]; exact e2'),
    (Flt.le_iff_toRat _ _ e1' i3).2 (by rw [v3]; exact e3')⟩

theorem GetRandomFloat_eq {σ : Type} (pf : Platform σ) (s : σ) :
    fsub (GetRandomFloat pf (lit32 2 1) s).1 (lit32 1 1) = noiseEntry (pf.rand s).1 ∧
    (GetRandomFloat pf (lit32 2 1) s).2 = (pf.rand s).2 := by
  refine ⟨?_, rfl⟩
  unfold GetRandomFloat rnd noiseEntry
  simp only []
  have : Int.tmod ((pf.rand s).1 : Int) ((10000 : Nat) + 1 : Int) =
      (((pf.rand s).1 % 10001 : Nat) : Int) := by
    rw [Int.tmod_eq_emod (Int.ofNat_nonneg _) (by norm_num)]
    norm_cast
  rw [this]

/-- The noise-table fill holds, in index order, the entries of the integers drawn. -/
theorem fillNoise_draws {σ : Type} (pf : Platform σ) (n : Nat) (s : σ) :
    (fillNoise pf n s).1 = (draws pf n s).map noiseEntry ∧ (fillNoise pf n s).1.length = n := by
  induction n generalizing s with
  | zero => exact ⟨rfl, rfl⟩
  | succ n ih =>
    obtain ⟨e1, e2⟩ := GetRandomFloat_eq pf s
    obtain ⟨h1, h2⟩ := ih (pf.rand s).2
    have hf : fillNoise pf (n + 1) s =
        (fsub (GetRandomFloat pf (lit32 2 1) s).1 (lit32 1 1) ::
          (fillNoise pf n (GetRandomFloat pf (lit32 2 1) s).2).1,
         (fillNoise pf n (GetRandomFloat pf (lit32 2 1) s).2).2) := rfl
    rw [hf, e1, e2]
    constructor
    · show noiseEntry _ :: (fillNoise pf n (pf.rand s).2).1 = _
      rw [h1]
      rfl
    · show (noiseEntry _ :: (fillNoise pf n (pf.rand s).2).1).length = n + 1
      rw [List.length_cons, h2]

theorem fillNoise_entries {σ : Type} (pf : Platform σ) (n : Nat) (s : σ) :
    ∀ y ∈ (fillNoise pf n s).1, ∃ r, y = noiseEntry r := by
  intro y hy
  rw [(fillNoise_draws pf n s).1] at hy
  obtain ⟨r, _, hr⟩ := List.mem_map.1 hy
  exact ⟨r, hr.symm⟩

theorem subSample_table {σ : Type} (pf : Platform σ) (x : GenState σ × Flt) :
    (subSample pf x).1.noiseBuffer =
      (if noiseRefill x.1 then (fillNoise pf 32 x.1.rng).1 else x.1.noiseBuffer) ∧
    (subSample pf x).1.rng =
      (if noiseRefill x.1 then (fillNoise pf 32 x.1.rng).2 else x.1.rng) := by
  unfold subSample noiseRefill
  simp only []
  constructor <;> split <;> rfl

theorem superSample_table {σ : Type} (pf : Platform σ) (n : Nat) (x : GenState σ × Flt)
    (h : x.1.noiseBuffer.length = 32 ∧ ∀ y ∈ x.1.noiseBuffer, ∃ r, y = noiseEntry r) :
    (superSample pf n x).1.noiseBuffer.length = 32 ∧
    ∀ y ∈ (superSample pf n x).1.noiseBuffer, ∃ r, y = noiseEntry r := by
  induction n generalizing x with
  | zero => exact h
  | succ n ih =>
    rw [superSample]
    apply ih
    rw [(subSample_table pf x).1]
    split
    · exact ⟨(fillNoise_draws pf 32 _).2, fillNoise_entries pf 32 _⟩
    · exact h

theorem sampleStep_table {σ : Type} (pf : Platform σ) (st : GenState σ) :
    (sampleStep pf st).noiseBuffer =
      (superSample pf MAX_SUPERSAMPLING (preSample pf st, fzero)).1.noiseBuffer := rfl

theorem run_table {σ : Type} (pf : Platform σ) (P : WaveParams) (s : σ) (k : Nat) :
    ((sampleStep pf)^[k] (genSetup pf P s)).noiseBuffer.length = 32 ∧
    ∀ y ∈ ((sampleStep pf)^[k] (genSetup pf P s)).noiseBuffer, ∃ r, y = noiseEntry r := by
  induction k with
  | zero =>
    have e : ((sampleStep pf)^[0] (genSetup pf P s)).noiseBuffer =
        (fillNoise pf 32 (if P.randSeed ≠ 0 then pf.srand P.randSeed.val else s)).1 := rfl
    rw [e]
    exact ⟨(fillNoise_draws pf 32 _).2, fillNoise_entries pf 32 _⟩
  | succ k ih =>
    rw [Function.iterate_succ_apply', sampleStep_table]
    apply superSample_table
    rw [(preSample_keep pf _).1]
    exact ih

/-- C24 (noise table range): the initial fill of the noise table and every refill hold, in
index order, the entries `(float)(r%10001)/10000*2.0f - 1.0f` of the 32 integers `r` the
calls of `rand()` return; every such entry is finite and lies in `[-1, 1]`; the table
entering any sub-sample of any sample has 32 entries of that form; a sub-sample replaces
the table (and advances the generator) exactly when the oscillator phase wraps and the wave
type is noise, and the blocks of the sample loop outside the supersampling loop leave the
table and the generator as they are. -/
theorem noiseBuffer_range {σ : Type} (pf : Platform σ) (P : WaveParams) (s : σ) (k j : Nat) :
    (genSetup pf P s).noiseBuffer =
      (draws pf 32 (if P.randSeed ≠ 0 then pf.srand P.randSeed.val else s)).map noiseEntry ∧
    (∀ s1, (fillNoise pf 32 s1).1 = (draws pf 32 s1).map noiseEntry ∧
      (fillNoise pf 32 s1).1.length = 32) ∧
    (∀ r, (noiseEntry r).isFinite = true ∧ -1 ≤ (noiseEntry r).toRat ∧
      (noiseEntry r).toRat ≤ 1 ∧ inUnitRange (noiseEntry r) = true) ∧
    (subSampleInput pf P s k j).1.noiseBuffer.length = 32 ∧
    (∀ y ∈ (subSampleInput pf P s k j).1.noiseBuffer,
      (∃ r, y = noiseEntry r) ∧ inUnitRange y = true) ∧
    (subSample pf (subSampleInput pf P s k j)).1.noiseBuffer =
      (if noiseRefill (subSampleInput pf P s k j).1
       then (fillNoise pf 32 (subSampleInput pf P s k j).1.rng).1
       else (subSampleInput pf P s k j).1.noiseBuffer) ∧
    (subSample pf (subSampleInput pf P s k j)).1.rng =
      (if noiseRefill (subSampleInput pf P s k j).1
       then (fillNoise pf 32 (subSampleInput pf P s k j).1.rng).2
       else (subSampleInput pf P s k j).1.rng) ∧
    (preSample pf ((sampleStep pf)^[k] (genSetup pf P s))).noiseBuffer =
      ((sampleStep pf)^[k] (genSetup pf P s)).noiseBuffer ∧
    (preSample pf ((sampleStep pf)^[k] (genSetup pf P s))).rng =
      ((sampleStep pf)^[k] (genSetup pf P s)).rng := by
  have hrun := run_table pf P s k
  have hin : (subSampleInput pf P s k j).1.noiseBuffer.length = 32 ∧
      ∀ y ∈ (subSampleInput pf P s k j).1.noiseBuffer, ∃ r, y = noiseEntry r := by
    unfold subSampleInput
    apply superSample_table
    rw [(preSample_keep pf _).1]
    exact hrun
  obtain ⟨t1, t2⟩ := subSample_table pf (subSampleInput pf P s k j)
  obtain ⟨p1, _, _, p4, _⟩ := preSample_keep pf ((sampleStep pf)^[k] (genSetup pf P s))
  refine ⟨?_, fun s1 => fillNoise_draws pf 32 s1, noiseEntry_range, hin.1, ?_, t1, t2, p1, p4⟩
  · exact (fillNoise_draws pf 32 _).1
  · intro y hy
    obtain ⟨r, hr⟩ := hin.2 y hy
    exact ⟨⟨r, hr⟩, by rw [hr]; exact (noiseEntry_range r).2.2.2⟩

/-! ## Generated parameter sets -/

theorem pad_consts :
    lit32 10000 1 = Flt.fin false 10240000 (-10) ∧ lit32 1 1 = Flt.fin false 8388608 (-23) ∧
    lit32 3 10 = Flt.fin false 10066330 (-25) ∧ lit32 2 10 = Flt.fin false 13421773 (-26) ∧
    lit32 5 10 = Flt.fin false 8388608 (-24) ∧ fzero = Flt.fin false 0 (-149) := by decide

set_option maxRecDepth 4000 in
theorem envelopePad_top :
    (envelopePad 10000).isFinite = true ∧ Flt.le (lit32 2 10) (envelopePad 10000) = true ∧
    Flt.le (envelopePad 10000) (lit32 5 10) = true ∧ envelopePad 10000 = lit32 5 10 ∧
    envelopePad 0 = lit32 2 10 := by decide

/-- The pad of the fix-up is finite and lies between `0.2f` and `0.5f`. -/
theorem envelopePad_range (k : Int) (h0 : 0 ≤ k) (h1 : k ≤ 10000) :
    (envelopePad k).isFinite = true ∧ Flt.le (lit32 2 10) (envelopePad k) = true ∧
    Flt.le (envelopePad k) (lit32 5 10) = true := by
  by_cases hk : k = 10000
  · rw [hk]
    exact ⟨envelopePad_top.1, envelopePad_top.2.1, envelopePad_top.2.2.1⟩
  have h1' : k ≤ 9999 := by omega
  obtain ⟨c1, c2, c3, c4, c6, c5⟩ := pad_consts
  have hp : 0 < binary32.prec := by decide
  have v1 : (lit32 10000 1).toRat = 10000 := by rw [c1]; norm_num [Flt.toRat]
  have v5 : fzero.toRat = 0 := by rw [c5]; norm_num [Flt.toRat]
  have v3 : (lit32 3 10).toRat = 10066330 / 33554432 := by rw [c3]; norm_num [Flt.toRat]
  have v4 : (lit32 2 10).toRat = 13421773 / 67108864 := by rw [c4]; norm_num [Flt.toRat]
  have v6 : (lit32 5 10).toRat = 1 / 2 := by rw [c6]; norm_num [Flt.toRat]
  have v7 : (Flt.fin false 9999 0).toRat = 9999 := by norm_num [Flt.toRat]
  have v8 : (Flt.fin false 16775539 (-24)).toRat = 16775539 / 16777216 := by norm_num [Flt.toRat]
  have v9 : (Flt.fin false 10066329 (-25)).toRat = 10066329 / 33554432 := by norm_num [Flt.toRat]
  have f1 : (lit32 10000 1).fits binary32 = true := by rw [c1]; decide
  have f3 : (lit32 3 10).fits binary32 = true := by rw [c3]; decide
  have f4 : (lit32 2 10).fits binary32 = true := by rw [c4]; decide
  have f6 : (lit32 5 10).fits binary32 = true := by rw [c6]; decide
  have f5 : fzero.fits binary32 = true := by decide
  have i1 : (lit32 10000 1).isFinite = true := by rw [c1]; rfl
  have i3 : (lit32 3 10).isFinite = true := by rw [c3]; rfl
  have i4 : (lit32 2 10).isFinite = true := by rw [c4]; rfl
  have i6 : (lit32 5 10).isFinite = true := by rw [c6]; rfl
  have hk0 : (0 : ℚ) ≤ (k : ℚ) := by exact_mod_cast h0
  have hk1 : (k : ℚ) ≤ 9999 := by exact_mod_cast h1'
  -- (float)k
  obtain ⟨a1, a2, a3⟩ := Flt.ofInt_between binary32 hp k fzero (Flt.fin false 9999 0) f5
    (by decide) (by rw [v5]; exact hk0) (by rw [v7]; exact hk1)
  rw [v5] at a2
  rw [v7] at a3
  -- (float)k/10000.0f
  obtain ⟨b1, b2, b3⟩ := Flt.div_between binary32 hp (i2f k) (lit32 10000 1) fzero
    (Flt.fin false 16775539 (-24)) a1 i1 (by rw [v1]; norm_num) f5 (by decide)
    (by rw [v5, v1]; exact div_nonneg a2 (by norm_num))
    (by
      rw [v8, v1, div_le_iff₀ (by norm_num)]
      have a3' : (i2f k).toRat ≤ 9999 := a3
      linarith)
  rw [v5] at b2
  rw [v8] at b3
  have b2' : 0 ≤ (fdiv (i2f k) (lit32 10000 1)).toRat := b2
  have b3' : (fdiv (i2f k) (lit32 10000 1)).toRat ≤ 16775539 / 16777216 := b3
  -- .. *0.3f
  obtain ⟨d1, d2, d3⟩ := Flt.mul_between binary32 hp (fdiv (i2f k) (lit32 10000 1)) (lit32 3 10)
    fzero (Flt.fin false 10066329 (-25)) b1 i3 f5 (by decide)
    (by rw [v5, v3]; exact mul_nonneg b2' (by norm_num))
    (by rw [v3, v9]; nlinarith)
  rw [v5] at d2
  rw [v9] at d3
  have d2' : 0 ≤ (fmul (fdiv (i2f k) (lit32 10000 1)) (lit32 3 10)).toRat := d2
  have d3' : (fmul (fdiv (i2f k) (lit32 10000 1)) (lit32 3 10)).toRat ≤ 10066329 / 33554432 := d3
  -- 0.2f + ..
  obtain ⟨e1, e2, e3⟩ := Flt.add_between binary32 hp (lit32 2 10)
    (fmul (fdiv (i2f k) (lit32 10000 1)) (lit32 3 10)) (lit32 2 10) (lit32 5 10)
    i4 d1 f4 f6
    (by linarith)
    (by rw [v4, v6]; linarith)
  have e1' : (envelopePad k).isFinite = true := e1
  have e2' : (lit32 2 10).toRat ≤ (envelopePad k).toRat := e2
  have e3' : (envelopePad k).toRat ≤ (lit32 5 10).toRat := e3
  exact ⟨e1', (Flt.le_iff_toRat _ _ i4 e1').2 e2', (Flt.le_iff_toRat _ _ e1' i6).2 e3'⟩

theorem randomizeFixup_spec {σ : Type} (pf : Platform σ) (x : WaveParams × σ) :
    (randomizeFixup pf x).1.attackTimeValue = x.1.attackTimeValue ∧
    (Flt.lt (envelopeSum x.1) (lit32 2 10) = false → randomizeFixup pf x = x) ∧
    (Flt.lt (envelopeSum x.1) (lit32 2 10) = true →
      ∃ k1 k2 : Int, 0 ≤ k1 ∧ k1 ≤ 10000 ∧ 0 ≤ k2 ∧ k2 ≤ 10000 ∧
        f32 (randomizeFixup pf x).1.sustainTimeValue =
          fadd (f32 x.1.sustainTimeValue) (envelopePad k1) ∧
        f32 (randomizeFixup pf x).1.decayTimeValue =
          fadd (f32 x.1.decayTimeValue) (envelopePad k2)) := by
  refine ⟨?_, ?_, ?_⟩
  · unfold randomizeFixup
    simp only []
    split <;> rfl
  · intro h
    unfold randomizeFixup
    simp only [h, Bool.false_eq_true, if_false]
  · intro h
    obtain ⟨a0, a1⟩ := GetRandomValue_range pf 10000 x.2
    obtain ⟨b0, b1⟩ := GetRandomValue_range pf 10000 (frnd pf (lit32 3 10) x.2).2
    refine ⟨(GetRandomValue pf 0 10000 x.2).1,
      (GetRandomValue pf 0 10000 (frnd pf (lit32 3 10) x.2).2).1, a0, by exact_mod_cast a1, b0,
      by exact_mod_cast b1, ?_, ?_⟩
    · unfold randomizeFixup
      simp only [h, if_true]
      exact f32_toWord32 _ (Flt.add_canonical binary32 (by decide) (by decide) _ _)
    · unfold randomizeFixup
      simp only [h, if_true]
      exact f32_toWord32 _ (Flt.add_canonical binary32 (by decide) (by decide) _ _)

/-- The fields `GenRandomize` assigns after the fix-up are not those of the envelope. -/
theorem GenRandomize_envelope {σ : Type} (pf : Platform σ) (s : σ) :
    (GenRandomize pf s).1.attackTimeValue =
      (randomizeFixup pf (randomizeDraw pf s)).1.attackTimeValue ∧
    (GenRandomize pf s).1.sustainTimeValue =
      (randomizeFixup pf (randomizeDraw pf s)).1.sustainTimeValue ∧
    (GenRandomize pf s).1.decayTimeValue =
      (randomizeFixup pf (randomizeDraw pf s)).1.decayTimeValue := by
  unfold GenRandomize
  lift_lets
  intro x
  repeat
    intro v
    first
      | (have hv : v.attackTimeValue = x.1.attackTimeValue ∧
            v.sustainTimeValue = x.1.sustainTimeValue ∧
            v.decayTimeValue = x.1.decayTimeValue := by
          first
            | exact ⟨rfl, rfl, rfl⟩
            | assumption
            | (show WaveParams.attackTimeValue (ite _ _ _) = _ ∧
                  WaveParams.sustainTimeValue (ite _ _ _) = _ ∧
                  WaveParams.decayTimeValue (ite _ _ _) = _
               split
               all_goals assumption)
         clear_value v)
      | clear_value v
  assumption

theorem GenPickupCoin_seed {σ : Type} (pf : Platform σ) (s : σ) :
    (GenPickupCoin pf s).1.randSeed =
      (ResetWaveParams pf WaveParams.zero s).1.randSeed := by
  unfold GenPickupCoin
  lift_lets
  repeat
    intro v
    try
      first
        | (have hv : v.randSeed =
              (ResetWaveParams pf WaveParams.zero s).1.randSeed := by
            assumption)
        | (have hv : v.1.randSeed =
              (ResetWaveParams pf WaveParams.zero s).1.randSeed := by
            rfl)
  repeat' split
  all_goals assumption

theorem GenLaserShoot_seed {σ : Type} (pf : Platform σ) (s : σ) :
    (GenLaserShoot pf s).1.randSeed =
      (ResetWaveParams pf WaveParams.zero s).1.randSeed := by
  unfold GenLaserShoot
  lift_lets
  repeat
    intro v
    try
      first
        | (have hv : v.randSeed =
              (ResetWaveParams pf WaveParams.zero s).1.randSeed := by
            first
              | assumption
              | (show WaveParams.randSeed (ite _ _ _) = _
                 repeat' split
                 all_goals assumption))
        | (have hv : v.1.randSeed =
              (ResetWaveParams pf WaveParams.zero s).1.randSeed := by
            first
              | rfl
              | (show WaveParams.randSeed (Prod.fst (ite _ _ _)) = _
                 repeat' split
                 all_goals assumption))
  repeat' split
  all_goals assumption

theorem GenExplosion_seed {σ : Type} (pf : Platform σ) (s : σ) :
    (GenExplosion pf s).1.randSeed =
      (ResetWaveParams pf WaveParams.zero s).1.randSeed := by
  unfold GenExplosion
  lift_lets
  repeat
    intro v
    try
      first
        | (have hv : v.randSeed =
              (ResetWaveParams pf WaveParams.zero s).1.randSeed := by
            first
              | assumption
              | (show WaveParams.randSeed (ite _ _ _) = _
                 repeat' split
                 all_goals assumption))
        | (have hv : v.1.randSeed =
              (ResetWaveParams pf WaveParams.zero s).1.randSeed := by
            first
              | rfl
              | (show WaveParams.randSeed (Prod.fst (ite _ _ _)) = _
                 repeat' split
                 all_goals assumption))
  repeat' split
  all_goals assumption

theorem GenPowerup_seed {σ : Type} (pf : Platform σ) (s : σ) :
    (GenPowerup pf s).1.randSeed =
      (ResetWaveParams pf WaveParams.zero s).1.randSeed := by
  unfold GenPowerup
  lift_lets
  repeat
    intro v
    try
      first
        | (have hv : v.randSeed =
              (ResetWaveParams pf WaveParams.zero s).1.randSeed := by
            assumption)
        | (have hv : v.1.randSeed =
              (ResetWaveParams pf WaveParams.zero s).1.randSeed := by
            first
              | rfl
              | (show WaveParams.randSeed (Prod.fst (ite _ _ _)) = _
                 repeat' split
                 all_goals assumption))
  assumption

theorem GenHitHurt_seed {σ : Type} (pf : Platform σ) (s : σ) :
    (GenHitHurt pf s).1.randSeed =
      (ResetWaveParams pf WaveParams.zero s).1.randSeed := by
  unfold GenHitHurt
  lift_lets
  repeat
    intro v
    try
      first
        | (have hv : v.randSeed =
              (ResetWaveParams pf WaveParams.zero s).1.randSeed := by
            first
              | assumption
              | (show WaveParams.randSeed (ite _ _ _) = _
                 repeat' split
                 all_goals assumption))
        | (have hv : v.1.randSeed =
              (ResetWaveParams pf WaveParams.zero s).1.randSeed := by
            first
              | rfl
              | (show WaveParams.randSeed (Prod.fst (ite _ _ _)) = _
                 repeat' split
                 all_goals assumption))
  repeat' split
  all_goals assumption

theorem GenJump_seed {σ : Type} (pf : Platform σ) (s : σ) :
    (GenJump pf s).1.randSeed =
      (ResetWaveParams pf WaveParams.zero s).1.randSeed := by
  unfold GenJump
  lift_lets
  repeat
    intro v
    try
      first
        | (have hv : v.randSeed =
              (ResetWaveParams pf WaveParams.zero s).1.randSeed := by
            assumption)
        | (have hv : v.1.randSeed =
              (ResetWaveParams pf WaveParams.zero s).1.randSeed := by
            first
              | rfl
              | (show WaveParams.randSeed (Prod.fst (ite _ _ _)) = _
                 repeat' split
                 all_goals assumption))
  repeat' split
  all_goals assumption

theorem GenBlipSelect_seed {σ : Type} (pf : Platform σ) (s : σ) :
    (GenBlipSelect pf s).1.randSeed =
      (ResetWaveParams pf WaveParams.zero s).1.randSeed := by
  unfold GenBlipSelect
  lift_lets
  repeat
    intro v
    try
      first
        | (have hv : v.randSeed =
              (ResetWaveParams pf WaveParams.zero s).1.randSeed := by
            assumption)
        | (have hv : v.1.randSeed =
              (ResetWaveParams pf WaveParams.zero s).1.randSeed := by
            first
              | rfl
              | (show WaveParams.randSeed (Prod.fst (ite _ _ _)) = _
                 repeat' split
                 all_goals assumption))
  assumption

theorem randomizeDraw_seed {σ : Type} (pf : Platform σ) (s : σ) :
    (randomizeDraw pf s).1.randSeed =
      ofI32 (GetRandomValue pf 0 65534 (ResetWaveParams pf WaveParams.zero s).2).1 := by
  unfold randomizeDraw
  lift_lets
  repeat
    intro v
    try
      first
        | (have hv : v.randSeed =
              ofI32 (GetRandomValue pf 0 65534 (ResetWaveParams pf WaveParams.zero s).2).1 := by
            first
              | assumption
              | rfl
              | (show WaveParams.randSeed (ite _ _ _) = _
                 repeat' split
                 all_goals assumption))
        | (have hv : v.1.randSeed =
              ofI32 (GetRandomValue pf 0 65534 (ResetWaveParams pf WaveParams.zero s).2).1 := by
            show WaveParams.randSeed (Prod.fst (ite _ _ _)) = _
            repeat' split
            all_goals assumption)
  assumption

theorem randomizeFixup_seed {σ : Type} (pf : Platform σ) (x : WaveParams × σ) :
    (randomizeFixup pf x).1.randSeed = x.1.randSeed := by
  unfold randomizeFixup
  lift_lets
  intros
  split <;> rfl

theorem GenRandomize_seed {σ : Type} (pf : Platform σ) (s : σ) :
    (GenRandomize pf s).1.randSeed =
      ofI32 (GetRandomValue pf 0 65534 (ResetWaveParams pf WaveParams.zero s).2).1 := by
  have h0 : (randomizeFixup pf (randomizeDraw pf s)).1.randSeed =
      ofI32 (GetRandomValue pf 0 65534 (ResetWaveParams pf WaveParams.zero s).2).1 := by
    rw [randomizeFixup_seed, randomizeDraw_seed]
  unfold GenRandomize
  lift_lets
  repeat
    intro v
    try
      first
        | (have hv : v.randSeed =
              ofI32 (GetRandomValue pf 0 65534 (ResetWaveParams pf WaveParams.zero s).2).1 := by
            first
              | assumption
              | (show WaveParams.randSeed (ite _ _ _) = _
                 repeat' split
                 all_goals assumption))
        | (have hv : v.1.randSeed =
              ofI32 (GetRandomValue pf 0 65534 (ResetWaveParams pf WaveParams.zero s).2).1 := by
            assumption)
  assumption

/-- The seed `ResetWaveParams` stores lies in `[1, 0xFFFE]`. -/
theorem ResetWaveParams_seed {σ : Type} (pf : Platform σ) (prior : WaveParams) (s : σ) :
    1 ≤ i32 (ResetWaveParams pf prior s).1.randSeed ∧
    i32 (ResetWaveParams pf prior s).1.randSeed ≤ 65534 := by
  obtain ⟨h1, h2⟩ := GetRandomValue_bounds pf 1 65534 (by decide) s
  have e : (ResetWaveParams pf prior s).1.randSeed = ofI32 (GetRandomValue pf 1 65534 s).1 := rfl
  rw [e, i32_ofI32 _ (by omega) (by omega)]
  exact ⟨h1, h2⟩

theorem genSetup_unseeded {σ : Type} (pf : Platform σ) (P : WaveParams) (s : σ)
    (h : P.randSeed = 0) :
    (genSetup pf P s).noiseBuffer = (fillNoise pf 32 s).1 ∧
    (genSetup pf P s).rng = (fillNoise pf 32 s).2 := by
  simp only [genSetup, h, ne_eq, not_true_eq_false, if_false]
  exact ⟨trivial, trivial⟩

set_option maxRecDepth 4000 in
theorem randomize_zero :
    (GenRandomize (constPlatform 0) ()).1.randSeed = 0 ∧
    (randomizeDraw (constPlatform 0) ()).1.attackTimeValue = bitsMinusOne ∧
    (randomizeDraw (constPlatform 0) ()).1.sustainTimeValue = bitsOne ∧
    (randomizeDraw (constPlatform 0) ()).1.decayTimeValue = bitsMinusOne ∧
    envelopeSum (randomizeDraw (constPlatform 0) ()).1 = Flt.fin true 8388608 (-23) ∧
    Flt.lt (envelopeSum (randomizeDraw (constPlatform 0) ()).1) (lit32 2 10) = true ∧
    (GenRandomize (constPlatform 0) ()).1.attackTimeValue = bitsMinusOne ∧
    (GenRandomize (constPlatform 0) ()).1.sustainTimeValue = 1067030938 ∧
    (GenRandomize (constPlatform 0) ()).1.decayTimeValue = 3209481421 ∧
    f32 1067030938 = Flt.fin false 10066330 (-23) ∧
    f32 3209481421 = Flt.fin true 13421773 (-24) ∧
    envelopeSum (GenRandomize (constPlatform 0) ()).1 = Flt.fin true 10066329 (-24) ∧
    Flt.lt (envelopeSum (GenRandomize (constPlatform 0) ()).1) (lit32 2 10) = true := by
  decide

set_option maxRecDepth 4000 in
theorem randomize_reference :
    (ResetWaveParams refPlatform WaveParams.zero 21264).1.randSeed = 26579 ∧
    (GenRandomize refPlatform 21264).1.randSeed = 0 := by decide

/-- C25 (randomize fix-up), amended: on every platform and from every generator state,
`GenRandomize` returns the attack time it drew; when the `float` sum
`attack + sustain + decay` of the drawn values is not below `0.2f`, it returns the drawn
sustain and decay times, so the sum of the returned values is the drawn one, and is `>= 0.2f`
unless it is NaN; when the sum is below `0.2f`, the returned sustain and decay times are the
drawn ones each increased by a pad `0.2f + frnd(0.3f)`, and every pad is finite and lies in
`[0.2f, 0.5f]`. Nothing bounds the padded sum from below: the attack and decay times are
drawn from `[-1, 1]`. -/
theorem GenRandomize_fixup {σ : Type} (pf : Platform σ) (s : σ) :
    (GenRandomize pf s).1.attackTimeValue = (randomizeDraw pf s).1.attackTimeValue ∧
    (Flt.lt (envelopeSum (randomizeDraw pf s).1) (lit32 2 10) = false →
      (GenRandomize pf s).1.sustainTimeValue = (randomizeDraw pf s).1.sustainTimeValue ∧
      (GenRandomize pf s).1.decayTimeValue = (randomizeDraw pf s).1.decayTimeValue ∧
      envelopeSum (GenRandomize pf s).1 = envelopeSum (randomizeDraw pf s).1 ∧
      ((envelopeSum (GenRandomize pf s).1).isNaN = false →
        Flt.le (lit32 2 10) (envelopeSum (GenRandomize pf s).1) = true)) ∧
    (Flt.lt (envelopeSum (randomizeDraw pf s).1) (lit32 2 10) = true →
      ∃ k1 k2 : Int, 0 ≤ k1 ∧ k1 ≤ 10000 ∧ 0 ≤ k2 ∧ k2 ≤ 10000 ∧
        f32 (GenRandomize pf s).1.sustainTimeValue =
          fadd (f32 (randomizeDraw pf s).1.sustainTimeValue) (envelopePad k1) ∧
        f32 (GenRandomize pf s).1.decayTimeValue =
          fadd (f32 (randomizeDraw pf s).1.decayTimeValue) (envelopePad k2)) ∧
    (∀ k : Int, 0 ≤ k → k ≤ 10000 →
      (envelopePad k).isFinite = true ∧ Flt.le (lit32 2 10) (envelopePad k) = true ∧
      Flt.le (envelopePad k) (lit32 5 10) = true) := by
  obtain ⟨g1, g2, g3⟩ := GenRandomize_envelope pf s
  obtain ⟨x1, x2, x3⟩ := randomizeFixup_spec pf (randomizeDraw pf s)
  refine ⟨by rw [g1, x1], ?_, ?_, envelopePad_range⟩
  · intro h
    have e := x2 h
    rw [e] at g1 g2 g3
    have hs : envelopeSum (GenRandomize pf s).1 = envelopeSum (randomizeDraw pf s).1 := by
      unfold envelopeSum
      rw [g1, g2, g3]
    refine ⟨g2, g3, hs, ?_⟩
    intro hn
    rw [hs] at hn ⊢
    exact Flt.le_of_not_lt _ _ hn (by decide) h
  · intro h
    obtain ⟨k1, k2, a1, a2, a3, a4, a5, a6⟩ := x3 h
    exact ⟨k1, k2, a1, a2, a3, a4, by rw [g2]; exact a5, by rw [g3]; exact a6⟩

/-- Witness of C25: when `rand()` always returns 0, the drawn sum is `-1.0` and sustain and
decay are padded. -/
theorem GenRandomize_fixup_witness :
    Flt.lt (envelopeSum (randomizeDraw (constPlatform 0) ()).1) (lit32 2 10) = true ∧
    ∃ k1 k2 : Int, 0 ≤ k1 ∧ k1 ≤ 10000 ∧ 0 ≤ k2 ∧ k2 ≤ 10000 ∧
      f32 (GenRandomize (constPlatform 0) ()).1.sustainTimeValue =
        fadd (f32 (randomizeDraw (constPlatform 0) ()).1.sustainTimeValue) (envelopePad k1) ∧
      f32 (GenRandomize (constPlatform 0) ()).1.decayTimeValue =
        fadd (f32 (randomizeDraw (constPlatform 0) ()).1.decayTimeValue) (envelopePad k2) :=
  ⟨randomize_zero.2.2.2.2.2.1,
    (GenRandomize_fixup (constPlatform 0) ()).2.2.1 randomize_zero.2.2.2.2.2.1⟩

/-- Counterexample to C25 as stated: when `rand()` always returns 0, `GenRandomize` draws
attack `-1.0`, sustain `1.0` and decay `-1.0` (sum `-1.0 < 0.2f`), pads sustain and decay by
`0.2f` each, and returns attack `-1.0`, sustain `1.2` and decay `-0.8`, whose sum
`-10066329 * 2^-24` (about `-0.6`) is below `0.2f`. -/
theorem GenRandomize_sum_counterexample :
    f32 (randomizeDraw (constPlatform 0) ()).1.attackTimeValue = Flt.neg (lit32 1 1) ∧
    f32 (randomizeDraw (constPlatform 0) ()).1.sustainTimeValue = lit32 1 1 ∧
    f32 (randomizeDraw (constPlatform 0) ()).1.decayTimeValue = Flt.neg (lit32 1 1) ∧
    f32 (GenRandomize (constPlatform 0) ()).1.attackTimeValue = Flt.neg (lit32 1 1) ∧
    f32 (GenRandomize (constPlatform 0) ()).1.sustainTimeValue = Flt.fin false 10066330 (-23) ∧
    f32 (GenRandomize (constPlatform 0) ()).1.decayTimeValue = Flt.fin true 13421773 (-24) ∧
    envelopeSum (GenRandomize (constPlatform 0) ()).1 = Flt.fin true 10066329 (-24) ∧
    Flt.lt (envelopeSum (GenRandomize (constPlatform 0) ()).1) (lit32 2 10) = true := by
  obtain ⟨_, d1, d2, d3, _, _, g1, g2, g3, b1, b2, e1, e2⟩ := randomize_zero
  have c1 : f32 bitsMinusOne = Flt.neg (lit32 1 1) := by decide
  have c2 : f32 bitsOne = lit32 1 1 := by decide
  refine ⟨by rw [d1, c1], by rw [d2, c2], by rw [d3, c1], by rw [g1, c1], by rw [g2, b1],
    by rw [g3, b2], e1, e2⟩

/-- C30 (seeds of generated parameter sets): on every platform and from every generator
state, each of the seven named presets returns the seed `ResetWaveParams` stored, a value in
`[1, 0xFFFE]`; `GenRandomize` returns the value of its own `GetRandomValue(0, 0xFFFE)`, in
`[0, 0xFFFE]`, which is 0 when `rand()` returns 0, as it does on the reference platform from
generator state 21264; and for a parameter set with seed 0 `GenerateWave` does not call
`srand`: the noise table is filled from the state the generator is in on entry. -/
theorem generated_seeds {σ : Type} (pf : Platform σ) (s : σ) :
    (1 ≤ i32 (GenPickupCoin pf s).1.randSeed ∧ i32 (GenPickupCoin pf s).1.randSeed ≤ 65534) ∧
    (1 ≤ i32 (GenLaserShoot pf s).1.randSeed ∧ i32 (GenLaserShoot pf s).1.randSeed ≤ 65534) ∧
    (1 ≤ i32 (GenExplosion pf s).1.randSeed ∧ i32 (GenExplosion pf s).1.randSeed ≤ 65534) ∧
    (1 ≤ i32 (GenPowerup pf s).1.randSeed ∧ i32 (GenPowerup pf s).1.randSeed ≤ 65534) ∧
    (1 ≤ i32 (GenHitHurt pf s).1.randSeed ∧ i32 (GenHitHurt pf s).1.randSeed ≤ 65534) ∧
    (1 ≤ i32 (GenJump pf s).1.randSeed ∧ i32 (GenJump pf s).1.randSeed ≤ 65534) ∧
    (1 ≤ i32 (GenBlipSelect pf s).1.randSeed ∧ i32 (GenBlipSelect pf s).1.randSeed ≤ 65534) ∧
    (0 ≤ i32 (GenRandomize pf s).1.randSeed ∧ i32 (GenRandomize pf s).1.randSeed ≤ 65534) ∧
    i32 (GenRandomize pf s).1.randSeed =
      (GetRandomValue pf 0 65534 (ResetWaveParams pf WaveParams.zero s).2).1 ∧
    (GenRandomize (constPlatform 0) ()).1.randSeed = 0 ∧
    (GenRandomize refPlatform 21264).1.randSeed = 0 ∧
    (∀ (P : WaveParams) (s1 : σ), P.randSeed = 0 →
      (genSetup pf P s1).noiseBuffer = (fillNoise pf 32 s1).1 ∧
      (genSetup pf P s1).rng = (fillNoise pf 32 s1).2) := by
  obtain ⟨r1, r2⟩ := ResetWaveParams_seed pf WaveParams.zero s
  obtain ⟨b1, b2⟩ :=
    GetRandomValue_bounds pf 0 65534 (by decide) (ResetWaveParams pf WaveParams.zero s).2
  have e : i32 (GenRandomize pf s).1.randSeed =
      (GetRandomValue pf 0 65534 (ResetWaveParams pf WaveParams.zero s).2).1 := by
    rw [GenRandomize_seed, i32_ofI32 _ b1 (by omega)]
  refine ⟨?_, ?_, ?_, ?_, ?_, ?_, ?_, ?_, e, randomize_zero.1, randomize_reference.2, ?_⟩
  · rw [GenPickupCoin_seed]; exact ⟨r1, r2⟩
  · rw [GenLaserShoot_seed]; exact ⟨r1, r2⟩
  · rw [GenExplosion_seed]; exact ⟨r1, r2⟩
  · rw [GenPowerup_seed]; exact ⟨r1, r2⟩
  · rw [GenHitHurt_seed]; exact ⟨r1, r2⟩
  · rw [GenJump_seed]; exact ⟨r1, r2⟩
  · rw [GenBlipSelect_seed]; exact ⟨r1, r2⟩
  · rw [e]; exact ⟨b1, b2⟩
  · intro P s1 h
    exact genSetup_unseeded pf P s1 h

/-- Witness of C30: the record `GenRandomize` returns when `rand()` always returns 0 has
seed 0, and `GenerateWave` fills its noise table from the generator state it is entered
with. -/
theorem generated_seeds_witness :
    (GenRandomize (constPlatform 0) ()).1.randSeed = 0 ∧
    (genSetup (constPlatform 0) (GenRandomize (constPlatform 0) ()).1 ()).noiseBuffer =
      (fillNoise (constPlatform 0) 32 ()).1 :=
  ⟨randomize_zero.1,
    ((generated_seeds (constPlatform 0) ()).2.2.2.2.2.2.2.2.2.2.2
      (GenRandomize (constPlatform 0) ()).1 () randomize_zero.1).1⟩

/-! ## The high-pass coefficient sweep -/

theorem sampleStep_highPass {σ : Type} (pf : Platform σ) (st : GenState σ) :
    (sampleStep pf st).flthp = highPassSweep st.flthp st.flthpd ∧
    (sampleStep pf st).flthpd = st.flthpd := by
  obtain ⟨a, b, c, d, e, f, g, h, i, j, hx⟩ := sampleStep_frame pf st
  rw [hx]
  have h1 : (repeatStep pf st).flthp = st.flthp ∧ (repeatStep pf st).flthpd = st.flthpd := by
    by_cases hf : repeatFires st = true
    · rw [repeatStep_fires pf st hf]; exact ⟨rfl, rfl⟩
    · rw [repeatStep_idle pf st (by simpa using hf)]; exact ⟨rfl, rfl⟩
  constructor
  · show (preSample pf st).flthp = _
    unfold preSample
    show highPassSweep (repeatStep pf st).flthp (repeatStep pf st).flthpd = _
    rw [h1.1, h1.2]
  · show (preSample pf st).flthpd = _
    unfold preSample
    show (repeatStep pf st).flthpd = _
    exact h1.2

/-- A product is a NaN only if a factor is a NaN or the factors are a zero and an infinity. -/
theorem fmul_isNaN (x y : Flt) (hx : x.isFinite = true) (h0 : x.toRat ≠ 0)
    (hy : y.isNaN = false) : (fmul x y).isNaN = false := by
  cases x with
  | nan => exact absurd hx (by simp [Flt.isFinite])
  | inf _ => exact absurd hx (by simp [Flt.isFinite])
  | fin a m e =>
    have hm : m ≠ 0 := by
      intro hm
      apply h0
      rw [hm]
      simp [Flt.toRat]
    cases y with
    | nan => exact absurd hy (by decide)
    | inf b =>
      show (if m = 0 then Flt.nan else Flt.inf (xor a b)).isNaN = false
      rw [if_neg hm]
      rfl
    | fin b n k => exact roundNE_isNaN _ _ _ _ _

set_option maxRecDepth 4000 in
theorem highPass_consts :
    Flt.le (lit32 1 100000) (lit32 1 100000) = true ∧
    Flt.le (lit32 1 100000) (lit32 1 10) = true ∧ Flt.le (lit32 1 10) (lit32 1 10) = true ∧
    (lit32 1 100000).isNaN = false ∧ (lit32 1 10).isNaN = false ∧
    (lit32 1 100000).isFinite = true ∧ (lit32 1 10).isFinite = true ∧
    Flt.lt fzero (lit32 1 100000) = true ∧ Flt.le (lit32 1 100000) fzero = false ∧
    fzero.isFinite = true := by decide

/-- When the sweep factor is not zero and the product is not a NaN, the sweep leaves the
coefficient in `[0.00001f, 0.1f]`. -/
theorem highPassSweep_range (flthp flthpd : Flt) (hd : Flt.eq flthpd fzero = false)
    (hn : (fmul flthp flthpd).isNaN = false) :
    Flt.le (lit32 1 100000) (highPassSweep flthp flthpd) = true ∧
    Flt.le (highPassSweep flthp flthpd) (lit32 1 10) = true := by
  obtain ⟨c1, c2, c3, n1, n2, _⟩ := highPass_consts
  unfold highPassSweep
  simp only [hd, Bool.not_false, if_true]
  by_cases h1 : Flt.lt (fmul flthp flthpd) (lit32 1 100000) = true
  · rw [if_pos h1]
    by_cases h2 : Flt.lt (lit32 1 10) (lit32 1 100000) = true
    · rw [if_pos h2]; exact ⟨c2, c3⟩
    · rw [if_neg h2]; exact ⟨c1, c2⟩
  · rw [if_neg h1]
    have h1' : Flt.lt (fmul flthp flthpd) (lit32 1 100000) = false := by simpa using h1
    by_cases h2 : Flt.lt (lit32 1 10) (fmul flthp flthpd) = true
    · rw [if_pos h2]; exact ⟨c2, c3⟩
    · rw [if_neg h2]
      have h2' : Flt.lt (lit32 1 10) (fmul flthp flthpd) = false := by simpa using h2
      exact ⟨Flt.le_of_not_lt _ _ hn n1 h1', Flt.le_of_not_lt _ _ n2 hn h2'⟩

/-- A coefficient in `[0.00001f, 0.1f]` is finite and not zero. -/
theorem coefficient_finite (x : Flt) (h1 : Flt.le (lit32 1 100000) x = true)
    (h2 : Flt.le x (lit32 1 10) = true) : x.isFinite = true ∧ x.toRat ≠ 0 := by
  obtain ⟨_, _, _, _, _, i1, i2, p1, _, i0⟩ := highPass_consts
  have hf : x.isFinite = true := by
    cases x with
    | nan => exact absurd h1 (by decide)
    | inf a =>
      cases a
      · exact absurd h2 (by decide)
      · exact absurd h1 (by decide)
    | fin a m e => rfl
  refine ⟨hf, ?_⟩
  have a1 := (Flt.le_iff_toRat _ _ i1 hf).1 h1
  have a2 := (Flt.lt_iff_toRat _ _ i0 i1).1 p1
  have z : fzero.toRat = 0 := by simp [fzero, Flt.toRat]
  rw [z] at a2
  intro h
  rw [h] at a1
  linarith

theorem highPass_run {σ : Type} (pf : Platform σ) (P : WaveParams) (s : σ) (k : Nat) :
    ((sampleStep pf)^[k] (genSetup pf P s)).flthpd = (genSetup pf P s).flthpd ∧
    (Flt.eq (genSetup pf P s).flthpd fzero = true →
      ((sampleStep pf)^[k] (genSetup pf P s)).flthp = (genSetup pf P s).flthp) ∧
    (Flt.eq (genSetup pf P s).flthpd fzero = false →
      (fmul (genSetup pf P s).flthp (genSetup pf P s).flthpd).isNaN = false →
      Flt.le (lit32 1 100000) ((sampleStep pf)^[k + 1] (genSetup pf P s)).flthp = true ∧
      Flt.le ((sampleStep pf)^[k + 1] (genSetup pf P s)).flthp (lit32 1 10) = true) := by
  have hd : ∀ n, ((sampleStep pf)^[n] (genSetup pf P s)).flthpd = (genSetup pf P s).flthpd := by
    intro n
    induction n with
    | zero => rfl
    | succ n ih => rw [Function.iterate_succ_apply', (sampleStep_highPass pf _).2, ih]
  refine ⟨hd k, ?_, ?_⟩
  · intro hz
    induction k with
    | zero => rfl
    | succ k ih =>
      rw [Function.iterate_succ_apply', (sampleStep_highPass pf _).1, hd k, ih]
      unfold highPassSweep
      simp only [hz, Bool.not_true, Bool.false_eq_true, if_false]
  · intro hz hn
    have hdn : (genSetup pf P s).flthpd.isNaN = false := by
      cases hc : (genSetup pf P s).flthpd with
      | nan =>
        rw [hc] at hn
        rw [fmul_nan_right] at hn
        exact absurd hn (by decide)
      | inf _ => rfl
      | fin _ _ _ => rfl
    induction k with
    | zero =>
      rw [Function.iterate_succ_apply', (sampleStep_highPass pf _).1]
      exact highPassSweep_range _ _ hz hn
    | succ k ih =>
      rw [Function.iterate_succ_apply', (sampleStep_highPass pf _).1, hd (k + 1)]
      obtain ⟨f1, f2⟩ := coefficient_finite _ ih.1 ih.2
      exact highPassSweep_range _ _ hz (fmul_isNaN _ _ f1 f2 hdn)

set_option maxRecDepth 4000 in
theorem sweepZero_setup :
    clampParams sweepZeroParams = sweepZeroParams ∧
    f32 sweepZeroParams.hpfCutoffSweepValue = Flt.fin true 13653333 (-12) ∧
    fadd (lit32 1 1) (fmul (f32 sweepZeroParams.hpfCutoffSweepValue) (lit32 3 10000)) = fzero ∧
    fmul (refPow binary32 (f32 sweepZeroParams.hpfCutoffValue) (lit32 2 1)) (lit32 1 10) = fzero ∧
    Flt.eq fzero fzero = true ∧
    Flt.lt fzero (lit32 1 100000) = true ∧ Flt.le (lit32 1 100000) fzero = false ∧
    f32 halfParams.hpfCutoffSweepValue = lit32 1 2 := by decide

set_option maxRecDepth 8000 in
theorem halfParams_highPass :
    Flt.eq (genSetup refPlatform halfParams 0).flthpd fzero = false ∧
    (fmul (genSetup refPlatform halfParams 0).flthp
      (genSetup refPlatform halfParams 0).flthpd).isNaN = false := by decide

theorem sweepZero_run (s : Nat) (k : Nat) :
    (genSetup refPlatform sweepZeroParams s).flthpd = fzero ∧
    ((sampleStep refPlatform)^[k] (genSetup refPlatform sweepZeroParams s)).flthp = fzero := by
  obtain ⟨c0, _, c1, c2, c3, _⟩ := sweepZero_setup
  have e1 : (genSetup refPlatform sweepZeroParams s).flthpd =
      fadd (lit32 1 1) (fmul (f32 (clampParams sweepZeroParams).hpfCutoffSweepValue)
        (lit32 3 10000)) := rfl
  have e2 : (genSetup refPlatform sweepZeroParams s).flthp =
      fmul (refPow binary32 (f32 (clampParams sweepZeroParams).hpfCutoffValue) (lit32 2 1))
        (lit32 1 10) := rfl
  rw [c0] at e1 e2
  rw [c1] at e1
  rw [c2] at e2
  refine ⟨e1, ?_⟩
  rw [((highPass_run refPlatform sweepZeroParams s k).2.1 (by rw [e1]; exact c3)), e2]

/-- C21 (high-pass coefficient clamp), amended: the sweep factor `flthpd` is the same in every
sample, each sample turns the coefficient `flthp` into the result of the guarded sweep
`if (flthpd != 0.0f) { flthp *= flthpd; clamp to [0.00001f, 0.1f] }`; when the sweep factor is
not `0.0f` and the product `flthp*flthpd` of the values the setup computes is not a NaN, the
coefficient lies in `[0.00001f, 0.1f]` after the sweep step of every sample; when the sweep
factor is `0.0f` no sample changes the coefficient, which keeps the value of the setup. -/
theorem highPass_clamp {σ : Type} (pf : Platform σ) (P : WaveParams) (s : σ) (k : Nat) :
    ((sampleStep pf)^[k] (genSetup pf P s)).flthpd = (genSetup pf P s).flthpd ∧
    ((sampleStep pf)^[k + 1] (genSetup pf P s)).flthp =
      highPassSweep ((sampleStep pf)^[k] (genSetup pf P s)).flthp
        ((sampleStep pf)^[k] (genSetup pf P s)).flthpd ∧
    (Flt.eq (genSetup pf P s).flthpd fzero = false →
      (fmul (genSetup pf P s).flthp (genSetup pf P s).flthpd).isNaN = false →
      Flt.le (lit32 1 100000) ((sampleStep pf)^[k + 1] (genSetup pf P s)).flthp = true ∧
      Flt.le ((sampleStep pf)^[k + 1] (genSetup pf P s)).flthp (lit32 1 10) = true) ∧
    (Flt.eq (genSetup pf P s).flthpd fzero = true →
      ((sampleStep pf)^[k] (genSetup pf P s)).flthp = (genSetup pf P s).flthp) := by
  obtain ⟨h1, h2, h3⟩ := highPass_run pf P s k
  refine ⟨h1, ?_, h3, h2⟩
  rw [Function.iterate_succ_apply']
  exact (sampleStep_highPass pf _).1

/-- Witness of C21: every `float` field `0.5` on the reference platform (sweep factor
`1.00015`, initial coefficient `0.025`), after the sweep step of sample 7. -/
theorem highPass_clamp_witness :
    (Flt.eq (genSetup refPlatform halfParams 0).flthpd fzero = false ∧
      (fmul (genSetup refPlatform halfParams 0).flthp
        (genSetup refPlatform halfParams 0).flthpd).isNaN = false) ∧
    Flt.le (lit32 1 100000)
      ((sampleStep refPlatform)^[7 + 1] (genSetup refPlatform halfParams 0)).flthp = true ∧
    Flt.le ((sampleStep refPlatform)^[7 + 1] (genSetup refPlatform halfParams 0)).flthp
      (lit32 1 10) = true :=
  ⟨halfParams_highPass,
    (highPass_clamp refPlatform halfParams 0 7).2.2.1 halfParams_highPass.1 halfParams_highPass.2⟩

/-- Counterexample to C21 as stated: with high-pass cutoff sweep `-3333.333251953125` and
every other field 0, on the reference platform, the sweep factor `1.0f + x*0.0003f` is `0.0f`,
the test `flthpd != 0.0f` fails in every sample, and after the sweep step of each of the
three samples of the wave the coefficient has the value `0.0f` of the setup, which is below
`0.00001f`. -/
theorem highPass_sweepZero_counterexample :
    (genSetup refPlatform sweepZeroParams 0).flthpd = fzero ∧
    ((sampleStep refPlatform)^[1] (genSetup refPlatform sweepZeroParams 0)).flthp = fzero ∧
    ((sampleStep refPlatform)^[2] (genSetup refPlatform sweepZeroParams 0)).flthp = fzero ∧
    ((sampleStep refPlatform)^[3] (genSetup refPlatform sweepZeroParams 0)).flthp = fzero ∧
    Flt.lt fzero (lit32 1 100000) = true ∧ Flt.le (lit32 1 100000) fzero = false :=
  ⟨(sweepZero_run 0 1).1, (sweepZero_run 0 1).2, (sweepZero_run 0 2).2, (sweepZero_run 0 3).2,
    sweepZero_setup.2.2.2.2.2.1, sweepZero_setup.2.2.2.2.2.2.1⟩

/-! ## Oscillator phase, noise lookup and phaser ring -/

theorem subSample_phase {σ : Type} (pf : Platform σ) (x : GenState σ × Flt) :
    (subSample pf x).1.phase = wrappedPhase x.1 ∧ (subSample pf x).1.period = x.1.period ∧
    (subSample pf x).1.ipp = and1023 (x.1.ipp + 1) ∧
    (subSample pf x).1.iphase = x.1.iphase := by
  unfold subSample wrappedPhase
  simp only [decide_eq_true_eq]
  exact ⟨trivial, trivial, trivial, trivial⟩

theorem wrappedPhase_range {σ : Type} (st : GenState σ) (hp : 0 < st.period) (h0 : 0 ≤ st.phase) :
    0 ≤ wrappedPhase st ∧ wrappedPhase st < st.period ∧ wrappedPhase st ≤ st.phase + 1 := by
  unfold wrappedPhase
  split
  · have h1 : (0 : Int) ≤ st.phase + 1 := by omega
    refine ⟨Int.tmod_nonneg _ h1, Int.tmod_lt_of_pos _ hp, ?_⟩
    rw [Int.tmod_eq_emod h1 hp.le]
    have e := Int.emod_add_ediv (st.phase + 1) st.period
    have q := Int.ediv_nonneg h1 hp.le
    have := mul_nonneg hp.le q
    omega
  · omega

theorem noiseIndex_range {σ : Type} (st : GenState σ) (hp : 0 < st.period) (h0 : 0 ≤ st.phase) :
    0 ≤ noiseIndex st ∧ noiseIndex st ≤ 31 := by
  obtain ⟨a, b, _⟩ := wrappedPhase_range st hp h0
  unfold noiseIndex
  have h1 : (0 : Int) ≤ wrappedPhase st * 32 := by omega
  rw [Int.tdiv_eq_ediv h1 hp.le]
  constructor
  · exact Int.ediv_nonneg h1 hp.le
  · have : wrappedPhase st * 32 / st.period < 32 :=
      Int.ediv_lt_of_lt_mul hp (by omega)
    omega

theorem and1023_range (x : Int) : 0 ≤ and1023 x ∧ and1023 x ≤ 1023 ∧ (and1023 x).toNat < 1024 := by
  unfold and1023
  omega

theorem superSample_phase {σ : Type} (pf : Platform σ) (n : Nat) (x : GenState σ × Flt)
    (hp : 0 < x.1.period) (h0 : 0 ≤ x.1.phase) (hi : 0 ≤ x.1.ipp ∧ x.1.ipp ≤ 1023) :
    (superSample pf n x).1.period = x.1.period ∧ 0 ≤ (superSample pf n x).1.phase ∧
    (superSample pf n x).1.phase ≤ x.1.phase + n ∧
    0 ≤ (superSample pf n x).1.ipp ∧ (superSample pf n x).1.ipp ≤ 1023 := by
  induction n generalizing x with
  | zero => exact ⟨rfl, h0, by show x.1.phase ≤ x.1.phase + ((0 : Nat) : Int); omega, hi.1, hi.2⟩
  | succ n ih =>
    obtain ⟨e1, e2, e3, _⟩ := subSample_phase pf x
    obtain ⟨a, b, c⟩ := wrappedPhase_range x.1 hp h0
    obtain ⟨r1, r2, _⟩ := and1023_range (x.1.ipp + 1)
    obtain ⟨i1, i2, i3, i4, i5⟩ := ih (subSample pf x) (by rw [e2]; exact hp) (by rw [e1]; exact a)
      (by rw [e3]; exact ⟨r1, r2⟩)
    rw [superSample]
    refine ⟨by rw [i1, e2], i2, ?_, i4, i5⟩
    rw [e1] at i3
    push_cast
    omega

theorem preSample_phase {σ : Type} (pf : Platform σ) (st : GenState σ) :
    (preSample pf st).phase = st.phase := by
  by_cases hr : repeatFires st = true
  · have e : preSample pf st =
        phaserStep (envelopeStep pf (periodStep pf (slideStep (repeatStep pf st)))) := rfl
    rw [e, repeatStep_fires pf st hr]
    rfl
  · have e : preSample pf st =
        phaserStep (envelopeStep pf (periodStep pf (slideStep (repeatStep pf st)))) := rfl
    rw [e, repeatStep_idle pf st (by simpa using hr)]
    rfl

theorem run_phase {σ : Type} (pf : Platform σ) (P : WaveParams) (s : σ) (k : Nat) :
    0 ≤ ((sampleStep pf)^[k] (genSetup pf P s)).phase ∧
    ((sampleStep pf)^[k] (genSetup pf P s)).phase ≤ 8 * (k : Int) ∧
    0 ≤ ((sampleStep pf)^[k] (genSetup pf P s)).ipp ∧
    ((sampleStep pf)^[k] (genSetup pf P s)).ipp ≤ 1023 := by
  induction k with
  | zero =>
    have e1 : ((sampleStep pf)^[0] (genSetup pf P s)).phase = 0 := rfl
    have e2 : ((sampleStep pf)^[0] (genSetup pf P s)).ipp = 0 := rfl
    rw [e1, e2]
    omega
  | succ k ih =>
    rw [Function.iterate_succ_apply']
    generalize (sampleStep pf)^[k] (genSetup pf P s) = st at ih
    have hper := preSample_period pf st
    have hph := preSample_phase pf st
    obtain ⟨_, _, _, _, hipp⟩ := preSample_keep pf st
    obtain ⟨_, a2, a3, a4, a5⟩ := superSample_phase pf MAX_SUPERSAMPLING (preSample pf st, fzero)
      (by show 0 < (preSample pf st).period; omega)
      (by show 0 ≤ (preSample pf st).phase; rw [hph]; exact ih.1)
      (by
        show 0 ≤ (preSample pf st).ipp ∧ (preSample pf st).ipp ≤ 1023
        rw [hipp]
        exact ⟨ih.2.2.1, ih.2.2.2⟩)
    have e1 : (sampleStep pf st).phase =
        (superSample pf MAX_SUPERSAMPLING (preSample pf st, fzero)).1.phase := rfl
    have e2 : (sampleStep pf st).ipp =
        (superSample pf MAX_SUPERSAMPLING (preSample pf st, fzero)).1.ipp := rfl
    rw [e1, e2]
    refine ⟨a2, ?_, a4, a5⟩
    have a3' : (superSample pf MAX_SUPERSAMPLING (preSample pf st, fzero)).1.phase ≤
        (preSample pf st).phase + (8 : Nat) := a3
    rw [hph] at a3'
    push_cast at a3' ⊢
    omega

/-- The state entering a sub-sample of a run: the period is at least 8, the phase is not
negative and has been incremented at most once per sub-sample, the ring position is in
`[0, 1023]`. -/
theorem subSampleInput_phase {σ : Type} (pf : Platform σ) (P : WaveParams) (s : σ) (k j : Nat) :
    8 ≤ (subSampleInput pf P s k j).1.period ∧ 0 ≤ (subSampleInput pf P s k j).1.phase ∧
    (subSampleInput pf P s k j).1.phase ≤ 8 * (k : Int) + j ∧
    0 ≤ (subSampleInput pf P s k j).1.ipp ∧ (subSampleInput pf P s k j).1.ipp ≤ 1023 := by
  obtain ⟨r1, r2, r3, r4⟩ := run_phase pf P s k
  have hper := preSample_period pf ((sampleStep pf)^[k] (genSetup pf P s))
  have hph := preSample_phase pf ((sampleStep pf)^[k] (genSetup pf P s))
  obtain ⟨_, _, _, _, hipp⟩ := preSample_keep pf ((sampleStep pf)^[k] (genSetup pf P s))
  obtain ⟨a1, a2, a3, a4, a5⟩ := superSample_phase pf j
    (preSample pf ((sampleStep pf)^[k] (genSetup pf P s)), fzero)
    (by show 0 < (preSample pf _).period; omega)
    (by show 0 ≤ (preSample pf _).phase; rw [hph]; exact r1)
    (by show 0 ≤ (preSample pf _).ipp ∧ (preSample pf _).ipp ≤ 1023; rw [hipp]; exact ⟨r3, r4⟩)
  unfold subSampleInput
  refine ⟨?_, a2, ?_, a4, a5⟩
  · rw [a1]; exact hper
  · have a3' : (superSample pf j (preSample pf ((sampleStep pf)^[k] (genSetup pf P s)), fzero)).1.phase
        ≤ (preSample pf ((sampleStep pf)^[k] (genSetup pf P s))).phase + (j : Int) := a3
    rw [hph] at a3'
    omega

theorem phaserStep_iphase {σ : Type} (st : GenState σ) :
    (phaserStep st).fphase = fadd st.fphase st.fdphase ∧
    (Flt.toInt (phaserStep st).fphase ≠ -2147483648 →
      0 ≤ (phaserStep st).iphase ∧ (phaserStep st).iphase ≤ 1023) ∧
    (Flt.toInt (phaserStep st).fphase = -2147483648 → (phaserStep st).iphase = -2147483648) := by
  have e1 : (phaserStep st).fphase = fadd st.fphase st.fdphase := rfl
  have e2 : (phaserStep st).iphase =
      (if 1023 < absInt (Flt.toInt (fadd st.fphase st.fdphase)) then 1023
       else absInt (Flt.toInt (fadd st.fphase st.fdphase))) := rfl
  rw [e1, e2]
  refine ⟨rfl, ?_, ?_⟩
  · intro h
    unfold absInt
    rw [if_neg h]
    split <;> omega
  · intro h
    unfold absInt
    rw [if_pos h, h]
    rfl

theorem preSample_phaser {σ : Type} (pf : Platform σ) (st : GenState σ) :
    (preSample pf st).fphase = fadd st.fphase st.fdphase ∧
    (Flt.toInt (preSample pf st).fphase ≠ -2147483648 →
      0 ≤ (preSample pf st).iphase ∧ (preSample pf st).iphase ≤ 1023) ∧
    (Flt.toInt (preSample pf st).fphase = -2147483648 →
      (preSample pf st).iphase = -2147483648) := by
  obtain ⟨a1, a2, a3⟩ :=
    phaserStep_iphase (envelopeStep pf (periodStep pf (slideStep (repeatStep pf st))))
  have h1 : (repeatStep pf st).fphase = st.fphase ∧ (repeatStep pf st).fdphase = st.fdphase := by
    by_cases hf : repeatFires st = true
    · rw [repeatStep_fires pf st hf]; exact ⟨rfl, rfl⟩
    · rw [repeatStep_idle pf st (by simpa using hf)]; exact ⟨rfl, rfl⟩
  have e1 : (envelopeStep pf (periodStep pf (slideStep (repeatStep pf st)))).fphase =
      (repeatStep pf st).fphase := rfl
  have e2 : (envelopeStep pf (periodStep pf (slideStep (repeatStep pf st)))).fdphase =
      (repeatStep pf st).fdphase := rfl
  rw [e1, e2, h1.1, h1.2] at a1
  exact ⟨a1, a2, a3⟩

theorem sampleStep_iphase {σ : Type} (pf : Platform σ) (st : GenState σ) :
    (sampleStep pf st).iphase = (preSample pf st).iphase ∧
    (sampleStep pf st).fphase = (preSample pf st).fphase := by
  obtain ⟨a, b, c, d, e, f, g, h, i, j, hx⟩ := sampleStep_frame pf st
  rw [hx]
  exact ⟨rfl, rfl⟩

set_option maxRecDepth 8000 in
theorem hugePhaser_setup :
    f32 hugePhaserParams.phaserOffsetValue = Flt.fin false 8388608 (-12) ∧
    (genSetup refPlatform hugePhaserParams 0).fphase = Flt.fin false 16711680 8 ∧
    (genSetup refPlatform hugePhaserParams 0).fdphase = fzero ∧
    fadd (Flt.fin false 16711680 8) fzero = Flt.fin false 16711680 8 ∧
    (Flt.fin false 16711680 8).isFinite = true ∧
    Flt.toInt (Flt.fin false 16711680 8) = -2147483648 := by decide

theorem noiseParams_type : i32 noiseParams.waveTypeValue = 3 := by decide

theorem hugePhaser_value : (Flt.fin false 16711680 8).toRat = 4278190080 := by
  norm_num [Flt.toRat]

theorem subSampleInput_table {σ : Type} (pf : Platform σ) (P : WaveParams) (s : σ) (k j : Nat) :
    (subSample pf (subSampleInput pf P s k j)).1.noiseBuffer.length = 32 := by
  have h : (superSample pf (j + 1)
      (preSample pf ((sampleStep pf)^[k] (genSetup pf P s)), fzero)).1.noiseBuffer.length = 32 := by
    apply (superSample_table pf (j + 1) _ _).1
    show (preSample pf _).noiseBuffer.length = 32 ∧ _
    rw [(preSample_keep pf _).1]
    exact run_table pf P s k
  have e : ∀ (n : Nat) (x : GenState σ × Flt),
      superSample pf (n + 1) x = subSample pf (superSample pf n x) := by
    intro n
    induction n with
    | zero => intro x; rfl
    | succ n ih =>
      intro x
      rw [superSample, ih (subSample pf x)]
      rfl
  rw [e] at h
  exact h

theorem oscillator_noise {σ : Type} (pf : Platform σ) (x : GenState σ × Flt)
    (h : i32 x.1.params.waveTypeValue = 3) :
    oscillator pf x.1 = (subSample pf x).1.noiseBuffer.getD (noiseIndex x.1).toNat fzero := by
  unfold oscillator subSample noiseIndex wrappedPhase
  simp [h]

/-- C22 (period floor and noise lookup bounds): in every sub-sample of every sample of
`GenerateWave`, for every parameter set, the integer period is at least 8; the oscillator
phase after `phase++` and the wrap satisfies `0 <= phase < period`; the index `phase*32/period`
lies in `[0, 31]`, inside the 32-entry noise table; for the noise wave the value of the base
waveform is the table entry at that index. The phase has been incremented at most once per
sub-sample, so within the 441000 samples `phase*32` stays within the `int` range. -/
theorem noise_lookup_bounds {σ : Type} (pf : Platform σ) (P : WaveParams) (s : σ) (k j : Nat) :
    8 ≤ (subSampleInput pf P s k j).1.period ∧
    (subSample pf (subSampleInput pf P s k j)).1.phase =
      wrappedPhase (subSampleInput pf P s k j).1 ∧
    (subSample pf (subSampleInput pf P s k j)).1.period = (subSampleInput pf P s k j).1.period ∧
    0 ≤ wrappedPhase (subSampleInput pf P s k j).1 ∧
    wrappedPhase (subSampleInput pf P s k j).1 < (subSampleInput pf P s k j).1.period ∧
    0 ≤ noiseIndex (subSampleInput pf P s k j).1 ∧
    noiseIndex (subSampleInput pf P s k j).1 ≤ 31 ∧
    (noiseIndex (subSampleInput pf P s k j).1).toNat <
      (subSample pf (subSampleInput pf P s k j)).1.noiseBuffer.length ∧
    (i32 P.waveTypeValue = 3 →
      oscillator pf (subSampleInput pf P s k j).1 =
        (subSample pf (subSampleInput pf P s k j)).1.noiseBuffer.getD
          (noiseIndex (subSampleInput pf P s k j).1).toNat fzero) ∧
    wrappedPhase (subSampleInput pf P s k j).1 ≤ 8 * (k : Int) + j + 1 ∧
    (k < 441000 → j < 8 → wrappedPhase (subSampleInput pf P s k j).1 * 32 ≤ 2147483647) := by
  obtain ⟨h1, h2, h3, _, _⟩ := subSampleInput_phase pf P s k j
  obtain ⟨e1, e2, _, _⟩ := subSample_phase pf (subSampleInput pf P s k j)
  obtain ⟨w1, w2, w3⟩ := wrappedPhase_range (subSampleInput pf P s k j).1 (by omega) h2
  obtain ⟨n1, n2⟩ := noiseIndex_range (subSampleInput pf P s k j).1 (by omega) h2
  have hlen := subSampleInput_table pf P s k j
  refine ⟨h1, e1, e2, w1, w2, n1, n2, by rw [hlen]; omega, ?_, by omega, ?_⟩
  · intro hw
    apply oscillator_noise
    rw [(subSampleInput_facts pf P s k j).1]
    have : (clampParams P).waveTypeValue = P.waveTypeValue := by rw [clampParams_eq]
    rw [this]
    exact hw
  · intro hk hj
    omega

/-- Witness of C22: the noise wave with seed 42 on the reference platform, first sub-sample
of the first sample. -/
theorem noise_lookup_bounds_witness :
    i32 noiseParams.waveTypeValue = 3 ∧
    oscillator refPlatform (subSampleInput refPlatform noiseParams 0 0 0).1 =
      (subSample refPlatform (subSampleInput refPlatform noiseParams 0 0 0)).1.noiseBuffer.getD
        (noiseIndex (subSampleInput refPlatform noiseParams 0 0 0).1).toNat fzero :=
  ⟨noiseParams_type,
    (noise_lookup_bounds refPlatform noiseParams 0 0 0).2.2.2.2.2.2.2.2.1 noiseParams_type⟩

set_option maxRecDepth 8000 in
theorem halfParams_phaser :
    Flt.toInt (preSample refPlatform
      ((sampleStep refPlatform)^[0] (genSetup refPlatform halfParams 0))).fphase = 255 ∧
    Flt.toInt (preSample refPlatform
      ((sampleStep refPlatform)^[0] (genSetup refPlatform halfParams 0))).fphase ≠ -2147483648 := by
  decide

/-- C23 (phaser offset bounds), amended: in every sample the phaser step sets the offset to
`abs((int)fphase)` limited to 1023; the offset lies in `[0, 1023]` whenever the cast
`(int)fphase` is not `INT_MIN`, and is `INT_MIN` otherwise (a NaN `fphase` or one outside the
`int` range); the sub-samples of the sample use that offset; in every sub-sample the ring
position `ipp` is in `[0, 1023]` and both ring-buffer indices, `ipp & 1023` and
`(ipp - offset + 1024) & 1023`, lie in `[0, 1023]`, inside the 1024-entry ring. -/
theorem phaser_bounds {σ : Type} (pf : Platform σ) (P : WaveParams) (s : σ) (k j : Nat) :
    (preSample pf ((sampleStep pf)^[k] (genSetup pf P s))).fphase =
      fadd ((sampleStep pf)^[k] (genSetup pf P s)).fphase
        ((sampleStep pf)^[k] (genSetup pf P s)).fdphase ∧
    (Flt.toInt (preSample pf ((sampleStep pf)^[k] (genSetup pf P s))).fphase ≠ -2147483648 →
      0 ≤ (preSample pf ((sampleStep pf)^[k] (genSetup pf P s))).iphase ∧
      (preSample pf ((sampleStep pf)^[k] (genSetup pf P s))).iphase ≤ 1023) ∧
    (Flt.toInt (preSample pf ((sampleStep pf)^[k] (genSetup pf P s))).fphase = -2147483648 →
      (preSample pf ((sampleStep pf)^[k] (genSetup pf P s))).iphase = -2147483648) ∧
    ((sampleStep pf)^[k + 1] (genSetup pf P s)).iphase =
      (preSample pf ((sampleStep pf)^[k] (genSetup pf P s))).iphase ∧
    (subSampleInput pf P s k j).1.iphase =
      (preSample pf ((sampleStep pf)^[k] (genSetup pf P s))).iphase ∧
    0 ≤ (subSampleInput pf P s k j).1.ipp ∧ (subSampleInput pf P s k j).1.ipp ≤ 1023 ∧
    (subSampleInput pf P s k j).1.phaserBuffer.length = 1024 ∧
    0 ≤ and1023 (subSampleInput pf P s k j).1.ipp ∧
    and1023 (subSampleInput pf P s k j).1.ipp ≤ 1023 ∧
    (and1023 (subSampleInput pf P s k j).1.ipp).toNat <
      (subSampleInput pf P s k j).1.phaserBuffer.length ∧
    0 ≤ and1023 ((subSampleInput pf P s k j).1.ipp - (subSampleInput pf P s k j).1.iphase + 1024) ∧
    and1023 ((subSampleInput pf P s k j).1.ipp - (subSampleInput pf P s k j).1.iphase + 1024)
      ≤ 1023 ∧
    (and1023 ((subSampleInput pf P s k j).1.ipp -
        (subSampleInput pf P s k j).1.iphase + 1024)).toNat <
      (subSample pf (subSampleInput pf P s k j)).1.phaserBuffer.length := by
  obtain ⟨a1, a2, a3⟩ := preSample_phaser pf ((sampleStep pf)^[k] (genSetup pf P s))
  obtain ⟨_, _, _, i1, i2⟩ := subSampleInput_phase pf P s k j
  obtain ⟨_, _, f3, f4⟩ := subSampleInput_facts pf P s k j
  obtain ⟨w1, w2, w3⟩ := and1023_range (subSampleInput pf P s k j).1.ipp
  obtain ⟨r1, r2, r3⟩ := and1023_range
    ((subSampleInput pf P s k j).1.ipp - (subSampleInput pf P s k j).1.iphase + 1024)
  have hlen : (subSample pf (subSampleInput pf P s k j)).1.phaserBuffer.length = 1024 := by
    rw [(subSample_phaser pf _).1]
    show (List.set _ _ _).length = 1024
    rw [List.length_set]
    exact f3
  refine ⟨a1, a2, a3, ?_, f4, i1, i2, f3, w1, w2, by rw [f3]; exact w3, r1, r2,
    by rw [hlen]; exact r3⟩
  rw [Function.iterate_succ_apply']
  exact (sampleStep_iphase pf _).1

/-- Witness of C23: every `float` field `0.5` on the reference platform, first sample: the
cast `(int)fphase` is 255. -/
theorem phaser_bounds_witness :
    Flt.toInt (preSample refPlatform
      ((sampleStep refPlatform)^[0] (genSetup refPlatform halfParams 0))).fphase ≠ -2147483648 ∧
    0 ≤ (preSample refPlatform
      ((sampleStep refPlatform)^[0] (genSetup refPlatform halfParams 0))).iphase ∧
    (preSample refPlatform
      ((sampleStep refPlatform)^[0] (genSetup refPlatform halfParams 0))).iphase ≤ 1023 :=
  ⟨halfParams_phaser.2, (phaser_bounds refPlatform halfParams 0 0 0).2.1 halfParams_phaser.2⟩

/-- Counterexample to C23 as stated: with phaser offset `2048.0` and every other field 0, on
the reference platform, `fphase` is `2048^2*1020 = 4278190080.0` in the first phaser step, the
cast `(int)fphase` is `INT_MIN`, `abs` leaves it there, the test `iphase > 1023` fails, and
the offset of the first sample is `-2147483648`, outside `[0, 1023]`. -/
theorem phaser_offset_counterexample :
    (preSample refPlatform (genSetup refPlatform hugePhaserParams 0)).fphase =
      Flt.fin false 16711680 8 ∧
    (Flt.fin false 16711680 8).toRat = 4278190080 ∧
    Flt.toInt (Flt.fin false 16711680 8) = -2147483648 ∧
    (preSample refPlatform (genSetup refPlatform hugePhaserParams 0)).iphase = -2147483648 ∧
    (sampleStep refPlatform (genSetup refPlatform hugePhaserParams 0)).iphase = -2147483648 := by
  obtain ⟨_, c1, c2, c3, _, c5⟩ := hugePhaser_setup
  obtain ⟨a1, _, a3⟩ := preSample_phaser refPlatform (genSetup refPlatform hugePhaserParams 0)
  rw [c1, c2, c3] at a1
  have h := a3 (by rw [a1]; exact c5)
  exact ⟨a1, hugePhaser_value, c5, h, by rw [(sampleStep_iphase refPlatform _).1]; exact h⟩

/-! ## The frame count at the ceiling -/

/-- The frame count when synthesis is first flagged finished in iteration `t` of the sample
loop, below the last iteration. -/
theorem frameCount_flagged {σ : Type} (pf : Platform σ) (P : WaveParams) (s : σ) (t : Nat)
    (ht : t ≤ 440998)
    (hrun : ∀ j, j ≤ t → ((sampleStep pf)^[j] (genSetup pf P s)).generatingSample = true)
    (hstop : ((sampleStep pf)^[t + 1] (genSetup pf P s)).generatingSample = false) :
    (GenerateWave pf P s).1.frameCount = t + 1 := by
  have hloop := sampleLoop_stops pf maxWaveSamples (t + 1) 0 (genSetup pf P s)
    (by show t + 1 < 441000; omega) (fun j hj => hrun j (by omega)) hstop
  rw [(GenerateWave_eq pf P s).1, hloop]
  simp

/-- The frame count when synthesis is not flagged finished before the last iteration of the
sample loop. -/
theorem frameCount_unflagged {σ : Type} (pf : Platform σ) (P : WaveParams) (s : σ)
    (hrun : ∀ j, j ≤ 440999 → ((sampleStep pf)^[j] (genSetup pf P s)).generatingSample = true) :
    (GenerateWave pf P s).1.frameCount = 0 ∧ (GenerateWave pf P s).1.data = [] := by
  have hloop := sampleLoop_running pf maxWaveSamples 0 (genSetup pf P s)
    (fun k hk => hrun k (by have : k < 441000 := hk; omega))
  obtain ⟨w1, w2⟩ := GenerateWave_eq pf P s
  have hc : (sampleLoop pf maxWaveSamples 0 (genSetup pf P s)).sampleCount = 0 := by
    rw [hloop, (iterate_params pf maxWaveSamples (genSetup pf P s)).2.2.2.1]
    exact (genSetup_init pf P s).2.1
  refine ⟨by rw [w1, hc], ?_⟩
  rw [w2, hc]
  exact List.take_zero _

theorem frameCount_long_envelope {σ : Type} (pf : Platform σ) (P : WaveParams) (s : σ)
    (hmin : Flt.lt fzero (f32 (clampParams P).minFrequencyValue) = false)
    (hsum : 440997 ≤ stageLength P.attackTimeValue + stageLength P.sustainTimeValue +
      stageLength P.decayTimeValue) :
    (GenerateWave pf P s).1.frameCount = 0 := by
  obtain ⟨hrun, _⟩ := envelope_run pf P s hmin
  exact (frameCount_unflagged pf P s (fun j hj => hrun j (by omega))).1

theorem frameCount_never_full {σ : Type} (pf : Platform σ) (P : WaveParams) (s : σ) :
    (GenerateWave pf P s).1.frameCount ≤ 440999 := by
  obtain ⟨hb, hc, _⟩ := genSetup_init pf P s
  obtain ⟨_, h2⟩ :=
    sampleLoop_bounds pf maxWaveSamples 0 (genSetup pf P s) (by rw [hb]; rfl) hc
  rw [(GenerateWave_eq pf P s).1]
  rcases h2 with h2 | ⟨_, h2⟩
  · rw [h2]; exact Nat.zero_le _
  · generalize (sampleLoop pf maxWaveSamples 0 (genSetup pf P s)).sampleCount = c at h2 ⊢
    have e : 0 + maxWaveSamples = 441000 := rfl
    rw [e] at h2
    omega

set_option maxRecDepth 4000 in
theorem zero_lengths :
    Flt.lt fzero (f32 (clampParams WaveParams.zero).minFrequencyValue) = false ∧
    (stageLength WaveParams.zero.attackTimeValue).toNat = 0 ∧
    (stageLength WaveParams.zero.sustainTimeValue).toNat = 0 ∧
    (stageLength WaveParams.zero.decayTimeValue).toNat = 0 ∧
    Flt.lt fzero (f32 (clampParams longAttackParams).minFrequencyValue) = false ∧
    stageLength longAttackParams.attackTimeValue = 900000 ∧
    stageLength longAttackParams.sustainTimeValue = 0 ∧
    stageLength longAttackParams.decayTimeValue = 0 := by decide

/-- The run on the all-zero parameter set is flagged finished in iteration 2. -/
theorem zero_run {σ : Type} (pf : Platform σ) (s : σ) :
    (∀ j, j ≤ 2 → ((sampleStep pf)^[j] (genSetup pf WaveParams.zero s)).generatingSample = true) ∧
    ((sampleStep pf)^[2 + 1] (genSetup pf WaveParams.zero s)).generatingSample = false := by
  obtain ⟨z0, z1, z2, z3, _⟩ := zero_lengths
  obtain ⟨hrun, hstop⟩ := envelope_run pf WaveParams.zero s z0
  rw [z1, z2, z3] at hrun hstop
  exact ⟨fun j hj => hrun j (by omega), hstop⟩

/-- C26 (frame count at the ceiling): for every parameter set, when the `generatingSample`
flag is first cleared in iteration `t <= 440998` of the sample loop, the frame count returned
is `t + 1`; when the flag is still set on entry to iteration 440999 (it is cleared in that
last iteration only, or not at all), the frame count returned is 0 and the wave holds no
sample; the frame count is never 441000; in particular the frame count is 0 when the
effective minimum frequency is not above 0 and the envelope stage lengths sum to 440997 or
more. -/
theorem GenerateWave_frameCount_ceiling {σ : Type} (pf : Platform σ) (P : WaveParams) (s : σ) :
    (∀ t, t ≤ 440998 →
      (∀ j, j ≤ t → ((sampleStep pf)^[j] (genSetup pf P s)).generatingSample = true) →
      ((sampleStep pf)^[t + 1] (genSetup pf P s)).generatingSample = false →
      (GenerateWave pf P s).1.frameCount = t + 1) ∧
    ((∀ j, j ≤ 440999 → ((sampleStep pf)^[j] (genSetup pf P s)).generatingSample = true) →
      (GenerateWave pf P s).1.frameCount = 0 ∧ (GenerateWave pf P s).1.data = []) ∧
    (GenerateWave pf P s).1.frameCount ≤ 440999 ∧
    (Flt.lt fzero (f32 (clampParams P).minFrequencyValue) = false →
      440997 ≤ stageLength P.attackTimeValue + stageLength P.sustainTimeValue +
        stageLength P.decayTimeValue →
      (GenerateWave pf P s).1.frameCount = 0) :=
  ⟨fun t ht hrun hstop => frameCount_flagged pf P s t ht hrun hstop,
    fun hrun => frameCount_unflagged pf P s hrun, frameCount_never_full pf P s,
    fun hmin hsum => frameCount_long_envelope pf P s hmin hsum⟩

/-- Witness of C26: the all-zero parameter set on the reference platform is flagged finished
in iteration 2 and gives 3 frames; attack time `3.0` (stage length 900000) gives 0 frames. -/
theorem GenerateWave_frameCount_ceiling_witness :
    ((∀ j, j ≤ 2 →
        ((sampleStep refPlatform)^[j] (genSetup refPlatform WaveParams.zero 0)).generatingSample
          = true) ∧
      ((sampleStep refPlatform)^[2 + 1] (genSetup refPlatform WaveParams.zero 0)).generatingSample
        = false) ∧
    (GenerateWave refPlatform WaveParams.zero 0).1.frameCount = 2 + 1 ∧
    (Flt.lt fzero (f32 (clampParams longAttackParams).minFrequencyValue) = false ∧
      440997 ≤ stageLength longAttackParams.attackTimeValue +
        stageLength longAttackParams.sustainTimeValue +
        stageLength longAttackParams.decayTimeValue) ∧
    (GenerateWave refPlatform longAttackParams 0).1.frameCount = 0 :=
  ⟨zero_run refPlatform 0,
    (GenerateWave_frameCount_ceiling refPlatform WaveParams.zero 0).1 2 (by decide)
      (zero_run refPlatform 0).1 (zero_run refPlatform 0).2,
    ⟨zero_lengths.2.2.2.2.1, by
      rw [zero_lengths.2.2.2.2.2.1, zero_lengths.2.2.2.2.2.2.1, zero_lengths.2.2.2.2.2.2.2]
      decide⟩,
    (GenerateWave_frameCount_ceiling refPlatform longAttackParams 0).2.2.2 zero_lengths.2.2.2.2.1
      (by
        rw [zero_lengths.2.2.2.2.2.1, zero_lengths.2.2.2.2.2.2.1, zero_lengths.2.2.2.2.2.2.2]
        decide)⟩

/-! ## The clamped form of a parameter set -/

theorem normalForm_eq (P : WaveParams) : normalForm P = clampParams P := by
  rw [clampParams_eq]
  rfl

theorem clampParams_idem (P : WaveParams) : clampParams (clampParams P) = clampParams P := by
  by_cases a : Flt.lt (f32 P.startFrequencyValue) (f32 P.minFrequencyValue) = true <;>
  by_cases b : Flt.lt (f32 P.slideValue) (f32 P.deltaSlideValue) = true <;>
  simp [clampParams, a, b, Flt.lt_irrefl]

theorem genSetup_clamp {σ : Type} (pf : Platform σ) (P : WaveParams) (s : σ) :
    genSetup pf (clampParams P) s = genSetup pf P s := by
  have hs : (clampParams P).randSeed = P.randSeed := by rw [clampParams_eq]
  unfold genSetup
  simp only [clampParams_idem, hs]

theorem GenerateWave_clamp {σ : Type} (pf : Platform σ) (P : WaveParams) (s : σ) :
    GenerateWave pf (clampParams P) s = GenerateWave pf P s := by
  unfold GenerateWave
  rw [genSetup_clamp]

theorem clampParams_slide (P : WaveParams)
    (h : Flt.lt (f32 P.slideValue) (f32 P.deltaSlideValue) = true) :
    clampParams { P with slideValue := P.deltaSlideValue } = clampParams P := by
  by_cases a : Flt.lt (f32 P.startFrequencyValue) (f32 P.minFrequencyValue) = true <;>
  simp [clampParams, a, h, Flt.lt_irrefl]

theorem Flt.lt_nan_right (x y : Flt) (h : y.isNaN = true) : Flt.lt x y = false := by
  cases y with
  | nan => cases x <;> rfl
  | inf _ => exact absurd h (by simp [Flt.isNaN])
  | fin _ _ _ => exact absurd h (by simp [Flt.isNaN])

theorem Flt.lt_nan_left (x y : Flt) (h : x.isNaN = true) : Flt.lt x y = false := by
  cases x with
  | nan => cases y <;> rfl
  | inf _ => exact absurd h (by simp [Flt.isNaN])
  | fin _ _ _ => exact absurd h (by simp [Flt.isNaN])

theorem minWord_le (a b : Word32) (ha : (f32 a).isNaN = false) (hb : (f32 b).isNaN = false) :
    Flt.le (f32 (minWord a b)) (f32 a) = true ∧ Flt.le (f32 (minWord a b)) (f32 b) = true ∧
    (minWord a b = a ∨ minWord a b = b) := by
  unfold minWord
  by_cases h : Flt.lt (f32 b) (f32 a) = true
  · rw [if_pos h]
    refine ⟨?_, Flt.le_refl _ hb, Or.inr rfl⟩
    unfold Flt.le
    rw [h]
    rfl
  · rw [if_neg h]
    exact ⟨Flt.le_refl _ ha, Flt.le_of_not_lt _ _ hb ha (by simpa using h), Or.inl rfl⟩

theorem le_maxWord (a b : Word32) (ha : (f32 a).isNaN = false) (hb : (f32 b).isNaN = false) :
    Flt.le (f32 a) (f32 (maxWord a b)) = true ∧ Flt.le (f32 b) (f32 (maxWord a b)) = true ∧
    (maxWord a b = a ∨ maxWord a b = b) := by
  unfold maxWord
  by_cases h : Flt.lt (f32 a) (f32 b) = true
  · rw [if_pos h]
    refine ⟨?_, Flt.le_refl _ hb, Or.inr rfl⟩
    unfold Flt.le
    rw [h]
    rfl
  · rw [if_neg h]
    exact ⟨Flt.le_refl _ ha, Flt.le_of_not_lt _ _ ha hb (by simpa using h), Or.inl rfl⟩

set_option maxRecDepth 4000 in
theorem negativeSlide_facts :
    Flt.lt (f32 negativeSlideParams.slideValue) (f32 negativeSlideParams.deltaSlideValue) = true ∧
    { negativeSlideParams with slideValue := negativeSlideParams.deltaSlideValue } =
      WaveParams.zero ∧
    f32 negativeSlideParams.slideValue = Flt.neg (lit32 1 1) ∧
    f32 negativeSlideParams.deltaSlideValue = fzero := by decide

/-- C27 (synthesis depends on `P` only through its clamped form): the form `N(P)` built with
`min` and `max` is the parameter set the security check of `GenerateWave` produces; `N` is
idempotent; `GenerateWave(P)` and `GenerateWave(N(P))` return the same wave and leave the
generator in the same state, for every `P` and every generator state; every `P` with
`slide < deltaSlide` gives the result of the same `P` with `slide = deltaSlide`. On values
that are not NaN, `min` and `max` are the smaller and the larger of their arguments; a NaN
`minFrequency` or `slide` is kept by `N`, as it is by the security check. -/
theorem GenerateWave_normalForm {σ : Type} (pf : Platform σ) (P : WaveParams) (s : σ) :
    normalForm P = clampParams P ∧
    normalForm (normalForm P) = normalForm P ∧
    GenerateWave pf P s = GenerateWave pf (normalForm P) s ∧
    (Flt.lt (f32 P.slideValue) (f32 P.deltaSlideValue) = true →
      GenerateWave pf P s = GenerateWave pf { P with slideValue := P.deltaSlideValue } s) ∧
    (∀ a b : Word32, (f32 a).isNaN = false → (f32 b).isNaN = false →
      Flt.le (f32 (minWord a b)) (f32 a) = true ∧ Flt.le (f32 (minWord a b)) (f32 b) = true ∧
      (minWord a b = a ∨ minWord a b = b) ∧
      Flt.le (f32 a) (f32 (maxWord a b)) = true ∧ Flt.le (f32 b) (f32 (maxWord a b)) = true ∧
      (maxWord a b = a ∨ maxWord a b = b)) ∧
    ((f32 P.minFrequencyValue).isNaN = true →
      (normalForm P).minFrequencyValue = P.minFrequencyValue) ∧
    ((f32 P.slideValue).isNaN = true → (normalForm P).slideValue = P.slideValue) := by
  refine ⟨normalForm_eq P, ?_, ?_, ?_, ?_, ?_, ?_⟩
  · rw [normalForm_eq, normalForm_eq, clampParams_idem]
  · rw [normalForm_eq, GenerateWave_clamp]
  · intro h
    rw [← GenerateWave_clamp pf P s, ← clampParams_slide P h, GenerateWave_clamp]
  · intro a b ha hb
    obtain ⟨m1, m2, m3⟩ := minWord_le a b ha hb
    obtain ⟨x1, x2, x3⟩ := le_maxWord a b ha hb
    exact ⟨m1, m2, m3, x1, x2, x3⟩
  · intro h
    show minWord P.minFrequencyValue P.startFrequencyValue = P.minFrequencyValue
    unfold minWord
    rw [Flt.lt_nan_right _ _ h, if_neg (by decide)]
  · intro h
    show maxWord P.slideValue P.deltaSlideValue = P.slideValue
    unfold maxWord
    rw [Flt.lt_nan_left _ _ h, if_neg (by decide)]

/-- Witness of C27: slide `-1.0` with delta slide `0.0` gives the wave of the all-zero
parameter set. -/
theorem GenerateWave_normalForm_witness :
    Flt.lt (f32 negativeSlideParams.slideValue) (f32 negativeSlideParams.deltaSlideValue) = true ∧
    GenerateWave refPlatform negativeSlideParams 0 =
      GenerateWave refPlatform
        { negativeSlideParams with slideValue := negativeSlideParams.deltaSlideValue } 0 :=
  ⟨negativeSlide_facts.1,
    (GenerateWave_normalForm refPlatform negativeSlideParams 0).2.2.2.1 negativeSlide_facts.1⟩

/-! ## Independence of the seed -/

theorem subSample_eraseSeed {σ : Type} (pf : Platform σ) (r : σ) (st : GenState σ) (a : Flt)
    (h : i32 st.params.waveTypeValue ≠ 3) :
    subSample pf (eraseSeed r st, a) =
      (eraseSeed r (subSample pf (st, a)).1, (subSample pf (st, a)).2) := by
  unfold subSample eraseSeed
  simp [h]

theorem superSample_eraseSeed {σ : Type} (pf : Platform σ) (r : σ) (n : Nat) (st : GenState σ)
    (a : Flt) (h : i32 st.params.waveTypeValue ≠ 3) :
    superSample pf n (eraseSeed r st, a) =
      (eraseSeed r (superSample pf n (st, a)).1, (superSample pf n (st, a)).2) := by
  induction n generalizing st a with
  | zero => rfl
  | succ n ih =>
    rw [superSample, superSample, subSample_eraseSeed pf r st a h]
    exact ih (subSample pf (st, a)).1 (subSample pf (st, a)).2
      (by rw [(subSample_lowPass pf (st, a)).2.2.2]; exact h)

theorem preSample_eraseSeed {σ : Type} (pf : Platform σ) (r : σ) (st : GenState σ) :
    preSample pf (eraseSeed r st) = eraseSeed r (preSample pf st) := by
  have hf : repeatFires (eraseSeed r st) = repeatFires st := rfl
  by_cases hr : repeatFires st = true
  · unfold preSample
    rw [repeatStep_fires pf st hr, repeatStep_fires pf (eraseSeed r st) (by rw [hf]; exact hr)]
    rfl
  · unfold preSample
    rw [repeatStep_idle pf st (by simpa using hr),
      repeatStep_idle pf (eraseSeed r st) (by rw [hf]; simpa using hr)]
    rfl

theorem sampleStep_eraseSeed {σ : Type} (pf : Platform σ) (r : σ) (st : GenState σ)
    (h : i32 st.params.waveTypeValue ≠ 3) :
    sampleStep pf (eraseSeed r st) = eraseSeed r (sampleStep pf st) := by
  have e : ∀ x : GenState σ, sampleStep pf x =
      { (superSample pf MAX_SUPERSAMPLING (preSample pf x, fzero)).1 with
        buffer := (superSample pf MAX_SUPERSAMPLING (preSample pf x, fzero)).1.buffer ++
          [finalSample (superSample pf MAX_SUPERSAMPLING (preSample pf x, fzero)).2] } :=
    fun x => rfl
  rw [e, e, preSample_eraseSeed,
    superSample_eraseSeed pf r _ _ _ (by rw [(preSample_keep pf st).2.2.1]; exact h)]
  rfl

theorem sampleLoop_eraseSeed {σ : Type} (pf : Platform σ) (r : σ) (n i : Nat) (st : GenState σ)
    (h : i32 st.params.waveTypeValue ≠ 3) :
    sampleLoop pf n i (eraseSeed r st) = eraseSeed r (sampleLoop pf n i st) := by
  induction n generalizing i st with
  | zero => rfl
  | succ n ih =>
    rw [sampleLoop_succ, sampleLoop_succ]
    have hg : (eraseSeed r st).generatingSample = st.generatingSample := rfl
    rw [hg]
    by_cases g : st.generatingSample = true
    · rw [if_neg (by rw [g]; decide), if_neg (by rw [g]; decide), sampleStep_eraseSeed pf r st h]
      exact ih (i + 1) (sampleStep pf st) (by rw [(sampleStep_ctl pf st).1]; exact h)
    · rw [if_pos (by simpa using g), if_pos (by simpa using g)]
      rfl

theorem clampParams_seed (P : WaveParams) (w : Word32) :
    clampParams { P with randSeed := w } = { clampParams P with randSeed := w } := by
  by_cases a : Flt.lt (f32 P.startFrequencyValue) (f32 P.minFrequencyValue) = true <;>
  by_cases b : Flt.lt (f32 P.slideValue) (f32 P.deltaSlideValue) = true <;>
  simp [clampParams, a, b]

theorem genSetup_eraseSeed {σ : Type} (pf : Platform σ) (r : σ) (P : WaveParams) (w : Word32)
    (s1 s2 : σ) :
    eraseSeed r (genSetup pf { P with randSeed := w } s2) = eraseSeed r (genSetup pf P s1) := by
  unfold genSetup eraseSeed
  simp only [clampParams_seed]
  rfl

theorem eraseSeed_fields {σ : Type} (r : σ) (st : GenState σ) :
    (eraseSeed r st).sampleCount = st.sampleCount ∧ (eraseSeed r st).buffer = st.buffer :=
  ⟨rfl, rfl⟩

/-- The wave of a parameter set whose wave type is not noise does not depend on the seed or
on the generator state. -/
theorem GenerateWave_seedless {σ : Type} (pf : Platform σ) (P : WaveParams) (w : Word32)
    (s1 s2 : σ) (h : i32 P.waveTypeValue ≠ 3) :
    (GenerateWave pf { P with randSeed := w } s2).1 = (GenerateWave pf P s1).1 := by
  have t1 : i32 (genSetup pf P s1).params.waveTypeValue ≠ 3 := by
    show i32 (clampParams P).waveTypeValue ≠ 3
    rw [clampParams_eq]; exact h
  have t2 : i32 (genSetup pf { P with randSeed := w } s2).params.waveTypeValue ≠ 3 := by
    show i32 (clampParams { P with randSeed := w }).waveTypeValue ≠ 3
    rw [clampParams_eq]; exact h
  have key : eraseSeed s1 (sampleLoop pf maxWaveSamples 0 (genSetup pf { P with randSeed := w } s2))
      = eraseSeed s1 (sampleLoop pf maxWaveSamples 0 (genSetup pf P s1)) := by
    rw [← sampleLoop_eraseSeed pf s1 _ _ _ t2, ← sampleLoop_eraseSeed pf s1 _ _ _ t1,
      genSetup_eraseSeed pf s1 P w s1 s2]
  have hc := congrArg GenState.sampleCount key
  have hb := congrArg GenState.buffer key
  rw [(eraseSeed_fields _ _).1, (eraseSeed_fields _ _).1] at hc
  rw [(eraseSeed_fields _ _).2, (eraseSeed_fields _ _).2] at hb
  unfold GenerateWave
  simp only [hc, hb]

theorem subSample_eraseSignal {σ : Type} (pf : Platform σ) (r : σ) (st : GenState σ) (a b : Flt) :
    eraseSignal r (subSample pf (eraseSignal r st, b)).1 =
      eraseSignal r (subSample pf (st, a)).1 := by
  unfold subSample eraseSignal eraseSeed
  simp

theorem superSample_succ {σ : Type} (pf : Platform σ) (n : Nat) (x : GenState σ × Flt) :
    superSample pf (n + 1) x = superSample pf n (subSample pf x) := rfl

theorem superSample_eraseSignal {σ : Type} (pf : Platform σ) (r : σ) (n : Nat) :
    ∀ (st : GenState σ) (a b : Flt),
      eraseSignal r (superSample pf n (eraseSignal r st, b)).1 =
        eraseSignal r (superSample pf n (st, a)).1 := by
  induction n with
  | zero =>
    intro st a b
    show eraseSignal r (eraseSignal r st) = eraseSignal r st
    rfl
  | succ n ih =>
    intro st a b
    rw [superSample_succ, superSample_succ]
    have h1 := ih (subSample pf (st, a)).1 (subSample pf (st, a)).2 fzero
    have h2 := ih (subSample pf (eraseSignal r st, b)).1 (subSample pf (eraseSignal r st, b)).2 fzero
    rw [← h1, ← h2, subSample_eraseSignal pf r st a b]

theorem preSample_eraseSignal {σ : Type} (pf : Platform σ) (r : σ) (st : GenState σ) :
    preSample pf (eraseSignal r st) = eraseSignal r (preSample pf st) := by
  have hf : repeatFires (eraseSignal r st) = repeatFires st := rfl
  by_cases hr : repeatFires st = true
  · unfold preSample
    rw [repeatStep_fires pf st hr, repeatStep_fires pf (eraseSignal r st) (by rw [hf]; exact hr)]
    rfl
  · unfold preSample
    rw [repeatStep_idle pf st (by simpa using hr),
      repeatStep_idle pf (eraseSignal r st) (by rw [hf]; simpa using hr)]
    rfl

theorem eraseSignal_buffer {σ : Type} (r : σ) (st : GenState σ) (b : List Flt) :
    eraseSignal r { st with buffer := b } = eraseSignal r st := rfl

theorem sampleStep_eraseSignal {σ : Type} (pf : Platform σ) (r : σ) (st : GenState σ) :
    eraseSignal r (sampleStep pf (eraseSignal r st)) = eraseSignal r (sampleStep pf st) := by
  have e0 : ∀ x : GenState σ, sampleStep pf x =
      { (superSample pf MAX_SUPERSAMPLING (preSample pf x, fzero)).1 with
        buffer := (superSample pf MAX_SUPERSAMPLING (preSample pf x, fzero)).1.buffer ++
          [finalSample (superSample pf MAX_SUPERSAMPLING (preSample pf x, fzero)).2] } :=
    fun x => rfl
  rw [e0, e0, eraseSignal_buffer, eraseSignal_buffer, preSample_eraseSignal]
  exact superSample_eraseSignal pf r MAX_SUPERSAMPLING (preSample pf st) fzero fzero

theorem sampleLoop_eraseSignal {σ : Type} (pf : Platform σ) (r : σ) (n : Nat) :
    ∀ (i : Nat) (st : GenState σ),
      (sampleLoop pf n i (eraseSignal r st)).sampleCount = (sampleLoop pf n i st).sampleCount := by
  induction n with
  | zero => intro i st; rfl
  | succ n ih =>
    intro i st
    rw [sampleLoop_succ, sampleLoop_succ]
    have hg : (eraseSignal r st).generatingSample = st.generatingSample := rfl
    rw [hg]
    by_cases g : st.generatingSample = true
    · rw [if_neg (by rw [g]; decide), if_neg (by rw [g]; decide)]
      rw [← ih (i + 1) (sampleStep pf (eraseSignal r st)), ← ih (i + 1) (sampleStep pf st),
        sampleStep_eraseSignal]
    · rw [if_pos (by simpa using g), if_pos (by simpa using g)]

theorem genSetup_eraseSignal {σ : Type} (pf : Platform σ) (r : σ) (P : WaveParams) (w : Word32)
    (s1 s2 : σ) :
    eraseSignal r (genSetup pf { P with randSeed := w } s2) = eraseSignal r (genSetup pf P s1) := by
  unfold eraseSignal
  rw [genSetup_eraseSeed pf r P w s1 s2]

/-- The frame count does not depend on the seed or on the generator state. -/
theorem frameCount_seedless {σ : Type} (pf : Platform σ) (P : WaveParams) (w : Word32)
    (s1 s2 : σ) :
    (GenerateWave pf { P with randSeed := w } s2).1.frameCount =
      (GenerateWave pf P s1).1.frameCount := by
  rw [(GenerateWave_eq pf _ s2).1, (GenerateWave_eq pf P s1).1,
    ← sampleLoop_eraseSignal pf s1 _ _ (genSetup pf { P with randSeed := w } s2),
    ← sampleLoop_eraseSignal pf s1 _ _ (genSetup pf P s1), genSetup_eraseSignal pf s1 P w s1 s2]

theorem halfParams_type : i32 halfParams.waveTypeValue ≠ 3 := by decide

/-- C29 (seed independence outside noise): for every parameter set `P` whose wave type is
not noise, every seed `w` and every two generator states, `GenerateWave` returns for `P` with
its seed replaced by `w` the wave it returns for `P`: the same frame count and the same
samples; for every wave type, noise included, the frame count is the same. -/
theorem GenerateWave_seed_independence {σ : Type} (pf : Platform σ) (P : WaveParams)
    (w : Word32) (s1 s2 : σ) :
    (i32 P.waveTypeValue ≠ 3 →
      (GenerateWave pf { P with randSeed := w } s2).1 = (GenerateWave pf P s1).1 ∧
      (GenerateWave pf { P with randSeed := w } s2).1.data = (GenerateWave pf P s1).1.data ∧
      (∀ i, (GenerateWave pf { P with randSeed := w } s2).1.data.get? i =
        (GenerateWave pf P s1).1.data.get? i)) ∧
    (GenerateWave pf { P with randSeed := w } s2).1.frameCount =
      (GenerateWave pf P s1).1.frameCount := by
  refine ⟨?_, frameCount_seedless pf P w s1 s2⟩
  intro h
  have e := GenerateWave_seedless pf P w s1 s2 h
  exact ⟨e, by rw [e], fun i => by rw [e]⟩

/-- Witness of C29: the square wave with every `float` field `0.5`, seeds 42 and 7, generator
states 0 and 5 of the reference platform. -/
theorem GenerateWave_seed_independence_witness :
    i32 halfParams.waveTypeValue ≠ 3 ∧
    (GenerateWave refPlatform { halfParams with randSeed := 7 } 5).1 =
      (GenerateWave refPlatform halfParams 0).1 :=
  ⟨halfParams_type,
    ((GenerateWave_seed_independence refPlatform halfParams 7 0 5).1 halfParams_type).1⟩

end Rfx
